import Mathlib

/-!
# Disney Sound Source (parallel-port DAC): embedding of `src/hardware/disney.cpp`

The device state is the file-scope `disney` struct; every function of the
source becomes a function on that state.

Conventions of the embedding

* `Bitu` (declared in `config.h`, outside these sources) is the host's unsigned
  machine word.  Its width `w` is an explicit argument wherever the source
  performs arithmetic that can wrap (`++` on the pattern counters, `-=` on a
  fill count, the signed reinterpretation in `st_diff`, `last_used+100`).
* `PIC_FullIndex()` (a `double`, in milliseconds) and `PIC_Ticks` are inputs of
  the functions that read them.  Time stamps are exact rationals: the model
  idealises `double` arithmetic and does not account for rounding.
* Calls on the external collaborators (the mixer channel behind `disney.chan`,
  the event scheduler) are recorded, in order, in the ghost field `calls`.
* A C operation with undefined behaviour (a null dereference, an access past
  the 128-byte channel buffer) makes the embedded function return `none`.
-/

namespace Disney

def DISNEY_BASE : Nat := 0x0378

def DISNEY_SIZE : Nat := 128

def DS_IDLE : Nat := 0
def DS_RUNNING : Nat := 1
def DS_FINISH : Nat := 2
def DS_ANALYZING : Nat := 3

/-- Wrapping `x - y` on `w`-bit unsigned words (both operands below `2^w`). -/
def Bitu.sub (w x y : Nat) : Nat :=
  if y ≤ x then x - y else x + 2 ^ w - y

/-- Wrapping `x + y` on `w`-bit unsigned words. -/
def Bitu.add (w x y : Nat) : Nat :=
  (x + y) % 2 ^ w

/-- Reinterpretation of a `w`-bit unsigned word as the signed `Bits` (two's complement). -/
def Bitu.toBits (w x : Nat) : Int :=
  if x < 2 ^ (w - 1) then (x : Int) else (x : Int) - 2 ^ w

/-- The cast `(Bitu)` of a `double`: truncation toward zero.  The C cast is undefined
for a negative, infinite or too large operand; the model yields `0` for a negative
one, and since a rational division by zero is `0`, also for `1.0/0.0`. -/
def toBitu (q : ℚ) : Nat :=
  (Rat.floor q).toNat

/-- The C struct `dac_channel`: `buffer` holds `DISNEY_SIZE` bytes, indices `0..127`. -/
structure dac_channel where
  buffer : Nat → Nat
  used : Nat
  speedcheck_sum : ℚ
  speedcheck_last : ℚ
  speedcheck_failed : Bool
  speedcheck_init : Bool

/-- Calls the device makes on its external collaborators: the `MixerObject` and
`MixerChannel` methods and `PIC_AddEvent(DISNEY_disable, ...)`. -/
inductive Call where
  | Install (freq : Nat)
  | AddSilence
  | Enable (enable : Bool)
  | SetFreq (freq : Nat)
  | AddSamples_m8 (len : Nat) (data : List Nat)
  | AddSamples_s8 (len : Nat) (data : List Nat)
  | PIC_AddEvent_DISNEY_disable
  deriving DecidableEq, Repr

/-- The file-scope struct `disney`.  `mo` and `chan` record whether the pointer is
non-null; `leader` is `none` for a null pointer and `some i` for `&disney.da[i]`;
`calls` is the ghost record of external calls, oldest first. -/
structure DisneyState where
  data : Nat
  status : Nat
  control : Nat
  da : Fin 2 → dac_channel
  last_used : Nat
  mo : Bool
  chan : Bool
  stereo : Bool
  leader : Option (Fin 2)
  state : Nat
  interface_det : Nat
  interface_det_ext : Nat
  calls : List Call

def DISNEY_disable (s : DisneyState) : DisneyState :=
  if s.chan = false then s
  else
    let s1 : DisneyState :=
      if s.mo = true ∧ s.chan = true then
        { s with calls := s.calls ++ [Call.AddSilence, Call.Enable false] }
      else s
    { s1 with
      leader := none
      last_used := 0
      state := DS_IDLE
      interface_det := 0
      interface_det_ext := 0
      stereo := false
      chan := false }

def DISNEY_enable (freq : Nat) (s : DisneyState) : DisneyState :=
  if s.chan = false then s
  else if freq < 500 ∨ freq > 100000 then
    { s with state := DS_IDLE }
  else
    { s with
      calls := s.calls ++ [Call.SetFreq freq, Call.Enable true]
      state := DS_RUNNING }

/-- The rate computed for one channel in the `DS_FINISH` case of `DISNEY_analyze`,
`(Bitu)(1.0/((speedcheck_sum/1000.0)/(float)(((float)used)-1.0)))`.  The quotient is
evaluated exactly.  The source evaluates it in `double` on a sum accumulated in `double`,
so at a quotient next to an integer the value of the source can be the neighbouring
integer. -/
def ch_speed (c : dac_channel) : Nat :=
  if c.used > 1 then
    toBitu (1 / ((c.speedcheck_sum / 1000) / ((c.used : ℚ) - 1)))
  else 0

/-- The sanity check of `DISNEY_analyze` on an inter-latch interval `d` (milliseconds):
`d < 0.01 || d > 2`, an implausible sample period. -/
def outside_window (d : ℚ) : Prop :=
  d < 1 / 100 ∨ d > 2

instance (d : ℚ) : Decidable (outside_window d) := by
  unfold outside_window
  infer_instance

def DISNEY_analyze (w : Nat) (channel : Fin 2) (now : ℚ) (s : DisneyState) : DisneyState :=
  if s.state = DS_RUNNING then s
  else if s.state = DS_IDLE then
    let da0 : Fin 2 → dac_channel := fun i =>
      { s.da i with
        used := 0
        speedcheck_sum := 0
        speedcheck_failed := false
        speedcheck_init := false }
    let ch : dac_channel := { da0 channel with speedcheck_last := now, speedcheck_init := true }
    let da1 := Function.update da0 channel ch
    { s with da := da1, state := DS_ANALYZING }
  else if s.state = DS_FINISH then
    let st_diff : Int := Bitu.toBits w (Bitu.sub w (s.da 0).used (s.da 1).used)
    let s1 : DisneyState :=
      if (s.da 0).used > (s.da 1).used then { s with leader := some 0 }
      else { s with leader := some 1 }
    let s2 : DisneyState :=
      if st_diff < 5 ∧ st_diff > -5 then { s1 with stereo := true }
      else { s1 with stereo := false }
    let ch_speed0 := ch_speed (s2.da 0)
    let ch_speed1 := ch_speed (s2.da 1)
    DISNEY_enable (if ch_speed0 > ch_speed1 then ch_speed0 else ch_speed1) s2
  else if s.state = DS_ANALYZING then
    let cch := s.da channel
    if cch.speedcheck_init = false then
      let cch0 : dac_channel := { cch with speedcheck_init := true, speedcheck_last := now }
      { s with da := Function.update s.da channel cch0 }
    else
      let cch1 : dac_channel :=
        { cch with speedcheck_sum := cch.speedcheck_sum + (now - cch.speedcheck_last) }
      let cch2 : dac_channel :=
        if outside_window (now - cch1.speedcheck_last) then
          { cch1 with speedcheck_failed := true }
        else cch1
      let s1 : DisneyState := { s with da := Function.update s.da channel cch2 }
      if (s1.da 0).speedcheck_failed = true ∧ (s1.da 1).speedcheck_failed = true then
        { s1 with state := DS_IDLE }
      else
        let cch3 : dac_channel := { cch2 with speedcheck_last := now }
        let s2 : DisneyState := { s1 with da := Function.update s1.da channel cch3 }
        if (s2.da 0).used > 30 ∨ (s2.da 1).used > 30 then
          { s2 with state := DS_FINISH }
        else s2
  else s

/-- The block that `disney_write` repeats for each latch:
`if (da[c].used < DISNEY_SIZE) { da[c].buffer[da[c].used] = data; da[c].used++; }`.
The guard keeps the increment from wrapping. -/
def store_sample (c : Fin 2) (s : DisneyState) : DisneyState :=
  if (s.da c).used < DISNEY_SIZE then
    let ch : dac_channel :=
      { s.da c with
        buffer := Function.update (s.da c).buffer (s.da c).used s.data
        used := (s.da c).used + 1 }
    { s with da := Function.update s.da c ch }
  else s

/-- The detection half of a channel latch: `if (disney.state != DS_RUNNING)` clear both
pattern counters and call `DISNEY_analyze(c)`. -/
def latch_detect (w : Nat) (c : Fin 2) (now : ℚ) (s : DisneyState) : DisneyState :=
  if s.state ≠ DS_RUNNING then
    DISNEY_analyze w c now { s with interface_det := 0, interface_det_ext := 0 }
  else s

/-- The block `disney_write` runs on a falling edge of control bit `0x2` (channel 1)
or `0x1` (channel 0): detection, then latch the data byte into the channel. -/
def channel_latch (w : Nat) (c : Fin 2) (now : ℚ) (s : DisneyState) : DisneyState :=
  store_sample c (latch_detect w c now s)

/-- The detection half of the FIFO block: `if (disney.state != DS_RUNNING)` count the
edge, clear the data-port counter, and past five edges make channel 0 the leader and
call `DISNEY_enable(7000)`. -/
def fifo_detect (w : Nat) (s : DisneyState) : DisneyState :=
  if s.state ≠ DS_RUNNING then
    let t1 : DisneyState :=
      { s with
        interface_det_ext := Bitu.add w s.interface_det_ext 1
        interface_det := 0 }
    if t1.interface_det_ext > 5 then
      DISNEY_enable 7000 { t1 with leader := some 0 }
    else t1
  else s

/-- The block `disney_write` runs on a falling edge of control bit `0x8`, the device
with a 16-byte FIFO. -/
def fifo_latch (w : Nat) (s : DisneyState) : DisneyState :=
  if (fifo_detect w s).interface_det_ext > 5 then store_sample 0 (fifo_detect w s)
  else fifo_detect w s

/-- The edge test of the control port, `(disney.control & mask) && !(val & mask)`: the
bit is set in the old control byte and clear in the value written. -/
def falls (mask ctrl val : Nat) : Prop :=
  ctrl &&& mask ≠ 0 ∧ val &&& mask = 0

instance (mask ctrl val : Nat) : Decidable (falls mask ctrl val) := by
  unfold falls
  infer_instance

/-- First edge test of the control port: on a falling bit `0x2` latch channel 1. -/
def edge_0x2 (w : Nat) (val : Nat) (now : ℚ) (s : DisneyState) : DisneyState :=
  if falls 0x2 s.control val then channel_latch w 1 now s else s

/-- Second edge test of the control port: on a falling bit `0x1` latch channel 0. -/
def edge_0x1 (w : Nat) (val : Nat) (now : ℚ) (s : DisneyState) : DisneyState :=
  if falls 0x1 s.control val then channel_latch w 0 now s else s

/-- Third edge test of the control port: on a falling bit `0x8` run the FIFO block. -/
def edge_0x8 (w : Nat) (val : Nat) (s : DisneyState) : DisneyState :=
  if falls 0x8 s.control val then fifo_latch w s else s

/-- The case `2` (control port) of `disney_write`, after `last_used` was set: the three
edge tests in source order, each against the old `disney.control`, then the store of
the new control byte. -/
def control_write (w : Nat) (val : Nat) (now : ℚ) (s : DisneyState) : DisneyState :=
  { edge_0x8 w val (edge_0x1 w val now (edge_0x2 w val now s)) with control := val % 256 }

/-- The detection half of a data-port write: store the byte in `disney.data` and,
outside Running, count the write and analyse channel 0 past five writes. -/
def data_detect (w : Nat) (val : Nat) (now : ℚ) (s : DisneyState) : DisneyState :=
  let s1 : DisneyState := { s with data := val % 256 }
  if s1.state ≠ DS_RUNNING then
    let t : DisneyState := { s1 with interface_det := Bitu.add w s1.interface_det 1 }
    if t.interface_det > 5 then DISNEY_analyze w 0 now t else t
  else s1

/-- The case `0` (data port) of `disney_write`, after `last_used` was set. -/
def data_write (w : Nat) (val : Nat) (now : ℚ) (s : DisneyState) : DisneyState :=
  if (data_detect w val now s).interface_det > 5 then store_sample 0 (data_detect w val now s)
  else data_detect w val now s

/-- The port write handler.  `now` is `PIC_FullIndex()` and `ticks` is `PIC_Ticks` at
the time of the write.  `port - DISNEY_BASE` selects a case only for the three ports
`DISNEY_BASE`, `DISNEY_BASE+1`, `DISNEY_BASE+2`. -/
def disney_write (w : Nat) (port val : Nat) (now : ℚ) (ticks : Nat)
    (s : DisneyState) : DisneyState :=
  let s0 : DisneyState := { s with last_used := ticks }
  if port = DISNEY_BASE then data_write w val now s0
  else if port = DISNEY_BASE + 1 then s0
  else if port = DISNEY_BASE + 2 then control_write w val now s0
  else s0

/-- The buffer after `memset(buffer + start, val, n)`.  The call is defined only while
`start + n ≤ DISNEY_SIZE`; the callers check it. -/
def memset (buf : Nat → Nat) (start val n : Nat) : Nat → Nat :=
  fun i => if start ≤ i ∧ i < start + n then val else buf i

/-- The buffer after `memmove(buffer, &buffer[len], DISNEY_SIZE - len)`.  The call is
defined only while `len ≤ DISNEY_SIZE` (otherwise the size operand wraps); the callers
check it. -/
def memmove_front (buf : Nat → Nat) (len : Nat) : Nat → Nat :=
  fun i => if i < DISNEY_SIZE - len then buf (i + len) else buf i

/-- The call `disney.chan->AddSamples_m8(len, buf)`: the sink receives the first `len`
bytes of `buf`.  Undefined for a null `chan` and for a read past the buffer. -/
def chan_AddSamples_m8 (len : Nat) (buf : Nat → Nat) (s : DisneyState) : Option DisneyState :=
  if s.chan = false ∨ len > DISNEY_SIZE then none
  else some { s with calls := s.calls ++ [Call.AddSamples_m8 len ((List.range len).map buf)] }

/-- The first `2*len` bytes of `stereodata` after the loop of `DISNEY_PlayStereo`:
`stereodata[i*2] = l[i]` and `stereodata[i*2+1] = r[i]`. -/
def stereodata (len : Nat) (l r : Nat → Nat) : List Nat :=
  (List.range (2 * len)).map fun j => if j % 2 = 0 then l (j / 2) else r (j / 2)

/-- Undefined for a null `chan` and when `len` exceeds `DISNEY_SIZE` (`stereodata` holds
`DISNEY_SIZE*2` bytes and `l`, `r` hold `DISNEY_SIZE` each). -/
def DISNEY_PlayStereo (len : Nat) (l r : Nat → Nat) (s : DisneyState) : Option DisneyState :=
  if s.chan = false ∨ len > DISNEY_SIZE then none
  else some { s with calls := s.calls ++ [Call.AddSamples_s8 len (stereodata len l r)] }

/-- The loop "put the rest back to start" of `DISNEY_CallBack`: for both channels,
`memmove` the buffer down by `len` and `used -= len` (a wrapping subtraction). -/
def drain (w len : Nat) (s : DisneyState) : Option DisneyState :=
  if len ≤ DISNEY_SIZE then
    some { s with da := fun i =>
      { s.da i with
        buffer := memmove_front (s.da i).buffer len
        used := Bitu.sub w (s.da i).used len } }
  else none

/-- The two assignments `disney.da[0].used = 0; disney.da[1].used = 0;`. -/
def reset_used (s : DisneyState) : DisneyState :=
  { s with da := fun i => { s.da i with used := 0 } }

/-- The closing test of `DISNEY_CallBack`: `if (last_used+100 < PIC_Ticks)` schedule
`DISNEY_disable` through `PIC_AddEvent`. -/
def check_last_used (w ticks : Nat) (s : DisneyState) : DisneyState :=
  if Bitu.add w s.last_used 100 < ticks then
    { s with calls := s.calls ++ [Call.PIC_AddEvent_DISNEY_disable] }
  else s

/-- The stereo branch of `DISNEY_CallBack` up to the closing test. -/
def CallBack_stereo (w len : Nat) (s : DisneyState) : Option DisneyState :=
  let real_used :=
    if (s.da 1).used < (s.da 0).used then (s.da 1).used else (s.da 0).used
  if real_used ≥ len then
    (DISNEY_PlayStereo len (s.da 0).buffer (s.da 1).buffer s).bind (drain w len)
  else if len ≤ DISNEY_SIZE then
    let gapfiller : Fin 2 → Nat := fun i =>
      if real_used ≠ 0 then (s.da i).buffer (real_used - 1) else 0x80
    let s1 : DisneyState := { s with da := fun i =>
      { s.da i with buffer := memset (s.da i).buffer real_used (gapfiller i) (len - real_used) } }
    (DISNEY_PlayStereo len (s1.da 0).buffer (s1.da 1).buffer s1).map reset_used
  else none

/-- The mono branch of `DISNEY_CallBack` up to the closing test; `l` is the channel
`disney.leader` points to. -/
def CallBack_mono (w len : Nat) (l : Fin 2) (s : DisneyState) : Option DisneyState :=
  let real_used := (s.da l).used
  if real_used ≥ len then
    (chan_AddSamples_m8 len (s.da l).buffer s).bind (drain w len)
  else if len ≤ DISNEY_SIZE then
    let real_used1 :=
      if real_used ≠ 0 ∧ (s.da l).buffer (real_used - 1) = 0 then real_used - 1
      else real_used
    let gapfiller := if real_used1 ≠ 0 then (s.da l).buffer (real_used1 - 1) else 0x80
    let lch : dac_channel :=
      { s.da l with buffer := memset (s.da l).buffer real_used1 gapfiller (len - real_used1) }
    let s1 : DisneyState := { s with da := Function.update s.da l lch }
    (chan_AddSamples_m8 len (s1.da l).buffer s1).map reset_used
  else none

/-- The mixer callback.  `ticks` is `PIC_Ticks` at the time of the call.  In mono a
null `leader` is dereferenced at once. -/
def DISNEY_CallBack (w len ticks : Nat) (s : DisneyState) : Option DisneyState :=
  if len = 0 then some s
  else
    let body : Option DisneyState :=
      if s.stereo = true then CallBack_stereo w len s
      else
        match s.leader with
        | none => none
        | some l => CallBack_mono w len l s
    body.map (check_last_used w ticks)

/-- The zero-initialised static storage of `disney` before the constructor runs. -/
def disney_static : DisneyState where
  data := 0
  status := 0
  control := 0
  da := fun _ =>
    { buffer := fun _ => 0
      used := 0
      speedcheck_sum := 0
      speedcheck_last := 0
      speedcheck_failed := false
      speedcheck_init := false }
  last_used := 0
  mo := false
  chan := false
  stereo := false
  leader := none
  state := 0
  interface_det := 0
  interface_det_ext := 0
  calls := []

/-- The body of the constructor `DISNEY::DISNEY` (the two port handler installations
excepted): set the registers, create the mixer object, install the channel at
10000 Hz, then call `DISNEY_disable(0)`. -/
def DISNEY_ctor (s : DisneyState) : DisneyState :=
  let s1 : DisneyState := { s with status := 0x84, control := 0, last_used := 0 }
  let s2 : DisneyState := { s1 with mo := true }
  let s3 : DisneyState := { s2 with chan := true, calls := s2.calls ++ [Call.Install 10000] }
  DISNEY_disable s3

/-- The device state the constructor leaves behind at power-on. -/
def DISNEY_init : DisneyState := DISNEY_ctor disney_static

/-- One write of the guest to an I/O port, with the clock readings at that moment. -/
structure PortWrite where
  port : Nat
  val : Nat
  now : ℚ
  ticks : Nat

/-- Port writes are processed strictly in the order issued. -/
def run (w : Nat) (ws : List PortWrite) (s : DisneyState) : DisneyState :=
  ws.foldl (fun t x => disney_write w x.port x.val x.now x.ticks t) s

/-- The power-on state with the channel handle still set: what the constructor leaves
when its closing `DISNEY_disable(0)` does not clear `disney.chan`. -/
def DISNEY_installed : DisneyState := { DISNEY_init with chan := true }

/-- A stream of `n` writes to the data port, the `k`-th (from 1) at time `k * dt`,
carrying the byte `0x90 + k - 1`. -/
def data_stream (n : Nat) (dt : ℚ) : List PortWrite :=
  (List.range n).map fun k =>
    { port := DISNEY_BASE, val := 0x90 + k, now := ((k : ℚ) + 1) * dt, ticks := 0 }

/-- A run of `n` strobes of one control line: the control port is written `mask` and
then `0`, so the bits of `mask` fall `n` times; the `k`-th strobe (from 0) is at time
`t0 + k * dt`. -/
def strobes (mask n : Nat) (t0 dt : ℚ) : List PortWrite :=
  (List.range n).flatMap fun k =>
    [{ port := DISNEY_BASE + 2, val := mask, now := t0 + (k : ℚ) * dt, ticks := 0 },
     { port := DISNEY_BASE + 2, val := 0, now := t0 + (k : ℚ) * dt, ticks := 0 }]

/-- A stereo detection that is rejected: 28 latches of channel 1 in a burst
(0.0001 apart), then 33 latches of channel 0 0.1 apart.  The fill counts end 4 apart
(stereo), channel 1's rate is far above 100000 Hz, so `DISNEY_enable` refuses. -/
def rejected_stereo : List PortWrite :=
  strobes 2 28 0 (1 / 10000) ++ strobes 1 33 1 (1 / 10)

/-- Six strobes of control bit `0x8`, the pattern of the 16-byte-FIFO variant. -/
def fifo_strobes : List PortWrite := strobes 8 6 10 1

/-- The number of samples the callback can deliver without gap-filling: the smaller of
the two fill counts when stereo, the leader's fill count when mono (undefined in mono
with no leader). -/
def available (s : DisneyState) : Option Nat :=
  if s.stereo = true then some (min (s.da 0).used (s.da 1).used)
  else s.leader.map fun l => (s.da l).used

/-- The channels that take part in playback: both when stereo, the leader when mono. -/
def active (s : DisneyState) (c : Fin 2) : Prop :=
  s.stereo = true ∨ s.leader = some c

/-- What can happen to the device: a port write, a mixer callback, a call of
`DISNEY_disable` (from the scheduler or the destructor). -/
inductive Event where
  | write (x : PortWrite)
  | callback (len ticks : Nat)
  | disable

/-- One event.  The mixer calls back only while playback is enabled, that is while the
device is Running; a callback in another state, or one whose behaviour is undefined,
ends the trace (`none`). -/
def step (w : Nat) (s : DisneyState) : Event → Option DisneyState
  | Event.write x => some (disney_write w x.port x.val x.now x.ticks s)
  | Event.callback len ticks =>
      if s.state = DS_RUNNING then DISNEY_CallBack w len ticks s else none
  | Event.disable => some (DISNEY_disable s)

/-- A sequence of events, oldest first. -/
def exec (w : Nat) : List Event → DisneyState → Option DisneyState
  | [], s => some s
  | e :: es, s => (step w s e).bind (exec w es)

/-- A trace that overfills channel 0: 140 data-port writes (134 are latched, the buffer
holds 128), then a `DISNEY_disable`. -/
def overfill_trace : List Event :=
  (data_stream 140 (1 / 10)).map Event.write ++ [Event.disable]

/-- The other one of the two channels. -/
def other (c : Fin 2) : Fin 2 :=
  if c = 0 then 1 else 0

/-- The control bit whose falling edge latches channel `c`: `0x1` for channel 0, `0x2`
for channel 1. -/
def latch_mask (c : Fin 2) : Nat :=
  if c = 0 then 0x1 else 0x2

/-- A control-port value that latches channel `c` and nothing else: `c`'s bit falls,
the other channel's bit and the FIFO bit `0x8` do not. -/
def latches_only (c : Fin 2) (ctrl val : Nat) : Prop :=
  falls (latch_mask c) ctrl val ∧ ¬ falls (latch_mask (other c)) ctrl val ∧ ¬ falls 0x8 ctrl val

instance (c : Fin 2) (ctrl val : Nat) : Decidable (latches_only c ctrl val) := by
  unfold latches_only
  infer_instance

/-- The channel latched by the `k`-th write (from 0) of an alternating sequence that
starts with channel `c`. -/
def latched (c : Fin 2) (k : Nat) : Fin 2 :=
  if k % 2 = 0 then c else other c

/-- The control byte the `k`-th write of the control-port sequence `x` finds: `ctrl0`
for the first, otherwise the byte its predecessor stored. -/
def ctrl_before (ctrl0 : Nat) (x : Nat → PortWrite) (k : Nat) : Nat :=
  if k = 0 then ctrl0 else (x (k - 1)).val % 256

/-- The first `n` writes of the sequence `x` are control-port writes that latch the two
channels in turn, starting with channel `c`; `ctrl0` is the control byte before the
first of them.  Each write is tested against the control byte its predecessor left. -/
def alternating_latches (c : Fin 2) (ctrl0 : Nat) (x : Nat → PortWrite) (n : Nat) : Prop :=
  ∀ k, k < n →
    (x k).port = DISNEY_BASE + 2 ∧ latches_only (latched c k) (ctrl_before ctrl0 x k) (x k).val

instance (c : Fin 2) (ctrl0 : Nat) (x : Nat → PortWrite) (n : Nat) :
    Decidable (alternating_latches c ctrl0 x n) := by
  unfold alternating_latches
  infer_instance

/-- The device after the first `k` writes of the sequence `x`. -/
def after (w : Nat) (x : Nat → PortWrite) (k : Nat) (s : DisneyState) : DisneyState :=
  run w ((List.range k).map x) s

/-- The toggling stereo driver: the control port is written 2, 1, 2, 1, ... so that each
write latches one channel (channel 0 first, from a control byte with bit `0x1` set);
the `k`-th write is at time `k * dt`. -/
def toggle (dt : ℚ) (k : Nat) : PortWrite :=
  { port := DISNEY_BASE + 2, val := if k % 2 = 0 then 2 else 1, now := (k : ℚ) * dt, ticks := 0 }

/-- The state `s` after the guest has written 1 to the control port (at time 0), so that
bit `0x1` is raised and the toggling driver can start. -/
def armed (s : DisneyState) : DisneyState :=
  disney_write 64 (DISNEY_BASE + 2) 1 0 0 s

/-- A mono stream with a pause: 40 data-port writes 0.001 apart, with 3 more between
the 20th and the 21st.  Every interval between two writes is outside [0.01, 2]. -/
def paused_stream (k : Nat) : PortWrite :=
  { port := DISNEY_BASE, val := 0x90 + k,
    now := if k < 20 then (k : ℚ) / 1000 else 3 + (k : ℚ) / 1000, ticks := 0 }

/-- The four-latch cycle of a stereo stream whose intervals all fail the sanity check,
as an invariant of the device after `k` latches (first latch on channel `c`):
Idle; analysing with `c`'s baseline; with both baselines; with `c` failed. -/
def abort_cycle (c : Fin 2) (x : Nat → PortWrite) (k : Nat) (t : DisneyState) : Prop :=
  (k % 4 = 0 → t.state = DS_IDLE) ∧
  (k % 4 = 1 → t.state = DS_ANALYZING ∧
    (t.da c).speedcheck_init = true ∧ (t.da c).speedcheck_failed = false ∧
    (t.da c).used = 1 ∧ (t.da c).speedcheck_last = (x (k - 1)).now ∧
    (t.da (other c)).speedcheck_init = false ∧ (t.da (other c)).speedcheck_failed = false ∧
    (t.da (other c)).used = 0) ∧
  (k % 4 = 2 → t.state = DS_ANALYZING ∧
    (t.da c).speedcheck_init = true ∧ (t.da c).speedcheck_failed = false ∧
    (t.da c).used = 1 ∧ (t.da c).speedcheck_last = (x (k - 2)).now ∧
    (t.da (other c)).speedcheck_init = true ∧ (t.da (other c)).speedcheck_failed = false ∧
    (t.da (other c)).used = 1 ∧ (t.da (other c)).speedcheck_last = (x (k - 1)).now) ∧
  (k % 4 = 3 → t.state = DS_ANALYZING ∧
    (t.da c).speedcheck_failed = true ∧
    (t.da (other c)).speedcheck_init = true ∧
    (t.da (other c)).speedcheck_last = (x (k - 2)).now)

/-- Both fill counts are within the buffer capacity. -/
def within_capacity (s : DisneyState) : Prop :=
  ∀ c, (s.da c).used ≤ DISNEY_SIZE

/-- The channel handle is unset and the device is not Running. -/
def handle_unset (s : DisneyState) : Prop :=
  s.chan = false ∧ s.state ≠ DS_RUNNING

/-- A state in `DS_FINISH` with 31 samples on channel 0 and 28 on channel 1. -/
def finish_31_28 : DisneyState :=
  { DISNEY_init with
    state := DS_FINISH
    da := fun i => { DISNEY_init.da i with used := if i = 0 then 31 else 28 } }

/-- A state in `DS_FINISH` whose counts are `0` and `2 ^ 64 - 1`. -/
def finish_wrapped : DisneyState :=
  { DISNEY_init with
    state := DS_FINISH
    da := fun i => { DISNEY_init.da i with used := if i = 0 then 0 else 2 ^ 64 - 1 } }

/-! ### The snapshot -/

/-- The byte `leader_idx` that `DBPSerialize_DISNEY` computes from `disney.leader`:
`leader == &da[0] ? 0 : (leader == &da[1] ? 1 : 0xff)`. -/
def leader_idx (s : DisneyState) : Nat :=
  if s.leader = some 0 then 0 else if s.leader = some 1 then 1 else 0xff

/-- Modelled from the spec: the archive of `dbp_serialize.h`, which is not part of these
sources, as far as `DBPSerialize_DISNEY` uses it: the fields of `disney` other than the
three pointers (`SerializeExcept(disney, disney.mo, disney.chan, disney.leader)`) and the
byte written by `Serialize(leader_idx)`. -/
structure Snapshot where
  data : Nat
  status : Nat
  control : Nat
  da : Fin 2 → dac_channel
  last_used : Nat
  stereo : Bool
  state : Nat
  interface_det : Nat
  interface_det_ext : Nat
  leader_idx : Nat

/-- The two archive modes that move data, saving the device into the archive and loading
it back. -/
inductive ArchiveMode where
  | MODE_SAVE
  | MODE_LOAD
  deriving DecidableEq

/-- The archive and the device after the call.  `skip` is the answer of `ar.IsSkip()`.
In both modes `leader_idx` is first computed from the device; `Serialize` then writes it
to the archive when saving and overwrites it from the archive when loading, and only a
load re-resolves `disney.leader`: `leader_idx < 2 ? &disney.da[leader_idx] : NULL`. -/
def DBPSerialize_DISNEY (mode : ArchiveMode) (skip : Bool) (ar : Snapshot)
    (s : DisneyState) : Snapshot × DisneyState :=
  if skip = true then (ar, s)
  else
    match mode with
    | ArchiveMode.MODE_SAVE =>
      ({ data := s.data, status := s.status, control := s.control, da := s.da,
         last_used := s.last_used, stereo := s.stereo, state := s.state,
         interface_det := s.interface_det, interface_det_ext := s.interface_det_ext,
         leader_idx := leader_idx s }, s)
    | ArchiveMode.MODE_LOAD =>
      (ar, { s with
        data := ar.data
        status := ar.status
        control := ar.control
        da := ar.da
        last_used := ar.last_used
        stereo := ar.stereo
        state := ar.state
        interface_det := ar.interface_det
        interface_det_ext := ar.interface_det_ext
        leader := if h : ar.leader_idx < 2 then some ⟨ar.leader_idx, h⟩ else none })

/-- The archive that saving the device `s` produces, whatever the archive held before. -/
def saved (s : DisneyState) : Snapshot :=
  (DBPSerialize_DISNEY ArchiveMode.MODE_SAVE false
    { data := 0, status := 0, control := 0, da := s.da, last_used := 0, stereo := false,
      state := 0, interface_det := 0, interface_det_ext := 0, leader_idx := 0 } s).1

/-- The value that fills the gap after `n` real samples of the buffer `buf`: the last of
them, or the mid-level `0x80` when there is none. -/
def gap_value (buf : Nat → Nat) (n : Nat) : Nat :=
  if n = 0 then 0x80 else buf (n - 1)

/-- The number of samples of the mono leader that are played as they are: all of them,
or all but the last when the last one is 0. -/
def mono_kept (buf : Nat → Nat) (used : Nat) : Nat :=
  if used ≠ 0 ∧ buf (used - 1) = 0 then used - 1 else used

/-- A device in Analyzing: channel 0 holds 31 samples and has its baseline at time 1,
channel 1 holds 3. -/
def analysing_31_3 : DisneyState :=
  { DISNEY_installed with
    state := DS_ANALYZING
    da := fun i =>
      { DISNEY_installed.da i with
        speedcheck_init := true
        speedcheck_last := 1
        used := if i = 0 then 31 else 3 } }

/-- A Running mono device led by channel 0, which holds the three samples 7, 9, 0. -/
def mono_three : DisneyState :=
  { DISNEY_installed with
    state := DS_RUNNING
    leader := some 0
    da := fun i =>
      { DISNEY_installed.da i with
        buffer := fun j => if j = 0 then 7 else if j = 1 then 9 else 0
        used := if i = 0 then 3 else 0 } }

/-- Six writes to the data port, 0.1 apart, carrying `0x90`, `0x91`, ... -/
def six_writes (k : Nat) : PortWrite :=
  { port := DISNEY_BASE, val := 0x90 + k, now := ((k : ℚ) + 1) / 10, ticks := 0 }

/-- The channel `b` is the channel `a` with at most `n` bytes appended: the fill count
grows by at most `n`, grows only from below the capacity and not beyond it, and the bytes
below the old fill count are kept. -/
def appended (n : Nat) (a b : dac_channel) : Prop :=
  a.used ≤ b.used ∧ b.used ≤ a.used + n ∧ (a.used < b.used → a.used < DISNEY_SIZE) ∧
  (a.used ≤ DISNEY_SIZE → b.used ≤ DISNEY_SIZE) ∧ ∀ i, i < a.used → b.buffer i = a.buffer i

/-- The fields that protocol inference writes are the same in `s` and `t`, channel 0 of
`t` is that of `s` with at most `n0` bytes appended, channel 1 with at most `n1`. -/
def playing_step (n0 n1 : Nat) (s t : DisneyState) : Prop :=
  t.state = s.state ∧ t.stereo = s.stereo ∧ t.leader = s.leader ∧
  t.interface_det = s.interface_det ∧ t.interface_det_ext = s.interface_det_ext ∧
  appended n0 (s.da 0) (t.da 0) ∧ appended n1 (s.da 1) (t.da 1)

/-- The device started by six strobes of control bit `0x8`, after a further write of 9 to
the control port: Running, with bits `0x1` and `0x8` of the control byte raised. -/
def fifo_running : DisneyState :=
  run 64 (fifo_strobes ++ [{ port := DISNEY_BASE + 2, val := 9, now := 20, ticks := 0 }])
    DISNEY_installed

/-- Running implies that `leader` is set and that the channel handle is set. -/
def led (s : DisneyState) : Prop :=
  s.state = DS_RUNNING → s.leader ≠ none ∧ s.chan = true

/-- What the two branches of the callback have in common. -/
def played (len : Nat) (s t : DisneyState) : Prop :=
  t.state = s.state ∧ t.stereo = s.stereo ∧ t.leader = s.leader ∧
  t.interface_det = s.interface_det ∧ t.interface_det_ext = s.interface_det_ext ∧
  t.chan = s.chan ∧ t.mo = s.mo ∧ t.last_used = s.last_used ∧
  ∃ data, t.calls = s.calls ++ [Call.AddSamples_m8 len data] ∨
    t.calls = s.calls ++ [Call.AddSamples_s8 len data]

end Disney

/-!
# The mouse driver (`src/ints/mouse.cpp`)

The driver state is the file-static `mouse` structure together with the other file-static
variables.  Everything the driver touches outside itself (CPU registers and stack, guest
memory, the video BIOS and the interrupt controller) is carried in one `State` record;
calls whose result the driver never reads are appended to the ghost field `calls`.
`float` values are rationals, so rounding, infinities and NaN are not represented.
-/

namespace Mouse

def QUEUE_SIZE : Nat := 32
def MOUSE_BUTTONS : Nat := 3
def MOUSE_IRQ : Nat := 12
def CURSORX : Nat := 16
def CURSORY : Nat := 16
def HIGHESTBIT : Nat := 1 <<< (CURSORX - 1)
def X_MICKEY : Nat := 8
def Y_MICKEY : Nat := 8
def MOUSE_HAS_MOVED : Nat := 1
def MOUSE_LEFT_PRESSED : Nat := 2
def MOUSE_LEFT_RELEASED : Nat := 4
def MOUSE_RIGHT_PRESSED : Nat := 8
def MOUSE_RIGHT_RELEASED : Nat := 16
def MOUSE_MIDDLE_PRESSED : Nat := 32
def MOUSE_MIDDLE_RELEASED : Nat := 64
def MOUSE_DELAY : ℚ := 5

def defaultTextAndMask : Nat := 0x77FF
def defaultTextXorMask : Nat := 0x7700

def defaultScreenMask : List Nat :=
  [0x3FFF, 0x1FFF, 0x0FFF, 0x07FF,
   0x03FF, 0x01FF, 0x00FF, 0x007F,
   0x003F, 0x001F, 0x01FF, 0x00FF,
   0x30FF, 0xF87F, 0xF87F, 0xFCFF]

def defaultCursorMask : List Nat :=
  [0x0000, 0x4000, 0x6000, 0x7000,
   0x7800, 0x7C00, 0x7E00, 0x7F00,
   0x7F80, 0x7C00, 0x6C00, 0x4600,
   0x0600, 0x0300, 0x0300, 0x0000]

/-- Conversion of an integer to `Bit8u`. -/
def toBit8u (n : Int) : Nat :=
  (n % 256).toNat

/-- Conversion of an integer to `Bit16u`. -/
def toBit16u (n : Int) : Nat :=
  (n % 65536).toNat

/-- Conversion of an integer to `Bit16s` (two's complement). -/
def toBit16s (n : Int) : Int :=
  (n + 32768) % 65536 - 32768

/-- The conversion `static_cast<Bit16s>(f)` of a `float`: the fraction is dropped (rounding
toward zero).  A value outside the `Bit16s` range, which the language leaves undefined, is
reduced modulo `2 ^ 16`. -/
def float_to_Bit16s (q : ℚ) : Int :=
  toBit16s (if 0 ≤ q then Rat.floor q else - Rat.floor (-q))

/-- Bitwise `&` of two `Bit16s` values. -/
def and16 (a b : Int) : Int :=
  toBit16s ((toBit16u a &&& toBit16u b : Nat) : Int)

structure button_event where
  type : Nat
  buttons : Nat
deriving DecidableEq

/-- The value of the pointers `mouse.screenMask` and `mouse.cursorMask`: null, the default
table, or the user-defined table. -/
inductive MaskPtr where
  | null
  | defaultMask
  | userdefMask
deriving DecidableEq

/-- The file-static structure `mouse`. -/
structure mouse_struct where
  buttons : Nat
  times_pressed : Nat → Nat
  times_released : Nat → Nat
  last_released_x : Nat → Nat
  last_released_y : Nat → Nat
  last_pressed_x : Nat → Nat
  last_pressed_y : Nat → Nat
  hidden : Nat
  add_x : ℚ
  add_y : ℚ
  min_x : Int
  max_x : Int
  min_y : Int
  max_y : Int
  mickey_x : ℚ
  mickey_y : ℚ
  x : ℚ
  y : ℚ
  event_queue : Nat → button_event
  events : Nat
  sub_seg : Nat
  sub_ofs : Nat
  sub_mask : Nat
  background : Bool
  backposx : Int
  backposy : Int
  backData : Nat → Nat
  screenMask : MaskPtr
  cursorMask : MaskPtr
  clipx : Int
  clipy : Int
  hotx : Int
  hoty : Int
  textAndMask : Nat
  textXorMask : Nat
  mickeysPerPixel_x : ℚ
  mickeysPerPixel_y : ℚ
  pixelPerMickey_x : ℚ
  pixelPerMickey_y : ℚ
  senv_x_val : Nat
  senv_y_val : Nat
  dspeed_val : Nat
  senv_x : ℚ
  senv_y : ℚ
  updateRegion_x : Nat → Int
  updateRegion_y : Nat → Int
  doubleSpeedThreshold : Nat
  language : Nat
  cursorType : Nat
  oldhidden : Nat
  page : Nat
  enabled : Bool
  inhibit_draw : Bool
  timer_in_progress : Bool
  in_UIR : Bool
  mode : Nat
  gran_x : Int
  gran_y : Int

/-- The fields of `*CurMode` that the driver reads: whether `type == M_TEXT`, and the
screen size. -/
structure VideoModeBlock where
  type_is_M_TEXT : Bool
  swidth : Nat
  sheight : Nat

/-- The 16-bit registers and segment values the driver reads or writes. -/
structure Regs where
  ax : Nat
  bx : Nat
  cx : Nat
  dx : Nat
  si : Nat
  di : Nat
  ip : Nat
  es : Nat
  cs : Nat

/-- Calls into other modules whose result the driver does not read. -/
inductive Call where
  | PIC_SetIRQMask (irq : Nat) (masked : Bool)
  | PIC_AddEvent_MOUSE_Limit_Events (delay : ℚ)
  | PIC_ActivateIRQ (irq : Nat)
  | PIC_RemoveEvents_MOUSE_Limit_Events
  | Mouse_AutoLock (enable : Bool)
  | INT10_SetCursorShape (first last : Nat)
  | IO_Write (port val : Nat)

/-- What the driver takes from the rest of the emulator and from the build: constants of
headers that are not part of these sources, the machine type, the layout of `mouse` in
memory (used by INT 33h functions 15h to 17h), the video BIOS routine `INT10_SetCurMode`,
port reads, and the addresses of the driver's callbacks. -/
structure Host where
  BIOSMEM_SEG : Nat
  BIOSMEM_CURRENT_PAGE : Nat
  BIOSMEM_NB_COLS : Nat
  BIOSMEM_NB_ROWS : Nat
  BIOSMEM_PAGE_SIZE : Nat
  BIOSMEM_CRTC_ADDRESS : Nat
  BIOS_VIDEO_MODE : Nat
  IS_VGA_ARCH : Bool
  IS_EGAVGA_ARCH : Bool
  machine_is_MCH_EGA : Bool
  C_DBP_LIBRETRO : Bool
  sizeof_mouse : Nat
  mouse_image : mouse_struct → Nat → Nat
  mouse_of_image : (Nat → Nat) → mouse_struct
  INT10_SetCurMode : VideoModeBlock → (Nat → Nat) → VideoModeBlock
  IO_Read : List Call → Nat → Nat
  int74_ret_callback : Nat
  uir_callback : Nat
  ps2_callback : Nat

/-- The driver's variables and the parts of the machine it acts on.  `stack` is the CPU
stack, most recent word first; `mem` is guest memory by physical address; `pixels` and
`cells` are the screen as seen through the video BIOS (x, y, page and column, row, page). -/
structure State where
  mouse : mouse_struct
  ps2cbseg : Nat
  ps2cbofs : Nat
  useps2callback : Bool
  ps2callbackinit : Bool
  oldmouseX : Int
  oldmouseY : Int
  userdefScreenMask : Nat → Nat
  userdefCursorMask : Nat → Nat
  mouse_vmware_x : ℚ
  mouse_vmware_y : ℚ
  mouse_vmware_updated : Bool
  gfxReg3CE : Nat → Nat
  index3C4 : Nat
  gfxReg3C5 : Nat
  autolock_enabled : Bool
  reg : Regs
  stack : List Nat
  mem : Nat → Nat
  CurMode : VideoModeBlock
  pixels : Nat → Nat → Nat → Nat
  cells : Nat → Nat → Nat → Nat
  calls : List Call

def call (c : Call) (s : State) : State :=
  { s with calls := s.calls ++ [c] }

def RealSeg (pt : Nat) : Nat :=
  (pt / 65536) % 65536

def RealOff (pt : Nat) : Nat :=
  pt % 65536

def mem_readb (s : State) (addr : Nat) : Nat :=
  s.mem addr % 256

def real_readb (s : State) (seg off : Nat) : Nat :=
  mem_readb s (seg * 16 + off)

/-- A 16-bit little-endian read of guest memory. -/
def real_readw (s : State) (seg off : Nat) : Nat :=
  mem_readb s (seg * 16 + off) + 256 * mem_readb s (seg * 16 + off + 1)

/-- The physical base of segment `es` as `SegSet16` leaves it: the value shifted by four. -/
def SegPhys_es (s : State) : Nat :=
  s.reg.es * 16

/-- Modelled from the spec: the CPU core is an external collaborator; a push is recorded
as a new first element of `stack`. -/
def CPU_Push16 (v : Nat) (s : State) : State :=
  { s with stack := (v % 65536) :: s.stack }

/-- Modelled from the spec: the CPU core is an external collaborator; a pop removes the
first element of `stack`. -/
def CPU_Pop16 (s : State) : State :=
  { s with stack := s.stack.tail }

def IO_Write (port val : Nat) (s : State) : State :=
  call (Call.IO_Write port val) s

def IO_Read (h : Host) (port : Nat) (s : State) : Nat :=
  h.IO_Read s.calls port % 256

/-- Modelled from the spec: the "write pixel" primitive of the video BIOS, taken as a
store into the pixel map at the `Bit16u` coordinates and `Bit8u` page it is passed. -/
def INT10_PutPixel (x y : Int) (page color : Nat) (px : Nat → Nat → Nat → Nat) :
    Nat → Nat → Nat → Nat :=
  fun a b c => if a = toBit16u x ∧ b = toBit16u y ∧ c = page then color else px a b c

/-- Modelled from the spec: the "read pixel" primitive of the video BIOS. -/
def INT10_GetPixel (x y : Int) (page : Nat) (px : Nat → Nat → Nat → Nat) : Nat :=
  px (toBit16u x) (toBit16u y) page % 256

/-- Modelled from the spec: the "write character cell" primitive, storing character and
attribute as one 16-bit cell. -/
def WriteChar (col row page chr attr : Nat) (cells : Nat → Nat → Nat → Nat) :
    Nat → Nat → Nat → Nat :=
  fun a b c => if a = col ∧ b = row ∧ c = page then chr % 256 + 256 * (attr % 256)
    else cells a b c

/-- Modelled from the spec: the "read character cell" primitive. -/
def ReadCharAttr (col row page : Nat) (cells : Nat → Nat → Nat → Nat) : Nat :=
  cells col row page % 65536

def POS_X (s : State) : Int :=
  and16 (float_to_Bit16s s.mouse.x) s.mouse.gran_x

def POS_Y (s : State) : Int :=
  and16 (float_to_Bit16s s.mouse.y) s.mouse.gran_y

def Mouse_AutoLock (enable : Bool) (s : State) : State :=
  call (Call.Mouse_AutoLock enable) s

def PIC_SetIRQMask (irq : Nat) (masked : Bool) (s : State) : State :=
  call (Call.PIC_SetIRQMask irq masked) s

/-- The new state and the returned flag. -/
def Mouse_SetPS2State (use : Bool) (s : State) : State × Bool :=
  if use = true ∧ s.ps2callbackinit = false then
    (PIC_SetIRQMask MOUSE_IRQ true { s with useps2callback := false }, false)
  else
    let s1 : State := { s with useps2callback := use }
    (PIC_SetIRQMask MOUSE_IRQ (!s1.useps2callback) (Mouse_AutoLock s1.useps2callback s1), true)

def Mouse_ChangePS2Callback (pseg pofs : Nat) (s : State) : State :=
  let s1 : State :=
    if pseg = 0 ∧ pofs = 0 then Mouse_AutoLock false { s with ps2callbackinit := false }
    else { s with ps2callbackinit := true, ps2cbseg := pseg, ps2cbofs := pofs }
  Mouse_AutoLock s1.ps2callbackinit s1

/-- The status byte and the two movement bytes that `DoPS2Callback` pushes. -/
def ps2_packet (data : Nat) (mouseX mouseY oldX oldY : Int) : Nat × Nat × Nat :=
  let mdat0 : Nat := (data &&& 0x03) ||| 0x08
  let xdiff : Int := toBit16s (mouseX - oldX)
  let ydiff : Int := toBit16s (oldY - mouseY)
  let mdat1 : Nat := if xdiff > 0xff ∨ xdiff < -0xff then mdat0 ||| 0x40 else mdat0
  let mdat2 : Nat := if ydiff > 0xff ∨ ydiff < -0xff then mdat1 ||| 0x80 else mdat1
  let xdiff1 : Int := Int.tmod xdiff 256
  let ydiff1 : Int := Int.tmod ydiff 256
  let mdat3 : Nat := if xdiff1 < 0 then mdat2 ||| 0x10 else mdat2
  let xdiff2 : Int := if xdiff1 < 0 then 0x100 + xdiff1 else xdiff1
  let mdat4 : Nat := if ydiff1 < 0 then mdat3 ||| 0x20 else mdat3
  let ydiff2 : Int := if ydiff1 < 0 then 0x100 + ydiff1 else ydiff1
  (mdat4, toBit16u (Int.tmod xdiff2 256), toBit16u (Int.tmod ydiff2 256))

def DoPS2Callback (h : Host) (data : Nat) (mouseX mouseY : Int) (s : State) : State :=
  if s.useps2callback = true then
    let p := ps2_packet data mouseX mouseY s.oldmouseX s.oldmouseY
    let s1 : State := { s with oldmouseX := mouseX, oldmouseY := mouseY }
    let s2 := CPU_Push16 p.1 s1
    let s3 := CPU_Push16 p.2.1 s2
    let s4 := CPU_Push16 p.2.2 s3
    let s5 := CPU_Push16 0 s4
    let s6 := CPU_Push16 (RealSeg h.ps2_callback) s5
    let s7 := CPU_Push16 (RealOff h.ps2_callback) s6
    { s7 with reg.cs := s7.ps2cbseg, reg.ip := s7.ps2cbofs }
  else s

def PS2_Handler (s : State) : State :=
  CPU_Pop16 (CPU_Pop16 (CPU_Pop16 (CPU_Pop16 s)))

/-- The block shared by `MOUSE_Limit_Events` and `Mouse_AddEvent`:
`PIC_AddEvent(MOUSE_Limit_Events,MOUSE_DELAY); PIC_ActivateIRQ(MOUSE_IRQ);`. -/
def arm_timer (s : State) : State :=
  call (Call.PIC_ActivateIRQ MOUSE_IRQ)
    (call (Call.PIC_AddEvent_MOUSE_Limit_Events MOUSE_DELAY)
      { s with mouse.timer_in_progress := true })

def MOUSE_Limit_Events (s : State) : State :=
  let s1 : State := { s with mouse.timer_in_progress := false }
  if s1.mouse.events ≠ 0 then arm_timer s1 else s1

/-- The loop `for (i = events; i; i--) event_queue[i] = event_queue[i-1];`: every entry
from index 0 to `events - 1` is copied one place up. -/
def shift_queue (events : Nat) (q : Nat → button_event) : Nat → button_event :=
  fun i => if 1 ≤ i ∧ i ≤ events then q (i - 1) else q i

/-- The part of `Mouse_AddEvent` after the queue has been updated. -/
def notify (s : State) : State :=
  let s1 : State := if s.mouse.timer_in_progress = false then arm_timer s else s
  { s1 with mouse_vmware_updated := true }

def Mouse_AddEvent (type : Nat) (s : State) : State :=
  if s.mouse.events < QUEUE_SIZE then
    if s.mouse.events > 0 ∧ type = MOUSE_HAS_MOVED then s
    else
      let q : Nat → button_event :=
        if s.mouse.events > 0 then shift_queue s.mouse.events s.mouse.event_queue
        else s.mouse.event_queue
      let q1 := Function.update q 0 { type := type, buttons := s.mouse.buttons }
      notify { s with mouse.event_queue := q1, mouse.events := s.mouse.events + 1 }
  else notify s


/-! ### Cursor drawing -/

def RestoreCursorBackgroundText (h : Host) (s : State) : State :=
  if s.mouse.hidden ≠ 0 ∨ s.mouse.inhibit_draw = true then s
  else if s.mouse.background = true then
    let cells := WriteChar (toBit16u s.mouse.backposx) (toBit16u s.mouse.backposy)
      (real_readb s h.BIOSMEM_SEG h.BIOSMEM_CURRENT_PAGE) (s.mouse.backData 0)
      (s.mouse.backData 1) s.cells
    { s with cells := cells, mouse.background := false }
  else s

/-- The test of `DrawCursorText` that the cursor lies inside the update region. -/
def in_update_region (s : State) : Prop :=
  POS_Y s ≤ s.mouse.updateRegion_y 1 ∧ POS_Y s ≥ s.mouse.updateRegion_y 0 ∧
  POS_X s ≤ s.mouse.updateRegion_x 1 ∧ POS_X s ≥ s.mouse.updateRegion_x 0

instance (s : State) : Decidable (in_update_region s) := by
  unfold in_update_region
  infer_instance

/-- The hardware text cursor branch of `DrawCursorText`: the cell address is sent to the
CRT controller. -/
def set_hardware_cursor (h : Host) (page : Nat) (s : State) : State :=
  let address0 : Nat := (page * real_readw s h.BIOSMEM_SEG h.BIOSMEM_PAGE_SIZE) % 65536
  let address1 : Nat := toBit16u ((address0 : Int) +
    (s.mouse.backposy * (real_readw s h.BIOSMEM_SEG h.BIOSMEM_NB_COLS : Int) +
      s.mouse.backposx) * 2)
  let address : Nat := address1 / 2
  let cr : Nat := real_readw s h.BIOSMEM_SEG h.BIOSMEM_CRTC_ADDRESS
  IO_Write (cr + 1) (address &&& 0xff)
    (IO_Write cr 0xf
      (IO_Write (cr + 1) ((address >>> 8) &&& 0xff)
        (IO_Write cr 0xe s)))

/-- The software text cursor branch of `DrawCursorText`: the cell under the cursor is
saved in `backData[0..1]` and rewritten through the two text masks. -/
def invert_cell (page : Nat) (s : State) : State :=
  let result : Nat :=
    ReadCharAttr (toBit16u s.mouse.backposx) (toBit16u s.mouse.backposy) page s.cells
  let bd : Nat → Nat :=
    Function.update (Function.update s.mouse.backData 0 (result &&& 0xFF)) 1
      ((result >>> 8) % 256)
  let result1 : Nat := (result &&& s.mouse.textAndMask) ^^^ s.mouse.textXorMask
  let cells := WriteChar (toBit16u s.mouse.backposx) (toBit16u s.mouse.backposy) page
    (result1 &&& 0xFF) (result1 >>> 8) s.cells
  { s with mouse.backData := bd, mouse.background := true, cells := cells }

/-- The assignments `backposx = POS_X>>3; backposy = POS_Y>>3; if (mode < 2) backposx >>= 1;`
of `DrawCursorText`. -/
def set_text_backpos (s : State) : State :=
  let bx0 : Int := toBit16s (POS_X s / 8)
  let bpy : Int := toBit16s (POS_Y s / 8)
  let bpx : Int := if s.mouse.mode < 2 then toBit16s (bx0 / 2) else bx0
  { s with mouse.backposx := bpx, mouse.backposy := bpy }

def DrawCursorText (h : Host) (s : State) : State :=
  let s1 := RestoreCursorBackgroundText h s
  if in_update_region s1 then s1
  else
    let s2 := set_text_backpos s1
    let page : Nat := real_readb s2 h.BIOSMEM_SEG h.BIOSMEM_CURRENT_PAGE
    if s2.mouse.cursorType = 0 then invert_cell page s2
    else set_hardware_cursor h page s2

/-- The loop `for (i=0; i<9; i++) { IO_Write(0x3CE,i); gfxReg3CE[i] = IO_Read(0x3CF); }`. -/
def read_gfx_regs (h : Host) (s : State) : State :=
  (List.range 9).foldl
    (fun t i =>
      let t1 := IO_Write 0x3CE i t
      { t1 with gfxReg3CE := Function.update t1.gfxReg3CE i (IO_Read h 0x3CF t1) })
    s

def SaveVgaRegisters (h : Host) (s : State) : State :=
  if h.IS_VGA_ARCH = true then
    let s1 := read_gfx_regs h s
    let s2 := IO_Write 0x3CF 0 (IO_Write 0x3CE 3 s1)
    let s3 := IO_Write 0x3CF (s2.gfxReg3CE 5 &&& 0xf0) (IO_Write 0x3CE 5 s2)
    let s4 : State := { s3 with index3C4 := IO_Read h 0x3C4 s3 }
    let s5 := IO_Write 0x3C4 2 s4
    let s6 : State := { s5 with gfxReg3C5 := IO_Read h 0x3C5 s5 }
    IO_Write 0x3C5 0xF s6
  else if h.machine_is_MCH_EGA = true then
    IO_Write 0x3C5 0xF (IO_Write 0x3C4 2 s)
  else s

/-- The loop `for (i=0; i<9; i++) { IO_Write(0x3CE,i); IO_Write(0x3CF,gfxReg3CE[i]); }`. -/
def write_gfx_regs (s : State) : State :=
  (List.range 9).foldl (fun t i => IO_Write 0x3CF (t.gfxReg3CE i) (IO_Write 0x3CE i t)) s

def RestoreVgaRegisters (h : Host) (s : State) : State :=
  if h.IS_VGA_ARCH = true then
    let s1 := write_gfx_regs s
    IO_Write 0x3C4 s1.index3C4 (IO_Write 0x3C5 s1.gfxReg3C5 (IO_Write 0x3C4 2 s1))
  else s

/-- The values `ClipCursorArea` leaves in its seven reference parameters. -/
structure Clip where
  x1 : Int
  x2 : Int
  y1 : Int
  y2 : Int
  addx1 : Nat
  addx2 : Nat
  addy : Nat

def ClipCursorArea (s : State) (x1 x2 y1 y2 : Int) : Clip :=
  { addy := if y1 < 0 then toBit16u (-y1) else 0
    y1 := if y1 < 0 then 0 else y1
    y2 := if y2 > s.mouse.clipy then s.mouse.clipy else y2
    addx1 := if x1 < 0 then toBit16u (-x1) else 0
    x1 := if x1 < 0 then 0 else x1
    addx2 := if x2 > s.mouse.clipx then toBit16u (x2 - s.mouse.clipx) else 0
    x2 := if x2 > s.mouse.clipx then s.mouse.clipx else x2 }

/-- The values `a, a+1, ..., b` that the counter of `for (v=a; v<=b; v++)` takes when the
loop ends.  The counter is a `Bit16s`: for `b = 32767` the loop of the source does not
end, which `for_rounds` shows and this list does not.  For a bound below 32767 the two
agree (`for_rounds_span`); `DrawCursor` sets its bounds from the video mode, so that a
bound of 32767 needs a mode 32768 pixels wide or high. -/
def span (a b : Int) : List Int :=
  (List.range (b + 1 - a).toNat).map fun k => a + (k : Int)

/-- The skeleton shared by the three cursor loops:
`for (y=y1; y<=y2; y++) { dataPos += addx1; for (x=x1; x<=x2; x++) { body; dataPos++; }
dataPos += addx2; }`, with `dataPos` a `Bit16u`.  The accumulator is the value the body
acts on together with `dataPos`; `row y a` is what precedes the inner loop. -/
def cursor_loop {α : Type} (c : Clip) (row : Int → α → α) (body : Int → Int → Nat → α → α)
    (init : α) : α × Nat :=
  (span c.y1 c.y2).foldl
    (fun acc y =>
      let r := (span c.x1 c.x2).foldl
        (fun a x => (body x y a.2 a.1, (a.2 + 1) % 65536))
        (row y acc.1, (acc.2 + c.addx1) % 65536)
      (r.1, (r.2 + c.addx2) % 65536))
    (init, (c.addy * CURSORX) % 65536)

/-- The block of `RestoreCursorBackground` guarded by `if (mouse.background)`: the saved
pixels are written back over the clipped cursor area. -/
def restore_pixels (s : State) : State :=
  let x1 : Int := s.mouse.backposx
  let y1 : Int := s.mouse.backposy
  let x2 : Int := toBit16s (x1 + CURSORX - 1)
  let y2 : Int := toBit16s (y1 + CURSORY - 1)
  let c := ClipCursorArea s x1 x2 y1 y2
  let px := (cursor_loop c (fun _ p => p)
    (fun x y dataPos p => INT10_PutPixel x y s.mouse.page (s.mouse.backData dataPos) p)
    s.pixels).1
  { s with pixels := px, mouse.background := false }

def RestoreCursorBackground (h : Host) (s : State) : State :=
  if s.mouse.hidden ≠ 0 ∨ s.mouse.inhibit_draw = true then s
  else
    let s1 := SaveVgaRegisters h s
    RestoreVgaRegisters h (if s1.mouse.background = true then restore_pixels s1 else s1)

/-- The entry `mouse.screenMask[i]`.  Reading through a null pointer is undefined; the
model reads 0. -/
def screenMask_at (s : State) (i : Nat) : Nat :=
  match s.mouse.screenMask with
  | MaskPtr.null => 0
  | MaskPtr.defaultMask => defaultScreenMask.getD i 0
  | MaskPtr.userdefMask => s.userdefScreenMask i % 65536

/-- The entry `mouse.cursorMask[i]`.  Reading through a null pointer is undefined; the
model reads 0. -/
def cursorMask_at (s : State) (i : Nat) : Nat :=
  match s.mouse.cursorMask with
  | MaskPtr.null => 0
  | MaskPtr.defaultMask => defaultCursorMask.getD i 0
  | MaskPtr.userdefMask => s.userdefCursorMask i % 65536

/-- The state of the drawing loop of `DrawCursor`: the pixel map and the two masks of the
current row. -/
structure DrawAcc where
  pixels : Nat → Nat → Nat → Nat
  scMask : Nat
  cuMask : Nat

/-- The head of one row of the drawing loop: the masks of the row are fetched and, when
the cursor is clipped on the left, shifted by `addx1`. -/
def draw_row (s : State) (c : Clip) (y1 : Int) (y : Int) (a : DrawAcc) : DrawAcc :=
  let i : Nat := ((c.addy : Int) + y - y1).toNat
  let scMask := screenMask_at s i
  let cuMask := cursorMask_at s i
  if c.addx1 > 0 then
    { a with scMask := (scMask <<< c.addx1) % 65536, cuMask := (cuMask <<< c.addx1) % 65536 }
  else { a with scMask := scMask, cuMask := cuMask }

/-- The body of the drawing loop for one pixel. -/
def draw_pixel (s : State) (x y : Int) (dataPos : Nat) (a : DrawAcc) : DrawAcc :=
  let pixel0 : Nat := if a.scMask &&& HIGHESTBIT ≠ 0 then s.mouse.backData dataPos else 0
  let pixel : Nat := if a.cuMask &&& HIGHESTBIT ≠ 0 then pixel0 ^^^ 0x0F else pixel0
  { pixels := INT10_PutPixel x y s.mouse.page pixel a.pixels
    scMask := (a.scMask <<< 1) % 65536
    cuMask := (a.cuMask <<< 1) % 65536 }

/-- The assignments to `mouse.clipx` and `mouse.clipy` in `DrawCursor`. -/
def set_clip (s : State) : State :=
  { s with
    mouse.clipx := toBit16s ((s.CurMode.swidth : Int) - 1)
    mouse.clipy := toBit16s ((s.CurMode.sheight : Int) - 1) }

/-- The local `xratio` of `DrawCursor`:
`xratio = 640; if (swidth>0) xratio/=swidth; if (xratio==0) xratio = 1;`. -/
def xratio (s : State) : Int :=
  let r : Nat := if s.CurMode.swidth > 0 then 640 / s.CurMode.swidth else 640
  if r = 0 then 1 else r

/-- The unclipped left edge `POS_X / xratio - mouse.hotx` of the cursor, as a `Bit16s`. -/
def cursor_x1 (s : State) : Int :=
  toBit16s (Int.tdiv (POS_X s) (xratio s) - s.mouse.hotx)

/-- The unclipped top edge `POS_Y - mouse.hoty` of the cursor, as a `Bit16s`. -/
def cursor_y1 (s : State) : Int :=
  toBit16s (POS_Y s - s.mouse.hoty)

/-- The clipped area of the cursor that `DrawCursor` is about to draw. -/
def cursor_area (s : State) : Clip :=
  ClipCursorArea s (cursor_x1 s) (toBit16s (cursor_x1 s + CURSORX - 1)) (cursor_y1 s)
    (toBit16s (cursor_y1 s + CURSORY - 1))

/-- The "save background" loop of `DrawCursor` and the three assignments after it. -/
def save_background (c : Clip) (s : State) : State :=
  let bd := (cursor_loop c (fun _ b => b)
    (fun x y dataPos b => Function.update b dataPos (INT10_GetPixel x y s.mouse.page s.pixels))
    s.mouse.backData).1
  { s with
    mouse.backData := bd
    mouse.background := true
    mouse.backposx := cursor_x1 s
    mouse.backposy := cursor_y1 s }

/-- The "draw mouse cursor" loop of `DrawCursor`. -/
def draw_shape (c : Clip) (s : State) : State :=
  let drawn := (cursor_loop c (draw_row s c c.y1) (draw_pixel s)
    { pixels := s.pixels, scMask := 0, cuMask := 0 }).1
  { s with pixels := drawn.pixels }

/-- The graphics branch of `DrawCursor`, from the clipping ranges on. -/
def DrawCursorGraphics (h : Host) (s : State) : State :=
  let s3 := SaveVgaRegisters h (RestoreCursorBackground h (set_clip s))
  let c := cursor_area s3
  RestoreVgaRegisters h (draw_shape c (save_background c s3))

def DrawCursor (h : Host) (s : State) : State :=
  if s.mouse.hidden ≠ 0 ∨ s.mouse.inhibit_draw = true then s
  else
    let s1 : State := { s with CurMode := h.INT10_SetCurMode s.CurMode s.mem }
    if s1.CurMode.type_is_M_TEXT = true then DrawCursorText h s1
    else DrawCursorGraphics h s1


/-! ### Motion, buttons and settings -/

/-- The scaled delta of `Mouse_CursorMoved` on one axis:
`d = rel * pixelPerMickey; if (fabs(rel) > 1.0 || senv < 1.0) d *= senv;`. -/
def scaled_delta (rel pixelPerMickey senv : ℚ) : ℚ :=
  let d := rel * pixelPerMickey
  if |rel| > 1 ∨ senv < 1 then d * senv else d

/-- The single correction step `if (v >= 32768.0) v -= 65536.0; else if (v <= -32769.0)
v += 65536.0;` that `Mouse_CursorMoved` applies to the mickey counters and, in PS/2 mode,
to the position. -/
def wrap_once (v : ℚ) : ℚ :=
  if v ≥ 32768 then v - 65536
  else if v ≤ -32769 then v + 65536
  else v

/-- The clamp `if (v > max) v = max; if (v < min) v = min;`. -/
def clamp (v : ℚ) (min max : Int) : ℚ :=
  let v1 : ℚ := if v > (max : ℚ) then (max : ℚ) else v
  if v1 < (min : ℚ) then (min : ℚ) else v1

/-- The state of `Mouse_CursorMoved` just before the constraints are applied: the mickey
counters and the position have been updated. -/
def moved (h : Host) (xrel yrel x y : ℚ) (emulate : Bool) (s : State) : State :=
  let dx : ℚ := scaled_delta xrel s.mouse.pixelPerMickey_x s.mouse.senv_x
  let dy0 : ℚ := scaled_delta yrel s.mouse.pixelPerMickey_y s.mouse.senv_y
  let dy : ℚ := if s.useps2callback = true then dy0 * 2 else dy0
  let s1 : State :=
    { s with
      mouse.mickey_x := wrap_once (s.mouse.mickey_x + dx * s.mouse.mickeysPerPixel_x)
      mouse.mickey_y := wrap_once (s.mouse.mickey_y + dy * s.mouse.mickeysPerPixel_y) }
  let rel_x : ℚ := if h.C_DBP_LIBRETRO = true then dx else xrel
  let rel_y : ℚ := if h.C_DBP_LIBRETRO = true then dy else yrel
  let s2 : State :=
    if emulate = true then { s1 with mouse.x := s1.mouse.x + dx, mouse.y := s1.mouse.y + dy }
    else if s1.CurMode.type_is_M_TEXT = true then
      { s1 with
        mouse.x := x * (real_readw s1 h.BIOSMEM_SEG h.BIOSMEM_NB_COLS : ℚ) * 8
        mouse.y := y * ((if h.IS_EGAVGA_ARCH = true then
            real_readb s1 h.BIOSMEM_SEG h.BIOSMEM_NB_ROWS + 1 else 25 : Nat) : ℚ) * 8 }
    else if s1.mouse.max_x < 2048 ∨ s1.mouse.max_y < 2048 ∨ s1.mouse.max_x ≠ s1.mouse.max_y then
      if s1.mouse.max_x > 0 ∧ s1.mouse.max_y > 0 then
        { s1 with mouse.x := x * (s1.mouse.max_x : ℚ), mouse.y := y * (s1.mouse.max_y : ℚ) }
      else { s1 with mouse.x := s1.mouse.x + rel_x, mouse.y := s1.mouse.y + rel_y }
    else { s1 with mouse.x := s1.mouse.x + rel_x, mouse.y := s1.mouse.y + rel_y }
  { s2 with mouse_vmware_x := x, mouse_vmware_y := y }

/-- The constraint step of `Mouse_CursorMoved`: a clamp to the configured range, or in
PS/2 callback mode one correction by 65536. -/
def constrain (s : State) : State :=
  if s.useps2callback = false then
    { s with
      mouse.x := clamp s.mouse.x s.mouse.min_x s.mouse.max_x
      mouse.y := clamp s.mouse.y s.mouse.min_y s.mouse.max_y }
  else { s with mouse.x := wrap_once s.mouse.x, mouse.y := wrap_once s.mouse.y }

def Mouse_CursorMoved (h : Host) (xrel yrel x y : ℚ) (emulate : Bool) (s : State) : State :=
  DrawCursor h (Mouse_AddEvent MOUSE_HAS_MOVED (constrain (moved h xrel yrel x y emulate s)))

def Mouse_CursorSet (h : Host) (x y : ℚ) (s : State) : State :=
  DrawCursor h { s with mouse.x := x, mouse.y := y }

/-- The statements of `Mouse_ButtonPressed` after the `switch`. -/
def count_press (button : Nat) (s : State) : State :=
  { s with
    mouse.times_pressed :=
      Function.update s.mouse.times_pressed button ((s.mouse.times_pressed button + 1) % 65536)
    mouse.last_pressed_x := Function.update s.mouse.last_pressed_x button (toBit16u (POS_X s))
    mouse.last_pressed_y := Function.update s.mouse.last_pressed_y button (toBit16u (POS_Y s)) }

/-- One `case` of the `switch` of `Mouse_ButtonPressed`, for the button with bit `bit`. -/
def press (button bit type : Nat) (s : State) : State :=
  if s.mouse.buttons &&& bit ≠ 0 then s
  else
    count_press button
      (Mouse_AddEvent type { s with mouse.buttons := s.mouse.buttons ||| bit })

def Mouse_ButtonPressed (button : Nat) (s : State) : State :=
  if button = 0 then press 0 1 MOUSE_LEFT_PRESSED s
  else if button = 1 then press 1 2 MOUSE_RIGHT_PRESSED s
  else if button = 2 then press 2 4 MOUSE_MIDDLE_PRESSED s
  else s

/-- The statements of `Mouse_ButtonReleased` after the `switch`. -/
def count_release (button : Nat) (s : State) : State :=
  { s with
    mouse.times_released :=
      Function.update s.mouse.times_released button
        ((s.mouse.times_released button + 1) % 65536)
    mouse.last_released_x := Function.update s.mouse.last_released_x button (toBit16u (POS_X s))
    mouse.last_released_y := Function.update s.mouse.last_released_y button (toBit16u (POS_Y s)) }

/-- One `case` of the `switch` of `Mouse_ButtonReleased`; `buttons &= ~bit` on a `Bit8u`. -/
def release (button bit type : Nat) (s : State) : State :=
  if s.mouse.buttons &&& bit = 0 then s
  else
    count_release button
      (Mouse_AddEvent type { s with mouse.buttons := s.mouse.buttons &&& (255 - bit) })

def Mouse_ButtonReleased (button : Nat) (s : State) : State :=
  if button = 0 then release 0 1 MOUSE_LEFT_RELEASED s
  else if button = 1 then release 1 2 MOUSE_RIGHT_RELEASED s
  else if button = 2 then release 2 4 MOUSE_MIDDLE_RELEASED s
  else s

def Mouse_SetMickeyPixelRate (px py : Int) (s : State) : State :=
  if px ≠ 0 ∧ py ≠ 0 then
    { s with
      mouse.mickeysPerPixel_x := (px : ℚ) / X_MICKEY
      mouse.mickeysPerPixel_y := (py : ℚ) / Y_MICKEY
      mouse.pixelPerMickey_x := X_MICKEY / (px : ℚ)
      mouse.pixelPerMickey_y := Y_MICKEY / (py : ℚ) }
  else s

/-- The coefficient `(float(p) * p) / 3600.0f + 1.0f / 3.0f` that `Mouse_SetSensitivity`
computes from the decremented value `p`. -/
def senv_of (p : Nat) : ℚ :=
  ((p : ℚ) * (p : ℚ)) / 3600 + 1 / 3

def Mouse_SetSensitivity (px py dspeed : Nat) (s : State) : State :=
  let px1 := if px > 100 then 100 else px
  let py1 := if py > 100 then 100 else py
  let dspeed1 := if dspeed > 100 then 100 else dspeed
  let s1 : State :=
    { s with mouse.senv_x_val := px1, mouse.senv_y_val := py1, mouse.dspeed_val := dspeed1 }
  if px1 ≠ 0 ∧ py1 ≠ 0 then
    { s1 with mouse.senv_x := senv_of (px1 - 1), mouse.senv_y := senv_of (py1 - 1) }
  else s1

def Mouse_ResetHardware (s : State) : State :=
  PIC_SetIRQMask MOUSE_IRQ false s

def Mouse_BeforeNewVideoMode (h : Host) (s : State) : State :=
  let s1 : State :=
    if s.CurMode.type_is_M_TEXT = false then RestoreCursorBackground h s
    else RestoreCursorBackgroundText h s
  { s1 with mouse.hidden := 1, mouse.oldhidden := 1, mouse.background := false }

/-- The `switch (mode)` of `Mouse_AfterNewVideoMode`: the granularity and `max_y` for the
BIOS video mode, or `none` for a mode the driver does not handle. -/
def mode_geometry (h : Host) (mode : Nat) (s : State) : Option (Int × Int × Int) :=
  if mode = 0x00 ∨ mode = 0x01 ∨ mode = 0x02 ∨ mode = 0x03 ∨ mode = 0x07 then
    let rows0 : Nat :=
      if h.IS_EGAVGA_ARCH = true then real_readb s h.BIOSMEM_SEG h.BIOSMEM_NB_ROWS else 24
    let rows : Nat := if rows0 = 0 ∨ rows0 > 250 then 25 - 1 else rows0
    some (toBit16s (if mode < 2 then 0xfff0 else 0xfff8), toBit16s 0xfff8,
      toBit16s ((8 * (rows + 1) - 1 : Nat) : Int))
  else if mode = 0x04 ∨ mode = 0x05 ∨ mode = 0x06 ∨ mode = 0x08 ∨ mode = 0x09 ∨ mode = 0x0a ∨
      mode = 0x0d ∨ mode = 0x0e ∨ mode = 0x13 then
    some (if mode = 0x0d ∨ mode = 0x13 then toBit16s 0xfffe else toBit16s 0xffff,
      toBit16s 0xffff, 199)
  else if mode = 0x0f ∨ mode = 0x10 then some (toBit16s 0xffff, toBit16s 0xffff, 349)
  else if mode = 0x11 ∨ mode = 0x12 then some (toBit16s 0xffff, toBit16s 0xffff, 479)
  else none

def Mouse_AfterNewVideoMode (h : Host) (s : State) : State :=
  let mode : Nat := mem_readb s h.BIOS_VIDEO_MODE
  match mode_geometry h mode s with
  | none =>
    { s with
      mouse.inhibit_draw := true
      mouse.gran_x := toBit16s 0xffff
      mouse.gran_y := toBit16s 0xffff }
  | some g =>
    let s1 : State :=
      { s with
        mouse.inhibit_draw := false
        mouse.gran_x := g.1
        mouse.gran_y := g.2.1
        mouse.max_y := g.2.2
        mouse.mode := mode
        mouse.max_x := 639
        mouse.min_x := 0
        mouse.min_y := 0
        mouse.events := 0
        mouse.timer_in_progress := false }
    let s2 := call Call.PIC_RemoveEvents_MOUSE_Limit_Events s1
    { s2 with
      mouse.hotx := 0
      mouse.hoty := 0
      mouse.screenMask := MaskPtr.defaultMask
      mouse.cursorMask := MaskPtr.defaultMask
      mouse.textAndMask := defaultTextAndMask
      mouse.textXorMask := defaultTextXorMask
      mouse.language := 0
      mouse.page := 0
      mouse.doubleSpeedThreshold := 64
      mouse.updateRegion_y := Function.update s2.mouse.updateRegion_y 1 (-1)
      mouse.cursorType := 0
      mouse.enabled := true
      oldmouseX := float_to_Bit16s s2.mouse.x
      oldmouseY := float_to_Bit16s s2.mouse.y }

def Mouse_Reset (h : Host) (s : State) : State :=
  let s1 := Mouse_AfterNewVideoMode h (Mouse_BeforeNewVideoMode h s)
  let s2 := Mouse_SetMickeyPixelRate 8 16 s1
  { s2 with
    mouse.mickey_x := 0
    mouse.mickey_y := 0
    mouse.buttons := 0
    mouse.times_pressed := fun but => if but < MOUSE_BUTTONS then 0 else s2.mouse.times_pressed but
    mouse.times_released :=
      fun but => if but < MOUSE_BUTTONS then 0 else s2.mouse.times_released but
    mouse.last_pressed_x :=
      fun but => if but < MOUSE_BUTTONS then 0 else s2.mouse.last_pressed_x but
    mouse.last_pressed_y :=
      fun but => if but < MOUSE_BUTTONS then 0 else s2.mouse.last_pressed_y but
    mouse.last_released_x :=
      fun but => if but < MOUSE_BUTTONS then 0 else s2.mouse.last_released_x but
    mouse.last_released_y :=
      fun but => if but < MOUSE_BUTTONS then 0 else s2.mouse.last_released_y but
    mouse.x := ((Int.tdiv (s2.mouse.max_x + 1) 2 : Int) : ℚ)
    mouse.y := ((Int.tdiv (s2.mouse.max_y + 1) 2 : Int) : ℚ)
    mouse.sub_mask := 0
    mouse.in_UIR := false }

def Mouse_Used (s : State) : State :=
  if s.autolock_enabled = false then { Mouse_AutoLock true s with autolock_enabled := true }
  else s


/-! ### The INT 33h services -/

/-- The body shared by `case 0x00` (after `Mouse_ResetHardware`) and `case 0x21`. -/
def INT33_21 (h : Host) (s : State) : State :=
  Mouse_Used (Mouse_Reset h { s with reg.ax := 0xffff, reg.bx := MOUSE_BUTTONS })

/-- `case 0x01`: show mouse. -/
def INT33_01 (h : Host) (s : State) : State :=
  let s1 : State := if s.mouse.hidden ≠ 0 then { s with mouse.hidden := s.mouse.hidden - 1 } else s
  let s2 : State :=
    { s1 with mouse.updateRegion_y := Function.update s1.mouse.updateRegion_y 1 (-1) }
  let s3 := DrawCursor h s2
  if s3.mouse.hidden = 0 then Mouse_Used s3 else s3

/-- `case 0x02`: hide mouse. -/
def INT33_02 (h : Host) (s : State) : State :=
  let s1 : State :=
    if s.CurMode.type_is_M_TEXT = false then RestoreCursorBackground h s
    else RestoreCursorBackgroundText h s
  { s1 with mouse.hidden := (s1.mouse.hidden + 1) % 65536 }

/-- `case 0x03`: return position and button status. -/
def INT33_03 (s : State) : State :=
  Mouse_Used
    { s with
      reg.bx := s.mouse.buttons
      reg.cx := toBit16u (POS_X s)
      reg.dx := toBit16u (POS_Y s) }

/-- One axis of `case 0x04`: the requested coordinate `v` (a register value) against the
range and the current rounded position `pos`; `cur` is the current position. -/
def position_axis (v : Nat) (min max pos : Int) (cur : ℚ) : ℚ :=
  if toBit16s v ≥ max then (max : ℚ)
  else if min ≥ toBit16s v then (min : ℚ)
  else if toBit16s v ≠ pos then (v : ℚ)
  else cur

/-- `case 0x04`: position mouse. -/
def INT33_04 (h : Host) (s : State) : State :=
  let s1 : State :=
    { s with
      mouse.x := position_axis s.reg.cx s.mouse.min_x s.mouse.max_x (POS_X s) s.mouse.x }
  let s2 : State :=
    { s1 with
      mouse.y := position_axis s1.reg.dx s1.mouse.min_y s1.mouse.max_y (POS_Y s1) s1.mouse.y }
  DrawCursor h s2

/-- The button index used by `case 0x05` and `case 0x06`:
`if (but>=MOUSE_BUTTONS) but = MOUSE_BUTTONS - 1;`. -/
def button_index (bx : Nat) : Nat :=
  if bx ≥ MOUSE_BUTTONS then MOUSE_BUTTONS - 1 else bx

/-- `case 0x05`: return button press data. -/
def INT33_05 (s : State) : State :=
  let but := button_index s.reg.bx
  Mouse_Used
    { s with
      reg.ax := s.mouse.buttons
      reg.cx := s.mouse.last_pressed_x but
      reg.dx := s.mouse.last_pressed_y but
      reg.bx := s.mouse.times_pressed but
      mouse.times_pressed := Function.update s.mouse.times_pressed but 0 }

/-- `case 0x06`: return button release data. -/
def INT33_06 (s : State) : State :=
  let but := button_index s.reg.bx
  Mouse_Used
    { s with
      reg.ax := s.mouse.buttons
      reg.cx := s.mouse.last_released_x but
      reg.dx := s.mouse.last_released_y but
      reg.bx := s.mouse.times_released but
      mouse.times_released := Function.update s.mouse.times_released but 0 }

/-- The smaller of the two signed register values, as in `case 0x07` and `case 0x08`. -/
def range_min (cx dx : Nat) : Int :=
  if toBit16s cx < toBit16s dx then toBit16s cx else toBit16s dx

/-- The larger of the two signed register values, as in `case 0x07` and `case 0x08`. -/
def range_max (cx dx : Nat) : Int :=
  if toBit16s cx < toBit16s dx then toBit16s dx else toBit16s cx

/-- `case 0x07`: define horizontal cursor range. -/
def INT33_07 (s : State) : State :=
  let s1 : State :=
    { s with
      mouse.min_x := range_min s.reg.cx s.reg.dx
      mouse.max_x := range_max s.reg.cx s.reg.dx }
  { s1 with mouse.x := clamp s1.mouse.x s1.mouse.min_x s1.mouse.max_x }

/-- `case 0x08`: define vertical cursor range. -/
def INT33_08 (s : State) : State :=
  let s1 : State :=
    { s with
      mouse.min_y := range_min s.reg.cx s.reg.dx
      mouse.max_y := range_max s.reg.cx s.reg.dx }
  { s1 with mouse.y := clamp s1.mouse.y s1.mouse.min_y s1.mouse.max_y }

/-- The effect of `MEM_BlockRead(src, table, CURSORY*2)` on a table of `CURSORY` 16-bit
words, on a little-endian host. -/
def read_mask (s : State) (src : Nat) (table : Nat → Nat) : Nat → Nat :=
  fun i => if i < CURSORY then mem_readb s (src + 2 * i) + 256 * mem_readb s (src + 2 * i + 1)
    else table i

/-- `case 0x09`: define graphics cursor. -/
def INT33_09 (h : Host) (s : State) : State :=
  let src : Nat := SegPhys_es s + s.reg.dx
  DrawCursor h
    { s with
      userdefScreenMask := read_mask s src s.userdefScreenMask
      userdefCursorMask := read_mask s (src + CURSORY * 2) s.userdefCursorMask
      mouse.screenMask := MaskPtr.userdefMask
      mouse.cursorMask := MaskPtr.userdefMask
      mouse.hotx := toBit16s s.reg.bx
      mouse.hoty := toBit16s s.reg.cx
      mouse.cursorType := 2 }

/-- `case 0x0a`: define text cursor. -/
def INT33_0a (h : Host) (s : State) : State :=
  let s1 : State :=
    { s with
      mouse.cursorType := if s.reg.bx ≠ 0 then 1 else 0
      mouse.textAndMask := s.reg.cx
      mouse.textXorMask := s.reg.dx }
  let s2 : State :=
    if s1.reg.bx ≠ 0 then call (Call.INT10_SetCursorShape (s1.reg.cx % 256) (s1.reg.dx % 256)) s1
    else s1
  DrawCursor h s2

/-- `case 0x0b`: read motion data. -/
def INT33_0b (s : State) : State :=
  Mouse_Used
    { s with
      reg.cx := toBit16u (float_to_Bit16s s.mouse.mickey_x)
      reg.dx := toBit16u (float_to_Bit16s s.mouse.mickey_y)
      mouse.mickey_x := 0
      mouse.mickey_y := 0 }

/-- `case 0x27`: get masks and mickey counts; falls through into `case 0x0b`. -/
def INT33_27 (s : State) : State :=
  INT33_0b { s with reg.ax := s.mouse.textAndMask, reg.bx := s.mouse.textXorMask }

/-- `case 0x0c`: define interrupt subroutine parameters. -/
def INT33_0c (s : State) : State :=
  let s1 : State :=
    { s with mouse.sub_mask := s.reg.cx, mouse.sub_seg := s.reg.es, mouse.sub_ofs := s.reg.dx }
  if s1.mouse.sub_mask ≠ 0 then Mouse_Used s1 else s1

/-- `case 0x10`: define screen region for updating. -/
def INT33_10 (h : Host) (s : State) : State :=
  DrawCursor h
    { s with
      mouse.updateRegion_x :=
        Function.update (Function.update s.mouse.updateRegion_x 0 (toBit16s s.reg.cx)) 1
          (toBit16s s.reg.si)
      mouse.updateRegion_y :=
        Function.update (Function.update s.mouse.updateRegion_y 0 (toBit16s s.reg.dx)) 1
          (toBit16s s.reg.di) }

/-- `case 0x14`: exchange event handler. -/
def INT33_14 (s : State) : State :=
  { s with
    mouse.sub_mask := s.reg.cx
    mouse.sub_seg := s.reg.es
    mouse.sub_ofs := s.reg.dx
    reg.cx := s.mouse.sub_mask
    reg.dx := s.mouse.sub_ofs
    reg.es := s.mouse.sub_seg }

/-- `case 0x16`: save driver state, `MEM_BlockWrite(dest, &mouse, sizeof(mouse))`. -/
def INT33_16 (h : Host) (s : State) : State :=
  let dest : Nat := SegPhys_es s + s.reg.dx
  { s with
    mem := fun a =>
      if dest ≤ a ∧ a < dest + h.sizeof_mouse then h.mouse_image s.mouse (a - dest)
      else s.mem a }

/-- `case 0x17`: load driver state, `MEM_BlockRead(src, &mouse, sizeof(mouse))`. -/
def INT33_17 (h : Host) (s : State) : State :=
  let src : Nat := SegPhys_es s + s.reg.dx
  { s with mouse := h.mouse_of_image fun i => mem_readb s (src + i) }

/-- `case 0x1f`: disable mouse driver. -/
def INT33_1f (s : State) : State :=
  { s with
    reg.bx := 0
    reg.es := 0
    mouse.enabled := false
    mouse.oldhidden := s.mouse.hidden
    mouse.hidden := 1 }

/-- `case 0x2a`: get cursor hot spot. -/
def INT33_2a (s : State) : State :=
  { s with
    reg.ax := (s.reg.ax / 256) * 256 + toBit8u (-(s.mouse.hidden : Int))
    reg.bx := toBit16u s.mouse.hotx
    reg.cx := toBit16u s.mouse.hoty
    reg.dx := 0x04 }

/-- `case 0x31`: get current minimum and maximum virtual coordinates. -/
def INT33_31 (s : State) : State :=
  { s with
    reg.ax := toBit16u s.mouse.min_x
    reg.bx := toBit16u s.mouse.min_y
    reg.cx := toBit16u s.mouse.max_x
    reg.dx := toBit16u s.mouse.max_y }

/-- The `switch (reg_ax)` of `INT33_Handler`; the last branch is `default:`, which only
writes a log line. -/
def INT33_Handler (h : Host) (s : State) : State :=
  if s.reg.ax = 0x00 then INT33_21 h (Mouse_ResetHardware s)
  else if s.reg.ax = 0x21 then INT33_21 h s
  else if s.reg.ax = 0x01 then INT33_01 h s
  else if s.reg.ax = 0x02 then INT33_02 h s
  else if s.reg.ax = 0x03 then INT33_03 s
  else if s.reg.ax = 0x04 then INT33_04 h s
  else if s.reg.ax = 0x05 then INT33_05 s
  else if s.reg.ax = 0x06 then INT33_06 s
  else if s.reg.ax = 0x07 then INT33_07 s
  else if s.reg.ax = 0x08 then INT33_08 s
  else if s.reg.ax = 0x09 then INT33_09 h s
  else if s.reg.ax = 0x0a then INT33_0a h s
  else if s.reg.ax = 0x27 then INT33_27 s
  else if s.reg.ax = 0x0b then INT33_0b s
  else if s.reg.ax = 0x0c then INT33_0c s
  else if s.reg.ax = 0x0f then
    Mouse_SetMickeyPixelRate (toBit16s s.reg.cx) (toBit16s s.reg.dx) s
  else if s.reg.ax = 0x10 then INT33_10 h s
  else if s.reg.ax = 0x11 then { s with reg.ax := 0xffff, reg.bx := MOUSE_BUTTONS }
  else if s.reg.ax = 0x13 then
    { s with mouse.doubleSpeedThreshold := if s.reg.bx ≠ 0 then s.reg.bx else 64 }
  else if s.reg.ax = 0x14 then INT33_14 s
  else if s.reg.ax = 0x15 then { s with reg.bx := h.sizeof_mouse % 65536 }
  else if s.reg.ax = 0x16 then INT33_16 h s
  else if s.reg.ax = 0x17 then INT33_17 h s
  else if s.reg.ax = 0x1a then Mouse_SetSensitivity s.reg.bx s.reg.cx s.reg.dx s
  else if s.reg.ax = 0x1b then
    { s with
      reg.bx := s.mouse.senv_x_val
      reg.cx := s.mouse.senv_y_val
      reg.dx := s.mouse.dspeed_val }
  else if s.reg.ax = 0x1c then s
  else if s.reg.ax = 0x1d then { s with mouse.page := s.reg.bx % 256 }
  else if s.reg.ax = 0x1e then { s with reg.bx := s.mouse.page }
  else if s.reg.ax = 0x1f then INT33_1f s
  else if s.reg.ax = 0x20 then { s with mouse.enabled := true, mouse.hidden := s.mouse.oldhidden }
  else if s.reg.ax = 0x22 then { s with mouse.language := s.reg.bx }
  else if s.reg.ax = 0x23 then { s with reg.bx := s.mouse.language }
  else if s.reg.ax = 0x24 then { s with reg.bx := 0x805, reg.cx := 0x04 * 256 + 0 }
  else if s.reg.ax = 0x26 then
    { s with
      reg.bx := if s.mouse.enabled = true then 0x0000 else 0xffff
      reg.cx := toBit16u s.mouse.max_x
      reg.dx := toBit16u s.mouse.max_y }
  else if s.reg.ax = 0x2a then INT33_2a s
  else if s.reg.ax = 0x31 then INT33_31 s
  else s

/-- The selectors that have a `case` in `INT33_Handler`. -/
def implemented : List Nat :=
  [0x00, 0x21, 0x01, 0x02, 0x03, 0x04, 0x05, 0x06, 0x07, 0x08, 0x09, 0x0a, 0x27, 0x0b, 0x0c,
   0x0f, 0x10, 0x11, 0x13, 0x14, 0x15, 0x16, 0x17, 0x1a, 0x1b, 0x1c, 0x1d, 0x1e, 0x1f, 0x20,
   0x22, 0x23, 0x24, 0x26, 0x2a, 0x31]

/-! ### The IRQ 12 handlers -/

/-- The return path of `INT74_Handler` when nothing is called back: control goes to the
`int74_ret_callback` stub. -/
def jump_to_ret (h : Host) (s : State) : State :=
  { s with reg.cs := RealSeg h.int74_ret_callback, reg.ip := RealOff h.int74_ret_callback }

/-- The branch of `INT74_Handler` that calls the user routine with event `e`. -/
def call_user_routine (h : Host) (e : button_event) (s : State) : State :=
  let s1 : State :=
    { s with
      reg.ax := e.type
      reg.bx := e.buttons
      reg.cx := toBit16u (POS_X s)
      reg.dx := toBit16u (POS_Y s)
      reg.si := toBit16u (float_to_Bit16s s.mouse.mickey_x)
      reg.di := toBit16u (float_to_Bit16s s.mouse.mickey_y) }
  let s2 := CPU_Push16 (RealSeg h.int74_ret_callback) s1
  let s3 := CPU_Push16 (RealOff h.int74_ret_callback + 7) s2
  let s4 := CPU_Push16 (RealSeg h.uir_callback) s3
  let s5 := CPU_Push16 (RealOff h.uir_callback) s4
  let s6 := CPU_Push16 s5.mouse.sub_seg s5
  let s7 := CPU_Push16 s6.mouse.sub_ofs s6
  { s7 with mouse.in_UIR := true }

def INT74_Handler (h : Host) (s : State) : State :=
  if s.mouse.events > 0 ∧ s.mouse.in_UIR = false then
    let s1 : State := { s with mouse.events := s.mouse.events - 1 }
    let e := s1.mouse.event_queue s1.mouse.events
    if s1.mouse.sub_mask &&& e.type ≠ 0 then call_user_routine h e s1
    else if s1.useps2callback = true then
      let s2 := CPU_Push16 (RealSeg h.int74_ret_callback) s1
      let s3 := CPU_Push16 (RealOff h.int74_ret_callback) s2
      DoPS2Callback h e.buttons (float_to_Bit16s s3.mouse.x) (float_to_Bit16s s3.mouse.y) s3
    else jump_to_ret h s1
  else jump_to_ret h s

def INT74_Ret_Handler (s : State) : State :=
  if s.mouse.events ≠ 0 ∧ s.mouse.timer_in_progress = false then
    call (Call.PIC_AddEvent_MOUSE_Limit_Events MOUSE_DELAY)
      { s with mouse.timer_in_progress := true }
  else s

def UIR_Handler (s : State) : State :=
  { s with mouse.in_UIR := false }

/-! ### Start-up -/

/-- The structure `mouse` after `memset(&mouse,0,sizeof(mouse))`. -/
def mouse_zero : mouse_struct where
  buttons := 0
  times_pressed := fun _ => 0
  times_released := fun _ => 0
  last_released_x := fun _ => 0
  last_released_y := fun _ => 0
  last_pressed_x := fun _ => 0
  last_pressed_y := fun _ => 0
  hidden := 0
  add_x := 0
  add_y := 0
  min_x := 0
  max_x := 0
  min_y := 0
  max_y := 0
  mickey_x := 0
  mickey_y := 0
  x := 0
  y := 0
  event_queue := fun _ => { type := 0, buttons := 0 }
  events := 0
  sub_seg := 0
  sub_ofs := 0
  sub_mask := 0
  background := false
  backposx := 0
  backposy := 0
  backData := fun _ => 0
  screenMask := MaskPtr.null
  cursorMask := MaskPtr.null
  clipx := 0
  clipy := 0
  hotx := 0
  hoty := 0
  textAndMask := 0
  textXorMask := 0
  mickeysPerPixel_x := 0
  mickeysPerPixel_y := 0
  pixelPerMickey_x := 0
  pixelPerMickey_y := 0
  senv_x_val := 0
  senv_y_val := 0
  dspeed_val := 0
  senv_x := 0
  senv_y := 0
  updateRegion_x := fun _ => 0
  updateRegion_y := fun _ => 0
  doubleSpeedThreshold := 0
  language := 0
  cursorType := 0
  oldhidden := 0
  page := 0
  enabled := false
  inhibit_draw := false
  timer_in_progress := false
  in_UIR := false
  mode := 0
  gran_x := 0
  gran_y := 0

/-- The part of `MOUSE_Init` that acts on the driver's variables; the allocation of the
callbacks is represented by the `Host`. -/
def MOUSE_Init (h : Host) (s : State) : State :=
  let s1 : State :=
    { s with
      useps2callback := false
      ps2callbackinit := false
      mouse :=
        { mouse_zero with
          hidden := 1
          timer_in_progress := false
          mode := 0xFF
          sub_mask := 0
          sub_seg := 0x6362
          sub_ofs := 0 } }
  Mouse_SetSensitivity 50 50 50 (Mouse_Reset h (Mouse_ResetHardware s1))


/-! ### States and sequences used in the statements -/

/-- A sample host: a VGA machine with the usual offsets of the BIOS data area, a video
BIOS that keeps the current mode, ports that read 0 and an empty image of `mouse`. -/
def vga_host : Host where
  BIOSMEM_SEG := 0x40
  BIOSMEM_CURRENT_PAGE := 0x62
  BIOSMEM_NB_COLS := 0x4A
  BIOSMEM_NB_ROWS := 0x84
  BIOSMEM_PAGE_SIZE := 0x4C
  BIOSMEM_CRTC_ADDRESS := 0x63
  BIOS_VIDEO_MODE := 0x449
  IS_VGA_ARCH := true
  IS_EGAVGA_ARCH := true
  machine_is_MCH_EGA := false
  C_DBP_LIBRETRO := true
  sizeof_mouse := 0
  mouse_image := fun _ _ => 0
  mouse_of_image := fun _ => mouse_zero
  INT10_SetCurMode := fun m _ => m
  IO_Read := fun _ _ => 0
  int74_ret_callback := 0xF0001000
  uir_callback := 0xF0001100
  ps2_callback := 0xF0001200

/-- The machine before `MOUSE_Init`: zero-initialised statics, text mode 3 with 80 columns
and 25 rows in the BIOS data area, cleared registers and an empty screen. -/
def blank : State where
  mouse := mouse_zero
  ps2cbseg := 0
  ps2cbofs := 0
  useps2callback := false
  ps2callbackinit := false
  oldmouseX := 0
  oldmouseY := 0
  userdefScreenMask := fun _ => 0
  userdefCursorMask := fun _ => 0
  mouse_vmware_x := 0
  mouse_vmware_y := 0
  mouse_vmware_updated := false
  gfxReg3CE := fun _ => 0
  index3C4 := 0
  gfxReg3C5 := 0
  autolock_enabled := false
  reg := { ax := 0, bx := 0, cx := 0, dx := 0, si := 0, di := 0, ip := 0, es := 0, cs := 0 }
  stack := []
  mem := fun a => if a = 0x449 then 3 else if a = 0x44A then 80 else if a = 0x484 then 24 else 0
  CurMode := { type_is_M_TEXT := true, swidth := 720, sheight := 400 }
  pixels := fun _ _ _ => 0
  cells := fun _ _ _ => 0
  calls := []

/-- The state that `MOUSE_Init` leaves on the sample machine. -/
def power_on : State :=
  MOUSE_Init vga_host blank

/-- The state after `Mouse_AddEvent (ty 0)`, ..., `Mouse_AddEvent (ty (n - 1))`, in this
order, with no other call in between. -/
def insert_seq (ty : Nat → Nat) : Nat → State → State
  | 0, s => s
  | n + 1, s => Mouse_AddEvent (ty n) (insert_seq ty n s)

/-- The state with everything that only the cursor drawing routines write set to a fixed
value: two states with the same image differ at most in the drawn cursor, the saved
background, the clip range, the screen, the current video mode, the saved VGA registers
and the log of calls. -/
def erase_drawing (s : State) : State :=
  { s with
    mouse.background := false
    mouse.backposx := 0
    mouse.backposy := 0
    mouse.backData := fun _ => 0
    mouse.clipx := 0
    mouse.clipy := 0
    gfxReg3CE := fun _ => 0
    index3C4 := 0
    gfxReg3C5 := 0
    CurMode := { type_is_M_TEXT := false, swidth := 0, sheight := 0 }
    pixels := fun _ _ _ => 0
    cells := fun _ _ _ => 0
    calls := [] }

/-- The state with everything that `Mouse_AddEvent` writes set to a fixed value: the
queue, its count, the timer flag, the VMware flag and the log of calls. -/
def erase_queue (s : State) : State :=
  { s with
    mouse.event_queue := fun _ => { type := 0, buttons := 0 }
    mouse.events := 0
    mouse.timer_in_progress := false
    mouse_vmware_updated := false
    calls := [] }

/-- The coefficient of the specification, `(v - 1)² / 3600 + 1/3` for a user value `v`. -/
def sensitivity_formula (v : ℚ) : ℚ :=
  (v - 1) ^ 2 / 3600 + 1 / 3

/-- The power-on state with the PS/2 BIOS callback in use. -/
def ps2_on : State :=
  { power_on with useps2callback := true }

/-- The power-on state with a user routine installed for every event type. -/
def with_routine : State :=
  { power_on with mouse.sub_mask := 0x7f }

/-- A press of the left button on the power-on state with a user routine installed. -/
def one_press : State :=
  Mouse_ButtonPressed 0 with_routine

/-- A press of the left button followed by a press of the right button. -/
def two_presses : State :=
  Mouse_ButtonPressed 1 one_press

/-- Alternating press and release events of the left button. -/
def press_release (k : Nat) : Nat :=
  if k % 2 = 0 then MOUSE_LEFT_PRESSED else MOUSE_LEFT_RELEASED

/-- A call of INT 33h with the selector `0x0d`, which the driver does not implement. -/
def light_pen_call : State :=
  { power_on with reg.ax := 0x0d, reg.bx := 7, reg.cx := 11, reg.dx := 13 }

/-- The power-on state after the horizontal range was set to -100 .. 100 with function 7
(`CX = 0xFF9C`, `DX = 100`). -/
def ranged : State :=
  INT33_Handler vga_host { power_on with reg.ax := 0x07, reg.cx := 0xFF9C, reg.dx := 100 }

/-- A call of function 4 on `ranged` that asks for the position (-1, 50). -/
def position_call : State :=
  { ranged with reg.ax := 0x04, reg.cx := 0xFFFF, reg.dx := 50 }

/-- The power-on state in a 320x200 graphics mode. -/
def gfx_on : State :=
  { power_on with CurMode := { type_is_M_TEXT := false, swidth := 320, sheight := 200 } }

/-- The test `(max_x < 2048) || (max_y < 2048) || (max_x != max_y)` of
`Mouse_CursorMoved`. -/
def small_range (s : State) : Prop :=
  s.mouse.max_x < 2048 ∨ s.mouse.max_y < 2048 ∨ s.mouse.max_x ≠ s.mouse.max_y

instance (s : State) : Decidable (small_range s) := by
  unfold small_range
  infer_instance

/-- The relative step of `Mouse_CursorMoved` on the x axis: the scaled delta in the
libretro build, the raw one otherwise. -/
def rel_x (h : Host) (xrel : ℚ) (s : State) : ℚ :=
  if h.C_DBP_LIBRETRO = true then scaled_delta xrel s.mouse.pixelPerMickey_x s.mouse.senv_x
  else xrel

/-- The relative step of `Mouse_CursorMoved` on the y axis; in PS/2 mode the scaled delta
is doubled. -/
def rel_y (h : Host) (yrel : ℚ) (s : State) : ℚ :=
  if h.C_DBP_LIBRETRO = true then
    (if s.useps2callback = true then
      scaled_delta yrel s.mouse.pixelPerMickey_y s.mouse.senv_y * 2
     else scaled_delta yrel s.mouse.pixelPerMickey_y s.mouse.senv_y)
  else yrel

/-- The bit of button `b` in `mouse.buttons`. -/
def button_bit (b : Nat) : Nat :=
  1 <<< b

/-- The event type of a press of button `b`. -/
def press_type (b : Nat) : Nat :=
  if b = 0 then MOUSE_LEFT_PRESSED else if b = 1 then MOUSE_RIGHT_PRESSED
  else MOUSE_MIDDLE_PRESSED

/-- The event type of a release of button `b`. -/
def release_type (b : Nat) : Nat :=
  if b = 0 then MOUSE_LEFT_RELEASED else if b = 1 then MOUSE_RIGHT_RELEASED
  else MOUSE_MIDDLE_RELEASED

/-- The power-on state in PS/2 mode with the old position at the largest `Bit16s`. -/
def ps2_far : State :=
  { ps2_on with oldmouseX := 32767, oldmouseY := 0 }

/-- The entry points through which the guest and the emulator reach the driver.  `INT33`
carries the registers the guest has loaded, the interface functions carry their
arguments. -/
inductive Entry where
  | INT33 (r : Regs)
  | INT74
  | INT74_Ret
  | UIR
  | PS2
  | Limit_Events
  | CursorMoved (xrel yrel x y : ℚ) (emulate : Bool)
  | CursorSet (x y : ℚ)
  | ButtonPressed (button : Nat)
  | ButtonReleased (button : Nat)
  | SetPS2State (use : Bool)
  | ChangePS2Callback (pseg pofs : Nat)
  | BeforeNewVideoMode
  | AfterNewVideoMode

/-- The driver after one entry. -/
def enter (h : Host) (s : State) : Entry → State
  | Entry.INT33 r => INT33_Handler h { s with reg := r }
  | Entry.INT74 => INT74_Handler h s
  | Entry.INT74_Ret => INT74_Ret_Handler s
  | Entry.UIR => UIR_Handler s
  | Entry.PS2 => PS2_Handler s
  | Entry.Limit_Events => MOUSE_Limit_Events s
  | Entry.CursorMoved xrel yrel x y emulate => Mouse_CursorMoved h xrel yrel x y emulate s
  | Entry.CursorSet x y => Mouse_CursorSet h x y s
  | Entry.ButtonPressed button => Mouse_ButtonPressed button s
  | Entry.ButtonReleased button => Mouse_ButtonReleased button s
  | Entry.SetPS2State use => (Mouse_SetPS2State use s).1
  | Entry.ChangePS2Callback pseg pofs => Mouse_ChangePS2Callback pseg pofs s
  | Entry.BeforeNewVideoMode => Mouse_BeforeNewVideoMode h s
  | Entry.AfterNewVideoMode => Mouse_AfterNewVideoMode h s

/-- The entries that write `in_UIR` without being the interrupt: the return stub of the
user routine, the two resets of INT 33h, and the load of the driver state (function
`0x17`), which overwrites all of `mouse` from guest memory. -/
def releases : Entry → Prop
  | Entry.UIR => True
  | Entry.INT33 r => r.ax = 0x00 ∨ r.ax = 0x21 ∨ r.ax = 0x17
  | _ => False

/-- The interrupt at state `s` calls the user routine. -/
def dispatches (s : State) : Prop :=
  0 < s.mouse.events ∧ s.mouse.in_UIR = false ∧
    s.mouse.sub_mask &&& (s.mouse.event_queue (s.mouse.events - 1)).type ≠ 0

instance (s : State) : Decidable (dispatches s) := by
  unfold dispatches
  infer_instance

/-- The number of calls of the user routine made along a sequence of entries. -/
def dispatch_count (h : Host) : List Entry → State → Nat
  | [], _ => 0
  | Entry.INT74 :: es, s =>
      (if dispatches s then 1 else 0) + dispatch_count h es (INT74_Handler h s)
  | e :: es, s => dispatch_count h es (enter h s e)

/-- The state in which the user routine has been called for the press of `one_press`:
the guard is set. -/
def in_routine : State :=
  INT74_Handler vga_host one_press

/-- The registers of a call of function `0x17` with `ES:DX = 1000:0000`. -/
def load_state_regs : Regs :=
  { ax := 0x17, bx := 0, cx := 0, dx := 0, si := 0, di := 0, ip := 0, es := 0x1000, cs := 0 }

/-- The three cursor loops with `dataPos` in closed form: row `j` and column `k` of the
clipped area are the pixel `(x1 + k, y1 + j)` and use the index
`16 * (addy + j) + addx1 + k` of `backData`. -/
def grid {α : Type} (c : Clip) (row : Int → α → α) (body : Int → Int → Nat → α → α)
    (init : α) : α :=
  (List.range (c.y2 + 1 - c.y1).toNat).foldl
    (fun a (j : Nat) =>
      (List.range (c.x2 + 1 - c.x1).toNat).foldl
        (fun a (k : Nat) => body (c.x1 + (k : Int)) (c.y1 + (j : Int))
          (16 * (c.addy + j) + c.addx1 + k) a)
        (row (c.y1 + (j : Int)) a))
    init

/-- A clipped area that is empty, or all of whose rows hold the 16 columns of the cursor
block between the two offsets and whose rows with the top offset are at most 16. -/
def regular (c : Clip) : Prop :=
  ((c.y2 + 1 - c.y1).toNat = 0 ∨ (c.x2 + 1 - c.x1).toNat = 0) ∨
  (c.addy + (c.y2 + 1 - c.y1).toNat ≤ 16 ∧ c.addx1 + (c.x2 + 1 - c.x1).toNat + c.addx2 = 16)

/-- The clipped area of the saved background that `RestoreCursorBackground` writes back. -/
def restore_area (s : State) : Clip :=
  ClipCursorArea s s.mouse.backposx (toBit16s (s.mouse.backposx + CURSORX - 1))
    s.mouse.backposy (toBit16s (s.mouse.backposy + CURSORY - 1))

/-- The screen position of row `j`, column `k` of the clipped area `c`, as the video BIOS
sees it. -/
def pixel_key (c : Clip) (page j k : Nat) : Nat × Nat × Nat :=
  (toBit16u (c.x1 + (k : Int)), toBit16u (c.y1 + (j : Int)), page)

/-- The index of `backData` for row `j`, column `k` of the clipped area `c`. -/
def data_index (c : Clip) (j k : Nat) : Nat :=
  16 * (c.addy + j) + c.addx1 + k

/-- A regular area on the screen: its coordinates are not negative and fit a `Bit16s`. -/
def on_screen (c : Clip) : Prop :=
  regular c ∧ 0 ≤ c.x1 ∧ 0 ≤ c.y1 ∧ c.x2 ≤ 32767 ∧ c.y2 ≤ 32767

/-- The pixel map as a function of the position. -/
def pixel_at (px : Nat → Nat → Nat → Nat) (q : Nat × Nat × Nat) : Nat :=
  px q.1 q.2.1 q.2.2

/-- The store of one pixel at a position. -/
def put_pixel (q : Nat × Nat × Nat) (v : Nat) (px : Nat → Nat → Nat → Nat) :
    Nat → Nat → Nat → Nat :=
  fun a b c => if (a, b, c) = q then v else px a b c

/-- The pixel that the drawing loop writes in a column, from the masks of the row as
they are at the start of the row, the number `k` of columns already drawn in the row, and
the saved background `b`. -/
def mask_pixel (sc cu k b : Nat) : Nat :=
  let pixel0 : Nat := if (sc <<< k) % 65536 &&& HIGHESTBIT ≠ 0 then b else 0
  if (cu <<< k) % 65536 &&& HIGHESTBIT ≠ 0 then pixel0 ^^^ 0x0F else pixel0

/-- The state with the saved VGA registers and the log of calls set to a fixed value. -/
def erase_vga (s : State) : State :=
  { s with gfxReg3CE := fun _ => 0, index3C4 := 0, gfxReg3C5 := 0, calls := [] }

/-- The values of `dataPos` at which the body of a cursor loop over the area `c` runs, in
the order of the loop: the indices of `backData` that the loop reads or writes. -/
def data_positions (c : Clip) : List Nat :=
  (cursor_loop c (fun _ (a : List Nat) => a) (fun _ _ dataPos a => a ++ [dataPos]) []).1

/-- The state in which `DrawCursor` saves the background in a graphics mode: the video
mode is refreshed, the clip range set, the old cursor taken off the screen and the VGA
registers saved. -/
def cleared (h : Host) (s : State) : State :=
  SaveVgaRegisters h (RestoreCursorBackground h
    (set_clip { s with CurMode := h.INT10_SetCurMode s.CurMode s.mem }))

/-- The power-on state in a 320x200 graphics mode with a patterned screen, the cursor
shown at the top left corner and the hot spot at (3, 2): the block is clipped on the left
and at the top. -/
def gfx_corner : State :=
  { gfx_on with
    mouse.hidden := 0
    mouse.x := 0
    mouse.y := 0
    mouse.hotx := 3
    mouse.hoty := 2
    pixels := fun x y _ => (x + 2 * y + 1) % 256 }

/-- The loop `for (v=a; v<=b; v++) body` as the source has it: the counter is a `Bit16s`,
so `v++` on 32767 gives -32768 and with `b = 32767` the test `v<=b` never fails.  `fuel`
bounds the number of tests `v<=b`; the second component tells whether the loop has ended
within the bound.  A body that has not ended (an inner loop) keeps the loop from ending. -/
def for_rounds {σ : Type} (b : Int) (body : Int → σ → σ × Bool) : Nat → Int → σ → σ × Bool
  | 0, _, st => (st, false)
  | fuel + 1, v, st =>
    if v ≤ b then
      if (body v st).2 = true then for_rounds b body fuel (toBit16s (v + 1)) (body v st).1
      else ((body v st).1, false)
    else (st, true)

/-- The three cursor loops with the counters of the source:
`for (y=y1; y<=y2; y++) { dataPos += addx1; for (x=x1; x<=x2; x++) { body; dataPos++; }
dataPos += addx2; }`, `x` and `y` being `Bit16s` and `dataPos` a `Bit16u`.  The result is
what `cursor_loop` gives whenever both loops end (see `cursor_rounds_eq`). -/
def cursor_rounds {α : Type} (c : Clip) (row : Int → α → α)
    (body : Int → Int → Nat → α → α) (fuel : Nat) (init : α) : (α × Nat) × Bool :=
  for_rounds c.y2
    (fun y acc =>
      let r := for_rounds c.x2
        (fun x a => ((body x y a.2 a.1, (a.2 + 1) % 65536), true))
        fuel c.x1 (row y acc.1, (acc.2 + c.addx1) % 65536)
      if r.2 = true then ((r.1.1, (r.1.2 + c.addx2) % 65536), true) else (r.1, false))
    fuel c.y1 (init, (c.addy * CURSORX) % 65536)

/-- The values of `dataPos` at which the body of a cursor loop over the area `c` runs
within `fuel` rounds, with the counters of the source. -/
def rounds_positions (c : Clip) (fuel : Nat) : List Nat :=
  (cursor_rounds c (fun _ (a : List Nat) => a) (fun _ _ dataPos a => a ++ [dataPos]) fuel
    []).1.1

/-- A driver state as INT 33h function 17h can load it: the cursor shown, a saved
background at column 32752 and the right clip bound at 32767. -/
def clip_max : State :=
  { gfx_on with
    mouse.hidden := 0
    mouse.background := true
    mouse.backposx := 32752
    mouse.backposy := 0
    mouse.clipx := 32767
    mouse.clipy := 199 }

end Mouse

/-!
# Path normalisation: embedding of `Cross::NormalizePath` in `src/misc/cross.cpp`

The text of the `std::string` is a list of characters; the buffer behind it ends with a
`'\0'`.  The build is the non-Windows one: `CROSS_FILESPLIT` is `'/'` and the branch for
network paths is absent.
-/

namespace Cross

/-! ### `Cross::NormalizePath` (non-Windows build) -/

/-- The path separator of the build, `'/'`. -/
def CROSS_FILESPLIT : Char := '/'

/-- The character `'\0'`. -/
def NUL : Char := Char.ofNat 0

/-- The backslash character. -/
def BACKSLASH : Char := Char.ofNat 92

/-- The character `src[i]` of the text that is still to be read.  The buffer of a
`std::string` ends with a `'\0'`, which is what a read at the end of the list gives. -/
def peek (src : List Char) (i : Nat) : Char :=
  src.getD i NUL

/-- The statement `str.resize(dst - (dst > root && dst[-1] == CROSS_FILESPLIT) - path)`.
The list `out` holds the characters `path[0] .. dst[-1]` written so far, last one first. -/
def finish (root : Nat) (out : List Char) : List Char :=
  if out.length > root ∧ out.head? = some CROSS_FILESPLIT then out.tail.reverse
  else out.reverse

/-- The loop `for (dst--; dst[-1] != CROSS_FILESPLIT;) { if (--dst == root) break; }`,
entered with the list after `dst--`.  A read of `dst[-1]` with `dst == path` is a read
before the buffer and gives `none`. -/
def pop_loop (root : Nat) : List Char → Option (List Char)
  | [] => none
  | x :: out =>
    if x = CROSS_FILESPLIT then some (x :: out)
    else if out.length = root then some out
    else pop_loop root out

/-- The loop `for (...;;)` of `NormalizePath`, with a bound on the number of rounds.  `src`
is the text from the read pointer on, `out` the text written so far, last character
first, and `root` the offset `root - path`.  The text is rewritten in place; every round
reads at least one character and writes at most one, so the write pointer never passes
the read pointer and the text still to be read is the one of the input. -/
def loop (root : Nat) : Nat → List Char → List Char → Option (List Char)
  | 0, _, _ => none
  | fuel + 1, src, out =>
    let c := peek src 0
    let src1 := src.tail
    if c ≠ '.' then
      if c = NUL then some (finish root out)
      else if c ≠ '/' ∧ c ≠ BACKSLASH then loop root fuel src1 (c :: out)
      else if out.length ≠ root ∧ ¬ (out.length > 0 ∧ out.head? = some CROSS_FILESPLIT) then
        loop root fuel src1 (CROSS_FILESPLIT :: out)
      else loop root fuel src1 out
    else if (out.length = 0 ∨ out.head? = some CROSS_FILESPLIT) ∧
        (peek src1 0 = '/' ∨ peek src1 0 = BACKSLASH ∨ peek src1 0 = NUL) then
      loop root fuel (src1.drop (0 + if peek src1 0 ≠ NUL then 1 else 0)) out
    else if out.length = 0 ∨ out.head? ≠ some CROSS_FILESPLIT ∨ peek src1 0 ≠ '.' ∨
        (peek src1 1 ≠ '/' ∧ peek src1 1 ≠ BACKSLASH ∧ peek src1 1 ≠ NUL) ∨
        (out.length ≥ 3 ∧ out.get? 1 = some '.' ∧ out.get? 2 = some '.' ∧
          (out.length = 3 ∨ out.get? 3 = some CROSS_FILESPLIT)) then
      loop root fuel src1 ('.' :: out)
    else
      let src2 := src1.drop (1 + if peek src1 1 ≠ NUL then 1 else 0)
      if out.length > root then
        (pop_loop root out.tail).bind fun out2 => loop root fuel src2 out2
      else loop root fuel src2 out

/-- `Cross::NormalizePath` on the characters of `str`.  The result is `none` if the code
reads before the buffer or the bound on the rounds, one more than the length of the
text, is used up. -/
def NormalizePath (str : List Char) : Option (List Char) :=
  if peek str 0 = NUL then some str
  else
    loop (if peek str 0 = '/' ∨ peek str 0 = BACKSLASH then 1 else 0) (str.length + 1) str []

/-- The components of a path: the pieces between the separators, the leading separator
of an absolute path apart.  The empty path and the root have no component. -/
def components (r : List Char) : List (List Char) :=
  if (if r.head? = some '/' then r.tail else r) = [] then []
  else (if r.head? = some '/' then r.tail else r).splitOn '/'

/-- The component `..`. -/
def dotdot : List Char := ['.', '.']

/-- A normalized path: no backslash, no empty component (no repeated separator), no `.`
component, no trailing separator unless the path is the root, no `..` component in an
absolute path, and in a relative path no `..` component after the leading run of `..`
components. -/
def normalized (r : List Char) : Prop :=
  BACKSLASH ∉ r ∧ [] ∉ components r ∧ ['.'] ∉ components r ∧
  (r.getLast? = some '/' → r = ['/']) ∧
  (r.head? = some '/' → dotdot ∉ components r) ∧
  dotdot ∉ (components r).dropWhile (fun c => decide (c = dotdot))

instance (r : List Char) : Decidable (normalized r) := by
  unfold normalized
  infer_instance

/-- A character that the loop copies as it is when it is not a dot: no separator and not
the end of the text. -/
def plain (c : Char) : Prop :=
  c ≠ '/' ∧ c ≠ BACKSLASH ∧ c ≠ NUL

/-- A character that ends a component: a separator or the end of the text. -/
def ends (c : Char) : Prop :=
  c = '/' ∨ c = BACKSLASH ∨ c = NUL

/-- The test `dst >= path + 3 && dst[-2] == '.' && dst[-3] == '.' && (dst == path + 3 ||
dst[-4] == CROSS_FILESPLIT)` of the loop: the text written so far ends with a `..`
component and a separator, if it ends with a separator. -/
def after_dotdot (out : List Char) : Prop :=
  out.length ≥ 3 ∧ out.get? 1 = some '.' ∧ out.get? 2 = some '.' ∧
    (out.length = 3 ∨ out.get? 3 = some CROSS_FILESPLIT)

/-- The loop started on `src` and `out` returns `r` within any bound above the length of
`src`. -/
def Reach (root : Nat) (src out r : List Char) : Prop :=
  ∀ fuel, src.length < fuel → loop root fuel src out = some r

/-- The text written so far when the components of `stack` (last one first, each with
its last character first) are complete: `root` separators, then every component followed
by a separator. -/
def render (root : Nat) : List (List Char) → List Char
  | [] => List.replicate root CROSS_FILESPLIT
  | c :: cs => CROSS_FILESPLIT :: (c ++ render root cs)

/-- The components that the loop leaves in the text: not empty, made of plain characters,
not `.`, and `..` only in a relative path on top of `..` components only. -/
def good (root : Nat) : List (List Char) → Prop
  | [] => True
  | c :: cs => (c ≠ [] ∧ (∀ x ∈ c, plain x) ∧ c ≠ ['.'] ∧
      (c = dotdot → root = 0 ∧ ∀ d ∈ cs, d = dotdot)) ∧ good root cs

/-- The components of `stack` in the order of the text, each with its first character
first. -/
def forward (stack : List (List Char)) : List (List Char) :=
  stack.reverse.map List.reverse

end Cross

namespace Disney

/-! ## DISNEY_enable -/

/-- C1: on a device whose mixer channel is installed, `DISNEY_enable f` leaves the
device Running (having set the channel to `f` Hz and enabled it) when
`500 ≤ f ≤ 100000`, and otherwise Idle with no other field changed. -/
theorem DISNEY_enable_range (s : DisneyState) (f : Nat) (hchan : s.chan = true) :
    (500 ≤ f ∧ f ≤ 100000 →
      (DISNEY_enable f s).state = DS_RUNNING ∧
      DISNEY_enable f s =
        { s with calls := s.calls ++ [Call.SetFreq f, Call.Enable true], state := DS_RUNNING }) ∧
    (¬ (500 ≤ f ∧ f ≤ 100000) →
      (DISNEY_enable f s).state = DS_IDLE ∧
      DISNEY_enable f s = { s with state := DS_IDLE }) := by
  constructor
  · rintro ⟨h1, h2⟩
    have hno : ¬ (f < 500 ∨ f > 100000) := by omega
    simp [DISNEY_enable, hchan, hno]
  · intro h
    have hyes : f < 500 ∨ f > 100000 := by omega
    simp [DISNEY_enable, hchan, hyes]

/-- Instance of C1 on the installed power-on state: 7000 Hz is accepted, 7 Hz rejected. -/
theorem DISNEY_enable_range_witness :
    (DISNEY_enable 7000 DISNEY_installed).state = DS_RUNNING ∧
    (DISNEY_enable 7 DISNEY_installed).state = DS_IDLE :=
  ⟨((DISNEY_enable_range DISNEY_installed 7000 rfl).1 (by decide)).1,
   ((DISNEY_enable_range DISNEY_installed 7 rfl).2 (by decide)).1⟩

/-! ## DISNEY_disable -/

/-- C8: `DISNEY_disable` is idempotent: a second call returns the state of the first
unchanged, and in particular adds no call on the mixer. -/
theorem DISNEY_disable_idempotent (s : DisneyState) :
    DISNEY_disable (DISNEY_disable s) = DISNEY_disable s ∧
    (DISNEY_disable (DISNEY_disable s)).calls = (DISNEY_disable s).calls := by
  have h : DISNEY_disable (DISNEY_disable s) = DISNEY_disable s := by
    by_cases hc : s.chan = false
    · simp [DISNEY_disable, hc]
    · have hc1 : s.chan = true := by simpa using hc
      by_cases hm : s.mo = true <;> simp [DISNEY_disable, hc1, hm]
  exact ⟨h, by rw [h]⟩

/-- C9, as the code has it: with the channel handle set, `DISNEY_disable` leaves the
device Idle with both pattern counters and `last_used` zero, `stereo` false, `leader`
unset and the handle cleared; with the handle unset it changes nothing. -/
theorem DISNEY_disable_resets (s : DisneyState) :
    (s.chan = true →
      (DISNEY_disable s).state = DS_IDLE ∧
      (DISNEY_disable s).interface_det = 0 ∧
      (DISNEY_disable s).interface_det_ext = 0 ∧
      (DISNEY_disable s).last_used = 0 ∧
      (DISNEY_disable s).stereo = false ∧
      (DISNEY_disable s).leader = none ∧
      (DISNEY_disable s).chan = false) ∧
    (s.chan = false → DISNEY_disable s = s) := by
  constructor
  · intro hc
    by_cases hm : s.mo = true <;> simp [DISNEY_disable, hc, hm]
  · intro hc
    simp [DISNEY_disable, hc]

/-- Instance of the amended C9: the installed power-on state is reset, the power-on
state itself (handle unset) is left alone. -/
theorem DISNEY_disable_resets_witness :
    (DISNEY_disable DISNEY_installed).state = DS_IDLE ∧
    DISNEY_disable DISNEY_init = DISNEY_init :=
  ⟨((DISNEY_disable_resets DISNEY_installed).1 rfl).1,
   (DISNEY_disable_resets DISNEY_init).2 rfl⟩

/-- C9 fails as stated: after the constructor and 40 data-port writes the device is in
Finishing with a non-zero write counter and a leader; `DISNEY_disable` (handle unset)
returns at once and leaves all of that in place. -/
theorem DISNEY_disable_unset_handle_counterexample :
    (DISNEY_disable (run 64 (data_stream 40 (1 / 10)) DISNEY_init)).state = DS_FINISH ∧
    (DISNEY_disable (run 64 (data_stream 40 (1 / 10)) DISNEY_init)).interface_det = 40 ∧
    (DISNEY_disable (run 64 (data_stream 40 (1 / 10)) DISNEY_init)).leader = some 0 := by
  decide!

/-! ## Detection scenarios -/

/-- C2 on the code: from the state the constructor leaves, 40 data-port writes 0.1
apart take the device through Idle (writes 1-5) and Analyzing (6-36) into Finishing
(write 37) and no further.  The constructor's `DISNEY_disable(0)` has cleared
`disney.chan`, so `DISNEY_enable(10000)` returns at once: the device is never Running
and the mixer channel is never given a rate.  The list is the state after 0, 1, ..., 40
writes; both word sizes behave alike. -/
theorem data_stream_after_ctor_stays_finishing :
    (List.range 41).map (fun n => (run 64 (data_stream n (1 / 10)) DISNEY_init).state) =
      List.replicate 6 DS_IDLE ++ List.replicate 31 DS_ANALYZING ++ List.replicate 4 DS_FINISH ∧
    (run 64 (data_stream 40 (1 / 10)) DISNEY_init).calls = DISNEY_init.calls ∧
    (run 32 (data_stream 40 (1 / 10)) DISNEY_init).state = DS_FINISH := by
  decide!

/-- The scenario of C2 on a device whose channel handle is still set: the same 40
writes end in Running, mono, channel 0 leading, at 10000 Hz (ten samples per
millisecond, one per 0.1). -/
theorem data_stream_installed_reaches_running :
    (List.range 41).map (fun n => (run 64 (data_stream n (1 / 10)) DISNEY_installed).state) =
      List.replicate 6 DS_IDLE ++ List.replicate 31 DS_ANALYZING ++ [DS_FINISH] ++
        List.replicate 3 DS_RUNNING ∧
    (run 64 (data_stream 40 (1 / 10)) DISNEY_installed).stereo = false ∧
    (run 64 (data_stream 40 (1 / 10)) DISNEY_installed).leader = some 0 ∧
    (run 64 (data_stream 40 (1 / 10)) DISNEY_installed).calls =
      DISNEY_installed.calls ++ [Call.SetFreq 10000, Call.Enable true] := by
  decide!

/-- C10 on the code: after a rejected stereo detection the device is Idle with
`stereo` still true; the sixth falling edge of control bit `0x8` then starts playback
at 7000 Hz with channel 0 as leader, and `stereo` is still true: the FIFO branch of
`disney_write` never assigns it. -/
theorem fifo_variant_keeps_stale_stereo :
    (run 64 rejected_stereo DISNEY_installed).state = DS_IDLE ∧
    (run 64 rejected_stereo DISNEY_installed).stereo = true ∧
    (run 64 (rejected_stereo ++ fifo_strobes.take 11) DISNEY_installed).state = DS_IDLE ∧
    (run 64 (rejected_stereo ++ fifo_strobes.take 11) DISNEY_installed).interface_det_ext = 5 ∧
    (run 64 (rejected_stereo ++ fifo_strobes) DISNEY_installed).state = DS_RUNNING ∧
    (run 64 (rejected_stereo ++ fifo_strobes) DISNEY_installed).leader = some 0 ∧
    (run 64 (rejected_stereo ++ fifo_strobes) DISNEY_installed).calls =
      DISNEY_installed.calls ++ [Call.SetFreq 7000, Call.Enable true] ∧
    (run 64 (rejected_stereo ++ fifo_strobes) DISNEY_installed).stereo = true := by
  decide!

/-! ## DISNEY_CallBack -/

theorem Bitu.sub_of_le (w x y : Nat) (h : y ≤ x) : Bitu.sub w x y = x - y := by
  simp [Bitu.sub, h]

@[simp] theorem check_last_used_da (w ticks : Nat) (s : DisneyState) :
    (check_last_used w ticks s).da = s.da := by
  unfold check_last_used
  split <;> rfl

/-- What the drain path leaves in a channel that held at least `len` samples. -/
theorem drain_channel (w len : Nat) (s t : DisneyState) (c : Fin 2)
    (h : drain w len s = some t) (hu : len ≤ (s.da c).used) (hcap : (s.da c).used ≤ DISNEY_SIZE) :
    (t.da c).used + len = (s.da c).used ∧
    ∀ i, i < (t.da c).used → (t.da c).buffer i = (s.da c).buffer (i + len) := by
  unfold drain at h
  split at h
  · cases h
    simp only [Bitu.sub_of_le w _ _ hu, memmove_front]
    refine ⟨by omega, fun i hi => ?_⟩
    have : i < DISNEY_SIZE - len := by omega
    simp [this]
  · cases h

theorem drain_some (w len : Nat) (s : DisneyState) (h : len ≤ DISNEY_SIZE) :
    ∃ t, drain w len s = some t := by
  simp [drain, h]

theorem DISNEY_PlayStereo_some (len : Nat) (l r : Nat → Nat) (s : DisneyState)
    (hchan : s.chan = true) (h : len ≤ DISNEY_SIZE) :
    ∃ t, DISNEY_PlayStereo len l r s = some t ∧ t.da = s.da ∧
      t.calls = s.calls ++ [Call.AddSamples_s8 len (stereodata len l r)] := by
  have hnot : ¬ (len > DISNEY_SIZE) := by omega
  refine ⟨{ s with calls := s.calls ++ [Call.AddSamples_s8 len (stereodata len l r)] }, ?_, rfl, rfl⟩
  simp only [DISNEY_PlayStereo, hchan, hnot, Bool.true_eq_false, or_self, if_false]

theorem chan_AddSamples_m8_some (len : Nat) (buf : Nat → Nat) (s : DisneyState)
    (hchan : s.chan = true) (h : len ≤ DISNEY_SIZE) :
    ∃ t, chan_AddSamples_m8 len buf s = some t ∧ t.da = s.da ∧
      t.calls = s.calls ++ [Call.AddSamples_m8 len ((List.range len).map buf)] := by
  have hnot : ¬ (len > DISNEY_SIZE) := by omega
  refine ⟨{ s with calls := s.calls ++ [Call.AddSamples_m8 len ((List.range len).map buf)] }, ?_, rfl, rfl⟩
  simp only [chan_AddSamples_m8, hchan, hnot, Bool.true_eq_false, or_self, if_false]

/-- C3: when `1 ≤ len ≤ available` the callback succeeds, takes exactly `len` off the
fill count of every active channel, and moves the rest of that channel's buffer down
by `len`: the new `buffer[i]` is the old `buffer[i+len]` for every `i` below the new
fill count.  (The handle must be set, as it is whenever the mixer calls back, and the
active channels hold at most `DISNEY_SIZE` samples.) -/
theorem DISNEY_CallBack_drains (w len ticks avail : Nat) (s : DisneyState)
    (hchan : s.chan = true)
    (hcap : ∀ c, active s c → (s.da c).used ≤ DISNEY_SIZE)
    (hav : available s = some avail) (h1 : 1 ≤ len) (h2 : len ≤ avail) :
    ∃ t, DISNEY_CallBack w len ticks s = some t ∧
      ∀ c, active s c →
        (t.da c).used + len = (s.da c).used ∧
        ∀ i, i < (t.da c).used → (t.da c).buffer i = (s.da c).buffer (i + len) := by
  have hlen0 : len ≠ 0 := by omega
  by_cases hst : s.stereo = true
  · -- stereo: both channels are active
    have hc0 := hcap 0 (Or.inl hst)
    have hc1 := hcap 1 (Or.inl hst)
    simp only [available, hst, if_true, Option.some.injEq] at hav
    have hu0 : len ≤ (s.da 0).used := by omega
    have hu1 : len ≤ (s.da 1).used := by omega
    have hsz : len ≤ DISNEY_SIZE := by omega
    have hreal : (if (s.da 1).used < (s.da 0).used then (s.da 1).used else (s.da 0).used) ≥ len := by
      split <;> omega
    obtain ⟨s1, hs1, hda1, -⟩ :=
      DISNEY_PlayStereo_some len (s.da 0).buffer (s.da 1).buffer s hchan hsz
    obtain ⟨t, ht⟩ := drain_some w len s1 hsz
    refine ⟨check_last_used w ticks t, ?_, ?_⟩
    · simp only [DISNEY_CallBack, if_neg hlen0, hst, if_true, CallBack_stereo, if_pos hreal, hs1,
        Option.some_bind, ht, Option.map_some']
    · intro c _
      rw [check_last_used_da]
      have hu : len ≤ (s1.da c).used := by rw [hda1]; fin_cases c <;> assumption
      have hc : (s1.da c).used ≤ DISNEY_SIZE := by rw [hda1]; fin_cases c <;> assumption
      have := drain_channel w len s1 t c ht hu hc
      rwa [hda1] at this
  · -- mono: the leader is the one active channel
    have hst' : s.stereo = false := by simpa using hst
    simp only [available, hst', Bool.false_eq_true, if_false] at hav
    cases hl : s.leader with
    | none => simp [hl] at hav
    | some l =>
      simp only [hl, Option.map_some', Option.some.injEq] at hav
      have hcl := hcap l (Or.inr hl)
      have hul : len ≤ (s.da l).used := by omega
      have hsz : len ≤ DISNEY_SIZE := by omega
      have hreal : (s.da l).used ≥ len := hul
      obtain ⟨s1, hs1, hda1, -⟩ := chan_AddSamples_m8_some len (s.da l).buffer s hchan hsz
      obtain ⟨t, ht⟩ := drain_some w len s1 hsz
      refine ⟨check_last_used w ticks t, ?_, ?_⟩
      · simp only [DISNEY_CallBack, if_neg hlen0, hst', Bool.false_eq_true, if_false, hl,
          CallBack_mono, if_pos hreal, hs1, Option.some_bind, ht, Option.map_some']
      · intro c hc
        have hcl' : c = l := by
          rcases hc with h | h
          · simp [hst'] at h
          · rw [hl] at h; exact (Option.some.inj h).symm
        subst hcl'
        rw [check_last_used_da]
        have := drain_channel w len s1 t c ht (by rw [hda1]; exact hul) (by rw [hda1]; exact hcl)
        rwa [hda1] at this

theorem data_stream_installed_used :
    ((run 64 (data_stream 40 (1 / 10)) DISNEY_installed).da 0).used = 35 ∧
    ((run 64 (data_stream 40 (1 / 10)) DISNEY_installed).da 1).used = 0 := by
  decide!

/-- Instance of C3: the mono device that 40 data-port writes left Running with 35
samples is asked for 10; 25 remain, moved down by 10. -/
theorem DISNEY_CallBack_drains_witness :
    ∃ t, DISNEY_CallBack 64 10 0 (run 64 (data_stream 40 (1 / 10)) DISNEY_installed) = some t ∧
      ∀ c, active (run 64 (data_stream 40 (1 / 10)) DISNEY_installed) c →
        (t.da c).used + 10 = ((run 64 (data_stream 40 (1 / 10)) DISNEY_installed).da c).used ∧
        ∀ i, i < (t.da c).used →
          (t.da c).buffer i =
            ((run 64 (data_stream 40 (1 / 10)) DISNEY_installed).da c).buffer (i + 10) :=
  DISNEY_CallBack_drains 64 10 0 35 (run 64 (data_stream 40 (1 / 10)) DISNEY_installed)
    (by decide!)
    (by
      intro c hc
      have hc0 : c = 0 := by
        rcases hc with h | h
        · rw [data_stream_installed_reaches_running.2.1] at h; cases h
        · rw [data_stream_installed_reaches_running.2.2.1] at h; exact (Option.some.inj h).symm
      rw [hc0, data_stream_installed_used.1]
      decide)
    (by decide!) (by decide) (by decide)

theorem check_last_used_calls (w ticks : Nat) (s : DisneyState) :
    (check_last_used w ticks s).calls = s.calls ++
      (if Bitu.add w s.last_used 100 < ticks then [Call.PIC_AddEvent_DISNEY_disable] else []) := by
  unfold check_last_used
  split <;> simp

theorem CallBack_mono_underflow (w len : Nat) (l : Fin 2) (s : DisneyState)
    (hchan : s.chan = true) (hlt : (s.da l).used < len) (hsz : len ≤ DISNEY_SIZE) :
    ∃ buf g, (∀ i, (s.da l).used ≤ i → i < len → buf i = g) ∧
      ∃ t, CallBack_mono w len l s = some t ∧
        t.calls = s.calls ++ [Call.AddSamples_m8 len ((List.range len).map buf)] ∧
        t.last_used = s.last_used ∧ (t.da 0).used = 0 ∧ (t.da 1).used = 0 := by
  have hreal : ¬ ((s.da l).used ≥ len) := by omega
  have hnot : ¬ (len > DISNEY_SIZE) := by omega
  obtain ⟨ru, hru, hle⟩ : ∃ ru, ru =
      (if (s.da l).used ≠ 0 ∧ (s.da l).buffer ((s.da l).used - 1) = 0 then (s.da l).used - 1
       else (s.da l).used) ∧ ru ≤ (s.da l).used := by
    refine ⟨_, rfl, ?_⟩
    split <;> omega
  obtain ⟨g, hg⟩ : ∃ g, g = (if ru ≠ 0 then (s.da l).buffer (ru - 1) else 0x80) := ⟨_, rfl⟩
  refine ⟨memset (s.da l).buffer ru g (len - ru), g, ?_, ?_⟩
  · intro i h1 h2
    have : ru ≤ i ∧ i < ru + (len - ru) := by omega
    simp [memset, this]
  · unfold CallBack_mono
    simp only [if_neg hreal, if_pos hsz, ← hru, ← hg, chan_AddSamples_m8, hchan, hnot,
      Bool.true_eq_false, or_self, if_false, Option.map_some', Function.update_same]
    exact ⟨_, rfl, rfl, rfl, rfl, rfl⟩

theorem CallBack_stereo_underflow (w len avail : Nat) (s : DisneyState)
    (hchan : s.chan = true) (hav : avail = min (s.da 0).used (s.da 1).used)
    (hlt : avail < len) (hsz : len ≤ DISNEY_SIZE) :
    ∃ b0 b1 g0 g1, (∀ i, avail ≤ i → i < len → b0 i = g0 ∧ b1 i = g1) ∧
      ∃ t, CallBack_stereo w len s = some t ∧
        t.calls = s.calls ++ [Call.AddSamples_s8 len (stereodata len b0 b1)] ∧
        t.last_used = s.last_used ∧ (t.da 0).used = 0 ∧ (t.da 1).used = 0 := by
  have hru : (if (s.da 1).used < (s.da 0).used then (s.da 1).used else (s.da 0).used) = avail := by
    rw [hav]; split <;> omega
  have hreal : ¬ (avail ≥ len) := by omega
  have hnot : ¬ (len > DISNEY_SIZE) := by omega
  refine ⟨memset (s.da 0).buffer avail
      (if avail ≠ 0 then (s.da 0).buffer (avail - 1) else 0x80) (len - avail),
    memset (s.da 1).buffer avail
      (if avail ≠ 0 then (s.da 1).buffer (avail - 1) else 0x80) (len - avail),
    if avail ≠ 0 then (s.da 0).buffer (avail - 1) else 0x80,
    if avail ≠ 0 then (s.da 1).buffer (avail - 1) else 0x80, ?_, ?_⟩
  · intro i h1 h2
    have : avail ≤ i ∧ i < avail + (len - avail) := by omega
    simp only [memset, this, and_self, if_true]
  · unfold CallBack_stereo
    simp only [hru, if_neg hreal, if_pos hsz, DISNEY_PlayStereo, hchan, hnot,
      Bool.true_eq_false, or_self, if_false, Option.map_some']
    exact ⟨_, rfl, rfl, rfl, rfl, rfl⟩

/-- The underflow path in mono, within the buffer: a request for `len ≤ DISNEY_SIZE`
samples that exceeds the leader's fill count succeeds, hands the sink exactly `len`
samples, all of them equal from the old fill count on, and empties both channels. -/
theorem DISNEY_CallBack_underflow_mono (w len ticks : Nat) (s : DisneyState) (l : Fin 2)
    (hchan : s.chan = true) (hst : s.stereo = false) (hl : s.leader = some l)
    (hlt : (s.da l).used < len) (hsz : len ≤ DISNEY_SIZE) :
    ∃ t data g, DISNEY_CallBack w len ticks s = some t ∧
      t.calls = s.calls ++ Call.AddSamples_m8 len data ::
        (if Bitu.add w s.last_used 100 < ticks then [Call.PIC_AddEvent_DISNEY_disable] else []) ∧
      data.length = len ∧
      (∀ i, (s.da l).used ≤ i → i < len → data[i]? = some g) ∧
      (t.da 0).used = 0 ∧ (t.da 1).used = 0 := by
  have hlen0 : len ≠ 0 := by omega
  obtain ⟨buf, g, hbuf, t1, ht1, hc1, hl1, hu0, hu1⟩ :=
    CallBack_mono_underflow w len l s hchan hlt hsz
  have hcb : DISNEY_CallBack w len ticks s = some (check_last_used w ticks t1) := by
    simp only [DISNEY_CallBack, if_neg hlen0, hst, Bool.false_eq_true, if_false, hl, ht1,
      Option.map_some']
  refine ⟨_, (List.range len).map buf, g, hcb, ?_, by simp, ?_, ?_, ?_⟩
  · rw [check_last_used_calls, hc1, hl1]; simp
  · intro i h1 h2
    simp [List.getElem?_map, List.getElem?_range h2, hbuf i h1 h2]
  · rw [check_last_used_da]; exact hu0
  · rw [check_last_used_da]; exact hu1

/-- The underflow path in stereo, within the buffer: a request for `len ≤ DISNEY_SIZE`
samples that exceeds the smaller fill count succeeds, hands the sink exactly `len`
interleaved pairs, constant per channel from that count on, and empties both channels. -/
theorem DISNEY_CallBack_underflow_stereo (w len ticks avail : Nat) (s : DisneyState)
    (hchan : s.chan = true) (hst : s.stereo = true)
    (hav : avail = min (s.da 0).used (s.da 1).used)
    (hlt : avail < len) (hsz : len ≤ DISNEY_SIZE) :
    ∃ t data g0 g1, DISNEY_CallBack w len ticks s = some t ∧
      t.calls = s.calls ++ Call.AddSamples_s8 len data ::
        (if Bitu.add w s.last_used 100 < ticks then [Call.PIC_AddEvent_DISNEY_disable] else []) ∧
      data.length = 2 * len ∧
      (∀ i, avail ≤ i → i < len → data[2 * i]? = some g0 ∧ data[2 * i + 1]? = some g1) ∧
      (t.da 0).used = 0 ∧ (t.da 1).used = 0 := by
  have hlen0 : len ≠ 0 := by omega
  obtain ⟨b0, b1, g0, g1, hbuf, t1, ht1, hc1, hl1, hu0, hu1⟩ :=
    CallBack_stereo_underflow w len avail s hchan hav hlt hsz
  have hcb : DISNEY_CallBack w len ticks s = some (check_last_used w ticks t1) := by
    simp only [DISNEY_CallBack, if_neg hlen0, hst, if_true, ht1, Option.map_some']
  refine ⟨_, stereodata len b0 b1, g0, g1, hcb, ?_, by simp [stereodata], ?_, ?_, ?_⟩
  · rw [check_last_used_calls, hc1, hl1]; simp
  · intro i h1 h2
    have e0 : 2 * i < 2 * len := by omega
    have e1 : 2 * i + 1 < 2 * len := by omega
    have d1 : (2 * i + 1) / 2 = i := by omega
    have m1 : (2 * i + 1) % 2 = 1 := by omega
    constructor
    · simp [stereodata, List.getElem?_map, List.getElem?_range e0, (hbuf i h1 h2).1]
    · simp [stereodata, List.getElem?_map, List.getElem?_range e1, d1, m1, (hbuf i h1 h2).2]
  · rw [check_last_used_da]; exact hu0
  · rw [check_last_used_da]; exact hu1

/-- C4 on the code: a request beyond the buffer capacity is not served.  The mono
device of the 40-write scenario holds 35 samples; asked for 129, the callback would
`memset` up to index 128 of the 128-byte `leader->buffer` and read 129 bytes from it
(the source marks the case `TODO: len > DISNEY`), so its behaviour is undefined.  A
request for the full 128 is served, 93 of them gap-fill. -/
theorem DISNEY_CallBack_beyond_capacity :
    ((run 64 (data_stream 40 (1 / 10)) DISNEY_installed).da 0).used = 35 ∧
    (DISNEY_CallBack 64 128 0 (run 64 (data_stream 40 (1 / 10)) DISNEY_installed)).isSome = true ∧
    (DISNEY_CallBack 64 129 0 (run 64 (data_stream 40 (1 / 10)) DISNEY_installed)).isNone = true ∧
    (DISNEY_CallBack 64 129 0 { DISNEY_installed with stereo := true }).isNone = true := by
  decide!

/-! ## Buffer capacity -/

@[simp] theorem DISNEY_enable_da (f : Nat) (s : DisneyState) : (DISNEY_enable f s).da = s.da := by
  unfold DISNEY_enable
  split_ifs <;> rfl

@[simp] theorem DISNEY_enable_chan (f : Nat) (s : DisneyState) :
    (DISNEY_enable f s).chan = s.chan := by
  unfold DISNEY_enable
  split_ifs <;> rfl

theorem DISNEY_enable_unset (f : Nat) (s : DisneyState) (h : s.chan = false) :
    DISNEY_enable f s = s := by
  simp [DISNEY_enable, h]

theorem update_used (f : Fin 2 → dac_channel) (ch : Fin 2) (v : dac_channel) (c : Fin 2)
    (h : v.used = (f ch).used) : (Function.update f ch v c).used = (f c).used := by
  by_cases hc : c = ch
  · subst hc; simp [h]
  · simp [Function.update_noteq hc]

/-- The analysis never raises a fill count: it leaves both alone or resets them. -/
theorem DISNEY_analyze_used_le (w : Nat) (channel : Fin 2) (now : ℚ) (s : DisneyState)
    (c : Fin 2) : ((DISNEY_analyze w channel now s).da c).used ≤ (s.da c).used := by
  unfold DISNEY_analyze
  by_cases h1 : s.state = DS_RUNNING
  · simp [h1]
  by_cases h2 : s.state = DS_IDLE
  · simp only [if_neg h1, if_pos h2]
    by_cases hc : c = channel
    · subst hc; simp
    · simp [Function.update_noteq hc]
  by_cases h3 : s.state = DS_FINISH
  · simp only [if_neg h1, if_neg h2, if_pos h3, DISNEY_enable_da]
    split_ifs <;> exact le_refl _
  by_cases h4 : s.state = DS_ANALYZING
  · simp only [if_neg h1, if_neg h2, if_neg h3, if_pos h4]
    split_ifs <;> apply le_of_eq <;>
      first
        | rfl
        | (apply update_used; rfl)
        | (rw [update_used _ _ _ _ (by simp), update_used _ _ _ _ rfl])
        | (rw [update_used _ _ _ _ (by simp), update_used _ _ _ _ (by simp)])
  · simp [h1, h2, h3, h4]

@[simp] theorem DISNEY_analyze_chan (w : Nat) (channel : Fin 2) (now : ℚ) (s : DisneyState) :
    (DISNEY_analyze w channel now s).chan = s.chan := by
  unfold DISNEY_analyze
  simp only [apply_ite DisneyState.chan, DISNEY_enable_chan, ite_self]

/-- With the handle unset the analysis cannot start playback. -/
theorem DISNEY_analyze_not_running (w : Nat) (channel : Fin 2) (now : ℚ) (s : DisneyState)
    (hchan : s.chan = false) (hst : s.state ≠ DS_RUNNING) :
    (DISNEY_analyze w channel now s).state ≠ DS_RUNNING := by
  unfold DISNEY_analyze
  by_cases h2 : s.state = DS_IDLE
  · simp only [if_neg hst, if_pos h2]; decide
  by_cases h3 : s.state = DS_FINISH
  · simp only [if_neg hst, if_neg h2, if_pos h3]
    rw [DISNEY_enable_unset]
    · simp only [apply_ite DisneyState.state, ite_self]; exact hst
    · simp only [apply_ite DisneyState.chan, ite_self]; exact hchan
  by_cases h4 : s.state = DS_ANALYZING
  · simp only [if_neg hst, if_neg h2, if_neg h3, if_pos h4, apply_ite DisneyState.state]
    split_ifs <;> first | exact hst | decide
  · simp only [if_neg hst, if_neg h2, if_neg h3, if_neg h4]; exact hst

@[simp] theorem store_sample_chan (c : Fin 2) (s : DisneyState) :
    (store_sample c s).chan = s.chan := by
  unfold store_sample
  split_ifs <;> rfl

@[simp] theorem store_sample_calls (c : Fin 2) (s : DisneyState) :
    (store_sample c s).calls = s.calls := by
  unfold store_sample
  split_ifs <;> rfl

@[simp] theorem store_sample_stereo (c : Fin 2) (s : DisneyState) :
    (store_sample c s).stereo = s.stereo := by
  unfold store_sample
  split_ifs <;> rfl

@[simp] theorem store_sample_leader (c : Fin 2) (s : DisneyState) :
    (store_sample c s).leader = s.leader := by
  unfold store_sample
  split_ifs <;> rfl

@[simp] theorem store_sample_state (c : Fin 2) (s : DisneyState) :
    (store_sample c s).state = s.state := by
  unfold store_sample
  split_ifs <;> rfl

/-- A latch stores a byte only below the capacity: the fill counts stay within it. -/
theorem store_sample_used_le (c : Fin 2) (s : DisneyState)
    (h : ∀ i, (s.da i).used ≤ DISNEY_SIZE) : ∀ i, ((store_sample c s).da i).used ≤ DISNEY_SIZE := by
  intro i
  unfold store_sample
  split_ifs with hlt
  · by_cases hi : i = c
    · subst hi; simp; omega
    · simp [Function.update_noteq hi]; exact h i
  · exact h i

theorem within_capacity_of_le (s t : DisneyState) (h : ∀ c, (t.da c).used ≤ (s.da c).used)
    (hs : within_capacity s) : within_capacity t :=
  fun c => le_trans (h c) (hs c)

theorem latch_detect_used_le (w : Nat) (c : Fin 2) (now : ℚ) (s : DisneyState) (i : Fin 2) :
    ((latch_detect w c now s).da i).used ≤ (s.da i).used := by
  unfold latch_detect
  split_ifs
  · exact DISNEY_analyze_used_le w c now _ i
  · exact le_refl _

theorem channel_latch_within (w : Nat) (c : Fin 2) (now : ℚ) (s : DisneyState)
    (hs : within_capacity s) : within_capacity (channel_latch w c now s) :=
  store_sample_used_le c _ (within_capacity_of_le _ _ (latch_detect_used_le w c now s) hs)

@[simp] theorem fifo_detect_da (w : Nat) (s : DisneyState) : (fifo_detect w s).da = s.da := by
  unfold fifo_detect
  simp only [apply_ite DisneyState.da, DISNEY_enable_da, ite_self]

theorem fifo_latch_within (w : Nat) (s : DisneyState)
    (hs : within_capacity s) : within_capacity (fifo_latch w s) := by
  have key : within_capacity (fifo_detect w s) := fun c => by rw [fifo_detect_da]; exact hs c
  unfold fifo_latch
  split_ifs
  · exact store_sample_used_le 0 _ key
  · exact key

theorem data_detect_used_le (w val : Nat) (now : ℚ) (s : DisneyState) (i : Fin 2) :
    ((data_detect w val now s).da i).used ≤ (s.da i).used := by
  unfold data_detect
  simp only []
  split_ifs
  · exact DISNEY_analyze_used_le w 0 now _ i
  · exact le_refl _
  · exact le_refl _

theorem data_write_within (w val : Nat) (now : ℚ) (s : DisneyState)
    (hs : within_capacity s) : within_capacity (data_write w val now s) := by
  have key : within_capacity (data_detect w val now s) :=
    within_capacity_of_le _ _ (data_detect_used_le w val now s) hs
  unfold data_write
  split_ifs
  · exact store_sample_used_le 0 _ key
  · exact key

theorem control_write_within (w val : Nat) (now : ℚ) (s : DisneyState)
    (hs : within_capacity s) : within_capacity (control_write w val now s) := by
  have hA : within_capacity (edge_0x2 w val now s) := by
    unfold edge_0x2
    split_ifs
    · exact channel_latch_within w 1 now s hs
    · exact hs
  have hB : within_capacity (edge_0x1 w val now (edge_0x2 w val now s)) := by
    unfold edge_0x1
    split_ifs
    · exact channel_latch_within w 0 now _ hA
    · exact hA
  have hC : within_capacity (edge_0x8 w val (edge_0x1 w val now (edge_0x2 w val now s))) := by
    unfold edge_0x8
    split_ifs
    · exact fifo_latch_within w _ hB
    · exact hB
  exact hC

/-- Every port write keeps both fill counts within the capacity, whatever the state:
a byte that finds its buffer full is dropped. -/
theorem disney_write_within (w port val : Nat) (now : ℚ) (ticks : Nat) (s : DisneyState)
    (hs : within_capacity s) : within_capacity (disney_write w port val now ticks s) := by
  unfold disney_write
  have h0 : within_capacity { s with last_used := ticks } := hs
  split_ifs
  · exact data_write_within w val now _ h0
  · exact h0
  · exact control_write_within w val now _ h0
  · exact h0

theorem DISNEY_disable_unset (s : DisneyState) (h : s.chan = false) : DISNEY_disable s = s := by
  simp [DISNEY_disable, h]

theorem store_sample_handle_unset (c : Fin 2) (s : DisneyState) (h : handle_unset s) :
    handle_unset (store_sample c s) := by
  unfold handle_unset
  rw [store_sample_chan, store_sample_state]
  exact h

theorem channel_latch_handle_unset (w : Nat) (c : Fin 2) (now : ℚ) (s : DisneyState)
    (h : handle_unset s) : handle_unset (channel_latch w c now s) := by
  apply store_sample_handle_unset
  unfold latch_detect
  split_ifs
  · exact ⟨by rw [DISNEY_analyze_chan]; exact h.1,
      DISNEY_analyze_not_running w c now _ h.1 h.2⟩
  · exact h

theorem fifo_latch_handle_unset (w : Nat) (s : DisneyState)
    (h : handle_unset s) : handle_unset (fifo_latch w s) := by
  have key : handle_unset (fifo_detect w s) := by
    unfold fifo_detect
    simp only []
    split_ifs
    · rw [DISNEY_enable_unset 7000 _ (by exact h.1)]; exact h
    · exact h
    · exact h
  unfold fifo_latch
  split_ifs
  · exact store_sample_handle_unset 0 _ key
  · exact key

theorem control_write_handle_unset (w val : Nat) (now : ℚ) (s : DisneyState)
    (h : handle_unset s) : handle_unset (control_write w val now s) := by
  have hA : handle_unset (edge_0x2 w val now s) := by
    unfold edge_0x2
    split_ifs
    · exact channel_latch_handle_unset w 1 now s h
    · exact h
  have hB : handle_unset (edge_0x1 w val now (edge_0x2 w val now s)) := by
    unfold edge_0x1
    split_ifs
    · exact channel_latch_handle_unset w 0 now _ hA
    · exact hA
  have hC : handle_unset (edge_0x8 w val (edge_0x1 w val now (edge_0x2 w val now s))) := by
    unfold edge_0x8
    split_ifs
    · exact fifo_latch_handle_unset w _ hB
    · exact hB
  exact hC

theorem data_write_handle_unset (w val : Nat) (now : ℚ) (s : DisneyState)
    (h : handle_unset s) : handle_unset (data_write w val now s) := by
  have key : handle_unset (data_detect w val now s) := by
    unfold data_detect
    simp only []
    split_ifs
    · exact ⟨by rw [DISNEY_analyze_chan]; exact h.1,
        DISNEY_analyze_not_running w 0 now _ h.1 h.2⟩
    · exact h
    · exact h
  unfold data_write
  split_ifs
  · exact store_sample_handle_unset 0 _ key
  · exact key

/-- With the handle unset no port write starts playback. -/
theorem disney_write_handle_unset (w port val : Nat) (now : ℚ) (ticks : Nat) (s : DisneyState)
    (h : handle_unset s) : handle_unset (disney_write w port val now ticks s) := by
  unfold disney_write
  have h0 : handle_unset { s with last_used := ticks } := h
  split_ifs
  · exact data_write_handle_unset w val now _ h0
  · exact h0
  · exact control_write_handle_unset w val now _ h0
  · exact h0

theorem DISNEY_init_handle_unset : handle_unset DISNEY_init :=
  ⟨rfl, by decide⟩

theorem DISNEY_init_within : within_capacity DISNEY_init := by
  intro c
  show 0 ≤ DISNEY_SIZE
  exact Nat.zero_le _

/-- From a state with the handle unset, every trace keeps the handle unset, the device
out of Running and the fill counts within the capacity. -/
theorem exec_handle_unset (w : Nat) (evs : List Event) :
    ∀ s t, handle_unset s → within_capacity s → exec w evs s = some t →
      handle_unset t ∧ within_capacity t := by
  induction evs with
  | nil =>
    intro s t h1 h2 he
    simp only [exec, Option.some.injEq] at he
    subst he
    exact ⟨h1, h2⟩
  | cons e es ih =>
    intro s t h1 h2 he
    cases e with
    | write x =>
      simp only [exec, step, Option.some_bind] at he
      exact ih _ t (disney_write_handle_unset w _ _ _ _ s h1) (disney_write_within w _ _ _ _ s h2) he
    | callback len ticks =>
      simp only [exec, step, if_neg h1.2, Option.none_bind] at he
      cases he
    | disable =>
      simp only [exec, step, Option.some_bind, DISNEY_disable_unset s h1.1] at he
      exact ih s t h1 h2 he

/-- From the state the constructor leaves, whose channel handle is unset, every trace of
port writes, mixer callbacks and `DISNEY_disable` calls keeps both fill counts at most
`DISNEY_SIZE` = 128.  No callback is part of such a trace: with the handle unset the
device never gets Running. -/
theorem fill_counts_within_capacity (w : Nat) (evs : List Event) (t : DisneyState)
    (h : exec w evs DISNEY_init = some t) :
    (t.da 0).used ≤ DISNEY_SIZE ∧ (t.da 1).used ≤ DISNEY_SIZE :=
  have hw := (exec_handle_unset w evs DISNEY_init t DISNEY_init_handle_unset DISNEY_init_within h).2
  ⟨hw 0, hw 1⟩

theorem exec_writes (w : Nat) (ws : List PortWrite) :
    ∀ s, exec w (ws.map Event.write) s = some (run w ws s) := by
  induction ws with
  | nil => intro s; rfl
  | cons x xs ih =>
    intro s
    simp only [List.map_cons, exec, step, Option.some_bind, ih]
    rfl

theorem exec_append (w : Nat) (a b : List Event) :
    ∀ s, exec w (a ++ b) s = (exec w a s).bind (exec w b) := by
  induction a with
  | nil => intro s; rfl
  | cons e es ih =>
    intro s
    show (step w s e).bind (exec w (es ++ b)) = ((step w s e).bind (exec w es)).bind (exec w b)
    cases step w s e with
    | none => rfl
    | some t => exact ih t

theorem overfill_trace_exec :
    exec 64 overfill_trace DISNEY_init =
      some (DISNEY_disable (run 64 (data_stream 140 (1 / 10)) DISNEY_init)) := by
  unfold overfill_trace
  rw [exec_append, exec_writes]
  rfl

theorem overfill_trace_full :
    ((DISNEY_disable (run 64 (data_stream 140 (1 / 10)) DISNEY_init)).da 0).used = 128 := by
  decide!

/-- After 140 data-port writes and a disable on the state the constructor leaves, channel
0 holds exactly the 128 bytes of its buffer and channel 1 none. -/
theorem fill_counts_within_capacity_witness :
    ((DISNEY_disable (run 64 (data_stream 140 (1 / 10)) DISNEY_init)).da 0).used ≤ DISNEY_SIZE ∧
    ((DISNEY_disable (run 64 (data_stream 140 (1 / 10)) DISNEY_init)).da 1).used ≤ DISNEY_SIZE :=
  fill_counts_within_capacity 64 overfill_trace _ overfill_trace_exec


/-! ## Latch sequences -/

theorem fin2_cases (c : Fin 2) : c = 0 ∨ c = 1 := by
  fin_cases c
  · exact Or.inl rfl
  · exact Or.inr rfl

@[simp] theorem DISNEY_enable_control (f : Nat) (s : DisneyState) :
    (DISNEY_enable f s).control = s.control := by
  unfold DISNEY_enable
  split_ifs <;> rfl

@[simp] theorem DISNEY_analyze_control (w : Nat) (channel : Fin 2) (now : ℚ) (s : DisneyState) :
    (DISNEY_analyze w channel now s).control = s.control := by
  unfold DISNEY_analyze
  simp only [apply_ite DisneyState.control, DISNEY_enable_control, ite_self]

@[simp] theorem store_sample_control (c : Fin 2) (s : DisneyState) :
    (store_sample c s).control = s.control := by
  unfold store_sample
  split_ifs <;> rfl

@[simp] theorem channel_latch_control (w : Nat) (c : Fin 2) (now : ℚ) (s : DisneyState) :
    (channel_latch w c now s).control = s.control := by
  unfold channel_latch latch_detect
  rw [store_sample_control]
  split_ifs
  · rw [DISNEY_analyze_control]
  · rfl

/-- A control-port write that latches channel `c` and nothing else is that channel's
latch block followed by the store of the control byte. -/
theorem disney_write_latch (w : Nat) (c : Fin 2) (val : Nat) (now : ℚ) (ticks : Nat)
    (s : DisneyState) (h : latches_only c s.control val) :
    disney_write w (DISNEY_BASE + 2) val now ticks s =
      { channel_latch w c now { s with last_used := ticks } with control := val % 256 } := by
  have hp : ¬ (DISNEY_BASE + 2 = DISNEY_BASE) := by decide
  have hp1 : ¬ (DISNEY_BASE + 2 = DISNEY_BASE + 1) := by decide
  unfold disney_write
  simp only [if_neg hp, if_neg hp1, if_true]
  unfold control_write
  rcases fin2_cases c with rfl | rfl
  · obtain ⟨h1, h2, h8⟩ := h
    have h1' : falls 0x1 s.control val := h1
    have h2' : ¬ falls 0x2 s.control val := h2
    simp only [edge_0x2, if_neg h2', edge_0x1, if_pos h1', edge_0x8, channel_latch_control, if_neg h8]
  · obtain ⟨h2, h1, h8⟩ := h
    have h2' : falls 0x2 s.control val := h2
    have h1' : ¬ falls 0x1 s.control val := h1
    simp only [edge_0x2, if_pos h2', edge_0x1, channel_latch_control, if_neg h1', edge_0x8, if_neg h8]

theorem after_succ (w : Nat) (x : Nat → PortWrite) (k : Nat) (s : DisneyState) :
    after w x (k + 1) s =
      disney_write w (x k).port (x k).val (x k).now (x k).ticks (after w x k s) := by
  simp [after, run, List.range_succ, List.foldl_append]

theorem after_zero (w : Nat) (x : Nat → PortWrite) (s : DisneyState) : after w x 0 s = s := rfl

theorem channel_latch_idle (w : Nat) (c : Fin 2) (now : ℚ) (s : DisneyState)
    (hst : s.state = DS_IDLE) :
    (channel_latch w c now s).state = DS_ANALYZING ∧
    (channel_latch w c now s).chan = s.chan ∧
    (channel_latch w c now s).calls = s.calls ∧
    ((channel_latch w c now s).da c).speedcheck_init = true ∧
    ((channel_latch w c now s).da c).speedcheck_failed = false ∧
    ((channel_latch w c now s).da c).used = 1 ∧
    ((channel_latch w c now s).da c).speedcheck_sum = 0 ∧
    ((channel_latch w c now s).da c).speedcheck_last = now ∧
    ((channel_latch w c now s).da (other c)).speedcheck_init = false ∧
    ((channel_latch w c now s).da (other c)).speedcheck_failed = false ∧
    ((channel_latch w c now s).da (other c)).used = 0 ∧
    ((channel_latch w c now s).da (other c)).speedcheck_sum = 0 := by
  rcases fin2_cases c with rfl | rfl <;>
    simp [channel_latch, latch_detect, DISNEY_analyze, store_sample, hst, DS_IDLE, DS_RUNNING,
      DS_ANALYZING, DISNEY_SIZE, other]

theorem channel_latch_baseline (w : Nat) (c : Fin 2) (now : ℚ) (s : DisneyState)
    (hst : s.state = DS_ANALYZING) (hinit : (s.da c).speedcheck_init = false)
    (hu : (s.da c).used < DISNEY_SIZE) :
    (channel_latch w c now s).state = DS_ANALYZING ∧
    (channel_latch w c now s).chan = s.chan ∧
    (channel_latch w c now s).calls = s.calls ∧
    ((channel_latch w c now s).da c).speedcheck_init = true ∧
    ((channel_latch w c now s).da c).speedcheck_failed = (s.da c).speedcheck_failed ∧
    ((channel_latch w c now s).da c).used = (s.da c).used + 1 ∧
    ((channel_latch w c now s).da c).speedcheck_sum = (s.da c).speedcheck_sum ∧
    ((channel_latch w c now s).da c).speedcheck_last = now ∧
    (channel_latch w c now s).da (other c) = s.da (other c) := by
  rcases fin2_cases c with rfl | rfl <;>
    simp [channel_latch, latch_detect, DISNEY_analyze, store_sample, hst, hinit, hu, DS_IDLE,
      DS_RUNNING, DS_ANALYZING, DS_FINISH, other]

/-- A measured latch in Analyzing (the channel has a baseline) that does not end the
analysis: the interval is added to the sum, the channel is marked failed when the
interval is outside [0.01, 2], and the state moves to Finishing when a fill count
exceeds 30. -/
theorem channel_latch_measured (w : Nat) (c : Fin 2) (now : ℚ) (s : DisneyState)
    (hst : s.state = DS_ANALYZING) (hinit : (s.da c).speedcheck_init = true)
    (hu : (s.da c).used < DISNEY_SIZE)
    (hnot : ¬ (((s.da c).speedcheck_failed = true ∨
        outside_window (now - (s.da c).speedcheck_last)) ∧
      (s.da (other c)).speedcheck_failed = true)) :
    (channel_latch w c now s).state =
      (if (s.da c).used > 30 ∨ (s.da (other c)).used > 30 then DS_FINISH else DS_ANALYZING) ∧
    (channel_latch w c now s).chan = s.chan ∧
    (channel_latch w c now s).calls = s.calls ∧
    ((channel_latch w c now s).da c).speedcheck_init = true ∧
    (((channel_latch w c now s).da c).speedcheck_failed = true ↔
      ((s.da c).speedcheck_failed = true ∨ outside_window (now - (s.da c).speedcheck_last))) ∧
    ((channel_latch w c now s).da c).used = (s.da c).used + 1 ∧
    ((channel_latch w c now s).da c).speedcheck_sum =
      (s.da c).speedcheck_sum + (now - (s.da c).speedcheck_last) ∧
    ((channel_latch w c now s).da c).speedcheck_last = now ∧
    (channel_latch w c now s).da (other c) = s.da (other c) := by
  have hcase : ((s.da c).speedcheck_failed = false ∧
      ¬ outside_window (now - (s.da c).speedcheck_last)) ∨
      (s.da (other c)).speedcheck_failed = false := by
    cases hfo : (s.da (other c)).speedcheck_failed
    · exact Or.inr rfl
    · left
      cases hf : (s.da c).speedcheck_failed
      · exact ⟨rfl, fun hout => hnot ⟨Or.inr hout, hfo⟩⟩
      · exact absurd ⟨Or.inl hf, hfo⟩ hnot
  rcases fin2_cases c with rfl | rfl
  · by_cases h30 : 30 < (s.da 0).used ∨ 30 < (s.da 1).used
    all_goals
      rcases hcase with ⟨hf, hout⟩ | hfo
      · cases hfo : (s.da 1).speedcheck_failed <;>
          simp [channel_latch, latch_detect, DISNEY_analyze, store_sample, hst, hinit, hu, hout,
            hfo, hf, h30, DS_IDLE, DS_RUNNING, DS_ANALYZING, DS_FINISH, other]
      · have hfo' : (s.da 1).speedcheck_failed = false := hfo
        cases hf : (s.da 0).speedcheck_failed <;>
        by_cases hout : outside_window (now - (s.da 0).speedcheck_last) <;>
          simp [channel_latch, latch_detect, DISNEY_analyze, store_sample, hst, hinit, hu, hout,
            hfo', hf, h30, DS_IDLE, DS_RUNNING, DS_ANALYZING, DS_FINISH, other]
  · by_cases h30 : 30 < (s.da 0).used ∨ 30 < (s.da 1).used
    all_goals
      have h30' := h30
      rw [or_comm] at h30'
      rcases hcase with ⟨hf, hout⟩ | hfo
      · cases hfo : (s.da 0).speedcheck_failed <;>
          simp [channel_latch, latch_detect, DISNEY_analyze, store_sample, hst, hinit, hu, hout,
            hfo, hf, h30, h30', DS_IDLE, DS_RUNNING, DS_ANALYZING, DS_FINISH, other]
      · have hfo' : (s.da 0).speedcheck_failed = false := hfo
        cases hf : (s.da 1).speedcheck_failed <;>
        by_cases hout : outside_window (now - (s.da 1).speedcheck_last) <;>
          simp [channel_latch, latch_detect, DISNEY_analyze, store_sample, hst, hinit, hu, hout,
            hfo', hf, h30, h30', DS_IDLE, DS_RUNNING, DS_ANALYZING, DS_FINISH, other]

/-- A measured latch in Analyzing that finds the other channel failed and fails its own
channel returns the device to Idle. -/
theorem channel_latch_abort (w : Nat) (c : Fin 2) (now : ℚ) (s : DisneyState)
    (hst : s.state = DS_ANALYZING) (hinit : (s.da c).speedcheck_init = true)
    (hbad : outside_window (now - (s.da c).speedcheck_last))
    (hfo : (s.da (other c)).speedcheck_failed = true) :
    (channel_latch w c now s).state = DS_IDLE ∧
    (channel_latch w c now s).chan = s.chan ∧
    (channel_latch w c now s).calls = s.calls := by
  rcases fin2_cases c with rfl | rfl
  · have hfo' : (s.da 1).speedcheck_failed = true := hfo
    simp [channel_latch, latch_detect, DISNEY_analyze, hst, hinit, hbad, hfo', DS_IDLE,
      DS_RUNNING, DS_ANALYZING, DS_FINISH]
  · have hfo' : (s.da 0).speedcheck_failed = true := hfo
    simp [channel_latch, latch_detect, DISNEY_analyze, hst, hinit, hbad, hfo', DS_IDLE,
      DS_RUNNING, DS_ANALYZING, DS_FINISH]

theorem other_other (c : Fin 2) : other (other c) = c := by
  rcases fin2_cases c with rfl | rfl <;> rfl

theorem latched_even (c : Fin 2) (k : Nat) (h : k % 2 = 0) : latched c k = c := by
  simp [latched, h]

theorem latched_odd (c : Fin 2) (k : Nat) (h : k % 2 = 1) : latched c k = other c := by
  simp [latched, h]

/-- One write of an alternating latch sequence, in terms of the latch block. -/
theorem after_succ_latch (w n : Nat) (x : Nat → PortWrite) (s : DisneyState) (c : Fin 2) (k : Nat)
    (halt : alternating_latches c s.control x n) (hk : k < n)
    (hctrl : (after w x k s).control = ctrl_before s.control x k) :
    after w x (k + 1) s =
      { channel_latch w (latched c k) (x k).now
          { after w x k s with last_used := (x k).ticks } with control := (x k).val % 256 } := by
  obtain ⟨hport, hl⟩ := halt k hk
  rw [after_succ, hport]
  exact disney_write_latch w (latched c k) (x k).val (x k).now (x k).ticks (after w x k s)
    (by rw [hctrl]; exact hl)

/-- The invariant of C6's amended theorem: the control byte is the one last written and
the device goes round the four-latch cycle. -/
theorem abort_cycle_holds (w n : Nat) (x : Nat → PortWrite) (s : DisneyState) (c : Fin 2)
    (hidle : s.state = DS_IDLE)
    (halt : alternating_latches c s.control x n)
    (htime : ∀ k, k + 2 < n → outside_window ((x (k + 2)).now - (x k).now)) :
    ∀ k, k ≤ n →
      (after w x k s).control = ctrl_before s.control x k ∧ abort_cycle c x k (after w x k s) := by
  intro k
  induction k with
  | zero =>
    intro _
    refine ⟨rfl, ?_, ?_, ?_, ?_⟩
    · intro _; exact hidle
    all_goals (intro h; omega)
  | succ k ih =>
    intro hk
    obtain ⟨hctrl, h0, h1, h2, h3⟩ := ih (by omega)
    have hstep := after_succ_latch w n x s c k halt (by omega) hctrl
    refine ⟨by rw [hstep]; simp [ctrl_before], ?_⟩
    have hmod : k % 4 = 0 ∨ k % 4 = 1 ∨ k % 4 = 2 ∨ k % 4 = 3 := by omega
    rcases hmod with hm | hm | hm | hm
    · -- Idle: the latch of `c` starts the analysis
      have hst := h0 hm
      have hc : latched c k = c := latched_even c k (by omega)
      rw [hc] at hstep
      have L := channel_latch_idle w c (x k).now { after w x k s with last_used := (x k).ticks } hst
      refine ⟨fun h => by omega, fun _ => ?_, fun h => by omega, fun h => by omega⟩
      rw [hstep]
      simp only [Nat.add_sub_cancel]
      exact ⟨L.1, L.2.2.2.1, L.2.2.2.2.1, L.2.2.2.2.2.1, L.2.2.2.2.2.2.2.1, L.2.2.2.2.2.2.2.2.1,
        L.2.2.2.2.2.2.2.2.2.1, L.2.2.2.2.2.2.2.2.2.2.1⟩
    · -- the other channel gets its baseline
      obtain ⟨hst, hci, hcf, hcu, hcl, hoi, hof, hou⟩ := h1 hm
      have hc : latched c k = other c := latched_odd c k (by omega)
      rw [hc] at hstep
      have L := channel_latch_baseline w (other c) (x k).now
        { after w x k s with last_used := (x k).ticks } hst hoi
        (by show ((after w x k s).da (other c)).used < DISNEY_SIZE; rw [hou]; decide)
      rw [other_other] at L
      refine ⟨fun h => by omega, fun h => by omega, fun _ => ?_, fun h => by omega⟩
      rw [hstep]
      have e1 : k + 1 - 2 = k - 1 := by omega
      simp only [Nat.add_sub_cancel, e1]
      have hda : ({ channel_latch w (other c) (x k).now
          { after w x k s with last_used := (x k).ticks } with control := (x k).val % 256 }).da c =
          (after w x k s).da c := L.2.2.2.2.2.2.2.2
      refine ⟨L.1, ?_, ?_, ?_, ?_, L.2.2.2.1, ?_, ?_, L.2.2.2.2.2.2.2.1⟩
      · rw [hda]; exact hci
      · rw [hda]; exact hcf
      · rw [hda]; exact hcu
      · rw [hda]; exact hcl
      · rw [L.2.2.2.2.1]; exact hof
      · rw [L.2.2.2.2.2.1, hou]
    · -- the first measured interval fails channel `c`
      obtain ⟨hst, hci, hcf, hcu, hcl, hoi, hof, hou, hol⟩ := h2 hm
      have hc : latched c k = c := latched_even c k (by omega)
      rw [hc] at hstep
      have hout : outside_window ((x k).now - ((after w x k s).da c).speedcheck_last) := by
        rw [hcl]
        have := htime (k - 2) (by omega)
        have e : k - 2 + 2 = k := by omega
        rwa [e] at this
      have L := channel_latch_measured w c (x k).now
        { after w x k s with last_used := (x k).ticks } hst hci
        (by show ((after w x k s).da c).used < DISNEY_SIZE; rw [hcu]; decide)
        (by
          intro h
          have : ((after w x k s).da (other c)).speedcheck_failed = true := h.2
          rw [hof] at this
          cases this)
      refine ⟨fun h => by omega, fun h => by omega, fun h => by omega, fun _ => ?_⟩
      rw [hstep]
      have e1 : k + 1 - 2 = k - 1 := by omega
      simp only [e1]
      have hda : ({ channel_latch w c (x k).now
          { after w x k s with last_used := (x k).ticks } with control := (x k).val % 256 }).da
          (other c) = (after w x k s).da (other c) := L.2.2.2.2.2.2.2.2
      have hnot30 : ¬ (((after w x k s).da c).used > 30 ∨ ((after w x k s).da (other c)).used > 30) := by
        rw [hcu, hou]; decide
      refine ⟨?_, ?_, ?_, ?_⟩
      · have := L.1
        rw [if_neg hnot30] at this
        exact this
      · exact L.2.2.2.2.1.mpr (Or.inr hout)
      · rw [hda]; exact hoi
      · rw [hda]; exact hol
    · -- the second measured interval fails the other channel: back to Idle
      obtain ⟨hst, hcf, hoi, hol⟩ := h3 hm
      have hc : latched c k = other c := latched_odd c k (by omega)
      rw [hc] at hstep
      have hout : outside_window ((x k).now - ((after w x k s).da (other c)).speedcheck_last) := by
        rw [hol]
        have := htime (k - 2) (by omega)
        have e : k - 2 + 2 = k := by omega
        rwa [e] at this
      have L := channel_latch_abort w (other c) (x k).now
        { after w x k s with last_used := (x k).ticks } hst hoi hout
        (by rw [other_other]; exact hcf)
      refine ⟨fun _ => ?_, fun h => by omega, fun h => by omega, fun h => by omega⟩
      rw [hstep]
      exact L.1

/-- C6, as the code has it: a stereo stream (control-port writes latching the two
channels in turn) in which every interval between two successive latches of the same
channel is outside [0.01, 2.0] never gets past Analyzing.  From Idle, the state after
every write is Idle or Analyzing, never Finishing or Running, and it is Idle again
after every fourth latch, when both channels have failed the sanity check. -/
theorem outside_window_stereo_never_finishes (w n : Nat) (x : Nat → PortWrite) (s : DisneyState)
    (c : Fin 2) (hidle : s.state = DS_IDLE)
    (halt : alternating_latches c s.control x n)
    (htime : ∀ k, k + 2 < n → outside_window ((x (k + 2)).now - (x k).now)) :
    ∀ k, k ≤ n →
      ((after w x k s).state = DS_IDLE ∨ (after w x k s).state = DS_ANALYZING) ∧
      (after w x k s).state ≠ DS_FINISH ∧ (after w x k s).state ≠ DS_RUNNING ∧
      (k % 4 = 0 → (after w x k s).state = DS_IDLE) := by
  intro k hk
  obtain ⟨-, h0, h1, h2, h3⟩ := abort_cycle_holds w n x s c hidle halt htime k hk
  have hmod : k % 4 = 0 ∨ k % 4 = 1 ∨ k % 4 = 2 ∨ k % 4 = 3 := by omega
  have key : (after w x k s).state = DS_IDLE ∨ (after w x k s).state = DS_ANALYZING := by
    rcases hmod with hm | hm | hm | hm
    · exact Or.inl (h0 hm)
    · exact Or.inr (h1 hm).1
    · exact Or.inr (h2 hm).1
    · exact Or.inr (h3 hm).1
  refine ⟨key, ?_, ?_, h0⟩
  · rcases key with h | h <;> rw [h] <;> decide
  · rcases key with h | h <;> rw [h] <;> decide

theorem toggle_alternates :
    (armed DISNEY_init).state = DS_IDLE ∧
    alternating_latches 0 (armed DISNEY_init).control (toggle 3) 8 := by
  decide!

theorem toggle_outside_window (k : Nat) :
    outside_window ((toggle 3 (k + 2)).now - (toggle 3 k).now) := by
  right
  simp only [toggle]
  push_cast
  linarith

/-- Instance of the amended C6: the toggling driver at 3 ms per latch (6 ms between the
latches of one channel) on the power-on device: Idle or Analyzing after 7 latches,
Idle after 8. -/
theorem outside_window_stereo_never_finishes_witness :
    ((after 64 (toggle 3) 7 (armed DISNEY_init)).state = DS_IDLE ∨
      (after 64 (toggle 3) 7 (armed DISNEY_init)).state = DS_ANALYZING) ∧
    (after 64 (toggle 3) 8 (armed DISNEY_init)).state = DS_IDLE :=
  ⟨(outside_window_stereo_never_finishes 64 8 (toggle 3) (armed DISNEY_init) 0
      toggle_alternates.1 toggle_alternates.2 (fun k _ => toggle_outside_window k) 7
      (by decide)).1,
   (outside_window_stereo_never_finishes 64 8 (toggle 3) (armed DISNEY_init) 0
      toggle_alternates.1 toggle_alternates.2 (fun k _ => toggle_outside_window k) 8
      (by decide)).2.2.2 (by decide)⟩

/-- C6 fails as stated: on the power-on device, with every interval between two latches
of one channel at 6 ms (outside [0.01, 2.0]), the very first latch takes the device
from Idle to Analyzing, where it also is after the second and the third. -/
theorem first_latch_leaves_idle :
    (armed DISNEY_init).state = DS_IDLE ∧
    alternating_latches 0 (armed DISNEY_init).control (toggle 3) 8 ∧
    (∀ k, k + 2 < 8 → outside_window ((toggle 3 (k + 2)).now - (toggle 3 k).now)) ∧
    (after 64 (toggle 3) 1 (armed DISNEY_init)).state = DS_ANALYZING ∧
    (after 64 (toggle 3) 2 (armed DISNEY_init)).state = DS_ANALYZING ∧
    (after 64 (toggle 3) 3 (armed DISNEY_init)).state = DS_ANALYZING ∧
    DS_ANALYZING ≠ DS_IDLE := by
  refine ⟨by decide!, by decide!, fun k _ => ?_, by decide!, by decide!, by decide!, by decide⟩
  right
  simp only [toggle]
  push_cast
  linarith

/-- A single channel's failed sanity checks do not abort the detection.  On a device with the handle set, a
mono stream whose every interval is outside [0.01, 2.0] (0.001, and one pause of 3.001)
is detected and played, at the rate of its mean interval. -/
theorem paused_stream_reaches_running :
    (∀ k, k + 1 < 40 → outside_window ((paused_stream (k + 1)).now - (paused_stream k).now)) ∧
    (after 64 paused_stream 40 DISNEY_installed).state = DS_RUNNING ∧
    (after 64 paused_stream 40 DISNEY_installed).calls =
      DISNEY_installed.calls ++ [Call.SetFreq 10227, Call.Enable true] := by
  refine ⟨?_, by decide!, by decide!⟩
  intro k hk
  unfold outside_window
  simp only [paused_stream]
  by_cases h1 : k + 1 < 20
  · have h2 : k < 20 := by omega
    rw [if_pos h1, if_pos h2]
    left
    push_cast
    linarith
  · by_cases h2 : k < 20
    · rw [if_neg h1, if_pos h2]
      right
      push_cast
      linarith
    · rw [if_neg h1, if_neg h2]
      left
      push_cast
      linarith

/-- With the handle set, the drain path of the callback subtracts `len` from both fill counts, also from the one of the channel that is not
playing.  On the Running mono device of the 40-write scenario (35 samples in channel
0, none in channel 1) a callback for 10 samples leaves channel 1's count wrapped to
`2^64 - 10`. -/
theorem drain_wraps_idle_channel :
    (DISNEY_CallBack 64 10 0 (run 64 (data_stream 40 (1 / 10)) DISNEY_installed)).map
      (fun t => ((t.da 0).used, (t.da 1).used)) = some (25, 2 ^ 64 - 10) := by
  decide!

/-- The FIFO variant in general: on a device with the handle set and not Running, a
control-port write on which bit `0x8` falls (and neither latch bit does) and which
takes the FIFO counter past 5 starts playback at 7000 Hz with channel 0 as leader,
and leaves `stereo` as it was. -/
theorem fifo_edge_starts_playback (w val : Nat) (now : ℚ) (ticks : Nat) (s : DisneyState)
    (hchan : s.chan = true) (hst : s.state ≠ DS_RUNNING)
    (h8 : falls 0x8 s.control val) (h2 : ¬ falls 0x2 s.control val)
    (h1 : ¬ falls 0x1 s.control val) (hext : Bitu.add w s.interface_det_ext 1 > 5) :
    (disney_write w (DISNEY_BASE + 2) val now ticks s).state = DS_RUNNING ∧
    (disney_write w (DISNEY_BASE + 2) val now ticks s).leader = some 0 ∧
    (disney_write w (DISNEY_BASE + 2) val now ticks s).calls =
      s.calls ++ [Call.SetFreq 7000, Call.Enable true] ∧
    (disney_write w (DISNEY_BASE + 2) val now ticks s).stereo = s.stereo := by
  have hp : ¬ (DISNEY_BASE + 2 = DISNEY_BASE) := by decide
  have hp1 : ¬ (DISNEY_BASE + 2 = DISNEY_BASE + 1) := by decide
  have hdet : fifo_detect w { s with last_used := ticks } =
      { s with last_used := ticks, interface_det_ext := Bitu.add w s.interface_det_ext 1,
               interface_det := 0, leader := some 0,
               calls := s.calls ++ [Call.SetFreq 7000, Call.Enable true],
               state := DS_RUNNING } := by
    unfold fifo_detect
    have hst' : ({ s with last_used := ticks } : DisneyState).state ≠ DS_RUNNING := hst
    rw [if_pos hst']
    simp only []
    rw [if_pos hext]
    simp [DISNEY_enable, hchan]
  unfold disney_write
  simp only [if_neg hp, if_neg hp1, if_true]
  unfold control_write
  have h2' : ¬ falls 0x2 ({ s with last_used := ticks } : DisneyState).control val := h2
  have h1' : ¬ falls 0x1 ({ s with last_used := ticks } : DisneyState).control val := h1
  have h8' : falls 0x8 ({ s with last_used := ticks } : DisneyState).control val := h8
  simp only [edge_0x2, if_neg h2', edge_0x1, if_neg h1', edge_0x8, if_pos h8', fifo_latch, hdet,
    if_pos hext, store_sample_state, store_sample_leader, store_sample_calls, store_sample_stereo,
    and_self]

/-! ## The finishing step -/

@[simp] theorem DISNEY_enable_stereo (f : Nat) (s : DisneyState) :
    (DISNEY_enable f s).stereo = s.stereo := by
  unfold DISNEY_enable
  split_ifs <;> rfl

@[simp] theorem DISNEY_enable_leader (f : Nat) (s : DisneyState) :
    (DISNEY_enable f s).leader = s.leader := by
  unfold DISNEY_enable
  split_ifs <;> rfl

/-- The signed reinterpretation of `u0 - u1` is the true difference when both counts are
below `2 ^ (w - 1)`. -/
theorem Bitu.toBits_sub (w u0 u1 : Nat) (h0 : u0 < 2 ^ (w - 1)) (h1 : u1 < 2 ^ (w - 1)) :
    Bitu.toBits w (Bitu.sub w u0 u1) = (u0 : Int) - (u1 : Int) := by
  have e : ((2 : Int) ^ w) = ((2 ^ w : Nat) : Int) := by push_cast; rfl
  have hw : u1 ≤ u0 ∨ 2 ^ w = 2 ^ (w - 1) + 2 ^ (w - 1) := by
    rcases Nat.eq_zero_or_pos w with h | h
    · subst h
      left
      simp at h0 h1
      omega
    · right
      have : w = (w - 1) + 1 := by omega
      conv_lhs => rw [this, Nat.pow_succ]
      omega
  unfold Bitu.toBits Bitu.sub
  rw [e]
  generalize 2 ^ w = P at *
  generalize 2 ^ (w - 1) = H at *
  by_cases h : u1 ≤ u0
  · rw [if_pos h, if_pos (by omega)]
    omega
  · rw [if_neg h, if_neg (by omega)]
    omega

/-- The `DS_FINISH` step of `DISNEY_analyze` sets `stereo` and `leader` from the two counts. -/
theorem DISNEY_analyze_finish_fields (w : Nat) (channel : Fin 2) (now : ℚ) (s : DisneyState)
    (hst : s.state = DS_FINISH) :
    ((DISNEY_analyze w channel now s).stereo =
      decide (Bitu.toBits w (Bitu.sub w (s.da 0).used (s.da 1).used) < 5 ∧
        Bitu.toBits w (Bitu.sub w (s.da 0).used (s.da 1).used) > -5)) ∧
    (DISNEY_analyze w channel now s).leader =
      (if (s.da 0).used > (s.da 1).used then some 0 else some 1) := by
  have h1 : ¬ s.state = DS_RUNNING := by rw [hst]; decide
  have h2 : ¬ s.state = DS_IDLE := by rw [hst]; decide
  unfold DISNEY_analyze
  simp only [if_neg h1, if_neg h2, if_pos hst, DISNEY_enable_stereo, DISNEY_enable_leader]
  constructor
  · split_ifs <;> simp_all
  · split_ifs <;> rfl

/-- C11: in the `DS_FINISH` step of `DISNEY_analyze`, for all fill counts `u0`, `u1` that are
non-negative as signed words (every count within the 128-byte capacity is, for a word of
nine bits or more), `stereo` is set exactly when `|u0 - u1| < 5`, `leader` is channel 0
exactly when `u0 > u1` and channel 1 otherwise, so the leader's count is never below the
other one. -/
theorem DISNEY_analyze_finish_stereo_leader (w : Nat) (channel : Fin 2) (now : ℚ)
    (s : DisneyState) (hst : s.state = DS_FINISH)
    (h0 : (s.da 0).used < 2 ^ (w - 1)) (h1 : (s.da 1).used < 2 ^ (w - 1)) :
    ((DISNEY_analyze w channel now s).stereo = true ↔
      |((s.da 0).used : Int) - ((s.da 1).used : Int)| < 5) ∧
    ((DISNEY_analyze w channel now s).leader = some 0 ↔ (s.da 0).used > (s.da 1).used) ∧
    ((DISNEY_analyze w channel now s).leader = some 1 ↔ (s.da 0).used ≤ (s.da 1).used) ∧
    (∃ c : Fin 2, (DISNEY_analyze w channel now s).leader = some c ∧
      (s.da (other c)).used ≤ (s.da c).used) := by
  obtain ⟨hs, hl⟩ := DISNEY_analyze_finish_fields w channel now s hst
  rw [hs, hl, Bitu.toBits_sub w _ _ h0 h1]
  refine ⟨?_, ?_, ?_, ?_⟩
  · rw [decide_eq_true_iff, abs_lt]
    constructor
    · rintro ⟨a, b⟩; exact ⟨by omega, a⟩
    · rintro ⟨a, b⟩; exact ⟨b, by omega⟩
  · by_cases h : (s.da 0).used > (s.da 1).used
    · simp [h]
    · simp [h]
  · by_cases h : (s.da 0).used > (s.da 1).used
    · simp [h]
    · simp [h]; omega
  · by_cases h : (s.da 0).used > (s.da 1).used
    · exact ⟨0, by simp [h], by simp [other]; omega⟩
    · exact ⟨1, by simp [h], by simp [other]; omega⟩

/-- Instance of C11 at 31 and 28 samples: the difference is 3, so the stream is stereo
and channel 0 leads. -/
theorem DISNEY_analyze_finish_stereo_leader_witness :
    (DISNEY_analyze 64 0 0 finish_31_28).stereo = true ∧
    (DISNEY_analyze 64 0 0 finish_31_28).leader = some 0 :=
  ⟨(DISNEY_analyze_finish_stereo_leader 64 0 0 finish_31_28 rfl (by decide) (by decide)).1.2
      (by decide),
   (DISNEY_analyze_finish_stereo_leader 64 0 0 finish_31_28 rfl (by decide) (by decide)).2.1.2
      (by decide)⟩

/-- Outside that range the signed difference wraps: with counts `0` and `2 ^ 64 - 1` on a
64-bit word the difference reads as `1` and `stereo` is set. -/
theorem DISNEY_analyze_finish_wraps :
    (DISNEY_analyze 64 0 0 finish_wrapped).stereo = true := by
  decide!

/-! ## The snapshot -/

/-- C27: the snapshot stores the leader reference as a discriminant and round-trips it:
for the leader values unset, channel 0 and channel 1 the saved byte is `0xff`, `0` and `1`,
and loading the saved archive into any device `t` re-resolves `leader` to the same channel
of that device (or to unset). -/
theorem DBPSerialize_DISNEY_leader_roundtrip (s t : DisneyState) :
    (saved s).leader_idx = (match s.leader with | none => 0xff | some c => (c : Nat)) ∧
    (DBPSerialize_DISNEY ArchiveMode.MODE_LOAD false (saved s) t).2.leader = s.leader := by
  have hidx : (saved s).leader_idx = leader_idx s := rfl
  have hval : leader_idx s = (match s.leader with | none => 0xff | some c => (c : Nat)) := by
    unfold leader_idx
    rcases hl : s.leader with _ | c
    · rfl
    · rcases fin2_cases c with rfl | rfl <;> rfl
  refine ⟨by rw [hidx, hval], ?_⟩
  show (if h : (saved s).leader_idx < 2 then some ⟨(saved s).leader_idx, h⟩ else none)
    = s.leader
  rw [hidx, hval] at *
  rcases hl : s.leader with _ | c
  · rfl
  · have hc : (c : Nat) < 2 := c.isLt
    simp only [hc, dite_true]

/-! ## The analysing step -/

/-- The analysing step with a baseline, with the sanity check as `outside_window`. -/
theorem DISNEY_analyze_measured_aux (w : Nat) (c : Fin 2) (t : ℚ) (s : DisneyState)
    (hst : s.state = DS_ANALYZING) (hinit : (s.da c).speedcheck_init = true) :
    ((DISNEY_analyze w c t s).da c).speedcheck_sum =
      (s.da c).speedcheck_sum + (t - (s.da c).speedcheck_last) ∧
    (((DISNEY_analyze w c t s).da c).speedcheck_failed = true ↔
      (outside_window (t - (s.da c).speedcheck_last) ∨ (s.da c).speedcheck_failed = true)) ∧
    (DISNEY_analyze w c t s).da (other c) = s.da (other c) ∧
    ((DISNEY_analyze w c t s).da c).used = (s.da c).used ∧
    ((DISNEY_analyze w c t s).state = DS_IDLE ↔
      (((DISNEY_analyze w c t s).da 0).speedcheck_failed = true ∧
        ((DISNEY_analyze w c t s).da 1).speedcheck_failed = true)) ∧
    ((DISNEY_analyze w c t s).state = DS_FINISH ↔
      (¬ (((DISNEY_analyze w c t s).da 0).speedcheck_failed = true ∧
        ((DISNEY_analyze w c t s).da 1).speedcheck_failed = true) ∧
        (30 < (s.da 0).used ∨ 30 < (s.da 1).used))) ∧
    ((DISNEY_analyze w c t s).state = DS_ANALYZING ↔
      (¬ (((DISNEY_analyze w c t s).da 0).speedcheck_failed = true ∧
        ((DISNEY_analyze w c t s).da 1).speedcheck_failed = true) ∧
        ¬ (30 < (s.da 0).used ∨ 30 < (s.da 1).used))) := by
  rcases fin2_cases c with rfl | rfl
  · by_cases h30 : 30 < (s.da 0).used ∨ 30 < (s.da 1).used <;>
    by_cases hout : outside_window (t - (s.da 0).speedcheck_last) <;>
    cases hf0 : (s.da 0).speedcheck_failed <;>
    cases hf1 : (s.da 1).speedcheck_failed <;>
    simp [DISNEY_analyze, hst, hinit, hout, hf0, hf1, h30, other, DS_IDLE, DS_RUNNING,
      DS_ANALYZING, DS_FINISH]
  · by_cases h30 : 30 < (s.da 0).used ∨ 30 < (s.da 1).used <;>
    by_cases hout : outside_window (t - (s.da 1).speedcheck_last) <;>
    cases hf0 : (s.da 0).speedcheck_failed <;>
    cases hf1 : (s.da 1).speedcheck_failed <;>
    simp [DISNEY_analyze, hst, hinit, hout, hf0, hf1, h30, other, DS_IDLE, DS_RUNNING,
      DS_ANALYZING, DS_FINISH]

/-- C28: in state Analyzing, a latch at time `t` on a channel `c` that already has a
baseline adds `t - last_c` to the sum of `c` and leaves `c` marked failed exactly when
`t - last_c < 0.01` or `t - last_c > 2` or `c` was failed before; the other channel and
the fill counts are not touched.  The device then is Idle exactly when both channels are
failed, otherwise Finishing exactly when a fill count exceeds 30, and otherwise
Analyzing. -/
theorem DISNEY_analyze_measured (w : Nat) (c : Fin 2) (t : ℚ) (s : DisneyState)
    (hst : s.state = DS_ANALYZING) (hinit : (s.da c).speedcheck_init = true) :
    ((DISNEY_analyze w c t s).da c).speedcheck_sum =
      (s.da c).speedcheck_sum + (t - (s.da c).speedcheck_last) ∧
    (((DISNEY_analyze w c t s).da c).speedcheck_failed = true ↔
      ((t - (s.da c).speedcheck_last < 1 / 100 ∨ t - (s.da c).speedcheck_last > 2) ∨
        (s.da c).speedcheck_failed = true)) ∧
    (DISNEY_analyze w c t s).da (other c) = s.da (other c) ∧
    ((DISNEY_analyze w c t s).da c).used = (s.da c).used ∧
    ((DISNEY_analyze w c t s).state = DS_IDLE ↔
      (((DISNEY_analyze w c t s).da 0).speedcheck_failed = true ∧
        ((DISNEY_analyze w c t s).da 1).speedcheck_failed = true)) ∧
    ((DISNEY_analyze w c t s).state = DS_FINISH ↔
      (¬ (((DISNEY_analyze w c t s).da 0).speedcheck_failed = true ∧
        ((DISNEY_analyze w c t s).da 1).speedcheck_failed = true) ∧
        ((s.da 0).used > 30 ∨ (s.da 1).used > 30))) ∧
    ((DISNEY_analyze w c t s).state = DS_ANALYZING ↔
      (¬ (((DISNEY_analyze w c t s).da 0).speedcheck_failed = true ∧
        ((DISNEY_analyze w c t s).da 1).speedcheck_failed = true) ∧
        ¬ ((s.da 0).used > 30 ∨ (s.da 1).used > 30))) :=
  DISNEY_analyze_measured_aux w c t s hst hinit

/-- Instance of C28: a latch of channel 0 at time 1.1, 0.1 after its baseline, adds 0.1
to the sum and, channel 0 holding 31 samples, moves the device to Finishing. -/
theorem DISNEY_analyze_measured_witness :
    ((DISNEY_analyze 64 0 (11 / 10) analysing_31_3).da 0).speedcheck_sum = 1 / 10 ∧
    (DISNEY_analyze 64 0 (11 / 10) analysing_31_3).state = DS_FINISH :=
  ⟨((DISNEY_analyze_measured 64 0 (11 / 10) analysing_31_3 rfl rfl).1).trans (by decide!),
   ((DISNEY_analyze_measured 64 0 (11 / 10) analysing_31_3 rfl rfl).2.2.2.2.2.1).2
      ⟨by decide!, by decide!⟩⟩

/-! ## Gap filling -/

theorem memset_apply (buf : Nat → Nat) (start val n i : Nat) (hi : i < start + n) :
    memset buf start val n i = if i < start then buf i else val := by
  unfold memset
  by_cases h : i < start
  · rw [if_neg (by omega), if_pos h]
  · rw [if_pos ⟨by omega, hi⟩, if_neg h]

/-- The stereo underflow path in full: what is handed to the sink. -/
theorem CallBack_stereo_gap (w len : Nat) (s : DisneyState)
    (hchan : s.chan = true) (hlt : min (s.da 0).used (s.da 1).used < len)
    (hsz : len ≤ DISNEY_SIZE) :
    ∃ t, CallBack_stereo w len s = some t ∧
      t.calls = s.calls ++ [Call.AddSamples_s8 len (stereodata len
        (fun i => if i < min (s.da 0).used (s.da 1).used then (s.da 0).buffer i
          else gap_value (s.da 0).buffer (min (s.da 0).used (s.da 1).used))
        (fun i => if i < min (s.da 0).used (s.da 1).used then (s.da 1).buffer i
          else gap_value (s.da 1).buffer (min (s.da 0).used (s.da 1).used)))] ∧
      t.last_used = s.last_used ∧ (t.da 0).used = 0 ∧ (t.da 1).used = 0 := by
  obtain ⟨av, hav⟩ : ∃ av, av = min (s.da 0).used (s.da 1).used := ⟨_, rfl⟩
  rw [← hav] at hlt ⊢
  have hru : (if (s.da 1).used < (s.da 0).used then (s.da 1).used else (s.da 0).used) = av := by
    rw [hav]; split <;> omega
  have hreal : ¬ (av ≥ len) := by omega
  have hnot : ¬ (len > DISNEY_SIZE) := by omega
  have hdata : ∀ k : Fin 2,
      stereodata len (memset (s.da 0).buffer av
          (if av ≠ 0 then (s.da 0).buffer (av - 1) else 0x80) (len - av))
        (memset (s.da 1).buffer av
          (if av ≠ 0 then (s.da 1).buffer (av - 1) else 0x80) (len - av)) =
      stereodata len (fun i => if i < av then (s.da 0).buffer i else gap_value (s.da 0).buffer av)
        (fun i => if i < av then (s.da 1).buffer i else gap_value (s.da 1).buffer av) := by
    intro _
    unfold stereodata
    apply List.map_congr_left
    intro j hj
    have hj2 : j / 2 < av + (len - av) := by
      have := List.mem_range.mp hj
      omega
    rw [memset_apply _ _ _ _ _ hj2, memset_apply _ _ _ _ _ hj2]
    unfold gap_value
    by_cases h0 : av = 0
    · simp [h0]
    · simp [h0]
  unfold CallBack_stereo
  simp only [hru, if_neg hreal, if_pos hsz, DISNEY_PlayStereo, hchan, hnot,
    Bool.true_eq_false, or_self, if_false, Option.map_some']
  refine ⟨_, rfl, ?_, rfl, rfl, rfl⟩
  show s.calls ++ [Call.AddSamples_s8 len _] = _
  rw [hdata 0]

/-- The mono underflow path in full: what is handed to the sink. -/
theorem CallBack_mono_gap (w len : Nat) (l : Fin 2) (s : DisneyState)
    (hchan : s.chan = true) (hlt : (s.da l).used < len) (hsz : len ≤ DISNEY_SIZE) :
    ∃ t, CallBack_mono w len l s = some t ∧
      t.calls = s.calls ++ [Call.AddSamples_m8 len ((List.range len).map
        (fun i => if i < mono_kept (s.da l).buffer (s.da l).used then (s.da l).buffer i
          else gap_value (s.da l).buffer (mono_kept (s.da l).buffer (s.da l).used)))] ∧
      t.last_used = s.last_used ∧ (t.da 0).used = 0 ∧ (t.da 1).used = 0 := by
  have hreal : ¬ ((s.da l).used ≥ len) := by omega
  have hnot : ¬ (len > DISNEY_SIZE) := by omega
  obtain ⟨ru, hru⟩ : ∃ ru, ru = mono_kept (s.da l).buffer (s.da l).used := ⟨_, rfl⟩
  have hru' : (if (s.da l).used ≠ 0 ∧ (s.da l).buffer ((s.da l).used - 1) = 0
      then (s.da l).used - 1 else (s.da l).used) = ru := by rw [hru]; rfl
  have hle : ru ≤ (s.da l).used := by
    rw [← hru']; split <;> omega
  have hdata : (List.range len).map (memset (s.da l).buffer ru
        (if ru ≠ 0 then (s.da l).buffer (ru - 1) else 0x80) (len - ru)) =
      (List.range len).map
        (fun i => if i < ru then (s.da l).buffer i else gap_value (s.da l).buffer ru) := by
    apply List.map_congr_left
    intro j hj
    have hj2 : j < ru + (len - ru) := by
      have := List.mem_range.mp hj
      omega
    rw [memset_apply _ _ _ _ _ hj2]
    unfold gap_value
    by_cases h0 : ru = 0
    · simp [h0]
    · simp [h0]
  rw [← hru]
  unfold CallBack_mono
  simp only [if_neg hreal, if_pos hsz, hru', chan_AddSamples_m8, hchan, hnot,
    Bool.true_eq_false, or_self, if_false, Option.map_some', Function.update_same]
  refine ⟨_, rfl, ?_, rfl, rfl, rfl⟩
  show s.calls ++ [Call.AddSamples_m8 len _] = _
  rw [hdata]

/-- C29: the gap value on underflow, for a request within the buffer on a device with its
channel handle.  Stereo: the sink receives, for each channel, its first `available`
samples and then that channel's sample at index `available - 1`, or `0x80` when
`available = 0`.  Mono: a last buffered sample 0 of the leader is dropped, and the sink
receives the remaining samples and then the last of them, or `0x80` when none remains.
In both cases the two fill counts are 0 afterwards. -/
theorem DISNEY_CallBack_gap_value (w len ticks : Nat) (s : DisneyState)
    (hchan : s.chan = true) (hsz : len ≤ DISNEY_SIZE) :
    (s.stereo = true → min (s.da 0).used (s.da 1).used < len →
      ∃ t, DISNEY_CallBack w len ticks s = some t ∧
        t.calls = s.calls ++ Call.AddSamples_s8 len (stereodata len
          (fun i => if i < min (s.da 0).used (s.da 1).used then (s.da 0).buffer i
            else gap_value (s.da 0).buffer (min (s.da 0).used (s.da 1).used))
          (fun i => if i < min (s.da 0).used (s.da 1).used then (s.da 1).buffer i
            else gap_value (s.da 1).buffer (min (s.da 0).used (s.da 1).used))) ::
          (if Bitu.add w s.last_used 100 < ticks then [Call.PIC_AddEvent_DISNEY_disable]
            else []) ∧
        (t.da 0).used = 0 ∧ (t.da 1).used = 0) ∧
    (∀ l, s.stereo = false → s.leader = some l → (s.da l).used < len →
      ∃ t, DISNEY_CallBack w len ticks s = some t ∧
        t.calls = s.calls ++ Call.AddSamples_m8 len ((List.range len).map
          (fun i => if i < mono_kept (s.da l).buffer (s.da l).used then (s.da l).buffer i
            else gap_value (s.da l).buffer (mono_kept (s.da l).buffer (s.da l).used))) ::
          (if Bitu.add w s.last_used 100 < ticks then [Call.PIC_AddEvent_DISNEY_disable]
            else []) ∧
        (t.da 0).used = 0 ∧ (t.da 1).used = 0) := by
  constructor
  · intro hst hlt
    have hlen0 : len ≠ 0 := by omega
    obtain ⟨t1, ht1, hc1, hl1, hu0, hu1⟩ := CallBack_stereo_gap w len s hchan hlt hsz
    have hcb : DISNEY_CallBack w len ticks s = some (check_last_used w ticks t1) := by
      simp only [DISNEY_CallBack, if_neg hlen0, hst, if_true, ht1, Option.map_some']
    refine ⟨_, hcb, ?_, ?_, ?_⟩
    · rw [check_last_used_calls, hc1, hl1]; simp
    · rw [check_last_used_da]; exact hu0
    · rw [check_last_used_da]; exact hu1
  · intro l hst hl hlt
    have hlen0 : len ≠ 0 := by omega
    obtain ⟨t1, ht1, hc1, hl1, hu0, hu1⟩ := CallBack_mono_gap w len l s hchan hlt hsz
    have hcb : DISNEY_CallBack w len ticks s = some (check_last_used w ticks t1) := by
      simp only [DISNEY_CallBack, if_neg hlen0, hst, Bool.false_eq_true, if_false, hl, ht1,
        Option.map_some']
    refine ⟨_, hcb, ?_, ?_, ?_⟩
    · rw [check_last_used_calls, hc1, hl1]; simp
    · rw [check_last_used_da]; exact hu0
    · rw [check_last_used_da]; exact hu1

/-- Instance of C29: the mono device holding 7, 9, 0 is asked for five samples; the
trailing 0 is dropped and the sink receives 7, 9 and then 9 three times. -/
theorem DISNEY_CallBack_gap_value_witness :
    ∃ t, DISNEY_CallBack 64 5 0 mono_three = some t ∧
      t.calls = [Call.Install 10000, Call.AddSilence, Call.Enable false,
        Call.AddSamples_m8 5 [7, 9, 9, 9, 9]] ∧
      (t.da 0).used = 0 ∧ (t.da 1).used = 0 := by
  obtain ⟨t, h1, h2, h3, h4⟩ :=
    (DISNEY_CallBack_gap_value 64 5 0 mono_three rfl (by decide)).2 0 rfl rfl (by decide)
  refine ⟨t, h1, ?_, h3, h4⟩
  rw [h2]
  decide

/-! ## The data-port streak -/

theorem data_write_counting (w val : Nat) (now : ℚ) (s : DisneyState) (k : Nat)
    (hw : 3 ≤ w) (hst : s.state = DS_IDLE) (hdet : s.interface_det = k) (hk : k < 5) :
    (data_write w val now s).state = DS_IDLE ∧ (data_write w val now s).da = s.da ∧
    (data_write w val now s).interface_det = k + 1 := by
  have hpow : 2 ^ 3 ≤ 2 ^ w := Nat.pow_le_pow_right (by decide) hw
  have hadd : Bitu.add w k 1 = k + 1 := by
    unfold Bitu.add
    exact Nat.mod_eq_of_lt (by omega)
  have hne : s.state ≠ DS_RUNNING := by rw [hst]; decide
  have hle : ¬ (k + 1 > 5) := by omega
  have hd : data_detect w val now s =
      { s with data := val % 256, interface_det := k + 1 } := by
    unfold data_detect
    simp only [hdet, hadd, if_pos hne, if_neg hle, ne_eq, not_false_eq_true]
  unfold data_write
  rw [hd]
  simp only [if_neg hle]
  refine ⟨hst, ?_, ?_⟩ <;> trivial

theorem data_write_sixth (w val : Nat) (now : ℚ) (s : DisneyState)
    (hw : 3 ≤ w) (hst : s.state = DS_IDLE) (hdet : s.interface_det = 5) :
    (data_write w val now s).state = DS_ANALYZING ∧
    ((data_write w val now s).da 0).used = 1 ∧
    ((data_write w val now s).da 1).used = 0 ∧
    (∀ c, ((data_write w val now s).da c).speedcheck_sum = 0 ∧
      ((data_write w val now s).da c).speedcheck_failed = false) ∧
    ((data_write w val now s).da 0).speedcheck_last = now ∧
    ((data_write w val now s).da 0).speedcheck_init = true ∧
    ((data_write w val now s).da 1).speedcheck_init = false ∧
    ((data_write w val now s).da 0).buffer 0 = val % 256 := by
  have hpow : 2 ^ 3 ≤ 2 ^ w := Nat.pow_le_pow_right (by decide) hw
  have hadd : Bitu.add w 5 1 = 6 := by
    unfold Bitu.add
    exact Nat.mod_eq_of_lt (by omega)
  have hne : s.state ≠ DS_RUNNING := by rw [hst]; decide
  have hd : data_detect w val now s =
      DISNEY_analyze w 0 now { s with data := val % 256, interface_det := 6 } := by
    unfold data_detect
    simp only [hdet, hadd, if_pos hne, ne_eq, not_false_eq_true]
    rfl
  have hdet6 : (data_detect w val now s).interface_det = 6 := by
    rw [hd]; simp [DISNEY_analyze, hst, DS_IDLE, DS_RUNNING]
  unfold data_write
  rw [if_pos (by rw [hdet6]; decide), hd]
  refine ⟨?_, ?_, ?_, ?_, ?_, ?_, ?_, ?_⟩ <;>
    simp [DISNEY_analyze, store_sample, hst, DS_IDLE, DS_RUNNING, DS_ANALYZING, DISNEY_SIZE]
  intro c
  rcases fin2_cases c with rfl | rfl <;> simp

theorem after_streak (w : Nat) (x : Nat → PortWrite) (s : DisneyState)
    (hw : 3 ≤ w) (hst : s.state = DS_IDLE) (hdet : s.interface_det = 0)
    (hport : ∀ k, k < 6 → (x k).port = DISNEY_BASE) :
    ∀ k, k ≤ 5 → (after w x k s).state = DS_IDLE ∧ (after w x k s).da = s.da ∧
      (after w x k s).interface_det = k := by
  intro k
  induction k with
  | zero => intro _; exact ⟨hst, rfl, hdet⟩
  | succ k ih =>
    intro hk
    obtain ⟨h1, h2, h3⟩ := ih (by omega)
    rw [after_succ]
    unfold disney_write
    simp only [hport k (by omega), if_true]
    obtain ⟨g1, g2, g3⟩ := data_write_counting w (x k).val (x k).now
      { after w x k s with last_used := (x k).ticks } k hw h1 h3 (by omega)
    exact ⟨g1, g2.trans h2, g3⟩

/-- C30: from an Idle device whose data-write counter is 0, each of the first five
consecutive data-port writes leaves the state Idle and both channels as they were; the
sixth moves the device to Analyzing, with both sums 0 and both failed flags clear, the
time of the write as the baseline of channel 0, and the written byte as the first and
only sample of channel 0, channel 1 holding none. -/
theorem sixth_data_write_starts_analysis (w : Nat) (x : Nat → PortWrite) (s : DisneyState)
    (hw : 3 ≤ w) (hst : s.state = DS_IDLE) (hdet : s.interface_det = 0)
    (hport : ∀ k, k < 6 → (x k).port = DISNEY_BASE) :
    (∀ k, k ≤ 5 → (after w x k s).state = DS_IDLE ∧ (after w x k s).da = s.da) ∧
    (after w x 6 s).state = DS_ANALYZING ∧
    ((after w x 6 s).da 0).used = 1 ∧
    ((after w x 6 s).da 1).used = 0 ∧
    (∀ c, ((after w x 6 s).da c).speedcheck_sum = 0 ∧
      ((after w x 6 s).da c).speedcheck_failed = false) ∧
    ((after w x 6 s).da 0).speedcheck_last = (x 5).now ∧
    ((after w x 6 s).da 0).speedcheck_init = true ∧
    ((after w x 6 s).da 1).speedcheck_init = false ∧
    ((after w x 6 s).da 0).buffer 0 = (x 5).val % 256 := by
  have hinv := after_streak w x s hw hst hdet hport
  refine ⟨fun k hk => ⟨(hinv k hk).1, (hinv k hk).2.1⟩, ?_⟩
  obtain ⟨h1, _, h3⟩ := hinv 5 (le_refl 5)
  rw [after_succ]
  unfold disney_write
  simp only [hport 5 (by decide), if_true]
  exact data_write_sixth w (x 5).val (x 5).now
    { after w x 5 s with last_used := (x 5).ticks } hw h1 h3

/-- Instance of C30: six writes of `0x90`, ..., `0x95` to the data port of the device the
constructor leaves; the device is Idle after the fifth and Analyzing after the sixth, with
`0x95` as the one sample of channel 0 and 0.6 as its baseline. -/
theorem sixth_data_write_starts_analysis_witness :
    (after 64 six_writes 5 DISNEY_init).state = DS_IDLE ∧
    (after 64 six_writes 6 DISNEY_init).state = DS_ANALYZING ∧
    ((after 64 six_writes 6 DISNEY_init).da 0).used = 1 ∧
    ((after 64 six_writes 6 DISNEY_init).da 0).speedcheck_last = 6 / 10 ∧
    ((after 64 six_writes 6 DISNEY_init).da 0).buffer 0 = 0x95 :=
  have h := sixth_data_write_starts_analysis 64 six_writes DISNEY_init (by decide) rfl rfl
    (fun _ _ => rfl)
  ⟨(h.1 5 (le_refl 5)).1, h.2.1, h.2.2.1, h.2.2.2.2.2.1.trans (by decide!),
    h.2.2.2.2.2.2.2.2.trans (by decide)⟩

/-! ## Port writes while Running -/

theorem appended_refl (a : dac_channel) : appended 0 a a :=
  ⟨le_refl _, le_refl _, fun h => absurd h (lt_irrefl _), fun h => h, fun _ _ => rfl⟩

theorem appended_trans (n m : Nat) (a b c : dac_channel) (h1 : appended n a b)
    (h2 : appended m b c) : appended (n + m) a c := by
  obtain ⟨a1, a2, a3, a4, a5⟩ := h1
  obtain ⟨b1, b2, b3, b4, b5⟩ := h2
  refine ⟨by omega, by omega, ?_, fun h => b4 (a4 h), ?_⟩
  · intro h
    by_cases hab : a.used < b.used
    · exact a3 hab
    · have : a.used = b.used := by omega
      rw [this]
      exact b3 (by omega)
  · intro i hi
    rw [b5 i (by omega), a5 i hi]

theorem appended_mono (n m : Nat) (a b : dac_channel) (h : appended n a b) (hnm : n ≤ m) :
    appended m a b :=
  ⟨h.1, by have := h.2.1; omega, h.2.2.1, h.2.2.2.1, h.2.2.2.2⟩

theorem playing_step_refl (s : DisneyState) : playing_step 0 0 s s :=
  ⟨rfl, rfl, rfl, rfl, rfl, appended_refl _, appended_refl _⟩

theorem playing_step_trans (a b c d : Nat) (s t u : DisneyState) (h1 : playing_step a b s t)
    (h2 : playing_step c d t u) : playing_step (a + c) (b + d) s u := by
  obtain ⟨a1, a2, a3, a4, a5, a6, a7⟩ := h1
  obtain ⟨b1, b2, b3, b4, b5, b6, b7⟩ := h2
  exact ⟨b1.trans a1, b2.trans a2, b3.trans a3, b4.trans a4, b5.trans a5,
    appended_trans _ _ _ _ _ a6 b6, appended_trans _ _ _ _ _ a7 b7⟩

theorem playing_step_mono (a b c d : Nat) (s t : DisneyState) (h : playing_step a b s t)
    (hac : a ≤ c) (hbd : b ≤ d) : playing_step c d s t :=
  ⟨h.1, h.2.1, h.2.2.1, h.2.2.2.1, h.2.2.2.2.1, appended_mono _ _ _ _ h.2.2.2.2.2.1 hac,
    appended_mono _ _ _ _ h.2.2.2.2.2.2 hbd⟩

theorem store_sample_0_step (s : DisneyState) : playing_step 1 0 s (store_sample 0 s) := by
  unfold store_sample
  by_cases h : (s.da 0).used < DISNEY_SIZE
  · rw [if_pos h]
    refine ⟨rfl, rfl, rfl, rfl, rfl, ?_, ?_⟩
    · refine ⟨?_, ?_, ?_, ?_, ?_⟩
      · simp
      · simp
      · intro _; exact h
      · intro _; simp; omega
      · intro i hi
        have hne : i ≠ (s.da 0).used := by omega
        simp [Function.update_noteq hne]
    · have h10 : (1 : Fin 2) ≠ 0 := by decide
      simp only [Function.update_noteq h10]
      exact appended_refl _
  · rw [if_neg h]
    exact playing_step_mono _ _ _ _ _ _ (playing_step_refl s) (by omega) (le_refl _)

theorem store_sample_1_step (s : DisneyState) : playing_step 0 1 s (store_sample 1 s) := by
  unfold store_sample
  by_cases h : (s.da 1).used < DISNEY_SIZE
  · rw [if_pos h]
    refine ⟨rfl, rfl, rfl, rfl, rfl, ?_, ?_⟩
    · have h01 : (0 : Fin 2) ≠ 1 := by decide
      simp only [Function.update_noteq h01]
      exact appended_refl _
    · refine ⟨?_, ?_, ?_, ?_, ?_⟩
      · simp
      · simp
      · intro _; exact h
      · intro _; simp; omega
      · intro i hi
        have hne : i ≠ (s.da 1).used := by omega
        simp [Function.update_noteq hne]
  · rw [if_neg h]
    exact playing_step_mono _ _ _ _ _ _ (playing_step_refl s) (le_refl _) (by omega)

theorem edge_0x2_running (w val : Nat) (now : ℚ) (s : DisneyState)
    (hrun : s.state = DS_RUNNING) : playing_step 0 1 s (edge_0x2 w val now s) := by
  unfold edge_0x2
  split_ifs
  · have hl : latch_detect w 1 now s = s := by
      unfold latch_detect
      rw [if_neg (by simp [hrun])]
    unfold channel_latch
    rw [hl]
    exact store_sample_1_step s
  · exact playing_step_mono _ _ _ _ _ _ (playing_step_refl s) (le_refl _) (by omega)

theorem edge_0x1_running (w val : Nat) (now : ℚ) (s : DisneyState)
    (hrun : s.state = DS_RUNNING) : playing_step 1 0 s (edge_0x1 w val now s) := by
  unfold edge_0x1
  split_ifs
  · have hl : latch_detect w 0 now s = s := by
      unfold latch_detect
      rw [if_neg (by simp [hrun])]
    unfold channel_latch
    rw [hl]
    exact store_sample_0_step s
  · exact playing_step_mono _ _ _ _ _ _ (playing_step_refl s) (by omega) (le_refl _)

theorem edge_0x8_running (w val : Nat) (s : DisneyState)
    (hrun : s.state = DS_RUNNING) : playing_step 1 0 s (edge_0x8 w val s) := by
  have hd : fifo_detect w s = s := by
    unfold fifo_detect
    rw [if_neg (by simp [hrun])]
  unfold edge_0x8 fifo_latch
  rw [hd]
  split_ifs
  · exact store_sample_0_step s
  · exact playing_step_mono _ _ _ _ _ _ (playing_step_refl s) (by omega) (le_refl _)
  · exact playing_step_mono _ _ _ _ _ _ (playing_step_refl s) (by omega) (le_refl _)

theorem control_write_running (w val : Nat) (now : ℚ) (s : DisneyState)
    (hrun : s.state = DS_RUNNING) : playing_step 2 1 s (control_write w val now s) := by
  have hA := edge_0x2_running w val now s hrun
  have hB := edge_0x1_running w val now (edge_0x2 w val now s) (hA.1.trans hrun)
  have hC := edge_0x8_running w val (edge_0x1 w val now (edge_0x2 w val now s))
    (hB.1.trans (hA.1.trans hrun))
  have hAB := playing_step_trans _ _ _ _ _ _ _ hA hB
  have hABC := playing_step_trans _ _ _ _ _ _ _ hAB hC
  exact hABC

theorem data_write_running (w val : Nat) (now : ℚ) (s : DisneyState)
    (hrun : s.state = DS_RUNNING) : playing_step 1 0 s (data_write w val now s) := by
  have hd : data_detect w val now s = { s with data := val % 256 } := by
    unfold data_detect
    simp only [hrun, ne_eq, not_true_eq_false, if_false]
  have h0 : playing_step 0 0 s { s with data := val % 256 } :=
    ⟨rfl, rfl, rfl, rfl, rfl, appended_refl _, appended_refl _⟩
  unfold data_write
  rw [hd]
  split_ifs
  · exact playing_step_trans _ _ _ _ _ _ _ h0 (store_sample_0_step _)
  · exact playing_step_mono _ _ _ _ _ _ h0 (by omega) (le_refl _)

/-- C31 fails as stated: in the Running device started through the FIFO strobes, with
control bits `0x1` and `0x8` raised, one write of 0 to the control port appends two bytes
to channel 0, one for each of the two falling bits. -/
theorem disney_write_running_two_bytes :
    fifo_running.state = DS_RUNNING ∧ (fifo_running.da 0).used = 1 ∧
    ((disney_write 64 (DISNEY_BASE + 2) 0 21 0 fifo_running).da 0).used = 3 := by
  decide!

/-- C31, as the code has it: while the device is Running a port write leaves the state,
the stereo flag, the leader and both pattern counters as they are; it appends at most one
byte to channel 1 and at most two to channel 0 (at most one when the port is not the
control port), keeps the bytes already buffered, and appends to a channel only while its
fill count is below 128, never raising it above 128. -/
theorem disney_write_running (w port val : Nat) (now : ℚ) (ticks : Nat) (s : DisneyState)
    (hrun : s.state = DS_RUNNING) :
    (disney_write w port val now ticks s).state = s.state ∧
    (disney_write w port val now ticks s).stereo = s.stereo ∧
    (disney_write w port val now ticks s).leader = s.leader ∧
    (disney_write w port val now ticks s).interface_det = s.interface_det ∧
    (disney_write w port val now ticks s).interface_det_ext = s.interface_det_ext ∧
    ((disney_write w port val now ticks s).da 0).used ≤ (s.da 0).used + 2 ∧
    (port ≠ DISNEY_BASE + 2 →
      ((disney_write w port val now ticks s).da 0).used ≤ (s.da 0).used + 1) ∧
    ((disney_write w port val now ticks s).da 1).used ≤ (s.da 1).used + 1 ∧
    (∀ c, (s.da c).used ≤ ((disney_write w port val now ticks s).da c).used ∧
      ((s.da c).used < ((disney_write w port val now ticks s).da c).used →
        (s.da c).used < DISNEY_SIZE) ∧
      ((s.da c).used ≤ DISNEY_SIZE →
        ((disney_write w port val now ticks s).da c).used ≤ DISNEY_SIZE) ∧
      ∀ i, i < (s.da c).used →
        ((disney_write w port val now ticks s).da c).buffer i = (s.da c).buffer i) := by
  have h0 : playing_step 0 0 s { s with last_used := ticks } :=
    ⟨rfl, rfl, rfl, rfl, rfl, appended_refl _, appended_refl _⟩
  have key : playing_step 2 1 s (disney_write w port val now ticks s) ∧
      (port ≠ DISNEY_BASE + 2 → playing_step 1 0 s (disney_write w port val now ticks s)) := by
    unfold disney_write
    simp only []
    split_ifs with h1 h2 h3
    · have := playing_step_trans _ _ _ _ _ _ _ h0
        (data_write_running w val now { s with last_used := ticks } hrun)
      exact ⟨playing_step_mono _ _ _ _ _ _ this (by omega) (by omega), fun _ => this⟩
    · exact ⟨playing_step_mono _ _ _ _ _ _ h0 (by omega) (by omega),
        fun _ => playing_step_mono _ _ _ _ _ _ h0 (by omega) (by omega)⟩
    · have := playing_step_trans _ _ _ _ _ _ _ h0
        (control_write_running w val now { s with last_used := ticks } hrun)
      exact ⟨this, fun h => absurd h3 h⟩
    · exact ⟨playing_step_mono _ _ _ _ _ _ h0 (by omega) (by omega),
        fun _ => playing_step_mono _ _ _ _ _ _ h0 (by omega) (by omega)⟩
  obtain ⟨⟨k1, k2, k3, k4, k5, k6, k7⟩, kd⟩ := key
  refine ⟨k1, k2, k3, k4, k5, k6.2.1, fun h => (kd h).2.2.2.2.2.1.2.1, k7.2.1, ?_⟩
  intro c
  rcases fin2_cases c with rfl | rfl
  · exact ⟨k6.1, k6.2.2.1, k6.2.2.2.1, k6.2.2.2.2⟩
  · exact ⟨k7.1, k7.2.2.1, k7.2.2.2.1, k7.2.2.2.2⟩

/-- Instance of the amended C31 on the device started through the FIFO strobes: the
write of 0 to the control port leaves it Running and adds no more than two bytes to
channel 0 and none to channel 1. -/
theorem disney_write_running_witness :
    (disney_write 64 (DISNEY_BASE + 2) 0 21 0 fifo_running).state = DS_RUNNING ∧
    ((disney_write 64 (DISNEY_BASE + 2) 0 21 0 fifo_running).da 0).used ≤ 1 + 2 ∧
    ((disney_write 64 (DISNEY_BASE + 2) 0 21 0 fifo_running).da 1).used ≤ 0 + 1 :=
  have hr : fifo_running.state = DS_RUNNING := by decide!
  have h := disney_write_running 64 (DISNEY_BASE + 2) 0 21 0 fifo_running hr
  ⟨h.1.trans hr, le_trans h.2.2.2.2.2.1 (by decide!), le_trans h.2.2.2.2.2.2.2.1 (by decide!)⟩

/-! ## The frame of the callback -/

theorem drain_frame (w len : Nat) (s t : DisneyState) (h : drain w len s = some t) :
    t.state = s.state ∧ t.stereo = s.stereo ∧ t.leader = s.leader ∧
    t.interface_det = s.interface_det ∧ t.interface_det_ext = s.interface_det_ext ∧
    t.chan = s.chan ∧ t.mo = s.mo ∧ t.last_used = s.last_used ∧ t.calls = s.calls := by
  unfold drain at h
  split_ifs at h
  cases h
  exact ⟨rfl, rfl, rfl, rfl, rfl, rfl, rfl, rfl, rfl⟩

theorem DISNEY_PlayStereo_played (len : Nat) (l r : Nat → Nat) (s t : DisneyState)
    (h : DISNEY_PlayStereo len l r s = some t) :
    t = { s with calls := s.calls ++ [Call.AddSamples_s8 len (stereodata len l r)] } := by
  unfold DISNEY_PlayStereo at h
  by_cases hc : s.chan = false ∨ len > DISNEY_SIZE
  · rw [if_pos hc] at h; cases h
  · rw [if_neg hc] at h
    exact (Option.some.inj h).symm

theorem chan_AddSamples_m8_played (len : Nat) (buf : Nat → Nat) (s t : DisneyState)
    (h : chan_AddSamples_m8 len buf s = some t) :
    t = { s with calls := s.calls ++ [Call.AddSamples_m8 len ((List.range len).map buf)] } := by
  unfold chan_AddSamples_m8 at h
  by_cases hc : s.chan = false ∨ len > DISNEY_SIZE
  · rw [if_pos hc] at h; cases h
  · rw [if_neg hc] at h
    exact (Option.some.inj h).symm

theorem CallBack_stereo_played (w len : Nat) (s t : DisneyState)
    (h : CallBack_stereo w len s = some t) : played len s t := by
  unfold CallBack_stereo at h
  simp only [] at h
  generalize (if (s.da 1).used < (s.da 0).used then (s.da 1).used else (s.da 0).used) = ru at h
  by_cases h1 : ru ≥ len
  · rw [if_pos h1] at h
    obtain ⟨u, hu, hd⟩ := Option.bind_eq_some.mp h
    have hu2 := DISNEY_PlayStereo_played _ _ _ _ _ hu
    obtain ⟨a1, a2, a3, a4, a5, a6, a7, a8, a9⟩ := drain_frame _ _ _ _ hd
    subst hu2
    exact ⟨a1, a2, a3, a4, a5, a6, a7, a8, _, Or.inr a9⟩
  · rw [if_neg h1] at h
    by_cases h2 : len ≤ DISNEY_SIZE
    · rw [if_pos h2] at h
      obtain ⟨u, hu, hd⟩ := Option.map_eq_some'.mp h
      have hu2 := DISNEY_PlayStereo_played _ _ _ _ _ hu
      subst hu2
      subst hd
      exact ⟨rfl, rfl, rfl, rfl, rfl, rfl, rfl, rfl, _, Or.inr rfl⟩
    · rw [if_neg h2] at h; cases h

theorem CallBack_mono_played (w len : Nat) (l : Fin 2) (s t : DisneyState)
    (h : CallBack_mono w len l s = some t) : played len s t := by
  unfold CallBack_mono at h
  simp only [] at h
  by_cases h1 : (s.da l).used ≥ len
  · rw [if_pos h1] at h
    obtain ⟨u, hu, hd⟩ := Option.bind_eq_some.mp h
    have hu2 := chan_AddSamples_m8_played _ _ _ _ hu
    obtain ⟨a1, a2, a3, a4, a5, a6, a7, a8, a9⟩ := drain_frame _ _ _ _ hd
    subst hu2
    exact ⟨a1, a2, a3, a4, a5, a6, a7, a8, _, Or.inl a9⟩
  · rw [if_neg h1] at h
    by_cases h2 : len ≤ DISNEY_SIZE
    · rw [if_pos h2] at h
      obtain ⟨u, hu, hd⟩ := Option.map_eq_some'.mp h
      have hu2 := chan_AddSamples_m8_played _ _ _ _ hu
      subst hu2
      subst hd
      exact ⟨rfl, rfl, rfl, rfl, rfl, rfl, rfl, rfl, _, Or.inl rfl⟩
    · rw [if_neg h2] at h; cases h

theorem PlayStereo_reset_isSome (len : Nat) (l r : Nat → Nat) (s : DisneyState)
    (hchan : s.chan = true) (hsz : len ≤ DISNEY_SIZE) :
    ∃ t, (DISNEY_PlayStereo len l r s).map reset_used = some t := by
  obtain ⟨u, hu, _, _⟩ := DISNEY_PlayStereo_some len l r s hchan hsz
  exact ⟨reset_used u, by rw [hu]; rfl⟩

theorem AddSamples_reset_isSome (len : Nat) (buf : Nat → Nat) (s : DisneyState)
    (hchan : s.chan = true) (hsz : len ≤ DISNEY_SIZE) :
    ∃ t, (chan_AddSamples_m8 len buf s).map reset_used = some t := by
  obtain ⟨u, hu, _, _⟩ := chan_AddSamples_m8_some len buf s hchan hsz
  exact ⟨reset_used u, by rw [hu]; rfl⟩

theorem CallBack_stereo_isSome (w len : Nat) (s : DisneyState) (hchan : s.chan = true)
    (hsz : len ≤ DISNEY_SIZE) : ∃ t, CallBack_stereo w len s = some t := by
  unfold CallBack_stereo
  simp only []
  generalize (if (s.da 1).used < (s.da 0).used then (s.da 1).used else (s.da 0).used) = ru
  by_cases h1 : ru ≥ len
  · rw [if_pos h1]
    obtain ⟨u, hu, _, _⟩ := DISNEY_PlayStereo_some len (s.da 0).buffer (s.da 1).buffer s hchan hsz
    obtain ⟨v, hv⟩ := drain_some w len u hsz
    exact ⟨v, by rw [hu]; exact hv⟩
  · rw [if_neg h1, if_pos hsz]
    exact PlayStereo_reset_isSome _ _ _ _ hchan hsz

theorem CallBack_mono_isSome (w len : Nat) (l : Fin 2) (s : DisneyState)
    (hchan : s.chan = true) (hsz : len ≤ DISNEY_SIZE) :
    ∃ t, CallBack_mono w len l s = some t := by
  unfold CallBack_mono
  simp only []
  by_cases h1 : (s.da l).used ≥ len
  · rw [if_pos h1]
    obtain ⟨u, hu, _, _⟩ := chan_AddSamples_m8_some len (s.da l).buffer s hchan hsz
    obtain ⟨v, hv⟩ := drain_some w len u hsz
    exact ⟨v, by rw [hu]; exact hv⟩
  · rw [if_neg h1, if_pos hsz]
    exact AddSamples_reset_isSome _ _ _ hchan hsz

/-- The callback is defined for a request within the buffer on a device with its channel
handle whose leader is set when it plays mono. -/
theorem DISNEY_CallBack_isSome (w len ticks : Nat) (s : DisneyState) (hchan : s.chan = true)
    (hsz : len ≤ DISNEY_SIZE) (hlead : s.stereo = false → s.leader ≠ none) :
    ∃ t, DISNEY_CallBack w len ticks s = some t := by
  unfold DISNEY_CallBack
  by_cases h0 : len = 0
  · exact ⟨s, by rw [if_pos h0]⟩
  · rw [if_neg h0]
    by_cases hs : s.stereo = true
    · obtain ⟨t, ht⟩ := CallBack_stereo_isSome w len s hchan hsz
      refine ⟨check_last_used w ticks t, ?_⟩
      simp only [hs, if_true, ht, Option.map_some']
    · have hs' : s.stereo = false := by simpa using hs
      rcases hl : s.leader with _ | l
      · exact absurd hl (hlead hs')
      · obtain ⟨t, ht⟩ := CallBack_mono_isSome w len l s hchan hsz
        refine ⟨check_last_used w ticks t, ?_⟩
        simp only [hs', Bool.false_eq_true, if_false, ht, Option.map_some']

/-- A callback that returns has played one block and then run the closing test. -/
theorem DISNEY_CallBack_played (w len ticks : Nat) (s t : DisneyState) (h0 : len ≠ 0)
    (h : DISNEY_CallBack w len ticks s = some t) :
    ∃ u, played len s u ∧ t = check_last_used w ticks u := by
  unfold DISNEY_CallBack at h
  rw [if_neg h0] at h
  simp only [] at h
  by_cases hs : s.stereo = true
  · rw [if_pos hs] at h
    rcases hb : CallBack_stereo w len s with _ | u
    · rw [hb] at h; cases h
    · rw [hb] at h
      simp only [Option.map_some', Option.some.injEq] at h
      exact ⟨u, CallBack_stereo_played w len s u hb, h.symm⟩
  · rw [if_neg hs] at h
    rcases hl : s.leader with _ | l
    · rw [hl] at h; cases h
    · rw [hl] at h
      simp only [] at h
      rcases hb : CallBack_mono w len l s with _ | u
      · rw [hb] at h; cases h
      · rw [hb] at h
        simp only [Option.map_some', Option.some.injEq] at h
        exact ⟨u, CallBack_mono_played w len l s u hb, h.symm⟩

theorem check_last_used_frame (w ticks : Nat) (s : DisneyState) :
    (check_last_used w ticks s).state = s.state ∧
    (check_last_used w ticks s).stereo = s.stereo ∧
    (check_last_used w ticks s).leader = s.leader ∧
    (check_last_used w ticks s).interface_det = s.interface_det ∧
    (check_last_used w ticks s).interface_det_ext = s.interface_det_ext ∧
    (check_last_used w ticks s).chan = s.chan ∧ (check_last_used w ticks s).mo = s.mo := by
  unfold check_last_used
  split_ifs <;> exact ⟨rfl, rfl, rfl, rfl, rfl, rfl, rfl⟩

/-- For a request of `len > 0` samples within the buffer, on a device with its channel
handle (and, in mono, its leader set), the callback returns, leaves the state, the stereo
flag, the leader, both pattern counters and the two handles as they were, hands one block
to the mixer channel, and after it schedules `DISNEY_disable` exactly when
`last_used + 100 < PIC_Ticks` (the sum not exceeding the machine word) and nothing
otherwise. -/
theorem DISNEY_CallBack_frame (w len ticks : Nat) (s : DisneyState)
    (hlen : 0 < len) (hsz : len ≤ DISNEY_SIZE) (hchan : s.chan = true)
    (hlead : s.stereo = false → s.leader ≠ none) (hlu : s.last_used + 100 < 2 ^ w) :
    ∃ t, DISNEY_CallBack w len ticks s = some t ∧
      t.state = s.state ∧ t.stereo = s.stereo ∧ t.leader = s.leader ∧
      t.interface_det = s.interface_det ∧ t.interface_det_ext = s.interface_det_ext ∧
      t.chan = s.chan ∧ t.mo = s.mo ∧
      ∃ data, (t.calls = s.calls ++ Call.AddSamples_m8 len data ::
          (if s.last_used + 100 < ticks then [Call.PIC_AddEvent_DISNEY_disable] else [])) ∨
        (t.calls = s.calls ++ Call.AddSamples_s8 len data ::
          (if s.last_used + 100 < ticks then [Call.PIC_AddEvent_DISNEY_disable] else [])) := by
  obtain ⟨t, ht⟩ := DISNEY_CallBack_isSome w len ticks s hchan hsz hlead
  obtain ⟨u, ⟨u1, u2, u3, u4, u5, u6, u7, u8, data, u9⟩, rfl⟩ :=
    DISNEY_CallBack_played w len ticks s t (by omega) ht
  obtain ⟨c1, c2, c3, c4, c5, c6, c7⟩ := check_last_used_frame w ticks u
  have hadd : Bitu.add w s.last_used 100 = s.last_used + 100 := by
    unfold Bitu.add
    exact Nat.mod_eq_of_lt hlu
  refine ⟨_, ht, c1.trans u1, c2.trans u2, c3.trans u3, c4.trans u4, c5.trans u5,
    c6.trans u6, c7.trans u7, data, ?_⟩
  rw [check_last_used_calls, u8, hadd]
  rcases u9 with h | h
  · left; rw [h]; simp
  · right; rw [h]; simp

/-- The mono device holding three samples, last used at tick 0, is called back for five
samples at tick 101; it stays Running with channel 0 as leader. -/
theorem DISNEY_CallBack_frame_witness :
    ∃ t, DISNEY_CallBack 64 5 101 mono_three = some t ∧ t.state = DS_RUNNING ∧
      t.leader = some 0 ∧ t.chan = true := by
  obtain ⟨t, h1, h2, _, h4, _, _, h7, _⟩ :=
    DISNEY_CallBack_frame 64 5 101 mono_three (by decide) (by decide) rfl
      (fun _ => by decide) (by decide)
  exact ⟨t, h1, h2, h4, h7⟩

/-- C32 on the code: for a request of more than `DISNEY_SIZE` = 128 samples the callback
has no defined result, in any state.  The drain path hands `len` bytes of a 128-byte
buffer to the mixer; the underflow path `memset`s up to index `len - 1` of that buffer
and so writes over what follows it in `disney` (the source notes `TODO: len > DISNEY`).
For a request within the buffer the fields stay as they are
(`DISNEY_CallBack_frame`). -/
theorem DISNEY_CallBack_frame_beyond_capacity (w len ticks : Nat) (s : DisneyState)
    (hsz : DISNEY_SIZE < len) : DISNEY_CallBack w len ticks s = none := by
  have h0 : ¬ len = 0 := by omega
  have hle : ¬ len ≤ DISNEY_SIZE := by omega
  have hplay : ∀ (l r : Nat → Nat) (u : DisneyState), DISNEY_PlayStereo len l r u = none := by
    intro l r u
    unfold DISNEY_PlayStereo
    rw [if_pos (Or.inr hsz)]
  have hadd : ∀ (b : Nat → Nat) (u : DisneyState), chan_AddSamples_m8 len b u = none := by
    intro b u
    unfold chan_AddSamples_m8
    rw [if_pos (Or.inr hsz)]
  have hst : CallBack_stereo w len s = none := by
    unfold CallBack_stereo
    simp only [hplay, Option.none_bind, if_neg hle, ite_self]
  have hmo : ∀ l, CallBack_mono w len l s = none := by
    intro l
    unfold CallBack_mono
    simp only [hadd, Option.none_bind, if_neg hle, ite_self]
  unfold DISNEY_CallBack
  rw [if_neg h0]
  by_cases hs : s.stereo = true
  · rw [if_pos hs, hst]
    rfl
  · rw [if_neg hs]
    cases hl : s.leader with
    | none => rfl
    | some l =>
      show Option.map _ (CallBack_mono w len l s) = none
      rw [hmo]
      rfl

/-- Instance of C32 on the code: the mono device holding three samples, called back for
400 samples. -/
theorem DISNEY_CallBack_frame_beyond_capacity_witness :
    DISNEY_CallBack 64 400 0 mono_three = none :=
  DISNEY_CallBack_frame_beyond_capacity 64 400 0 mono_three (by decide)

/-! ## The unset handle -/

theorem exec_quiet_handle_unset (w : Nat) (evs : List Event) :
    ∀ s, handle_unset s → (∀ e ∈ evs, ∀ len ticks, e ≠ Event.callback len ticks) →
      ∃ t, exec w evs s = some t ∧ handle_unset t := by
  induction evs with
  | nil => intro s hs _; exact ⟨s, rfl, hs⟩
  | cons e es ih =>
    intro s hs hq
    have hes : ∀ e ∈ es, ∀ len ticks, e ≠ Event.callback len ticks :=
      fun e he => hq e (List.mem_cons_of_mem _ he)
    cases e with
    | write x =>
      simp only [exec, step, Option.some_bind]
      exact ih _ (disney_write_handle_unset w _ _ _ _ s hs) hes
    | callback len ticks =>
      exact absurd rfl (hq (Event.callback len ticks) (List.mem_cons_self _ _) len ticks)
    | disable =>
      simp only [exec, step, Option.some_bind, DISNEY_disable_unset s hs.1]
      exact ih s hs hes

/-- C38: from the state the constructor leaves, whose channel handle is unset, every
sequence of port writes and `DISNEY_disable` calls ends in a state that is not Running and
still has the handle unset; and with the handle unset `DISNEY_enable` leaves the device
as it is for every frequency. -/
theorem handle_unset_never_running (w : Nat) (evs : List Event)
    (hq : ∀ e ∈ evs, ∀ len ticks, e ≠ Event.callback len ticks) :
    DISNEY_init.chan = false ∧
    (∃ t, exec w evs DISNEY_init = some t ∧ t.state ≠ DS_RUNNING ∧ t.chan = false) ∧
    ∀ f s, s.chan = false → DISNEY_enable f s = s := by
  obtain ⟨t, ht, h1, h2⟩ := exec_quiet_handle_unset w evs DISNEY_init DISNEY_init_handle_unset hq
  exact ⟨rfl, ⟨t, ht, h2, h1⟩, fun f s h => DISNEY_enable_unset f s h⟩

theorem overfill_trace_quiet :
    ∀ e ∈ overfill_trace, ∀ len ticks, e ≠ Event.callback len ticks := by
  intro e he len ticks
  unfold overfill_trace at he
  rcases List.mem_append.mp he with h | h
  · obtain ⟨x, _, rfl⟩ := List.mem_map.mp h
    intro hc; cases hc
  · rw [List.mem_singleton] at h
    rw [h]
    intro hc; cases hc

/-- Instance of C38: 140 writes to the data port and a disable leave the device the
constructor built out of Running. -/
theorem handle_unset_never_running_witness :
    ∃ t, exec 64 overfill_trace DISNEY_init = some t ∧ t.state ≠ DS_RUNNING ∧
      t.chan = false :=
  (handle_unset_never_running 64 overfill_trace overfill_trace_quiet).2.1

/-! ## Running has a leader -/

theorem DISNEY_enable_led (f : Nat) (s : DisneyState) (hs : led s) (hl : s.leader ≠ none) :
    led (DISNEY_enable f s) := by
  unfold DISNEY_enable
  split_ifs with h1 h2
  · exact hs
  · intro h; cases h
  · intro _
    exact ⟨hl, by simpa using h1⟩

theorem DISNEY_analyze_led (w : Nat) (c : Fin 2) (now : ℚ) (s : DisneyState) (hs : led s) :
    led (DISNEY_analyze w c now s) := by
  unfold DISNEY_analyze
  by_cases h1 : s.state = DS_RUNNING
  · rw [if_pos h1]; exact hs
  rw [if_neg h1]
  by_cases h2 : s.state = DS_IDLE
  · rw [if_pos h2]; intro h; cases h
  rw [if_neg h2]
  by_cases h3 : s.state = DS_FINISH
  · rw [if_pos h3]
    apply DISNEY_enable_led
    · intro h
      split_ifs at h <;> exact absurd h h1
    · split_ifs <;> simp
  rw [if_neg h3]
  by_cases h4 : s.state = DS_ANALYZING
  · rw [if_pos h4]
    intro h
    exfalso
    revert h
    simp only []
    split_ifs <;> simp [h4, DS_ANALYZING, DS_RUNNING, DS_IDLE, DS_FINISH]
  · rw [if_neg h4]; exact hs

theorem store_sample_led (c : Fin 2) (s : DisneyState) (hs : led s) : led (store_sample c s) := by
  unfold led
  rw [store_sample_state, store_sample_leader, store_sample_chan]
  exact hs

theorem channel_latch_led (w : Nat) (c : Fin 2) (now : ℚ) (s : DisneyState) (hs : led s) :
    led (channel_latch w c now s) := by
  apply store_sample_led
  unfold latch_detect
  split_ifs with h
  · apply DISNEY_analyze_led
    intro hr
    exact absurd hr h
  · exact hs

theorem fifo_latch_led (w : Nat) (s : DisneyState) (hs : led s) : led (fifo_latch w s) := by
  have key : led (fifo_detect w s) := by
    unfold fifo_detect
    simp only []
    split_ifs with h1 h2
    · apply DISNEY_enable_led
      · intro hr; exact absurd hr h1
      · simp
    · intro hr; exact absurd hr h1
    · exact hs
  unfold fifo_latch
  split_ifs
  · exact store_sample_led 0 _ key
  · exact key

theorem control_write_led (w val : Nat) (now : ℚ) (s : DisneyState) (hs : led s) :
    led (control_write w val now s) := by
  have hA : led (edge_0x2 w val now s) := by
    unfold edge_0x2
    split_ifs
    · exact channel_latch_led w 1 now s hs
    · exact hs
  have hB : led (edge_0x1 w val now (edge_0x2 w val now s)) := by
    unfold edge_0x1
    split_ifs
    · exact channel_latch_led w 0 now _ hA
    · exact hA
  have hC : led (edge_0x8 w val (edge_0x1 w val now (edge_0x2 w val now s))) := by
    unfold edge_0x8
    split_ifs
    · exact fifo_latch_led w _ hB
    · exact hB
  exact hC

theorem data_write_led (w val : Nat) (now : ℚ) (s : DisneyState) (hs : led s) :
    led (data_write w val now s) := by
  have key : led (data_detect w val now s) := by
    unfold data_detect
    simp only []
    split_ifs with h1 h2
    · apply DISNEY_analyze_led
      intro hr; exact absurd hr h1
    · intro hr; exact absurd hr h1
    · exact hs
  unfold data_write
  split_ifs
  · exact store_sample_led 0 _ key
  · exact key

theorem disney_write_led (w port val : Nat) (now : ℚ) (ticks : Nat) (s : DisneyState)
    (hs : led s) : led (disney_write w port val now ticks s) := by
  unfold disney_write
  have h0 : led { s with last_used := ticks } := hs
  split_ifs
  · exact data_write_led w val now _ h0
  · exact h0
  · exact control_write_led w val now _ h0
  · exact h0

theorem DISNEY_disable_led (s : DisneyState) (hs : led s) : led (DISNEY_disable s) := by
  unfold DISNEY_disable
  split_ifs
  · exact hs
  · intro h
    have h2 : DS_IDLE = DS_RUNNING := h
    exact absurd h2 (by decide)
  · intro h
    have h2 : DS_IDLE = DS_RUNNING := h
    exact absurd h2 (by decide)

theorem DISNEY_CallBack_led (w len ticks : Nat) (s t : DisneyState) (hs : led s)
    (h : DISNEY_CallBack w len ticks s = some t) : led t := by
  by_cases h0 : len = 0
  · unfold DISNEY_CallBack at h
    rw [if_pos h0] at h
    cases h
    exact hs
  · obtain ⟨u, ⟨u1, _, u3, _, _, u6, _⟩, rfl⟩ := DISNEY_CallBack_played w len ticks s t h0 h
    obtain ⟨c1, _, c3, _, _, c6, _⟩ := check_last_used_frame w ticks u
    unfold led
    rw [c1, c3, c6, u1, u3, u6]
    exact hs

theorem exec_led (w : Nat) (evs : List Event) :
    ∀ s t, led s → exec w evs s = some t → led t := by
  induction evs with
  | nil =>
    intro s t hs he
    simp only [exec, Option.some.injEq] at he
    subst he
    exact hs
  | cons e es ih =>
    intro s t hs he
    cases e with
    | write x =>
      simp only [exec, step, Option.some_bind] at he
      exact ih _ t (disney_write_led w _ _ _ _ s hs) he
    | callback len ticks =>
      simp only [exec, step] at he
      split_ifs at he with hr
      · rcases hc : DISNEY_CallBack w len ticks s with _ | u
        · rw [hc] at he; cases he
        · rw [hc] at he
          simp only [Option.some_bind] at he
          exact ih u t (DISNEY_CallBack_led w len ticks s u hs hc) he
      · cases he
    | disable =>
      simp only [exec, step, Option.some_bind] at he
      exact ih _ t (DISNEY_disable_led s hs) he

/-- C39: in every state reached from an Idle device with `leader` unset by port writes,
`DISNEY_disable` calls and callbacks, Running implies that `leader` refers to one of the two
channels (and that the channel handle is set), so that the callback is defined there for
every request within the buffer: its mono branch does not read through an unset leader. -/
theorem running_has_leader (w : Nat) (evs : List Event) (s t : DisneyState)
    (hst : s.state = DS_IDLE) (_hl : s.leader = none) (h : exec w evs s = some t)
    (hrun : t.state = DS_RUNNING) :
    (∃ c, t.leader = some c) ∧
    ∀ len ticks, len ≤ DISNEY_SIZE → (DISNEY_CallBack w len ticks t).isSome = true := by
  have hs : led s := by
    intro hr
    rw [hst] at hr
    cases hr
  obtain ⟨h1, h2⟩ := exec_led w evs s t hs h hrun
  refine ⟨Option.ne_none_iff_exists'.mp h1, ?_⟩
  intro len ticks hsz
  obtain ⟨u, hu⟩ := DISNEY_CallBack_isSome w len ticks t h2 hsz (fun _ => h1)
  rw [hu]
  rfl

/-- Instance of C39: forty writes to the data port start a device that has its channel
handle; it is Running with channel 0 as leader. -/
theorem running_has_leader_witness :
    ∃ c, (run 64 (data_stream 40 (1 / 10)) DISNEY_installed).leader = some c :=
  (running_has_leader 64 ((data_stream 40 (1 / 10)).map Event.write) DISNEY_installed
    (run 64 (data_stream 40 (1 / 10)) DISNEY_installed) rfl rfl (exec_writes 64 _ _)
    (by decide!)).1

end Disney

namespace Mouse

/-! ## Cursor drawing leaves the rest of the driver alone -/

theorem foldl_keeps {α β γ : Type} (g : α → γ) (f : α → β → α)
    (hf : ∀ a b, g (f a b) = g a) (l : List β) (a : α) : g (l.foldl f a) = g a := by
  induction l generalizing a with
  | nil => rfl
  | cons b l ih => rw [List.foldl_cons, ih, hf]

@[simp] theorem erase_drawing_call (c : Call) (s : State) :
    erase_drawing (call c s) = erase_drawing s := rfl

@[simp] theorem erase_drawing_IO_Write (p v : Nat) (s : State) :
    erase_drawing (IO_Write p v s) = erase_drawing s := rfl

@[simp] theorem erase_drawing_set_index3C4 (v : Nat) (s : State) :
    erase_drawing { s with index3C4 := v } = erase_drawing s := rfl

@[simp] theorem erase_drawing_set_gfxReg3C5 (v : Nat) (s : State) :
    erase_drawing { s with gfxReg3C5 := v } = erase_drawing s := rfl

@[simp] theorem erase_drawing_set_gfxReg3CE (v : Nat → Nat) (s : State) :
    erase_drawing { s with gfxReg3CE := v } = erase_drawing s := rfl

@[simp] theorem erase_drawing_set_CurMode (v : VideoModeBlock) (s : State) :
    erase_drawing { s with CurMode := v } = erase_drawing s := rfl

@[simp] theorem erase_drawing_read_gfx_regs (h : Host) (s : State) :
    erase_drawing (read_gfx_regs h s) = erase_drawing s := by
  unfold read_gfx_regs
  apply foldl_keeps
  intro t i
  simp only [erase_drawing_set_gfxReg3CE, erase_drawing_IO_Write]

@[simp] theorem erase_drawing_write_gfx_regs (s : State) :
    erase_drawing (write_gfx_regs s) = erase_drawing s := by
  unfold write_gfx_regs
  apply foldl_keeps
  intro t i
  simp only [erase_drawing_IO_Write]

@[simp] theorem erase_drawing_SaveVgaRegisters (h : Host) (s : State) :
    erase_drawing (SaveVgaRegisters h s) = erase_drawing s := by
  unfold SaveVgaRegisters
  split_ifs
  · simp only [erase_drawing_IO_Write, erase_drawing_set_index3C4, erase_drawing_set_gfxReg3C5,
      erase_drawing_read_gfx_regs]
  · simp only [erase_drawing_IO_Write]
  · rfl

@[simp] theorem erase_drawing_RestoreVgaRegisters (h : Host) (s : State) :
    erase_drawing (RestoreVgaRegisters h s) = erase_drawing s := by
  unfold RestoreVgaRegisters
  split_ifs
  · simp only [erase_drawing_IO_Write, erase_drawing_write_gfx_regs]
  · rfl

@[simp] theorem erase_drawing_restore_pixels (s : State) :
    erase_drawing (restore_pixels s) = erase_drawing s := rfl

@[simp] theorem erase_drawing_RestoreCursorBackground (h : Host) (s : State) :
    erase_drawing (RestoreCursorBackground h s) = erase_drawing s := by
  unfold RestoreCursorBackground
  split_ifs
  · rfl
  · simp only [erase_drawing_RestoreVgaRegisters]
    split_ifs
    · rw [erase_drawing_restore_pixels, erase_drawing_SaveVgaRegisters]
    · rw [erase_drawing_SaveVgaRegisters]

@[simp] theorem erase_drawing_RestoreCursorBackgroundText (h : Host) (s : State) :
    erase_drawing (RestoreCursorBackgroundText h s) = erase_drawing s := by
  unfold RestoreCursorBackgroundText
  split_ifs <;> rfl

@[simp] theorem erase_drawing_set_text_backpos (s : State) :
    erase_drawing (set_text_backpos s) = erase_drawing s := rfl

@[simp] theorem erase_drawing_invert_cell (page : Nat) (s : State) :
    erase_drawing (invert_cell page s) = erase_drawing s := rfl

@[simp] theorem erase_drawing_set_hardware_cursor (h : Host) (page : Nat) (s : State) :
    erase_drawing (set_hardware_cursor h page s) = erase_drawing s := by
  unfold set_hardware_cursor
  simp only [erase_drawing_IO_Write]

@[simp] theorem erase_drawing_DrawCursorText (h : Host) (s : State) :
    erase_drawing (DrawCursorText h s) = erase_drawing s := by
  unfold DrawCursorText
  simp only []
  split_ifs
  · exact erase_drawing_RestoreCursorBackgroundText h s
  · rw [erase_drawing_invert_cell, erase_drawing_set_text_backpos,
      erase_drawing_RestoreCursorBackgroundText]
  · rw [erase_drawing_set_hardware_cursor, erase_drawing_set_text_backpos,
      erase_drawing_RestoreCursorBackgroundText]

@[simp] theorem erase_drawing_set_clip (s : State) :
    erase_drawing (set_clip s) = erase_drawing s := rfl

@[simp] theorem erase_drawing_save_background (c : Clip) (s : State) :
    erase_drawing (save_background c s) = erase_drawing s := rfl

@[simp] theorem erase_drawing_draw_shape (c : Clip) (s : State) :
    erase_drawing (draw_shape c s) = erase_drawing s := rfl

@[simp] theorem erase_drawing_DrawCursorGraphics (h : Host) (s : State) :
    erase_drawing (DrawCursorGraphics h s) = erase_drawing s := by
  unfold DrawCursorGraphics
  simp only [erase_drawing_RestoreVgaRegisters, erase_drawing_draw_shape,
    erase_drawing_save_background, erase_drawing_SaveVgaRegisters,
    erase_drawing_RestoreCursorBackground, erase_drawing_set_clip]

@[simp] theorem erase_drawing_DrawCursor (h : Host) (s : State) :
    erase_drawing (DrawCursor h s) = erase_drawing s := by
  unfold DrawCursor
  split_ifs
  · rfl
  · simp only []
    split_ifs
    · simp only [erase_drawing_DrawCursorText, erase_drawing_set_CurMode]
    · simp only [erase_drawing_DrawCursorGraphics, erase_drawing_set_CurMode]


/-! ## The event queue -/

@[simp] theorem erase_queue_arm_timer (s : State) :
    erase_queue (arm_timer s) = erase_queue s := rfl

@[simp] theorem erase_queue_notify (s : State) : erase_queue (notify s) = erase_queue s := by
  unfold notify
  split_ifs <;> rfl

@[simp] theorem erase_queue_Mouse_AddEvent (type : Nat) (s : State) :
    erase_queue (Mouse_AddEvent type s) = erase_queue s := by
  unfold Mouse_AddEvent
  by_cases h1 : s.mouse.events < QUEUE_SIZE
  · rw [if_pos h1]
    by_cases h2 : s.mouse.events > 0 ∧ type = MOUSE_HAS_MOVED
    · rw [if_pos h2]
    · rw [if_neg h2]
      simp only []
      rw [erase_queue_notify]
      rfl
  · rw [if_neg h1, erase_queue_notify]

@[simp] theorem notify_events (s : State) : (notify s).mouse.events = s.mouse.events := by
  unfold notify
  split_ifs <;> rfl

@[simp] theorem notify_event_queue (s : State) :
    (notify s).mouse.event_queue = s.mouse.event_queue := by
  unfold notify
  split_ifs <;> rfl

/-- A motion event, or any event on a full queue, leaves the queue as it is. -/
theorem Mouse_AddEvent_skipped (type : Nat) (s : State)
    (hskip : QUEUE_SIZE ≤ s.mouse.events ∨ (0 < s.mouse.events ∧ type = MOUSE_HAS_MOVED)) :
    (Mouse_AddEvent type s).mouse.events = s.mouse.events ∧
    (Mouse_AddEvent type s).mouse.event_queue = s.mouse.event_queue := by
  unfold Mouse_AddEvent
  by_cases hfull : s.mouse.events < QUEUE_SIZE
  · have hm : s.mouse.events > 0 ∧ type = MOUSE_HAS_MOVED := by
      rcases hskip with h | h
      · omega
      · exact h
    rw [if_pos hfull, if_pos hm]
    exact ⟨rfl, rfl⟩
  · rw [if_neg hfull]
    exact ⟨notify_events s, notify_event_queue s⟩

/-- An accepted event becomes entry 0, the entries before it move one place up, and the
count grows by one. -/
theorem Mouse_AddEvent_accepted (type : Nat) (s : State) (hroom : s.mouse.events < QUEUE_SIZE)
    (hnew : s.mouse.events = 0 ∨ type ≠ MOUSE_HAS_MOVED) :
    (Mouse_AddEvent type s).mouse.events = s.mouse.events + 1 ∧
    (Mouse_AddEvent type s).mouse.event_queue 0 = { type := type, buttons := s.mouse.buttons } ∧
    (∀ i, i < s.mouse.events →
      (Mouse_AddEvent type s).mouse.event_queue (i + 1) = s.mouse.event_queue i) := by
  have hm : ¬ (s.mouse.events > 0 ∧ type = MOUSE_HAS_MOVED) := by
    rintro ⟨h1, h2⟩
    rcases hnew with h | h
    · omega
    · exact h h2
  unfold Mouse_AddEvent
  rw [if_pos hroom, if_neg hm]
  simp only [notify_events, notify_event_queue]
  refine ⟨trivial, ?_, ?_⟩
  · simp
  · intro i hi
    have hpos : s.mouse.events > 0 := by omega
    rw [if_pos hpos, Function.update_noteq (by omega)]
    unfold shift_queue
    rw [if_pos ⟨by omega, by omega⟩]
    rfl


theorem Mouse_AddEvent_events_le (type : Nat) (s : State) (hle : s.mouse.events ≤ QUEUE_SIZE) :
    (Mouse_AddEvent type s).mouse.events ≤ QUEUE_SIZE := by
  by_cases hskip : QUEUE_SIZE ≤ s.mouse.events ∨ (0 < s.mouse.events ∧ type = MOUSE_HAS_MOVED)
  · rw [(Mouse_AddEvent_skipped type s hskip).1]
    exact hle
  · have hroom : s.mouse.events < QUEUE_SIZE := by omega
    have hnew : s.mouse.events = 0 ∨ type ≠ MOUSE_HAS_MOVED := by
      by_cases h0 : s.mouse.events = 0
      · exact Or.inl h0
      · right
        intro ht
        exact hskip (Or.inr ⟨by omega, ht⟩)
    rw [(Mouse_AddEvent_accepted type s hroom hnew).1]
    omega

theorem press_events_le (button bit type : Nat) (s : State) (hle : s.mouse.events ≤ QUEUE_SIZE) :
    (press button bit type s).mouse.events ≤ QUEUE_SIZE := by
  unfold press
  split_ifs
  · exact hle
  · exact Mouse_AddEvent_events_le type _ hle

theorem release_events_le (button bit type : Nat) (s : State)
    (hle : s.mouse.events ≤ QUEUE_SIZE) :
    (release button bit type s).mouse.events ≤ QUEUE_SIZE := by
  unfold release
  split_ifs
  · exact hle
  · exact Mouse_AddEvent_events_le type _ hle

theorem Mouse_ButtonPressed_events_le (button : Nat) (s : State)
    (hle : s.mouse.events ≤ QUEUE_SIZE) :
    (Mouse_ButtonPressed button s).mouse.events ≤ QUEUE_SIZE := by
  unfold Mouse_ButtonPressed
  split_ifs
  · exact press_events_le _ _ _ s hle
  · exact press_events_le _ _ _ s hle
  · exact press_events_le _ _ _ s hle
  · exact hle

theorem Mouse_ButtonReleased_events_le (button : Nat) (s : State)
    (hle : s.mouse.events ≤ QUEUE_SIZE) :
    (Mouse_ButtonReleased button s).mouse.events ≤ QUEUE_SIZE := by
  unfold Mouse_ButtonReleased
  split_ifs
  · exact release_events_le _ _ _ s hle
  · exact release_events_le _ _ _ s hle
  · exact release_events_le _ _ _ s hle
  · exact hle

@[simp] theorem DrawCursor_events (h : Host) (s : State) :
    (DrawCursor h s).mouse.events = s.mouse.events :=
  congrArg (fun t => t.mouse.events) (erase_drawing_DrawCursor h s)

@[simp] theorem DrawCursor_event_queue (h : Host) (s : State) :
    (DrawCursor h s).mouse.event_queue = s.mouse.event_queue :=
  congrArg (fun t => t.mouse.event_queue) (erase_drawing_DrawCursor h s)

@[simp] theorem constrain_events (s : State) : (constrain s).mouse.events = s.mouse.events := by
  unfold constrain
  split_ifs <;> rfl

@[simp] theorem moved_events (h : Host) (xrel yrel x y : ℚ) (emulate : Bool) (s : State) :
    (moved h xrel yrel x y emulate s).mouse.events = s.mouse.events := by
  unfold moved
  simp only []
  split_ifs <;> rfl

theorem Mouse_CursorMoved_events_le (h : Host) (xrel yrel x y : ℚ) (emulate : Bool) (s : State)
    (hle : s.mouse.events ≤ QUEUE_SIZE) :
    (Mouse_CursorMoved h xrel yrel x y emulate s).mouse.events ≤ QUEUE_SIZE := by
  unfold Mouse_CursorMoved
  rw [DrawCursor_events]
  apply Mouse_AddEvent_events_le
  rw [constrain_events, moved_events]
  exact hle

@[simp] theorem DoPS2Callback_mouse (h : Host) (data : Nat) (mx my : Int) (s : State) :
    (DoPS2Callback h data mx my s).mouse = s.mouse := by
  unfold DoPS2Callback
  split_ifs <;> rfl

@[simp] theorem call_user_routine_events (h : Host) (e : button_event) (s : State) :
    (call_user_routine h e s).mouse.events = s.mouse.events := rfl

@[simp] theorem call_user_routine_event_queue (h : Host) (e : button_event) (s : State) :
    (call_user_routine h e s).mouse.event_queue = s.mouse.event_queue := rfl

/-- A serviced interrupt takes one entry off the count and leaves the entries in place. -/
theorem INT74_Handler_pops (h : Host) (s : State) (hev : 0 < s.mouse.events)
    (hU : s.mouse.in_UIR = false) :
    (INT74_Handler h s).mouse.events = s.mouse.events - 1 ∧
    (INT74_Handler h s).mouse.event_queue = s.mouse.event_queue := by
  unfold INT74_Handler
  rw [if_pos ⟨hev, hU⟩]
  simp only []
  split_ifs
  · exact ⟨rfl, rfl⟩
  · simp only [DoPS2Callback_mouse]
    exact ⟨rfl, rfl⟩
  · exact ⟨rfl, rfl⟩

/-- When the user routine is called, it is called with the entry at index `events - 1`. -/
theorem INT74_Handler_delivers_last (h : Host) (s : State) (hev : 0 < s.mouse.events)
    (hU : s.mouse.in_UIR = false)
    (hmask : s.mouse.sub_mask &&& (s.mouse.event_queue (s.mouse.events - 1)).type ≠ 0) :
    (INT74_Handler h s).reg.ax = (s.mouse.event_queue (s.mouse.events - 1)).type ∧
    (INT74_Handler h s).reg.bx = (s.mouse.event_queue (s.mouse.events - 1)).buttons ∧
    (INT74_Handler h s).mouse.in_UIR = true := by
  unfold INT74_Handler
  rw [if_pos ⟨hev, hU⟩]
  simp only []
  rw [if_pos hmask]
  exact ⟨rfl, rfl, rfl⟩

theorem INT74_Handler_events_le (h : Host) (s : State) (hle : s.mouse.events ≤ QUEUE_SIZE) :
    (INT74_Handler h s).mouse.events ≤ QUEUE_SIZE := by
  by_cases hc : 0 < s.mouse.events ∧ s.mouse.in_UIR = false
  · rw [(INT74_Handler_pops h s hc.1 hc.2).1]
    omega
  · unfold INT74_Handler
    rw [if_neg hc]
    exact hle

/-- C14: if the count of queued events is at most 32, it is at most 32 after every call of
`Mouse_AddEvent`, `Mouse_ButtonPressed`, `Mouse_ButtonReleased`, `Mouse_CursorMoved` and
`INT74_Handler`; `Mouse_AddEvent` on a full queue leaves the entries and the count as they
are. -/
theorem queue_count_bounded (h : Host) (s : State) (hle : s.mouse.events ≤ QUEUE_SIZE) :
    (∀ type, (Mouse_AddEvent type s).mouse.events ≤ QUEUE_SIZE) ∧
    (∀ button, (Mouse_ButtonPressed button s).mouse.events ≤ QUEUE_SIZE) ∧
    (∀ button, (Mouse_ButtonReleased button s).mouse.events ≤ QUEUE_SIZE) ∧
    (∀ xrel yrel x y emulate,
      (Mouse_CursorMoved h xrel yrel x y emulate s).mouse.events ≤ QUEUE_SIZE) ∧
    (INT74_Handler h s).mouse.events ≤ QUEUE_SIZE ∧
    (s.mouse.events = QUEUE_SIZE → ∀ type,
      (Mouse_AddEvent type s).mouse.events = s.mouse.events ∧
      (Mouse_AddEvent type s).mouse.event_queue = s.mouse.event_queue) :=
  ⟨fun type => Mouse_AddEvent_events_le type s hle,
   fun button => Mouse_ButtonPressed_events_le button s hle,
   fun button => Mouse_ButtonReleased_events_le button s hle,
   fun xrel yrel x y emulate => Mouse_CursorMoved_events_le h xrel yrel x y emulate s hle,
   INT74_Handler_events_le h s hle,
   fun hfull type => Mouse_AddEvent_skipped type s (Or.inl (le_of_eq hfull.symm))⟩

/-- Instance of C14 on the queue after two button presses: a third press gives three
entries and a serviced interrupt leaves one. -/
theorem queue_count_bounded_witness :
    (Mouse_ButtonPressed 2 two_presses).mouse.events ≤ QUEUE_SIZE ∧
    (INT74_Handler vga_host two_presses).mouse.events ≤ QUEUE_SIZE :=
  ⟨(queue_count_bounded vga_host two_presses (by decide!)).2.1 2,
   (queue_count_bounded vga_host two_presses (by decide!)).2.2.2.2.1⟩

/-- C16: on a queue that holds at least one entry, `Mouse_AddEvent(MOUSE_HAS_MOVED)` leaves
the count and every entry unchanged; on an empty queue it makes the count exactly 1, the
new entry being the motion event. -/
theorem Mouse_AddEvent_motion_coalesced (s : State) :
    (1 ≤ s.mouse.events →
      (Mouse_AddEvent MOUSE_HAS_MOVED s).mouse.events = s.mouse.events ∧
      ∀ i, (Mouse_AddEvent MOUSE_HAS_MOVED s).mouse.event_queue i = s.mouse.event_queue i) ∧
    (s.mouse.events = 0 →
      (Mouse_AddEvent MOUSE_HAS_MOVED s).mouse.events = 1 ∧
      (Mouse_AddEvent MOUSE_HAS_MOVED s).mouse.event_queue 0 =
        { type := MOUSE_HAS_MOVED, buttons := s.mouse.buttons }) := by
  constructor
  · intro h1
    have hskip : QUEUE_SIZE ≤ s.mouse.events ∨
        (0 < s.mouse.events ∧ MOUSE_HAS_MOVED = MOUSE_HAS_MOVED) := by
      by_cases hfull : QUEUE_SIZE ≤ s.mouse.events
      · exact Or.inl hfull
      · exact Or.inr ⟨by omega, rfl⟩
    obtain ⟨he, hq⟩ := Mouse_AddEvent_skipped MOUSE_HAS_MOVED s hskip
    exact ⟨he, fun i => by rw [hq]⟩
  · intro h0
    have hroom : s.mouse.events < QUEUE_SIZE := by rw [h0]; decide
    obtain ⟨he, hq, _⟩ := Mouse_AddEvent_accepted MOUSE_HAS_MOVED s hroom (Or.inl h0)
    rw [h0] at he
    exact ⟨he, hq⟩

/-- Instance of C16: a motion event after one button press is dropped, a motion event on
the empty power-on queue is stored. -/
theorem Mouse_AddEvent_motion_coalesced_witness :
    (Mouse_AddEvent MOUSE_HAS_MOVED one_press).mouse.events = 1 ∧
    (Mouse_AddEvent MOUSE_HAS_MOVED one_press).mouse.event_queue 0 =
      { type := MOUSE_LEFT_PRESSED, buttons := 1 } ∧
    (Mouse_AddEvent MOUSE_HAS_MOVED power_on).mouse.events = 1 :=
  ⟨((Mouse_AddEvent_motion_coalesced one_press).1 (by decide!)).1.trans (by decide!),
   (((Mouse_AddEvent_motion_coalesced one_press).1 (by decide!)).2 0).trans (by decide!),
   ((Mouse_AddEvent_motion_coalesced power_on).2 (by decide!)).1⟩


@[simp] theorem Mouse_AddEvent_buttons (type : Nat) (s : State) :
    (Mouse_AddEvent type s).mouse.buttons = s.mouse.buttons :=
  congrArg (fun t => t.mouse.buttons) (erase_queue_Mouse_AddEvent type s)

@[simp] theorem Mouse_AddEvent_in_UIR (type : Nat) (s : State) :
    (Mouse_AddEvent type s).mouse.in_UIR = s.mouse.in_UIR :=
  congrArg (fun t => t.mouse.in_UIR) (erase_queue_Mouse_AddEvent type s)

@[simp] theorem Mouse_AddEvent_sub_mask (type : Nat) (s : State) :
    (Mouse_AddEvent type s).mouse.sub_mask = s.mouse.sub_mask :=
  congrArg (fun t => t.mouse.sub_mask) (erase_queue_Mouse_AddEvent type s)

@[simp] theorem insert_seq_buttons (ty : Nat → Nat) (n : Nat) (s : State) :
    (insert_seq ty n s).mouse.buttons = s.mouse.buttons := by
  induction n with
  | zero => rfl
  | succ n ih => rw [insert_seq, Mouse_AddEvent_buttons, ih]

@[simp] theorem insert_seq_in_UIR (ty : Nat → Nat) (n : Nat) (s : State) :
    (insert_seq ty n s).mouse.in_UIR = s.mouse.in_UIR := by
  induction n with
  | zero => rfl
  | succ n ih => rw [insert_seq, Mouse_AddEvent_in_UIR, ih]

@[simp] theorem insert_seq_sub_mask (ty : Nat → Nat) (n : Nat) (s : State) :
    (insert_seq ty n s).mouse.sub_mask = s.mouse.sub_mask := by
  induction n with
  | zero => rfl
  | succ n ih => rw [insert_seq, Mouse_AddEvent_sub_mask, ih]

/-- The queue after `n` button events inserted into an empty queue: the first
`min n 32` of them, the latest of these at index 0. -/
theorem insert_seq_queue (ty : Nat → Nat) (s : State) (h0 : s.mouse.events = 0)
    (hty : ∀ k, ty k ≠ MOUSE_HAS_MOVED) (n : Nat) :
    (insert_seq ty n s).mouse.events = min n QUEUE_SIZE ∧
    ∀ i, i < min n QUEUE_SIZE →
      (insert_seq ty n s).mouse.event_queue i =
        { type := ty (min n QUEUE_SIZE - 1 - i), buttons := s.mouse.buttons } := by
  induction n with
  | zero =>
    refine ⟨by rw [insert_seq, h0]; rfl, ?_⟩
    intro i hi
    simp at hi
  | succ n ih =>
    obtain ⟨he, hq⟩ := ih
    rw [insert_seq]
    by_cases hn : n < QUEUE_SIZE
    · have hmin : min n QUEUE_SIZE = n := Nat.min_eq_left (le_of_lt hn)
      have hmin1 : min (n + 1) QUEUE_SIZE = n + 1 := Nat.min_eq_left hn
      rw [hmin] at he hq
      obtain ⟨a, b, c⟩ := Mouse_AddEvent_accepted (ty n) (insert_seq ty n s) (by rw [he]; exact hn)
        (Or.inr (hty n))
      rw [hmin1]
      refine ⟨by rw [a, he], ?_⟩
      intro i hi
      rcases Nat.eq_zero_or_pos i with hi0 | hipos
      · subst hi0
        rw [b, insert_seq_buttons]
        rfl
      · obtain ⟨j, rfl⟩ : ∃ j, i = j + 1 := ⟨i - 1, by omega⟩
        rw [c j (by rw [he]; omega), hq j (by omega)]
        have : n - 1 - j = n + 1 - 1 - (j + 1) := by omega
        rw [this]
    · have hmin : min n QUEUE_SIZE = QUEUE_SIZE := Nat.min_eq_right (by omega)
      have hmin1 : min (n + 1) QUEUE_SIZE = QUEUE_SIZE := Nat.min_eq_right (by omega)
      rw [hmin] at he hq
      obtain ⟨a, b⟩ := Mouse_AddEvent_skipped (ty n) (insert_seq ty n s)
        (Or.inl (le_of_eq he.symm))
      rw [hmin1, a, b]
      exact ⟨he, hq⟩

/-- C15: starting from an empty queue, `N > 32` button (non-motion) events inserted with
`Mouse_AddEvent` and no interrupt service in between leave exactly 32 entries, the first
32 events in newest-first order: entry `i` is the event inserted as number `31 - i`
(counting from 0), so entry 0 is the most recently accepted event and entry `i + 1` was
inserted just before entry `i`. -/
theorem insert_seq_newest_first (ty : Nat → Nat) (s : State) (N : Nat)
    (h0 : s.mouse.events = 0) (hty : ∀ k, ty k ≠ MOUSE_HAS_MOVED) (hN : QUEUE_SIZE < N) :
    (insert_seq ty N s).mouse.events = QUEUE_SIZE ∧
    ∀ i, i < QUEUE_SIZE →
      (insert_seq ty N s).mouse.event_queue i =
        { type := ty (QUEUE_SIZE - 1 - i), buttons := s.mouse.buttons } := by
  have hmin : min N QUEUE_SIZE = QUEUE_SIZE := Nat.min_eq_right (le_of_lt hN)
  have h := insert_seq_queue ty s h0 hty N
  rw [hmin] at h
  exact h

theorem press_release_ne (k : Nat) : press_release k ≠ MOUSE_HAS_MOVED := by
  unfold press_release
  split_ifs <;> decide

/-- Instance of C15: forty alternating presses and releases on the power-on queue leave 32
entries; entry 0 is event 31 (a release) and entry 31 is event 0 (a press). -/
theorem insert_seq_newest_first_witness :
    (insert_seq press_release 40 power_on).mouse.events = 32 ∧
    (insert_seq press_release 40 power_on).mouse.event_queue 0 =
      { type := MOUSE_LEFT_RELEASED, buttons := 0 } ∧
    (insert_seq press_release 40 power_on).mouse.event_queue 31 =
      { type := MOUSE_LEFT_PRESSED, buttons := 0 } :=
  ⟨(insert_seq_newest_first press_release power_on 40 (by decide!) press_release_ne
      (by decide)).1,
   ((insert_seq_newest_first press_release power_on 40 (by decide!) press_release_ne
      (by decide)).2 0 (by decide)).trans (by decide!),
   ((insert_seq_newest_first press_release power_on 40 (by decide!) press_release_ne
      (by decide)).2 31 (by decide)).trans (by decide!)⟩

/-- C20 fails as stated: after a left press followed by a right press, the
newest entry is the right press (entry 0), but the interrupt delivers the left press to
the user routine and leaves the right press queued. -/
theorem INT74_Handler_not_newest :
    two_presses.mouse.events = 2 ∧
    two_presses.mouse.in_UIR = false ∧
    two_presses.mouse.event_queue 0 = { type := MOUSE_RIGHT_PRESSED, buttons := 3 } ∧
    (INT74_Handler vga_host two_presses).reg.ax = MOUSE_LEFT_PRESSED ∧
    (INT74_Handler vga_host two_presses).reg.bx = 1 ∧
    (INT74_Handler vga_host two_presses).mouse.events = 1 ∧
    (INT74_Handler vga_host two_presses).mouse.event_queue 0 =
      { type := MOUSE_RIGHT_PRESSED, buttons := 3 } := by
  decide!

/-- C20, as the code has it: when `INT74_Handler` services an interrupt with `n ≥ 1` events queued
and the re-entrancy guard clear, the event it removes and delivers is the oldest queued
event, the one inserted first by `Mouse_AddEvent`: the count becomes `n - 1`, the `n - 1`
newer events stay queued in their places, and a user routine whose mask selects the event
is called with the type and buttons of that first event. -/
theorem INT74_Handler_serves_oldest (h : Host) (ty : Nat → Nat) (s : State) (n : Nat)
    (h0 : s.mouse.events = 0) (hty : ∀ k, ty k ≠ MOUSE_HAS_MOVED)
    (hU : s.mouse.in_UIR = false) (hn : 1 ≤ n) (hn32 : n ≤ QUEUE_SIZE) :
    (INT74_Handler h (insert_seq ty n s)).mouse.events = n - 1 ∧
    (∀ i, i < n - 1 →
      (INT74_Handler h (insert_seq ty n s)).mouse.event_queue i =
        { type := ty (n - 1 - i), buttons := s.mouse.buttons }) ∧
    (s.mouse.sub_mask &&& ty 0 ≠ 0 →
      (INT74_Handler h (insert_seq ty n s)).reg.ax = ty 0 ∧
      (INT74_Handler h (insert_seq ty n s)).reg.bx = s.mouse.buttons) := by
  have hmin : min n QUEUE_SIZE = n := Nat.min_eq_left hn32
  obtain ⟨he, hq⟩ := insert_seq_queue ty s h0 hty n
  rw [hmin] at he hq
  have hev : 0 < (insert_seq ty n s).mouse.events := by rw [he]; exact hn
  have hU1 : (insert_seq ty n s).mouse.in_UIR = false := by rw [insert_seq_in_UIR]; exact hU
  obtain ⟨a, b⟩ := INT74_Handler_pops h _ hev hU1
  have hlast : (insert_seq ty n s).mouse.event_queue ((insert_seq ty n s).mouse.events - 1) =
      { type := ty 0, buttons := s.mouse.buttons } := by
    rw [he, hq (n - 1) (by omega)]
    have : n - 1 - (n - 1) = 0 := by omega
    rw [this]
  refine ⟨by rw [a, he], ?_, ?_⟩
  · intro i hi
    rw [b, hq i (by omega)]
  · intro hmask
    have hmask1 : (insert_seq ty n s).mouse.sub_mask &&&
        ((insert_seq ty n s).mouse.event_queue ((insert_seq ty n s).mouse.events - 1)).type
          ≠ 0 := by
      rw [hlast, insert_seq_sub_mask]
      exact hmask
    obtain ⟨c, d, _⟩ := INT74_Handler_delivers_last h _ hev hU1 hmask1
    rw [c, d, hlast]
    exact ⟨rfl, rfl⟩

/-- Instance of the amended C20: three events (press, release, press) queued on the
power-on state with a user routine; the interrupt delivers event 0 and leaves two. -/
theorem INT74_Handler_serves_oldest_witness :
    (INT74_Handler vga_host (insert_seq press_release 3 with_routine)).mouse.events = 2 ∧
    (INT74_Handler vga_host (insert_seq press_release 3 with_routine)).reg.ax =
      MOUSE_LEFT_PRESSED :=
  ⟨(INT74_Handler_serves_oldest vga_host press_release with_routine 3 (by decide!)
      press_release_ne (by decide!) (by decide) (by decide)).1,
   ((INT74_Handler_serves_oldest vga_host press_release with_routine 3 (by decide!)
      press_release_ne (by decide!) (by decide) (by decide)).2.2 (by decide!)).1⟩


/-! ## INT 33h -/

@[simp] theorem Mouse_Used_mouse (s : State) : (Mouse_Used s).mouse = s.mouse := by
  unfold Mouse_Used
  split_ifs <;> rfl

@[simp] theorem DrawCursor_reg (h : Host) (s : State) : (DrawCursor h s).reg = s.reg :=
  congrArg (fun t => t.reg) (erase_drawing_DrawCursor h s)

/-- C18: for every selector in `AX` that is not one of the implemented sub-functions,
`INT33_Handler` leaves every CPU register, every field of the mouse state and everything
else unchanged. -/
theorem INT33_Handler_unimplemented (h : Host) (s : State) (hax : s.reg.ax ∉ implemented) :
    INT33_Handler h s = s := by
  simp only [implemented, List.mem_cons, List.mem_singleton, List.not_mem_nil, or_false,
    not_or] at hax
  obtain ⟨h1, h2, h3, h4, h5, h6, h7, h8, h9, h10, h11, h12, h13, h14, h15, h16, h17, h18,
    h19, h20, h21, h22, h23, h24, h25, h26, h27, h28, h29, h30, h31, h32, h33, h34, h35,
    h36⟩ := hax
  unfold INT33_Handler
  rw [if_neg h1, if_neg h2, if_neg h3, if_neg h4, if_neg h5, if_neg h6, if_neg h7, if_neg h8,
    if_neg h9, if_neg h10, if_neg h11, if_neg h12, if_neg h13, if_neg h14, if_neg h15,
    if_neg h16, if_neg h17, if_neg h18, if_neg h19, if_neg h20, if_neg h21, if_neg h22,
    if_neg h23, if_neg h24, if_neg h25, if_neg h26, if_neg h27, if_neg h28, if_neg h29,
    if_neg h30, if_neg h31, if_neg h32, if_neg h33, if_neg h34, if_neg h35, if_neg h36]

/-- Instance of C18: selector `0x0d` (light pen emulation on) on the power-on state. -/
theorem INT33_Handler_unimplemented_witness :
    INT33_Handler vga_host light_pen_call = light_pen_call :=
  INT33_Handler_unimplemented vga_host light_pen_call (by decide!)

theorem button_index_clamped (bx : Nat) (hbx : MOUSE_BUTTONS ≤ bx) :
    button_index bx = MOUSE_BUTTONS - 1 := by
  unfold button_index
  rw [if_pos hbx]

theorem INT33_Handler_05 (h : Host) (s : State) (hax : s.reg.ax = 0x05) :
    INT33_Handler h s = INT33_05 s := by
  unfold INT33_Handler
  rw [hax]
  rfl

theorem INT33_Handler_06 (h : Host) (s : State) (hax : s.reg.ax = 0x06) :
    INT33_Handler h s = INT33_06 s := by
  unfold INT33_Handler
  rw [hax]
  rfl

/-- Functions 5 and 6 called with a button number of 3 or more act as with button 2. -/
theorem INT33_05_clamped (s : State) (bx : Nat) (hbx : MOUSE_BUTTONS ≤ bx) :
    INT33_05 { s with reg.ax := 0x05, reg.bx := bx } =
      INT33_05 { s with reg.ax := 0x05, reg.bx := 2 } := by
  unfold INT33_05
  simp only []
  rw [button_index_clamped bx hbx]
  rfl

theorem INT33_06_clamped (s : State) (bx : Nat) (hbx : MOUSE_BUTTONS ≤ bx) :
    INT33_06 { s with reg.ax := 0x06, reg.bx := bx } =
      INT33_06 { s with reg.ax := 0x06, reg.bx := 2 } := by
  unfold INT33_06
  simp only []
  rw [button_index_clamped bx hbx]
  rfl

theorem INT33_05_counters (s : State) (b : Nat) (hb : b ≠ button_index s.reg.bx) :
    (INT33_05 s).mouse.times_pressed b = s.mouse.times_pressed b ∧
    (INT33_05 s).mouse.times_released b = s.mouse.times_released b := by
  unfold INT33_05
  simp only [Mouse_Used_mouse]
  exact ⟨Function.update_noteq hb _ _, trivial⟩

theorem INT33_06_counters (s : State) (b : Nat) (hb : b ≠ button_index s.reg.bx) :
    (INT33_06 s).mouse.times_pressed b = s.mouse.times_pressed b ∧
    (INT33_06 s).mouse.times_released b = s.mouse.times_released b := by
  unfold INT33_06
  simp only [Mouse_Used_mouse]
  exact ⟨trivial, Function.update_noteq hb _ _⟩

/-- C19: for INT 33h functions 0x05 and 0x06, every `BX ≥ 3` is clamped to the last valid
button: the call ends in the same registers and the same state as the call with `BX = 2`,
and no counter of button 0 or button 1 is changed. -/
theorem INT33_Handler_button_clamped (h : Host) (s : State) (bx : Nat)
    (hbx : MOUSE_BUTTONS ≤ bx) :
    INT33_Handler h { s with reg.ax := 0x05, reg.bx := bx } =
      INT33_Handler h { s with reg.ax := 0x05, reg.bx := 2 } ∧
    INT33_Handler h { s with reg.ax := 0x06, reg.bx := bx } =
      INT33_Handler h { s with reg.ax := 0x06, reg.bx := 2 } ∧
    (∀ b, b < 2 →
      (INT33_Handler h { s with reg.ax := 0x05, reg.bx := bx }).mouse.times_pressed b =
        s.mouse.times_pressed b ∧
      (INT33_Handler h { s with reg.ax := 0x05, reg.bx := bx }).mouse.times_released b =
        s.mouse.times_released b ∧
      (INT33_Handler h { s with reg.ax := 0x06, reg.bx := bx }).mouse.times_pressed b =
        s.mouse.times_pressed b ∧
      (INT33_Handler h { s with reg.ax := 0x06, reg.bx := bx }).mouse.times_released b =
        s.mouse.times_released b) := by
  rw [INT33_Handler_05 h _ rfl, INT33_Handler_05 h _ rfl, INT33_Handler_06 h _ rfl,
    INT33_Handler_06 h _ rfl]
  refine ⟨INT33_05_clamped s bx hbx, INT33_06_clamped s bx hbx, ?_⟩
  intro b hb
  have hne5 : b ≠ button_index ({ s with reg.ax := 0x05, reg.bx := bx } : State).reg.bx := by
    show b ≠ button_index bx
    rw [button_index_clamped bx hbx]
    unfold MOUSE_BUTTONS
    omega
  have hne6 : b ≠ button_index ({ s with reg.ax := 0x06, reg.bx := bx } : State).reg.bx := by
    show b ≠ button_index bx
    rw [button_index_clamped bx hbx]
    unfold MOUSE_BUTTONS
    omega
  obtain ⟨a1, a2⟩ := INT33_05_counters _ b hne5
  obtain ⟨a3, a4⟩ := INT33_06_counters _ b hne6
  exact ⟨a1, a2, a3, a4⟩

/-- Instance of C19 on the state after two button presses: function 5 with `BX = 9`
reports button 2 (no press), and the press count of the left button stays 1. -/
theorem INT33_Handler_button_clamped_witness :
    INT33_Handler vga_host { two_presses with reg.ax := 0x05, reg.bx := 9 } =
      INT33_Handler vga_host { two_presses with reg.ax := 0x05, reg.bx := 2 } ∧
    (INT33_Handler vga_host { two_presses with reg.ax := 0x05, reg.bx := 9 }).mouse.times_pressed 0
      = 1 :=
  ⟨(INT33_Handler_button_clamped vga_host two_presses 9 (by decide)).1,
   (((INT33_Handler_button_clamped vga_host two_presses 9 (by decide)).2.2 0 (by decide)).1).trans
      (by decide!)⟩


/-! ## Sensitivity -/

theorem senv_of_eq (v : Nat) (hv : 1 ≤ v) : senv_of (v - 1) = sensitivity_formula (v : ℚ) := by
  unfold senv_of sensitivity_formula
  rw [Nat.cast_sub hv]
  ring

theorem sensitivity_formula_mono (a b : ℚ) (ha : 1 ≤ a) (hab : a ≤ b) :
    sensitivity_formula a ≤ sensitivity_formula b := by
  unfold sensitivity_formula
  have h1 : (a - 1) ^ 2 ≤ (b - 1) ^ 2 := by nlinarith
  have h2 : (a - 1) ^ 2 / 3600 ≤ (b - 1) ^ 2 / 3600 :=
    div_le_div_of_nonneg_right h1 (by norm_num)
  linarith

theorem Mouse_SetSensitivity_senv (px py dspeed : Nat) (s : State) (hx : px ≠ 0) (hy : py ≠ 0) :
    (Mouse_SetSensitivity px py dspeed s).mouse.senv_x = senv_of (min px 100 - 1) ∧
    (Mouse_SetSensitivity px py dspeed s).mouse.senv_y = senv_of (min py 100 - 1) := by
  have hx1 : (if px > 100 then 100 else px) = min px 100 := by
    split_ifs with hc
    · exact (Nat.min_eq_right (le_of_lt hc)).symm
    · exact (Nat.min_eq_left (by omega)).symm
  have hy1 : (if py > 100 then 100 else py) = min py 100 := by
    split_ifs with hc
    · exact (Nat.min_eq_right (le_of_lt hc)).symm
    · exact (Nat.min_eq_left (by omega)).symm
  have hne : min px 100 ≠ 0 ∧ min py 100 ≠ 0 := by
    constructor
    · rw [Nat.min_def]; split_ifs <;> omega
    · rw [Nat.min_def]; split_ifs <;> omega
  unfold Mouse_SetSensitivity
  simp only [hx1, hy1]
  rw [if_pos hne]
  exact ⟨rfl, rfl⟩

/-- A user value above 100 is treated as 100, whatever the other arguments are. -/
theorem Mouse_SetSensitivity_capped (px py dspeed : Nat) (s : State) (hbig : 100 < px) :
    Mouse_SetSensitivity px py dspeed s = Mouse_SetSensitivity 100 py dspeed s := by
  unfold Mouse_SetSensitivity
  simp only []
  have h1 : (if px > 100 then 100 else px) = 100 := if_pos hbig
  have h2 : (if (100 : Nat) > 100 then 100 else 100) = 100 := by decide
  rw [h1, h2]

/-- C17: the coefficient that `Mouse_SetSensitivity` derives from a user value `v` (both
values being non-zero, as the routine requires) is `f(v) = (v - 1)² / 3600 + 1/3` for the
value capped at 100; `f(1) = 1/3`, `f` is non-decreasing from 1 on, so its maximum over
`[1, 100]` is at `v = 100`, and every value above 100 gives what 100 gives (the whole call
has the same effect). -/
theorem Mouse_SetSensitivity_coefficient (px py dspeed : Nat) (s : State)
    (hx : px ≠ 0) (hy : py ≠ 0) :
    (Mouse_SetSensitivity px py dspeed s).mouse.senv_x =
      sensitivity_formula ((min px 100 : Nat) : ℚ) ∧
    (Mouse_SetSensitivity px py dspeed s).mouse.senv_y =
      sensitivity_formula ((min py 100 : Nat) : ℚ) ∧
    sensitivity_formula 1 = 1 / 3 ∧
    (∀ a b : ℚ, 1 ≤ a → a ≤ b → sensitivity_formula a ≤ sensitivity_formula b) ∧
    (∀ v : ℚ, 1 ≤ v → v ≤ 100 → sensitivity_formula v ≤ sensitivity_formula 100) ∧
    (100 < px → (Mouse_SetSensitivity px py dspeed s).mouse.senv_x = sensitivity_formula 100) ∧
    (100 < py → (Mouse_SetSensitivity px py dspeed s).mouse.senv_y = sensitivity_formula 100) ∧
    (100 < px → Mouse_SetSensitivity px py dspeed s = Mouse_SetSensitivity 100 py dspeed s) := by
  obtain ⟨ex, ey⟩ := Mouse_SetSensitivity_senv px py dspeed s hx hy
  have hpx : 1 ≤ min px 100 := by rw [Nat.min_def]; split_ifs <;> omega
  have hpy : 1 ≤ min py 100 := by rw [Nat.min_def]; split_ifs <;> omega
  rw [senv_of_eq _ hpx] at ex
  rw [senv_of_eq _ hpy] at ey
  refine ⟨ex, ey, ?_, sensitivity_formula_mono, ?_, ?_, ?_, ?_⟩
  · unfold sensitivity_formula
    norm_num
  · intro v h1 h100
    exact sensitivity_formula_mono v 100 h1 h100
  · intro hbig
    rw [ex, Nat.min_eq_right (le_of_lt hbig)]
    norm_num
  · intro hbig
    rw [ey, Nat.min_eq_right (le_of_lt hbig)]
    norm_num
  · exact Mouse_SetSensitivity_capped px py dspeed s

/-- Instance of C17: the values 1 and 250 set on the power-on state give `1/3` and
`f(100) = 9801/3600 + 1/3`. -/
theorem Mouse_SetSensitivity_coefficient_witness :
    (Mouse_SetSensitivity 1 250 50 power_on).mouse.senv_x = 1 / 3 ∧
    (Mouse_SetSensitivity 1 250 50 power_on).mouse.senv_y = 9801 / 3600 + 1 / 3 :=
  ⟨((Mouse_SetSensitivity_coefficient 1 250 50 power_on (by decide) (by decide)).1).trans
      (by decide!),
   ((Mouse_SetSensitivity_coefficient 1 250 50 power_on (by decide) (by decide)).2.2.2.2.2.2.1
      (by decide)).trans (by decide!)⟩

/-! ## Mouse_CursorMoved -/

theorem clamp_bounds (v : ℚ) (min max : Int) (hmm : min ≤ max) :
    (min : ℚ) ≤ clamp v min max ∧ clamp v min max ≤ (max : ℚ) := by
  have hq : (min : ℚ) ≤ (max : ℚ) := by exact_mod_cast hmm
  unfold clamp
  simp only []
  split_ifs with h1 h2 h2
  · exact ⟨le_refl _, hq⟩
  · exact ⟨hq, le_refl _⟩
  · exact ⟨le_refl _, hq⟩
  · exact ⟨not_lt.mp h2, not_lt.mp h1⟩

theorem wrap_once_bounds (v : ℚ) (hlo : -98305 < v) (hhi : v < 98304) :
    -32769 < wrap_once v ∧ wrap_once v < 32768 := by
  unfold wrap_once
  split_ifs with h1 h2
  · constructor <;> linarith
  · constructor <;> linarith
  · exact ⟨lt_of_not_le h2, lt_of_not_le h1⟩

@[simp] theorem DrawCursor_x (h : Host) (s : State) : (DrawCursor h s).mouse.x = s.mouse.x :=
  congrArg (fun t => t.mouse.x) (erase_drawing_DrawCursor h s)

@[simp] theorem DrawCursor_y (h : Host) (s : State) : (DrawCursor h s).mouse.y = s.mouse.y :=
  congrArg (fun t => t.mouse.y) (erase_drawing_DrawCursor h s)

@[simp] theorem Mouse_AddEvent_x (type : Nat) (s : State) :
    (Mouse_AddEvent type s).mouse.x = s.mouse.x :=
  congrArg (fun t => t.mouse.x) (erase_queue_Mouse_AddEvent type s)

@[simp] theorem Mouse_AddEvent_y (type : Nat) (s : State) :
    (Mouse_AddEvent type s).mouse.y = s.mouse.y :=
  congrArg (fun t => t.mouse.y) (erase_queue_Mouse_AddEvent type s)

/-- The motion step of `Mouse_CursorMoved` leaves the range and the PS/2 flag alone. -/
theorem moved_frame (h : Host) (xrel yrel x y : ℚ) (emulate : Bool) (s : State) :
    (moved h xrel yrel x y emulate s).mouse.min_x = s.mouse.min_x ∧
    (moved h xrel yrel x y emulate s).mouse.max_x = s.mouse.max_x ∧
    (moved h xrel yrel x y emulate s).mouse.min_y = s.mouse.min_y ∧
    (moved h xrel yrel x y emulate s).mouse.max_y = s.mouse.max_y ∧
    (moved h xrel yrel x y emulate s).useps2callback = s.useps2callback := by
  unfold moved
  simp only []
  split_ifs <;> exact ⟨rfl, rfl, rfl, rfl, rfl⟩

/-- The position that `Mouse_CursorMoved` leaves is the constrained one. -/
theorem Mouse_CursorMoved_xy (h : Host) (xrel yrel x y : ℚ) (emulate : Bool) (s : State) :
    (Mouse_CursorMoved h xrel yrel x y emulate s).mouse.x =
      (constrain (moved h xrel yrel x y emulate s)).mouse.x ∧
    (Mouse_CursorMoved h xrel yrel x y emulate s).mouse.y =
      (constrain (moved h xrel yrel x y emulate s)).mouse.y := by
  unfold Mouse_CursorMoved
  rw [DrawCursor_x, DrawCursor_y, Mouse_AddEvent_x, Mouse_AddEvent_y]
  exact ⟨rfl, rfl⟩

theorem constrain_clamps (s : State) (hps2 : s.useps2callback = false) :
    (constrain s).mouse.x = clamp s.mouse.x s.mouse.min_x s.mouse.max_x ∧
    (constrain s).mouse.y = clamp s.mouse.y s.mouse.min_y s.mouse.max_y := by
  unfold constrain
  rw [if_pos hps2]
  exact ⟨rfl, rfl⟩

theorem constrain_wraps (s : State) (hps2 : s.useps2callback = true) :
    (constrain s).mouse.x = wrap_once s.mouse.x ∧
    (constrain s).mouse.y = wrap_once s.mouse.y := by
  have hne : ¬ s.useps2callback = false := by rw [hps2]; decide
  unfold constrain
  rw [if_neg hne]
  exact ⟨rfl, rfl⟩

/-- C13 fails as stated: with the PS/2 callback in use, a relative motion of
100000 mickeys from the power-on position (320, 100) ends at an x position of 32768 or
more, because the position is corrected by 65536 only once. -/
theorem Mouse_CursorMoved_ps2_out_of_range :
    ps2_on.useps2callback = true ∧
    ps2_on.mouse.min_x ≤ ps2_on.mouse.max_x ∧
    ps2_on.mouse.min_y ≤ ps2_on.mouse.max_y ∧
    ps2_on.mouse.x = 320 ∧
    (Mouse_CursorMoved vga_host 100000 0 0 0 true ps2_on).mouse.x ≥ 32768 := by
  decide!

/-- C13, as the code has it: after `Mouse_CursorMoved`, for all motion arguments and all ranges with
`min ≤ max`, the position satisfies `min_x ≤ x ≤ max_x` and `min_y ≤ y ≤ max_y` when the
PS/2 callback mode is off.  When it is on, each coordinate is corrected by 65536 at most
once, so it lies strictly between -32769 and 32768 whenever the coordinate computed by the
motion step lies strictly between -98305 and 98304. -/
theorem Mouse_CursorMoved_position (h : Host) (xrel yrel x y : ℚ) (emulate : Bool)
    (s : State) :
    (s.useps2callback = false → s.mouse.min_x ≤ s.mouse.max_x → s.mouse.min_y ≤ s.mouse.max_y →
      (s.mouse.min_x : ℚ) ≤ (Mouse_CursorMoved h xrel yrel x y emulate s).mouse.x ∧
      (Mouse_CursorMoved h xrel yrel x y emulate s).mouse.x ≤ (s.mouse.max_x : ℚ) ∧
      (s.mouse.min_y : ℚ) ≤ (Mouse_CursorMoved h xrel yrel x y emulate s).mouse.y ∧
      (Mouse_CursorMoved h xrel yrel x y emulate s).mouse.y ≤ (s.mouse.max_y : ℚ)) ∧
    (s.useps2callback = true →
      (-98305 < (moved h xrel yrel x y emulate s).mouse.x →
        (moved h xrel yrel x y emulate s).mouse.x < 98304 →
        -32769 < (Mouse_CursorMoved h xrel yrel x y emulate s).mouse.x ∧
        (Mouse_CursorMoved h xrel yrel x y emulate s).mouse.x < 32768) ∧
      (-98305 < (moved h xrel yrel x y emulate s).mouse.y →
        (moved h xrel yrel x y emulate s).mouse.y < 98304 →
        -32769 < (Mouse_CursorMoved h xrel yrel x y emulate s).mouse.y ∧
        (Mouse_CursorMoved h xrel yrel x y emulate s).mouse.y < 32768)) := by
  obtain ⟨ex, ey⟩ := Mouse_CursorMoved_xy h xrel yrel x y emulate s
  obtain ⟨f1, f2, f3, f4, f5⟩ := moved_frame h xrel yrel x y emulate s
  constructor
  · intro hps2 hx hy
    obtain ⟨cx, cy⟩ := constrain_clamps (moved h xrel yrel x y emulate s) (by rw [f5]; exact hps2)
    rw [ex, ey, cx, cy, f1, f2, f3, f4]
    exact ⟨(clamp_bounds _ _ _ hx).1, (clamp_bounds _ _ _ hx).2, (clamp_bounds _ _ _ hy).1,
      (clamp_bounds _ _ _ hy).2⟩
  · intro hps2
    obtain ⟨cx, cy⟩ := constrain_wraps (moved h xrel yrel x y emulate s) (by rw [f5]; exact hps2)
    rw [ex, ey, cx, cy]
    exact ⟨fun a b => wrap_once_bounds _ a b, fun a b => wrap_once_bounds _ a b⟩

/-- Instance of the amended C13: a motion of 1000 mickeys to the right on the power-on
state is clamped to `max_x = 639`; with the PS/2 callback in use a motion of 40000 mickeys
wraps into the range. -/
theorem Mouse_CursorMoved_position_witness :
    (Mouse_CursorMoved vga_host 1000 0 0 0 true power_on).mouse.x ≤ 639 ∧
    (Mouse_CursorMoved vga_host 40000 0 0 0 true ps2_on).mouse.x < 32768 :=
  ⟨(((Mouse_CursorMoved_position vga_host 1000 0 0 0 true power_on).1 (by decide!) (by decide!)
      (by decide!)).2.1).trans (by decide!),
   (((Mouse_CursorMoved_position vga_host 40000 0 0 0 true ps2_on).2 (by decide!)).1
      (by decide!) (by decide!)).2⟩

/-- With `emulate` set the motion step adds the scaled delta to the position; in PS/2 mode
the vertical delta is doubled first. -/
theorem moved_emulate (h : Host) (xrel yrel x y : ℚ) (s : State) :
    (moved h xrel yrel x y true s).mouse.x =
      s.mouse.x + scaled_delta xrel s.mouse.pixelPerMickey_x s.mouse.senv_x ∧
    (moved h xrel yrel x y true s).mouse.y =
      s.mouse.y + (if s.useps2callback = true then
        scaled_delta yrel s.mouse.pixelPerMickey_y s.mouse.senv_y * 2
        else scaled_delta yrel s.mouse.pixelPerMickey_y s.mouse.senv_y) := by
  unfold moved
  simp only [if_true]
  constructor
  all_goals trivial

/-- In PS/2 mode a relative motion whose scaled delta is at most 65536 in size keeps an
x position that was inside the interval inside it. -/
theorem Mouse_CursorMoved_ps2_small_step (h : Host) (xrel yrel x y : ℚ) (s : State)
    (hps2 : s.useps2callback = true) (hlo : -32769 < s.mouse.x) (hhi : s.mouse.x < 32768)
    (hd : |scaled_delta xrel s.mouse.pixelPerMickey_x s.mouse.senv_x| ≤ 65536) :
    -32769 < (Mouse_CursorMoved h xrel yrel x y true s).mouse.x ∧
    (Mouse_CursorMoved h xrel yrel x y true s).mouse.x < 32768 := by
  obtain ⟨ex, _⟩ := Mouse_CursorMoved_xy h xrel yrel x y true s
  obtain ⟨_, _, _, _, f5⟩ := moved_frame h xrel yrel x y true s
  obtain ⟨cx, _⟩ := constrain_wraps (moved h xrel yrel x y true s) (by rw [f5]; exact hps2)
  obtain ⟨mx, _⟩ := moved_emulate h xrel yrel x y s
  obtain ⟨d1, d2⟩ := abs_le.mp hd
  rw [ex, cx, mx]
  apply wrap_once_bounds <;> linarith

/-! ## Show and hide -/

/-- C26 on the code: after the range -100 .. 100 was configured with function 7, function 4
called with `CX = 0xFFFF`, the position -1, passes both range tests as the signed value -1
and then stores the unsigned register value: the position becomes 65535, outside the
range.  PS/2 mode is off. -/
theorem INT33_04_negative_request :
    ranged.useps2callback = false ∧ ranged.mouse.min_x = -100 ∧ ranged.mouse.max_x = 100 ∧
    ranged.mouse.min_y ≤ ranged.mouse.max_y ∧
    (INT33_Handler vga_host position_call).mouse.x = 65535 ∧
    ¬ ((INT33_Handler vga_host position_call).mouse.x ≤ ranged.mouse.max_x) := by
  decide!

/-! ## Absolute motion -/

theorem moved_absolute_graphics (h : Host) (xrel yrel x y : ℚ) (s : State)
    (hgfx : s.CurMode.type_is_M_TEXT = false) :
    (small_range s ∧ s.mouse.max_x > 0 ∧ s.mouse.max_y > 0 →
      (moved h xrel yrel x y false s).mouse.x = x * (s.mouse.max_x : ℚ) ∧
      (moved h xrel yrel x y false s).mouse.y = y * (s.mouse.max_y : ℚ)) ∧
    (¬ (small_range s ∧ s.mouse.max_x > 0 ∧ s.mouse.max_y > 0) →
      (moved h xrel yrel x y false s).mouse.x = s.mouse.x + rel_x h xrel s ∧
      (moved h xrel yrel x y false s).mouse.y = s.mouse.y + rel_y h yrel s) := by
  constructor
  · rintro ⟨h1, h2⟩
    have h1' : s.mouse.max_x < 2048 ∨ s.mouse.max_y < 2048 ∨ s.mouse.max_x ≠ s.mouse.max_y := h1
    unfold moved
    simp only [Bool.false_eq_true, if_false, hgfx, if_pos h1', if_pos h2]
    exact ⟨trivial, trivial⟩
  · intro hn
    unfold moved rel_x rel_y
    by_cases h1 : s.mouse.max_x < 2048 ∨ s.mouse.max_y < 2048 ∨ s.mouse.max_x ≠ s.mouse.max_y
    · have h2 : ¬ (s.mouse.max_x > 0 ∧ s.mouse.max_y > 0) := fun h2 => hn ⟨h1, h2⟩
      simp only [Bool.false_eq_true, if_false, hgfx, if_pos h1, if_neg h2]
      exact ⟨trivial, trivial⟩
    · simp only [Bool.false_eq_true, if_false, hgfx, if_neg h1]
      exact ⟨trivial, trivial⟩

/-- C33 fails as stated: in a 320x200 graphics mode with the range 0 .. 639 by 0 .. 199,
small and not square, an absolute report of the middle of the screen that also carries a
relative motion of 10 puts the position at `0.5 * 639`, derived from the normalized
coordinate, and not at the old position plus the scaled delta. -/
theorem Mouse_CursorMoved_small_range_absolute :
    gfx_on.CurMode.type_is_M_TEXT = false ∧ small_range gfx_on ∧
    (Mouse_CursorMoved vga_host 10 0 (1 / 2) (1 / 2) false gfx_on).mouse.x = 639 / 2 ∧
    (Mouse_CursorMoved vga_host 10 0 (1 / 2) (1 / 2) false gfx_on).mouse.x ≠
      gfx_on.mouse.x + rel_x vga_host 10 gfx_on := by
  decide!

/-- C33, as the code has it: in absolute mode in a graphics mode, the position before the
range constraint is derived from the normalized coordinates, `x * max_x` and `y * max_y`,
when the range is small or not square and both maxima are positive; it is the old
position plus the relative step when the range is large and square (`max_x = max_y`,
both at least 2048) or a maximum is not positive.  `Mouse_CursorMoved` leaves that
position constrained. -/
theorem Mouse_CursorMoved_absolute (h : Host) (xrel yrel x y : ℚ) (s : State)
    (hgfx : s.CurMode.type_is_M_TEXT = false) :
    (Mouse_CursorMoved h xrel yrel x y false s).mouse.x =
      (constrain (moved h xrel yrel x y false s)).mouse.x ∧
    (Mouse_CursorMoved h xrel yrel x y false s).mouse.y =
      (constrain (moved h xrel yrel x y false s)).mouse.y ∧
    (small_range s ∧ s.mouse.max_x > 0 ∧ s.mouse.max_y > 0 →
      (moved h xrel yrel x y false s).mouse.x = x * (s.mouse.max_x : ℚ) ∧
      (moved h xrel yrel x y false s).mouse.y = y * (s.mouse.max_y : ℚ)) ∧
    (¬ small_range s ∨ s.mouse.max_x ≤ 0 ∨ s.mouse.max_y ≤ 0 →
      (moved h xrel yrel x y false s).mouse.x = s.mouse.x + rel_x h xrel s ∧
      (moved h xrel yrel x y false s).mouse.y = s.mouse.y + rel_y h yrel s) := by
  refine ⟨(Mouse_CursorMoved_xy h xrel yrel x y false s).1,
    (Mouse_CursorMoved_xy h xrel yrel x y false s).2,
    (moved_absolute_graphics h xrel yrel x y s hgfx).1, ?_⟩
  intro hn
  apply (moved_absolute_graphics h xrel yrel x y s hgfx).2
  rintro ⟨h1, h2, h3⟩
  rcases hn with hn | hn | hn
  · exact hn h1
  · omega
  · omega

/-- Instance of the amended C33 on the 320x200 state: the absolute report of the middle of
the screen puts the unconstrained position at (319.5, 99.5). -/
theorem Mouse_CursorMoved_absolute_witness :
    (moved vga_host 10 0 (1 / 2) (1 / 2) false gfx_on).mouse.x = (1 / 2) * 639 ∧
    (moved vga_host 10 0 (1 / 2) (1 / 2) false gfx_on).mouse.y = (1 / 2) * 199 :=
  (Mouse_CursorMoved_absolute vga_host 10 0 (1 / 2) (1 / 2) gfx_on rfl).2.2.1
    (by decide!)

/-! ## The three delivery paths -/

theorem POS_X_congr (s t : State) (hx : t.mouse.x = s.mouse.x)
    (hg : t.mouse.gran_x = s.mouse.gran_x) : POS_X t = POS_X s := by
  unfold POS_X
  rw [hx, hg]

theorem POS_Y_congr (s t : State) (hy : t.mouse.y = s.mouse.y)
    (hg : t.mouse.gran_y = s.mouse.gran_y) : POS_Y t = POS_Y s := by
  unfold POS_Y
  rw [hy, hg]

theorem call_user_routine_reg (h : Host) (e : button_event) (s : State) :
    (call_user_routine h e s).reg =
      { s.reg with
        ax := e.type
        bx := e.buttons
        cx := toBit16u (POS_X s)
        dx := toBit16u (POS_Y s)
        si := toBit16u (float_to_Bit16s s.mouse.mickey_x)
        di := toBit16u (float_to_Bit16s s.mouse.mickey_y) } := rfl

theorem call_user_routine_cx (h : Host) (e : button_event) (s : State) :
    (call_user_routine h e s).reg.cx = toBit16u (POS_X s) := by
  rw [call_user_routine_reg]

theorem call_user_routine_dx (h : Host) (e : button_event) (s : State) :
    (call_user_routine h e s).reg.dx = toBit16u (POS_Y s) := by
  rw [call_user_routine_reg]

/-- The three delivery paths of `INT74_Handler`, one for each case of its tests. -/
theorem INT74_Handler_three_paths (h : Host) (s : State) (hev : 0 < s.mouse.events)
    (hU : s.mouse.in_UIR = false) :
    (s.mouse.sub_mask &&& (s.mouse.event_queue (s.mouse.events - 1)).type ≠ 0 →
      INT74_Handler h s = call_user_routine h (s.mouse.event_queue (s.mouse.events - 1))
        { s with mouse.events := s.mouse.events - 1 } ∧
      (INT74_Handler h s).reg.ax = (s.mouse.event_queue (s.mouse.events - 1)).type ∧
      (INT74_Handler h s).reg.bx = (s.mouse.event_queue (s.mouse.events - 1)).buttons ∧
      (INT74_Handler h s).reg.cx = toBit16u (POS_X s) ∧
      (INT74_Handler h s).reg.dx = toBit16u (POS_Y s) ∧
      (INT74_Handler h s).reg.si = toBit16u (float_to_Bit16s s.mouse.mickey_x) ∧
      (INT74_Handler h s).reg.di = toBit16u (float_to_Bit16s s.mouse.mickey_y) ∧
      (INT74_Handler h s).mouse.in_UIR = true ∧
      (INT74_Handler h s).oldmouseX = s.oldmouseX) ∧
    (s.mouse.sub_mask &&& (s.mouse.event_queue (s.mouse.events - 1)).type = 0 →
      s.useps2callback = true →
      INT74_Handler h s =
        DoPS2Callback h (s.mouse.event_queue (s.mouse.events - 1)).buttons
          (float_to_Bit16s s.mouse.x) (float_to_Bit16s s.mouse.y)
          (CPU_Push16 (RealOff h.int74_ret_callback)
            (CPU_Push16 (RealSeg h.int74_ret_callback)
              { s with mouse.events := s.mouse.events - 1 })) ∧
      (INT74_Handler h s).mouse.in_UIR = false ∧
      (INT74_Handler h s).reg.ax = s.reg.ax) ∧
    (s.mouse.sub_mask &&& (s.mouse.event_queue (s.mouse.events - 1)).type = 0 →
      s.useps2callback = false →
      INT74_Handler h s = jump_to_ret h { s with mouse.events := s.mouse.events - 1 } ∧
      (INT74_Handler h s).mouse = { s.mouse with events := s.mouse.events - 1 } ∧
      (INT74_Handler h s).stack = s.stack ∧
      (INT74_Handler h s).oldmouseX = s.oldmouseX) := by
  refine ⟨?_, ?_, ?_⟩
  · intro hm
    have e : INT74_Handler h s = call_user_routine h (s.mouse.event_queue (s.mouse.events - 1))
        { s with mouse.events := s.mouse.events - 1 } := by
      unfold INT74_Handler
      rw [if_pos ⟨hev, hU⟩]
      simp only []
      rw [if_pos hm]
    rw [e]
    refine ⟨rfl, rfl, rfl, ?_, ?_, rfl, rfl, rfl, rfl⟩
    · exact (call_user_routine_cx h _ _).trans (congrArg toBit16u (POS_X_congr _ _ rfl rfl))
    · exact (call_user_routine_dx h _ _).trans (congrArg toBit16u (POS_Y_congr _ _ rfl rfl))
  · intro hm hp
    have e : INT74_Handler h s =
        DoPS2Callback h (s.mouse.event_queue (s.mouse.events - 1)).buttons
          (float_to_Bit16s s.mouse.x) (float_to_Bit16s s.mouse.y)
          (CPU_Push16 (RealOff h.int74_ret_callback)
            (CPU_Push16 (RealSeg h.int74_ret_callback)
              { s with mouse.events := s.mouse.events - 1 })) := by
      unfold INT74_Handler
      rw [if_pos ⟨hev, hU⟩]
      simp only []
      rw [if_neg (by simpa using hm), if_pos hp]
      rfl
    rw [e]
    refine ⟨rfl, ?_, ?_⟩
    · rw [DoPS2Callback_mouse]
      exact hU
    · unfold DoPS2Callback
      split_ifs <;> rfl
  · intro hm hp
    have e : INT74_Handler h s = jump_to_ret h { s with mouse.events := s.mouse.events - 1 } := by
      unfold INT74_Handler
      rw [if_pos ⟨hev, hU⟩]
      simp only []
      rw [if_neg (by simpa using hm), if_neg (by simp [hp])]
    rw [e]
    exact ⟨rfl, rfl, rfl, rfl⟩

/-- C34: when `INT74_Handler` services an event (count above 0, guard clear) it takes
one entry off the count and then exactly one of three paths, for the event `e` at the new
count.  If the registered mask has a bit in common with the type of `e` it calls the user
routine: `AX` = type, `BX` = button mask, `CX`/`DX` = `POS_X`/`POS_Y`, `SI`/`DI` = the mickey
counters, and the guard is set.  Otherwise, in PS/2 mode, it pushes the return address and
runs `DoPS2Callback`.  Otherwise it jumps to the return stub and changes nothing of
`mouse` but the count. -/
theorem INT74_Handler_paths (h : Host) (s : State) (hev : 0 < s.mouse.events)
    (hU : s.mouse.in_UIR = false) :
    (s.mouse.sub_mask &&& (s.mouse.event_queue (s.mouse.events - 1)).type ≠ 0 →
      INT74_Handler h s = call_user_routine h (s.mouse.event_queue (s.mouse.events - 1))
        { s with mouse.events := s.mouse.events - 1 } ∧
      (INT74_Handler h s).reg.ax = (s.mouse.event_queue (s.mouse.events - 1)).type ∧
      (INT74_Handler h s).reg.bx = (s.mouse.event_queue (s.mouse.events - 1)).buttons ∧
      (INT74_Handler h s).reg.cx = toBit16u (POS_X s) ∧
      (INT74_Handler h s).reg.dx = toBit16u (POS_Y s) ∧
      (INT74_Handler h s).reg.si = toBit16u (float_to_Bit16s s.mouse.mickey_x) ∧
      (INT74_Handler h s).reg.di = toBit16u (float_to_Bit16s s.mouse.mickey_y) ∧
      (INT74_Handler h s).mouse.in_UIR = true ∧
      (INT74_Handler h s).oldmouseX = s.oldmouseX) ∧
    (s.mouse.sub_mask &&& (s.mouse.event_queue (s.mouse.events - 1)).type = 0 →
      s.useps2callback = true →
      INT74_Handler h s =
        DoPS2Callback h (s.mouse.event_queue (s.mouse.events - 1)).buttons
          (float_to_Bit16s s.mouse.x) (float_to_Bit16s s.mouse.y)
          (CPU_Push16 (RealOff h.int74_ret_callback)
            (CPU_Push16 (RealSeg h.int74_ret_callback)
              { s with mouse.events := s.mouse.events - 1 })) ∧
      (INT74_Handler h s).mouse.in_UIR = false ∧
      (INT74_Handler h s).reg.ax = s.reg.ax) ∧
    (s.mouse.sub_mask &&& (s.mouse.event_queue (s.mouse.events - 1)).type = 0 →
      s.useps2callback = false →
      INT74_Handler h s = jump_to_ret h { s with mouse.events := s.mouse.events - 1 } ∧
      (INT74_Handler h s).mouse = { s.mouse with events := s.mouse.events - 1 } ∧
      (INT74_Handler h s).stack = s.stack ∧
      (INT74_Handler h s).oldmouseX = s.oldmouseX) :=
  INT74_Handler_three_paths h s hev hU

/-- Instance of C34: after one press with a user routine installed for every event, the
interrupt calls the routine with the press in `AX` and sets the guard. -/
theorem INT74_Handler_paths_witness :
    (INT74_Handler vga_host one_press).reg.ax = MOUSE_LEFT_PRESSED ∧
    (INT74_Handler vga_host one_press).mouse.in_UIR = true :=
  have hp := (INT74_Handler_paths vga_host one_press (by decide) (by decide)).1 (by decide)
  ⟨hp.2.1.trans (by decide), hp.2.2.2.2.2.2.2.1⟩

/-! ## Clipping -/

theorem toBit16u_of_range (n : Int) (h0 : 0 ≤ n) (h1 : n < 65536) : (toBit16u n : Int) = n := by
  unfold toBit16u
  rw [Int.emod_eq_of_lt h0 h1]
  exact Int.toNat_of_nonneg h0

/-- C35: for `Bit16s` arguments and clip bounds, `ClipCursorArea` returns
`x1' = max(x1,0)`, `y1' = max(y1,0)`, `x2' = min(x2,clipx)`, `y2' = min(y2,clipy)`, the
left offset `max(-x1,0)`, the top offset `max(-y1,0)` and the right offset
`max(x2-clipx,0)`; hence when `x2 = x1 + 15` the left offset, the number of columns
`x2' - x1' + 1` and the right offset add up to 16. -/
theorem ClipCursorArea_values (s : State) (x1 x2 y1 y2 : Int)
    (hx1 : -32768 ≤ x1 ∧ x1 ≤ 32767) (hx2 : -32768 ≤ x2 ∧ x2 ≤ 32767)
    (hy1 : -32768 ≤ y1 ∧ y1 ≤ 32767)
    (hcx : -32768 ≤ s.mouse.clipx ∧ s.mouse.clipx ≤ 32767) :
    (ClipCursorArea s x1 x2 y1 y2).x1 = max x1 0 ∧
    (ClipCursorArea s x1 x2 y1 y2).y1 = max y1 0 ∧
    (ClipCursorArea s x1 x2 y1 y2).x2 = min x2 s.mouse.clipx ∧
    (ClipCursorArea s x1 x2 y1 y2).y2 = min y2 s.mouse.clipy ∧
    ((ClipCursorArea s x1 x2 y1 y2).addx1 : Int) = max (-x1) 0 ∧
    ((ClipCursorArea s x1 x2 y1 y2).addy : Int) = max (-y1) 0 ∧
    ((ClipCursorArea s x1 x2 y1 y2).addx2 : Int) = max (x2 - s.mouse.clipx) 0 ∧
    (x2 = x1 + 15 →
      ((ClipCursorArea s x1 x2 y1 y2).addx1 : Int) +
        ((ClipCursorArea s x1 x2 y1 y2).x2 - (ClipCursorArea s x1 x2 y1 y2).x1 + 1) +
        ((ClipCursorArea s x1 x2 y1 y2).addx2 : Int) = 16) := by
  have a1 : ((ClipCursorArea s x1 x2 y1 y2).addx1 : Int) = max (-x1) 0 := by
    show ((if x1 < 0 then toBit16u (-x1) else 0 : Nat) : Int) = _
    split_ifs with hlt
    · rw [toBit16u_of_range _ (by omega) (by omega)]
      omega
    · simp only [Nat.cast_zero]; omega
  have a2 : ((ClipCursorArea s x1 x2 y1 y2).addy : Int) = max (-y1) 0 := by
    show ((if y1 < 0 then toBit16u (-y1) else 0 : Nat) : Int) = _
    split_ifs with hlt
    · rw [toBit16u_of_range _ (by omega) (by omega)]
      omega
    · simp only [Nat.cast_zero]; omega
  have a3 : ((ClipCursorArea s x1 x2 y1 y2).addx2 : Int) = max (x2 - s.mouse.clipx) 0 := by
    show ((if x2 > s.mouse.clipx then toBit16u (x2 - s.mouse.clipx) else 0 : Nat) : Int) = _
    split_ifs with hlt
    · rw [toBit16u_of_range _ (by omega) (by omega)]
      omega
    · simp only [Nat.cast_zero]; omega
  have b1 : (ClipCursorArea s x1 x2 y1 y2).x1 = max x1 0 := by
    show (if x1 < 0 then 0 else x1) = _
    split_ifs <;> omega
  have b2 : (ClipCursorArea s x1 x2 y1 y2).y1 = max y1 0 := by
    show (if y1 < 0 then 0 else y1) = _
    split_ifs <;> omega
  have b3 : (ClipCursorArea s x1 x2 y1 y2).x2 = min x2 s.mouse.clipx := by
    show (if x2 > s.mouse.clipx then s.mouse.clipx else x2) = _
    split_ifs <;> omega
  have b4 : (ClipCursorArea s x1 x2 y1 y2).y2 = min y2 s.mouse.clipy := by
    show (if y2 > s.mouse.clipy then s.mouse.clipy else y2) = _
    split_ifs <;> omega
  refine ⟨b1, b2, b3, b4, a1, a2, a3, ?_⟩
  intro h15
  rw [a1, a3, b1, b3]
  omega

/-- Instance of C35: the cursor block at x = -3 .. 12, y = -2 .. 13 on a screen clipped at
(9, 199) keeps the columns 0 .. 9 and the rows 0 .. 13, with offsets 3, 2 and 3. -/
theorem ClipCursorArea_values_witness :
    (ClipCursorArea { power_on with mouse.clipx := 9, mouse.clipy := 199 } (-3) 12 (-2) 13).x1 = 0 ∧
    ((ClipCursorArea { power_on with mouse.clipx := 9, mouse.clipy := 199 } (-3) 12 (-2) 13).addx2
      : Int) = 3 :=
  have h := ClipCursorArea_values { power_on with mouse.clipx := 9, mouse.clipy := 199 }
    (-3) 12 (-2) 13 (by decide) (by decide) (by decide) (by decide)
  ⟨h.1.trans (by decide), h.2.2.2.2.2.2.1.trans (by decide)⟩

/-! ## Button transitions -/

theorem Mouse_AddEvent_POS_X (type : Nat) (s : State) : POS_X (Mouse_AddEvent type s) = POS_X s :=
  POS_X_congr _ _ (Mouse_AddEvent_x type s)
    (congrArg (fun t => t.mouse.gran_x) (erase_queue_Mouse_AddEvent type s))

theorem Mouse_AddEvent_POS_Y (type : Nat) (s : State) : POS_Y (Mouse_AddEvent type s) = POS_Y s :=
  POS_Y_congr _ _ (Mouse_AddEvent_y type s)
    (congrArg (fun t => t.mouse.gran_y) (erase_queue_Mouse_AddEvent type s))

theorem Mouse_AddEvent_times_pressed (type : Nat) (s : State) :
    (Mouse_AddEvent type s).mouse.times_pressed = s.mouse.times_pressed :=
  congrArg (fun t => t.mouse.times_pressed) (erase_queue_Mouse_AddEvent type s)

theorem Mouse_AddEvent_times_released (type : Nat) (s : State) :
    (Mouse_AddEvent type s).mouse.times_released = s.mouse.times_released :=
  congrArg (fun t => t.mouse.times_released) (erase_queue_Mouse_AddEvent type s)

theorem Mouse_AddEvent_full (type : Nat) (s : State) (hfull : ¬ s.mouse.events < QUEUE_SIZE) :
    (Mouse_AddEvent type s).mouse.events = s.mouse.events ∧
    (Mouse_AddEvent type s).mouse.event_queue = s.mouse.event_queue :=
  Mouse_AddEvent_skipped type s (Or.inl (by omega))

/-- What one `case` of `Mouse_ButtonPressed` does when the button is released. -/
theorem press_released (b bit type : Nat) (s : State) (hrel : s.mouse.buttons &&& bit = 0)
    (hty : type ≠ MOUSE_HAS_MOVED) :
    (press b bit type s).mouse.buttons = s.mouse.buttons ||| bit ∧
    (press b bit type s).mouse.times_pressed b = (s.mouse.times_pressed b + 1) % 65536 ∧
    (press b bit type s).mouse.last_pressed_x b = toBit16u (POS_X s) ∧
    (press b bit type s).mouse.last_pressed_y b = toBit16u (POS_Y s) ∧
    (s.mouse.events < QUEUE_SIZE →
      (press b bit type s).mouse.events = s.mouse.events + 1 ∧
      (press b bit type s).mouse.event_queue 0 =
        { type := type, buttons := s.mouse.buttons ||| bit }) ∧
    (¬ s.mouse.events < QUEUE_SIZE →
      (press b bit type s).mouse.events = s.mouse.events ∧
      (press b bit type s).mouse.event_queue = s.mouse.event_queue) := by
  have hn : ¬ (s.mouse.buttons &&& bit ≠ 0) := by simp [hrel]
  unfold press
  rw [if_neg hn]
  refine ⟨?_, ?_, ?_, ?_, ?_, ?_⟩
  · show (Mouse_AddEvent type _).mouse.buttons = _
    rw [Mouse_AddEvent_buttons]
  · show (Function.update (Mouse_AddEvent type _).mouse.times_pressed b _) b = _
    rw [Function.update_same]
    rw [Mouse_AddEvent_times_pressed]
  · show (Function.update (Mouse_AddEvent type _).mouse.last_pressed_x b _) b = _
    rw [Function.update_same, Mouse_AddEvent_POS_X]
    exact congrArg toBit16u (POS_X_congr _ _ rfl rfl)
  · show (Function.update (Mouse_AddEvent type _).mouse.last_pressed_y b _) b = _
    rw [Function.update_same, Mouse_AddEvent_POS_Y]
    exact congrArg toBit16u (POS_Y_congr _ _ rfl rfl)
  · intro hroom
    obtain ⟨h1, h2, _⟩ := Mouse_AddEvent_accepted type
      { s with mouse.buttons := s.mouse.buttons ||| bit } hroom (Or.inr hty)
    exact ⟨h1, h2⟩
  · intro hfull
    exact Mouse_AddEvent_full type { s with mouse.buttons := s.mouse.buttons ||| bit } hfull

/-- What one `case` of `Mouse_ButtonReleased` does when the button is pressed. -/
theorem release_pressed (b bit type : Nat) (s : State) (hpr : s.mouse.buttons &&& bit ≠ 0)
    (hty : type ≠ MOUSE_HAS_MOVED) :
    (release b bit type s).mouse.buttons = s.mouse.buttons &&& (255 - bit) ∧
    (release b bit type s).mouse.times_released b = (s.mouse.times_released b + 1) % 65536 ∧
    (release b bit type s).mouse.last_released_x b = toBit16u (POS_X s) ∧
    (release b bit type s).mouse.last_released_y b = toBit16u (POS_Y s) ∧
    (s.mouse.events < QUEUE_SIZE →
      (release b bit type s).mouse.events = s.mouse.events + 1 ∧
      (release b bit type s).mouse.event_queue 0 =
        { type := type, buttons := s.mouse.buttons &&& (255 - bit) }) ∧
    (¬ s.mouse.events < QUEUE_SIZE →
      (release b bit type s).mouse.events = s.mouse.events ∧
      (release b bit type s).mouse.event_queue = s.mouse.event_queue) := by
  have hn : ¬ (s.mouse.buttons &&& bit = 0) := hpr
  unfold release
  rw [if_neg hn]
  refine ⟨?_, ?_, ?_, ?_, ?_, ?_⟩
  · show (Mouse_AddEvent type _).mouse.buttons = _
    rw [Mouse_AddEvent_buttons]
  · show (Function.update (Mouse_AddEvent type _).mouse.times_released b _) b = _
    rw [Function.update_same]
    rw [Mouse_AddEvent_times_released]
  · show (Function.update (Mouse_AddEvent type _).mouse.last_released_x b _) b = _
    rw [Function.update_same, Mouse_AddEvent_POS_X]
    exact congrArg toBit16u (POS_X_congr _ _ rfl rfl)
  · show (Function.update (Mouse_AddEvent type _).mouse.last_released_y b _) b = _
    rw [Function.update_same, Mouse_AddEvent_POS_Y]
    exact congrArg toBit16u (POS_Y_congr _ _ rfl rfl)
  · intro hroom
    obtain ⟨h1, h2, _⟩ := Mouse_AddEvent_accepted type
      { s with mouse.buttons := s.mouse.buttons &&& (255 - bit) } hroom (Or.inr hty)
    exact ⟨h1, h2⟩
  · intro hfull
    exact Mouse_AddEvent_full type
      { s with mouse.buttons := s.mouse.buttons &&& (255 - bit) } hfull

theorem Mouse_ButtonPressed_eq (b : Nat) (s : State) (hb : b < 3) :
    Mouse_ButtonPressed b s = press b (button_bit b) (press_type b) s := by
  interval_cases b <;> rfl

theorem Mouse_ButtonReleased_eq (b : Nat) (s : State) (hb : b < 3) :
    Mouse_ButtonReleased b s = release b (button_bit b) (release_type b) s := by
  interval_cases b <;> rfl

theorem press_type_ne (b : Nat) : press_type b ≠ MOUSE_HAS_MOVED := by
  unfold press_type
  split_ifs <;> decide

theorem release_type_ne (b : Nat) : release_type b ≠ MOUSE_HAS_MOVED := by
  unfold release_type
  split_ifs <;> decide

/-- C36: for a button `b` in {0,1,2} that is released, `Mouse_ButtonPressed b` sets bit `b`
of the button mask, increments the 16-bit counter `times_pressed[b]`, records `POS_X` and
`POS_Y` as the last press position of `b`, and, when the queue is not full, puts the press
event of `b` with the new button mask at the head of the queue; on a full queue the queue
is left alone.  For a button that is already pressed, or an index of 3 or more, the state
is unchanged.  `Mouse_ButtonReleased` mirrors this: it clears the bit of a pressed button
and leaves the state unchanged for a released button or an index of 3 or more. -/
theorem Mouse_Button_transitions (b : Nat) (s : State) :
    (b < 3 → s.mouse.buttons &&& button_bit b = 0 →
      (Mouse_ButtonPressed b s).mouse.buttons = s.mouse.buttons ||| button_bit b ∧
      (Mouse_ButtonPressed b s).mouse.times_pressed b =
        (s.mouse.times_pressed b + 1) % 65536 ∧
      (Mouse_ButtonPressed b s).mouse.last_pressed_x b = toBit16u (POS_X s) ∧
      (Mouse_ButtonPressed b s).mouse.last_pressed_y b = toBit16u (POS_Y s) ∧
      (s.mouse.events < QUEUE_SIZE →
        (Mouse_ButtonPressed b s).mouse.events = s.mouse.events + 1 ∧
        (Mouse_ButtonPressed b s).mouse.event_queue 0 =
          { type := press_type b, buttons := s.mouse.buttons ||| button_bit b }) ∧
      (¬ s.mouse.events < QUEUE_SIZE →
        (Mouse_ButtonPressed b s).mouse.events = s.mouse.events ∧
        (Mouse_ButtonPressed b s).mouse.event_queue = s.mouse.event_queue)) ∧
    (3 ≤ b ∨ s.mouse.buttons &&& button_bit b ≠ 0 → Mouse_ButtonPressed b s = s) ∧
    (b < 3 → s.mouse.buttons &&& button_bit b ≠ 0 →
      (Mouse_ButtonReleased b s).mouse.buttons = s.mouse.buttons &&& (255 - button_bit b) ∧
      (Mouse_ButtonReleased b s).mouse.times_released b =
        (s.mouse.times_released b + 1) % 65536 ∧
      (Mouse_ButtonReleased b s).mouse.last_released_x b = toBit16u (POS_X s) ∧
      (Mouse_ButtonReleased b s).mouse.last_released_y b = toBit16u (POS_Y s) ∧
      (s.mouse.events < QUEUE_SIZE →
        (Mouse_ButtonReleased b s).mouse.events = s.mouse.events + 1 ∧
        (Mouse_ButtonReleased b s).mouse.event_queue 0 =
          { type := release_type b, buttons := s.mouse.buttons &&& (255 - button_bit b) }) ∧
      (¬ s.mouse.events < QUEUE_SIZE →
        (Mouse_ButtonReleased b s).mouse.events = s.mouse.events ∧
        (Mouse_ButtonReleased b s).mouse.event_queue = s.mouse.event_queue)) ∧
    (3 ≤ b ∨ s.mouse.buttons &&& button_bit b = 0 → Mouse_ButtonReleased b s = s) := by
  refine ⟨?_, ?_, ?_, ?_⟩
  · intro hb hrel
    rw [Mouse_ButtonPressed_eq b s hb]
    exact press_released b (button_bit b) (press_type b) s hrel (press_type_ne b)
  · intro hor
    by_cases hb : b < 3
    · have hp : s.mouse.buttons &&& button_bit b ≠ 0 := by
        rcases hor with h | h
        · omega
        · exact h
      rw [Mouse_ButtonPressed_eq b s hb]
      unfold press
      rw [if_pos hp]
    · unfold Mouse_ButtonPressed
      rw [if_neg (by omega), if_neg (by omega), if_neg (by omega)]
  · intro hb hpr
    rw [Mouse_ButtonReleased_eq b s hb]
    exact release_pressed b (button_bit b) (release_type b) s hpr (release_type_ne b)
  · intro hor
    by_cases hb : b < 3
    · have hp : s.mouse.buttons &&& button_bit b = 0 := by
        rcases hor with h | h
        · omega
        · exact h
      rw [Mouse_ButtonReleased_eq b s hb]
      unfold release
      rw [if_pos hp]
    · unfold Mouse_ButtonReleased
      rw [if_neg (by omega), if_neg (by omega), if_neg (by omega)]

/-- Instance of C36 at power-on with a user routine installed: a press of the right button
sets bit 1 and queues the event `MOUSE_RIGHT_PRESSED` with the mask 2. -/
theorem Mouse_Button_transitions_witness :
    (Mouse_ButtonPressed 1 with_routine).mouse.buttons = 2 ∧
    (Mouse_ButtonPressed 1 with_routine).mouse.event_queue 0 =
      { type := MOUSE_RIGHT_PRESSED, buttons := 2 } :=
  have hp := (Mouse_Button_transitions 1 with_routine).1 (by decide) (by decide)
  ⟨hp.1.trans (by decide), (hp.2.2.2.2.1 (by decide)).2.trans (by decide)⟩

/-! ## The PS/2 packet -/

theorem tmod_256_of_nonneg (a : Int) (ha : 0 ≤ a) : Int.tmod a 256 = a % 256 :=
  Int.tmod_eq_emod ha (by decide)

theorem tmod_256_of_neg (a : Int) (ha : a < 0) : Int.tmod a 256 = -((-a) % 256) := by
  obtain ⟨n, rfl⟩ := Int.eq_negSucc_of_lt_zero ha
  rfl

/-- The movement byte: the C remainder of the delta, brought into 0 .. 255. -/
theorem movement_byte (d : Int) :
    (toBit16u (Int.tmod (if Int.tmod d 256 < 0 then 0x100 + Int.tmod d 256
      else Int.tmod d 256) 256) : Int) =
      (if Int.tmod d 256 < 0 then 0x100 + Int.tmod d 256 else Int.tmod d 256) ∧
    0 ≤ (if Int.tmod d 256 < 0 then 0x100 + Int.tmod d 256 else Int.tmod d 256) ∧
    (if Int.tmod d 256 < 0 then 0x100 + Int.tmod d 256 else Int.tmod d 256) < 256 ∧
    ((if Int.tmod d 256 < 0 then 0x100 + Int.tmod d 256 else Int.tmod d 256) - d) % 256 = 0 ∧
    (Int.tmod d 256 < 0 ↔ (d < 0 ∧ d % 256 ≠ 0)) := by
  have ht : (0 ≤ d ∧ Int.tmod d 256 = d % 256) ∨ (d < 0 ∧ Int.tmod d 256 = -((-d) % 256)) := by
    by_cases h0 : 0 ≤ d
    · exact Or.inl ⟨h0, tmod_256_of_nonneg d h0⟩
    · exact Or.inr ⟨by omega, tmod_256_of_neg d (by omega)⟩
  generalize Int.tmod d 256 = t at ht ⊢
  have hb : 0 ≤ (if t < 0 then 0x100 + t else t) ∧ (if t < 0 then 0x100 + t else t) < 256 := by
    split_ifs <;> omega
  refine ⟨?_, hb.1, hb.2, ?_, ?_⟩
  · rw [tmod_256_of_nonneg _ hb.1, Int.emod_eq_of_lt hb.1 hb.2]
    exact toBit16u_of_range _ hb.1 (by omega)
  · split_ifs <;> omega
  · omega

/-- The bits of the status byte, given the two low bits of the button mask and the four
tests of `DoPS2Callback`. -/
theorem status_bits (r : Nat) (hr : r < 4) (a b c d : Prop) [Decidable a] [Decidable b]
    [Decidable c] [Decidable d] :
    (if d then (if c then (if b then (if a then (r ||| 0x08) ||| 0x40 else r ||| 0x08) ||| 0x80
        else (if a then (r ||| 0x08) ||| 0x40 else r ||| 0x08)) ||| 0x10
      else (if b then (if a then (r ||| 0x08) ||| 0x40 else r ||| 0x08) ||| 0x80
        else (if a then (r ||| 0x08) ||| 0x40 else r ||| 0x08))) ||| 0x20
     else (if c then (if b then (if a then (r ||| 0x08) ||| 0x40 else r ||| 0x08) ||| 0x80
        else (if a then (r ||| 0x08) ||| 0x40 else r ||| 0x08)) ||| 0x10
      else (if b then (if a then (r ||| 0x08) ||| 0x40 else r ||| 0x08) ||| 0x80
        else (if a then (r ||| 0x08) ||| 0x40 else r ||| 0x08)))) = 
      r + 8 + (if a then 0x40 else 0) + (if b then 0x80 else 0) + (if c then 0x10 else 0) +
        (if d then 0x20 else 0) := by
  by_cases ha : a <;> by_cases hb : b <;> by_cases hc : c <;> by_cases hd : d <;>
    simp only [ha, hb, hc, hd, if_true, if_false] <;> interval_cases r <;> rfl

theorem status_sum_bits (r : Nat) (hr : r < 4) (a b c d : Prop) [Decidable a] [Decidable b]
    [Decidable c] [Decidable d] :
    (r + 8 + (if a then 0x40 else 0) + (if b then 0x80 else 0) + (if c then 0x10 else 0) +
        (if d then 0x20 else 0)) &&& 0x08 = 0x08 ∧
    (r + 8 + (if a then 0x40 else 0) + (if b then 0x80 else 0) + (if c then 0x10 else 0) +
        (if d then 0x20 else 0)) &&& 0x03 = r ∧
    ((r + 8 + (if a then 0x40 else 0) + (if b then 0x80 else 0) + (if c then 0x10 else 0) +
        (if d then 0x20 else 0)) &&& 0x40 ≠ 0 ↔ a) ∧
    ((r + 8 + (if a then 0x40 else 0) + (if b then 0x80 else 0) + (if c then 0x10 else 0) +
        (if d then 0x20 else 0)) &&& 0x80 ≠ 0 ↔ b) ∧
    ((r + 8 + (if a then 0x40 else 0) + (if b then 0x80 else 0) + (if c then 0x10 else 0) +
        (if d then 0x20 else 0)) &&& 0x10 ≠ 0 ↔ c) ∧
    ((r + 8 + (if a then 0x40 else 0) + (if b then 0x80 else 0) + (if c then 0x10 else 0) +
        (if d then 0x20 else 0)) &&& 0x20 ≠ 0 ↔ d) := by
  by_cases ha : a <;> by_cases hb : b <;> by_cases hc : c <;> by_cases hd : d <;>
    simp only [ha, hb, hc, hd, if_true, if_false, iff_true, iff_false, not_not, ne_eq] <;>
    interval_cases r <;> decide

theorem and_3_lt (data : Nat) : data &&& 0x03 < 4 :=
  Nat.lt_succ_of_le Nat.and_le_right

theorem ps2_packet_status (data : Nat) (mx my ox oy : Int) :
    (ps2_packet data mx my ox oy).1 =
      (data &&& 0x03) + 8 +
        (if toBit16s (mx - ox) > 0xff ∨ toBit16s (mx - ox) < -0xff then 0x40 else 0) +
        (if toBit16s (oy - my) > 0xff ∨ toBit16s (oy - my) < -0xff then 0x80 else 0) +
        (if Int.tmod (toBit16s (mx - ox)) 256 < 0 then 0x10 else 0) +
        (if Int.tmod (toBit16s (oy - my)) 256 < 0 then 0x20 else 0) :=
  status_bits (data &&& 0x03) (and_3_lt data) _ _ _ _

theorem ps2_packet_lt (data : Nat) (mx my ox oy : Int) :
    (ps2_packet data mx my ox oy).1 < 256 ∧ (ps2_packet data mx my ox oy).2.1 < 256 ∧
    (ps2_packet data mx my ox oy).2.2 < 256 := by
  refine ⟨?_, ?_, ?_⟩
  · rw [ps2_packet_status]
    have := and_3_lt data
    split_ifs <;> omega
  · have h := movement_byte (toBit16s (mx - ox))
    have e : ((ps2_packet data mx my ox oy).2.1 : Int) = _ := h.1
    have := h.2.2.1
    omega
  · have h := movement_byte (toBit16s (oy - my))
    have e : ((ps2_packet data mx my ox oy).2.2 : Int) = _ := h.1
    have := h.2.2.1
    omega

theorem toBit16s_congr (n : Int) : (toBit16s n - n) % 65536 = 0 := by
  unfold toBit16s
  omega

theorem toBit16s_range (n : Int) : -32768 ≤ toBit16s n ∧ toBit16s n ≤ 32767 := by
  unfold toBit16s
  omega

theorem toBit16s_of_range (n : Int) (h : -32768 ≤ n ∧ n ≤ 32767) : toBit16s n = n := by
  unfold toBit16s
  omega

/-- C22 fails as stated: the old position is 32767 and the new one -32767, one step across
the wrap of the PS/2 position.  The difference of the two positions is -65534, beyond 255
in magnitude, but the packet has status 8, without the X overflow bit, and X = 2. -/
theorem DoPS2Callback_wrapped_delta :
    ps2_far.useps2callback = true ∧ (-32767 : Int) - ps2_far.oldmouseX = -65534 ∧
    (DoPS2Callback vga_host 0 (-32767) 0 ps2_far).stack =
      [RealOff vga_host.ps2_callback, RealSeg vga_host.ps2_callback, 0, 0, 2, 8] := by
  decide!

/-- C22, as the code has it: in PS/2 mode `DoPS2Callback` pushes the status word, X, Y, 0
and the return address.  X and Y are in 0 .. 255 and congruent modulo 256 to
`mouseX - oldmouseX` and `oldmouseY - mouseY`.  The status word has bit 3 set and its low
two bits are those of the button mask.  The overflow bits `0x40` and `0x80` are set exactly
when the delta as the code computes it, the difference reduced to a `Bit16s`, exceeds 255
in magnitude; that delta is the plain difference whenever the difference fits a `Bit16s`.
When its magnitude is at most 255, the sign bit (`0x10`, `0x20`) and the byte together are
its 9-bit two's complement. -/
theorem DoPS2Callback_packet (h : Host) (data : Nat) (mx my : Int) (s : State)
    (hps2 : s.useps2callback = true) :
    (DoPS2Callback h data mx my s).stack =
      RealOff h.ps2_callback :: RealSeg h.ps2_callback :: 0 ::
        (ps2_packet data mx my s.oldmouseX s.oldmouseY).2.2 ::
        (ps2_packet data mx my s.oldmouseX s.oldmouseY).2.1 ::
        (ps2_packet data mx my s.oldmouseX s.oldmouseY).1 :: s.stack ∧
    (ps2_packet data mx my s.oldmouseX s.oldmouseY).2.1 < 256 ∧
    (ps2_packet data mx my s.oldmouseX s.oldmouseY).2.2 < 256 ∧
    (((ps2_packet data mx my s.oldmouseX s.oldmouseY).2.1 : Int) - (mx - s.oldmouseX)) % 256
      = 0 ∧
    (((ps2_packet data mx my s.oldmouseX s.oldmouseY).2.2 : Int) - (s.oldmouseY - my)) % 256
      = 0 ∧
    (ps2_packet data mx my s.oldmouseX s.oldmouseY).1 &&& 0x08 = 0x08 ∧
    (ps2_packet data mx my s.oldmouseX s.oldmouseY).1 &&& 0x03 = data &&& 0x03 ∧
    ((ps2_packet data mx my s.oldmouseX s.oldmouseY).1 &&& 0x40 ≠ 0 ↔
      (toBit16s (mx - s.oldmouseX) > 255 ∨ toBit16s (mx - s.oldmouseX) < -255)) ∧
    ((ps2_packet data mx my s.oldmouseX s.oldmouseY).1 &&& 0x80 ≠ 0 ↔
      (toBit16s (s.oldmouseY - my) > 255 ∨ toBit16s (s.oldmouseY - my) < -255)) ∧
    (-32768 ≤ mx - s.oldmouseX ∧ mx - s.oldmouseX ≤ 32767 →
      toBit16s (mx - s.oldmouseX) = mx - s.oldmouseX) ∧
    (-32768 ≤ s.oldmouseY - my ∧ s.oldmouseY - my ≤ 32767 →
      toBit16s (s.oldmouseY - my) = s.oldmouseY - my) ∧
    (-255 ≤ toBit16s (mx - s.oldmouseX) ∧ toBit16s (mx - s.oldmouseX) ≤ 255 →
      (if (ps2_packet data mx my s.oldmouseX s.oldmouseY).1 &&& 0x10 ≠ 0 then (256 : Int)
        else 0) + ((ps2_packet data mx my s.oldmouseX s.oldmouseY).2.1 : Int) =
        toBit16s (mx - s.oldmouseX) % 512) ∧
    (-255 ≤ toBit16s (s.oldmouseY - my) ∧ toBit16s (s.oldmouseY - my) ≤ 255 →
      (if (ps2_packet data mx my s.oldmouseX s.oldmouseY).1 &&& 0x20 ≠ 0 then (256 : Int)
        else 0) + ((ps2_packet data mx my s.oldmouseX s.oldmouseY).2.2 : Int) =
        toBit16s (s.oldmouseY - my) % 512) := by
  obtain ⟨l1, l2, l3⟩ := ps2_packet_lt data mx my s.oldmouseX s.oldmouseY
  have hst := ps2_packet_status data mx my s.oldmouseX s.oldmouseY
  have hbits := status_sum_bits (data &&& 0x03) (and_3_lt data)
    (toBit16s (mx - s.oldmouseX) > 0xff ∨ toBit16s (mx - s.oldmouseX) < -0xff)
    (toBit16s (s.oldmouseY - my) > 0xff ∨ toBit16s (s.oldmouseY - my) < -0xff)
    (Int.tmod (toBit16s (mx - s.oldmouseX)) 256 < 0)
    (Int.tmod (toBit16s (s.oldmouseY - my)) 256 < 0)
  rw [← hst] at hbits
  obtain ⟨b1, b2, b3, b4, b5, b6⟩ := hbits
  have hx := movement_byte (toBit16s (mx - s.oldmouseX))
  have hy := movement_byte (toBit16s (s.oldmouseY - my))
  have ex : ((ps2_packet data mx my s.oldmouseX s.oldmouseY).2.1 : Int) =
      (if Int.tmod (toBit16s (mx - s.oldmouseX)) 256 < 0
        then 0x100 + Int.tmod (toBit16s (mx - s.oldmouseX)) 256
        else Int.tmod (toBit16s (mx - s.oldmouseX)) 256) := hx.1
  have ey : ((ps2_packet data mx my s.oldmouseX s.oldmouseY).2.2 : Int) =
      (if Int.tmod (toBit16s (s.oldmouseY - my)) 256 < 0
        then 0x100 + Int.tmod (toBit16s (s.oldmouseY - my)) 256
        else Int.tmod (toBit16s (s.oldmouseY - my)) 256) := hy.1
  have cx := toBit16s_congr (mx - s.oldmouseX)
  have cy := toBit16s_congr (s.oldmouseY - my)
  refine ⟨?_, l2, l3, ?_, ?_, b1, b2, b3, b4, toBit16s_of_range _, toBit16s_of_range _, ?_, ?_⟩
  · unfold DoPS2Callback
    rw [if_pos hps2]
    show [_, _, _, _, _, _] ++ s.stack = _
    simp only [List.cons_append, List.nil_append, List.cons.injEq, and_true]
    refine ⟨?_, ?_, trivial, ?_, ?_, ?_⟩
    · unfold RealOff; exact Nat.mod_mod _ _
    · unfold RealSeg; exact Nat.mod_mod _ _
    · exact Nat.mod_eq_of_lt (by omega)
    · exact Nat.mod_eq_of_lt (by omega)
    · exact Nat.mod_eq_of_lt (by omega)
  · rw [ex]
    have := hx.2.2.2.1
    omega
  · rw [ey]
    have := hy.2.2.2.1
    omega
  · intro hr
    have hs := hx.2.2.2.2
    rw [ex]
    by_cases hneg : Int.tmod (toBit16s (mx - s.oldmouseX)) 256 < 0
    · rw [if_pos (b5.mpr hneg), if_pos hneg, tmod_256_of_neg _ (hs.mp hneg).1]
      have := (hs.mp hneg).1
      omega
    · have hnn : ¬ ((ps2_packet data mx my s.oldmouseX s.oldmouseY).1 &&& 0x10 ≠ 0) :=
        fun hb => hneg (b5.mp hb)
      rw [if_neg hnn, if_neg hneg]
      by_cases h0 : 0 ≤ toBit16s (mx - s.oldmouseX)
      · rw [tmod_256_of_nonneg _ h0]
        omega
      · exfalso
        apply hneg
        apply hs.mpr
        omega
  · intro hr
    have hs := hy.2.2.2.2
    rw [ey]
    by_cases hneg : Int.tmod (toBit16s (s.oldmouseY - my)) 256 < 0
    · rw [if_pos (b6.mpr hneg), if_pos hneg, tmod_256_of_neg _ (hs.mp hneg).1]
      have := (hs.mp hneg).1
      omega
    · have hnn : ¬ ((ps2_packet data mx my s.oldmouseX s.oldmouseY).1 &&& 0x20 ≠ 0) :=
        fun hb => hneg (b6.mp hb)
      rw [if_neg hnn, if_neg hneg]
      by_cases h0 : 0 ≤ toBit16s (s.oldmouseY - my)
      · rw [tmod_256_of_nonneg _ h0]
        omega
      · exfalso
        apply hneg
        apply hs.mpr
        omega

/-- Instance of the amended C22 in PS/2 mode at power-on, the old position being (0, 0): a
move to (-3, 300) with the left button down gives the status `0xB9` (Y overflow, X
negative, Y negative), X = 253 and Y = 212. -/
theorem DoPS2Callback_packet_witness :
    (DoPS2Callback vga_host 1 (-3) 300 { ps2_on with oldmouseX := 0, oldmouseY := 0 }).stack =
      [RealOff vga_host.ps2_callback, RealSeg vga_host.ps2_callback, 0, 212, 253, 0xB9] :=
  (DoPS2Callback_packet vga_host 1 (-3) 300 { ps2_on with oldmouseX := 0, oldmouseY := 0 }
    rfl).1.trans (by decide!)

/-! ## The re-entrancy guard -/

@[simp] theorem DrawCursor_in_UIR (h : Host) (s : State) :
    (DrawCursor h s).mouse.in_UIR = s.mouse.in_UIR :=
  congrArg (fun t => t.mouse.in_UIR) (erase_drawing_DrawCursor h s)

@[simp] theorem RestoreCursorBackground_in_UIR (h : Host) (s : State) :
    (RestoreCursorBackground h s).mouse.in_UIR = s.mouse.in_UIR :=
  congrArg (fun t => t.mouse.in_UIR) (erase_drawing_RestoreCursorBackground h s)

@[simp] theorem RestoreCursorBackgroundText_in_UIR (h : Host) (s : State) :
    (RestoreCursorBackgroundText h s).mouse.in_UIR = s.mouse.in_UIR :=
  congrArg (fun t => t.mouse.in_UIR) (erase_drawing_RestoreCursorBackgroundText h s)

theorem Mouse_Used_in_UIR (s : State) : (Mouse_Used s).mouse.in_UIR = s.mouse.in_UIR := by
  rw [Mouse_Used_mouse]

theorem INT33_01_in_UIR (h : Host) (s : State) :
    (INT33_01 h s).mouse.in_UIR = s.mouse.in_UIR := by
  have key : ∀ t : State, (if t.mouse.hidden = 0 then Mouse_Used t else t).mouse.in_UIR =
      t.mouse.in_UIR := by
    intro t
    split_ifs
    · rw [Mouse_Used_mouse]
    · rfl
  unfold INT33_01
  simp only []
  rw [key, DrawCursor_in_UIR]
  split_ifs <;> rfl

theorem INT33_02_in_UIR (h : Host) (s : State) :
    (INT33_02 h s).mouse.in_UIR = s.mouse.in_UIR := by
  unfold INT33_02
  simp only []
  split_ifs
  · rw [RestoreCursorBackground_in_UIR]
  · rw [RestoreCursorBackgroundText_in_UIR]

theorem INT33_03_in_UIR (s : State) : (INT33_03 s).mouse.in_UIR = s.mouse.in_UIR := by
  unfold INT33_03
  rw [Mouse_Used_mouse]

theorem INT33_04_in_UIR (h : Host) (s : State) :
    (INT33_04 h s).mouse.in_UIR = s.mouse.in_UIR := by
  unfold INT33_04
  simp only []
  rw [DrawCursor_in_UIR]

theorem INT33_05_in_UIR (s : State) : (INT33_05 s).mouse.in_UIR = s.mouse.in_UIR := by
  unfold INT33_05
  simp only []
  rw [Mouse_Used_mouse]

theorem INT33_06_in_UIR (s : State) : (INT33_06 s).mouse.in_UIR = s.mouse.in_UIR := by
  unfold INT33_06
  simp only []
  rw [Mouse_Used_mouse]

theorem INT33_07_in_UIR (s : State) : (INT33_07 s).mouse.in_UIR = s.mouse.in_UIR := by
  unfold INT33_07
  rfl

theorem INT33_08_in_UIR (s : State) : (INT33_08 s).mouse.in_UIR = s.mouse.in_UIR := by
  unfold INT33_08
  rfl

theorem INT33_09_in_UIR (h : Host) (s : State) :
    (INT33_09 h s).mouse.in_UIR = s.mouse.in_UIR := by
  unfold INT33_09
  simp only []
  rw [DrawCursor_in_UIR]

theorem INT33_0a_in_UIR (h : Host) (s : State) :
    (INT33_0a h s).mouse.in_UIR = s.mouse.in_UIR := by
  unfold INT33_0a
  simp only []
  rw [DrawCursor_in_UIR]
  split_ifs <;> rfl

theorem INT33_0b_in_UIR (s : State) : (INT33_0b s).mouse.in_UIR = s.mouse.in_UIR := by
  unfold INT33_0b
  rw [Mouse_Used_mouse]

theorem INT33_27_in_UIR (s : State) : (INT33_27 s).mouse.in_UIR = s.mouse.in_UIR := by
  unfold INT33_27
  rw [INT33_0b_in_UIR]

theorem INT33_0c_in_UIR (s : State) : (INT33_0c s).mouse.in_UIR = s.mouse.in_UIR := by
  unfold INT33_0c
  simp only []
  split_ifs
  · rw [Mouse_Used_mouse]
  · rfl

theorem Mouse_SetMickeyPixelRate_in_UIR (px py : Int) (s : State) :
    (Mouse_SetMickeyPixelRate px py s).mouse.in_UIR = s.mouse.in_UIR := by
  unfold Mouse_SetMickeyPixelRate
  split_ifs <;> rfl

theorem INT33_10_in_UIR (h : Host) (s : State) :
    (INT33_10 h s).mouse.in_UIR = s.mouse.in_UIR := by
  unfold INT33_10
  rw [DrawCursor_in_UIR]

theorem Mouse_SetSensitivity_in_UIR (px py dspeed : Nat) (s : State) :
    (Mouse_SetSensitivity px py dspeed s).mouse.in_UIR = s.mouse.in_UIR := by
  unfold Mouse_SetSensitivity
  simp only []
  split_ifs <;> rfl

theorem ite_keeps {c : Prop} [Decidable c] {a b : State} (P : State → Prop)
    (ha : c → P a) (hb : ¬ c → P b) : P (if c then a else b) := by
  split_ifs with hc
  · exact ha hc
  · exact hb hc

/-- Every function of INT 33h other than the two resets and the load of the driver state
leaves the guard as it is. -/
theorem INT33_Handler_in_UIR (h : Host) (s : State)
    (hax : s.reg.ax ≠ 0x00 ∧ s.reg.ax ≠ 0x21 ∧ s.reg.ax ≠ 0x17) :
    (INT33_Handler h s).mouse.in_UIR = s.mouse.in_UIR := by
  unfold INT33_Handler
  refine ite_keeps (fun t : State => t.mouse.in_UIR = s.mouse.in_UIR) (fun hc => ?_) (fun _ => ?_)
  · exact absurd hc hax.1
  refine ite_keeps (fun t : State => t.mouse.in_UIR = s.mouse.in_UIR) (fun hc => ?_) (fun _ => ?_)
  · exact absurd hc hax.2.1
  refine ite_keeps (fun t : State => t.mouse.in_UIR = s.mouse.in_UIR) (fun hc => ?_) (fun _ => ?_)
  · exact INT33_01_in_UIR h s
  refine ite_keeps (fun t : State => t.mouse.in_UIR = s.mouse.in_UIR) (fun hc => ?_) (fun _ => ?_)
  · exact INT33_02_in_UIR h s
  refine ite_keeps (fun t : State => t.mouse.in_UIR = s.mouse.in_UIR) (fun hc => ?_) (fun _ => ?_)
  · exact INT33_03_in_UIR s
  refine ite_keeps (fun t : State => t.mouse.in_UIR = s.mouse.in_UIR) (fun hc => ?_) (fun _ => ?_)
  · exact INT33_04_in_UIR h s
  refine ite_keeps (fun t : State => t.mouse.in_UIR = s.mouse.in_UIR) (fun hc => ?_) (fun _ => ?_)
  · exact INT33_05_in_UIR s
  refine ite_keeps (fun t : State => t.mouse.in_UIR = s.mouse.in_UIR) (fun hc => ?_) (fun _ => ?_)
  · exact INT33_06_in_UIR s
  refine ite_keeps (fun t : State => t.mouse.in_UIR = s.mouse.in_UIR) (fun hc => ?_) (fun _ => ?_)
  · exact INT33_07_in_UIR s
  refine ite_keeps (fun t : State => t.mouse.in_UIR = s.mouse.in_UIR) (fun hc => ?_) (fun _ => ?_)
  · exact INT33_08_in_UIR s
  refine ite_keeps (fun t : State => t.mouse.in_UIR = s.mouse.in_UIR) (fun hc => ?_) (fun _ => ?_)
  · exact INT33_09_in_UIR h s
  refine ite_keeps (fun t : State => t.mouse.in_UIR = s.mouse.in_UIR) (fun hc => ?_) (fun _ => ?_)
  · exact INT33_0a_in_UIR h s
  refine ite_keeps (fun t : State => t.mouse.in_UIR = s.mouse.in_UIR) (fun hc => ?_) (fun _ => ?_)
  · exact INT33_27_in_UIR s
  refine ite_keeps (fun t : State => t.mouse.in_UIR = s.mouse.in_UIR) (fun hc => ?_) (fun _ => ?_)
  · exact INT33_0b_in_UIR s
  refine ite_keeps (fun t : State => t.mouse.in_UIR = s.mouse.in_UIR) (fun hc => ?_) (fun _ => ?_)
  · exact INT33_0c_in_UIR s
  refine ite_keeps (fun t : State => t.mouse.in_UIR = s.mouse.in_UIR) (fun hc => ?_) (fun _ => ?_)
  · exact Mouse_SetMickeyPixelRate_in_UIR _ _ s
  refine ite_keeps (fun t : State => t.mouse.in_UIR = s.mouse.in_UIR) (fun hc => ?_) (fun _ => ?_)
  · exact INT33_10_in_UIR h s
  refine ite_keeps (fun t : State => t.mouse.in_UIR = s.mouse.in_UIR) (fun hc => ?_) (fun _ => ?_)
  · exact rfl
  refine ite_keeps (fun t : State => t.mouse.in_UIR = s.mouse.in_UIR) (fun hc => ?_) (fun _ => ?_)
  · exact rfl
  refine ite_keeps (fun t : State => t.mouse.in_UIR = s.mouse.in_UIR) (fun hc => ?_) (fun _ => ?_)
  · exact rfl
  refine ite_keeps (fun t : State => t.mouse.in_UIR = s.mouse.in_UIR) (fun hc => ?_) (fun _ => ?_)
  · exact rfl
  refine ite_keeps (fun t : State => t.mouse.in_UIR = s.mouse.in_UIR) (fun hc => ?_) (fun _ => ?_)
  · exact rfl
  refine ite_keeps (fun t : State => t.mouse.in_UIR = s.mouse.in_UIR) (fun hc => ?_) (fun _ => ?_)
  · exact absurd hc hax.2.2
  refine ite_keeps (fun t : State => t.mouse.in_UIR = s.mouse.in_UIR) (fun hc => ?_) (fun _ => ?_)
  · exact Mouse_SetSensitivity_in_UIR _ _ _ s
  refine ite_keeps (fun t : State => t.mouse.in_UIR = s.mouse.in_UIR) (fun hc => ?_) (fun _ => ?_)
  · exact rfl
  refine ite_keeps (fun t : State => t.mouse.in_UIR = s.mouse.in_UIR) (fun hc => ?_) (fun _ => ?_)
  · exact rfl
  refine ite_keeps (fun t : State => t.mouse.in_UIR = s.mouse.in_UIR) (fun hc => ?_) (fun _ => ?_)
  · exact rfl
  refine ite_keeps (fun t : State => t.mouse.in_UIR = s.mouse.in_UIR) (fun hc => ?_) (fun _ => ?_)
  · exact rfl
  refine ite_keeps (fun t : State => t.mouse.in_UIR = s.mouse.in_UIR) (fun hc => ?_) (fun _ => ?_)
  · exact rfl
  refine ite_keeps (fun t : State => t.mouse.in_UIR = s.mouse.in_UIR) (fun hc => ?_) (fun _ => ?_)
  · exact rfl
  refine ite_keeps (fun t : State => t.mouse.in_UIR = s.mouse.in_UIR) (fun hc => ?_) (fun _ => ?_)
  · exact rfl
  refine ite_keeps (fun t : State => t.mouse.in_UIR = s.mouse.in_UIR) (fun hc => ?_) (fun _ => ?_)
  · exact rfl
  refine ite_keeps (fun t : State => t.mouse.in_UIR = s.mouse.in_UIR) (fun hc => ?_) (fun _ => ?_)
  · exact rfl
  refine ite_keeps (fun t : State => t.mouse.in_UIR = s.mouse.in_UIR) (fun hc => ?_) (fun _ => ?_)
  · exact rfl
  refine ite_keeps (fun t : State => t.mouse.in_UIR = s.mouse.in_UIR) (fun hc => ?_) (fun _ => ?_)
  · exact rfl
  refine ite_keeps (fun t : State => t.mouse.in_UIR = s.mouse.in_UIR) (fun hc => ?_) (fun _ => ?_)
  · exact rfl
  exact rfl

theorem INT74_Handler_guarded (h : Host) (s : State) (hU : s.mouse.in_UIR = true) :
    INT74_Handler h s = jump_to_ret h s := by
  unfold INT74_Handler
  rw [if_neg (by simp [hU])]

theorem INT74_Handler_in_UIR (h : Host) (s : State) :
    ((INT74_Handler h s).mouse.in_UIR = true ↔ (s.mouse.in_UIR = true ∨ dispatches s)) := by
  by_cases hU : s.mouse.in_UIR = true
  · rw [INT74_Handler_guarded h s hU]
    exact ⟨fun _ => Or.inl hU, fun _ => hU⟩
  · have hU' : s.mouse.in_UIR = false := by simpa using hU
    by_cases hev : 0 < s.mouse.events
    · obtain ⟨p1, p2, p3⟩ := INT74_Handler_three_paths h s hev hU'
      by_cases hm : s.mouse.sub_mask &&& (s.mouse.event_queue (s.mouse.events - 1)).type ≠ 0
      · exact ⟨fun _ => Or.inr ⟨hev, hU', hm⟩, fun _ => (p1 hm).2.2.2.2.2.2.2.1⟩
      · have hm0 : s.mouse.sub_mask &&& (s.mouse.event_queue (s.mouse.events - 1)).type = 0 := by
          simpa using hm
        have hres : (INT74_Handler h s).mouse.in_UIR = false := by
          by_cases hp : s.useps2callback = true
          · exact (p2 hm0 hp).2.1
          · have hp' : s.useps2callback = false := by simpa using hp
            rw [(p3 hm0 hp').2.1]
            exact hU'
        rw [hres]
        constructor
        · intro hc; cases hc
        · rintro (hc | ⟨_, _, hc⟩)
          · exact absurd hc hU
          · exact absurd hc hm
    · have hres : INT74_Handler h s = jump_to_ret h s := by
        unfold INT74_Handler
        rw [if_neg (fun hc => hev hc.1)]
      rw [hres]
      constructor
      · intro hc; exact absurd hc hU
      · rintro (hc | ⟨hc, _⟩)
        · exact absurd hc hU
        · exact absurd hc hev

theorem enter_in_UIR (h : Host) (s : State) (e : Entry) (hne : e ≠ Entry.INT74)
    (hrel : ¬ releases e) : (enter h s e).mouse.in_UIR = s.mouse.in_UIR := by
  cases e with
  | INT33 r =>
    have hax : r.ax ≠ 0x00 ∧ r.ax ≠ 0x21 ∧ r.ax ≠ 0x17 := by
      refine ⟨fun hc => hrel (Or.inl hc), fun hc => hrel (Or.inr (Or.inl hc)),
        fun hc => hrel (Or.inr (Or.inr hc))⟩
    exact INT33_Handler_in_UIR h { s with reg := r } hax
  | INT74 => exact absurd rfl hne
  | INT74_Ret =>
    show (INT74_Ret_Handler s).mouse.in_UIR = _
    unfold INT74_Ret_Handler
    split_ifs <;> rfl
  | UIR => exact absurd trivial hrel
  | PS2 => rfl
  | Limit_Events =>
    show (MOUSE_Limit_Events s).mouse.in_UIR = _
    unfold MOUSE_Limit_Events
    simp only []
    split_ifs <;> rfl
  | CursorMoved xrel yrel x y emulate =>
    show (Mouse_CursorMoved h xrel yrel x y emulate s).mouse.in_UIR = _
    unfold Mouse_CursorMoved
    rw [DrawCursor_in_UIR, Mouse_AddEvent_in_UIR]
    have hc : ∀ t : State, (constrain t).mouse.in_UIR = t.mouse.in_UIR := by
      intro t
      unfold constrain
      split_ifs <;> rfl
    rw [hc]
    unfold moved
    simp only []
    split_ifs <;> rfl
  | CursorSet x y =>
    show (Mouse_CursorSet h x y s).mouse.in_UIR = _
    unfold Mouse_CursorSet
    rw [DrawCursor_in_UIR]
  | ButtonPressed button =>
    show (Mouse_ButtonPressed button s).mouse.in_UIR = _
    have hp : ∀ b bit ty, (press b bit ty s).mouse.in_UIR = s.mouse.in_UIR := by
      intro b bit ty
      unfold press
      split_ifs
      · rfl
      · show (Mouse_AddEvent ty _).mouse.in_UIR = _
        rw [Mouse_AddEvent_in_UIR]
    unfold Mouse_ButtonPressed
    split_ifs <;> first | exact hp _ _ _ | rfl
  | ButtonReleased button =>
    show (Mouse_ButtonReleased button s).mouse.in_UIR = _
    have hp : ∀ b bit ty, (release b bit ty s).mouse.in_UIR = s.mouse.in_UIR := by
      intro b bit ty
      unfold release
      split_ifs
      · rfl
      · show (Mouse_AddEvent ty _).mouse.in_UIR = _
        rw [Mouse_AddEvent_in_UIR]
    unfold Mouse_ButtonReleased
    split_ifs <;> first | exact hp _ _ _ | rfl
  | SetPS2State use =>
    show (Mouse_SetPS2State use s).1.mouse.in_UIR = _
    unfold Mouse_SetPS2State
    split_ifs <;> rfl
  | ChangePS2Callback pseg pofs =>
    show (Mouse_ChangePS2Callback pseg pofs s).mouse.in_UIR = _
    unfold Mouse_ChangePS2Callback
    simp only []
    split_ifs <;> rfl
  | BeforeNewVideoMode =>
    show (Mouse_BeforeNewVideoMode h s).mouse.in_UIR = _
    unfold Mouse_BeforeNewVideoMode
    simp only []
    split_ifs
    · exact RestoreCursorBackground_in_UIR h s
    · exact RestoreCursorBackgroundText_in_UIR h s
  | AfterNewVideoMode =>
    show (Mouse_AfterNewVideoMode h s).mouse.in_UIR = _
    unfold Mouse_AfterNewVideoMode
    simp only []
    cases mode_geometry h (mem_readb s h.BIOS_VIDEO_MODE) s <;> rfl

theorem dispatch_count_guarded (h : Host) (es : List Entry) :
    ∀ s, s.mouse.in_UIR = true → (∀ e ∈ es, ¬ releases e) → dispatch_count h es s = 0 := by
  induction es with
  | nil => intro s _ _; rfl
  | cons e es ih =>
    intro s hU hq
    have hes : ∀ e ∈ es, ¬ releases e := fun e he => hq e (List.mem_cons_of_mem _ he)
    by_cases he : e = Entry.INT74
    · subst he
      have hnd : ¬ dispatches s := fun hd => by
        have := hd.2.1
        rw [hU] at this
        cases this
      show (if dispatches s then 1 else 0) + dispatch_count h es (INT74_Handler h s) = 0
      rw [if_neg hnd, ih _ ((INT74_Handler_in_UIR h s).mpr (Or.inl hU)) hes]
    · have hstep : dispatch_count h (e :: es) s = dispatch_count h es (enter h s e) := by
        cases e <;> first | rfl | exact absurd rfl he
      rw [hstep]
      apply ih _ _ hes
      rw [enter_in_UIR h s e he (hq e (List.mem_cons_self _ _))]
      exact hU

theorem dispatch_count_le_one (h : Host) (es : List Entry) :
    ∀ s, (∀ e ∈ es, ¬ releases e) → dispatch_count h es s ≤ 1 := by
  induction es with
  | nil => intro s _; exact Nat.zero_le _
  | cons e es ih =>
    intro s hq
    have hes : ∀ e ∈ es, ¬ releases e := fun e he => hq e (List.mem_cons_of_mem _ he)
    by_cases he : e = Entry.INT74
    · subst he
      show (if dispatches s then 1 else 0) + dispatch_count h es (INT74_Handler h s) ≤ 1
      by_cases hd : dispatches s
      · rw [if_pos hd, dispatch_count_guarded h es _
          ((INT74_Handler_in_UIR h s).mpr (Or.inr hd)) hes]
      · rw [if_neg hd, Nat.zero_add]
        exact ih _ hes
    · have hstep : dispatch_count h (e :: es) s = dispatch_count h es (enter h s e) := by
        cases e <;> first | rfl | exact absurd rfl he
      rw [hstep]
      exact ih _ hes

theorem INT33_21_in_UIR (h : Host) (s : State) : (INT33_21 h s).mouse.in_UIR = false := by
  unfold INT33_21
  rw [Mouse_Used_mouse]
  unfold Mouse_Reset
  rfl

theorem INT33_Handler_reset_in_UIR (h : Host) (s : State)
    (hax : s.reg.ax = 0x00 ∨ s.reg.ax = 0x21) : (INT33_Handler h s).mouse.in_UIR = false := by
  unfold INT33_Handler
  rcases hax with hax | hax
  · rw [if_pos hax]
    exact INT33_21_in_UIR h _
  · rw [if_neg (by rw [hax]; decide), if_pos hax]
    exact INT33_21_in_UIR h _

/-- C21 fails as stated: while the user routine is running (guard set), a call of INT 33h
function `0x17`, which is neither `UIR_Handler` nor a reset, loads `mouse` from guest
memory and with it a cleared guard. -/
theorem guard_cleared_by_load :
    in_routine.mouse.in_UIR = true ∧ load_state_regs.ax = 0x17 ∧
    (enter vga_host in_routine (Entry.INT33 load_state_regs)).mouse.in_UIR = false := by
  decide!

/-- C21, as the code has it: while the guard `in_UIR` is set, `INT74_Handler` only jumps
to its return stub: it does not call the user routine and leaves `mouse`, with the count
and the queue, and the stack as they are.  After the interrupt the guard is set exactly
when it was set before or the interrupt has called the user routine.  Every other entry
into the driver leaves the guard as it is, except `UIR_Handler` and the resets (functions
`0x00` and `0x21`), which clear it, and the load of the driver state (function `0x17`),
which overwrites it.  Hence along every sequence of entries without those, the user
routine is called at most once, and not at all when the guard is set at the start. -/
theorem guard_protocol (h : Host) (s : State) :
    (s.mouse.in_UIR = true →
      INT74_Handler h s = jump_to_ret h s ∧ (INT74_Handler h s).mouse = s.mouse ∧
      (INT74_Handler h s).stack = s.stack) ∧
    ((INT74_Handler h s).mouse.in_UIR = true ↔ (s.mouse.in_UIR = true ∨ dispatches s)) ∧
    (∀ e, e ≠ Entry.INT74 → ¬ releases e → (enter h s e).mouse.in_UIR = s.mouse.in_UIR) ∧
    (enter h s Entry.UIR).mouse.in_UIR = false ∧
    (∀ r : Regs, r.ax = 0x00 ∨ r.ax = 0x21 →
      (enter h s (Entry.INT33 r)).mouse.in_UIR = false) ∧
    (∀ es : List Entry, (∀ e ∈ es, ¬ releases e) →
      dispatch_count h es s ≤ 1 ∧ (s.mouse.in_UIR = true → dispatch_count h es s = 0)) := by
  refine ⟨?_, INT74_Handler_in_UIR h s, fun e hne hrel => enter_in_UIR h s e hne hrel, rfl,
    fun r hr => INT33_Handler_reset_in_UIR h { s with reg := r } hr, ?_⟩
  · intro hU
    rw [INT74_Handler_guarded h s hU]
    exact ⟨rfl, rfl, rfl⟩
  · intro es hq
    exact ⟨dispatch_count_le_one h es s hq, fun hU => dispatch_count_guarded h es s hU hq⟩

/-- Instance of the amended C21: with the user routine running after the press of
`one_press`, a further interrupt only jumps to the return stub, and a release followed by
two interrupts calls the user routine no further time. -/
theorem guard_protocol_witness :
    INT74_Handler vga_host in_routine = jump_to_ret vga_host in_routine ∧
    dispatch_count vga_host [Entry.ButtonReleased 0, Entry.INT74, Entry.INT74] in_routine = 0 :=
  have hU : in_routine.mouse.in_UIR = true := by decide!
  ⟨((guard_protocol vga_host in_routine).1 hU).1,
   ((guard_protocol vga_host in_routine).2.2.2.2.2
      [Entry.ButtonReleased 0, Entry.INT74, Entry.INT74]
      (by intro e he; simp only [List.mem_cons, List.mem_singleton, List.not_mem_nil,
            or_false] at he
          rcases he with rfl | rfl | rfl <;> exact fun hc => hc)).2 hU⟩

/-! ## The cursor loops in closed form -/

theorem foldl_range_succ {α : Type} (f : α → Nat → α) (a : α) (n : Nat) :
    (List.range (n + 1)).foldl f a = f ((List.range n).foldl f a) n := by
  rw [List.range_succ, List.foldl_append]
  rfl

theorem inner_closed {α : Type} (g : Nat → Nat → α → α) (n p0 : Nat) (a0 : α)
    (hp : p0 + n < 65536) :
    (List.range n).foldl (fun (a : α × Nat) k => (g k a.2 a.1, (a.2 + 1) % 65536)) (a0, p0) =
      ((List.range n).foldl (fun a k => g k (p0 + k) a) a0, p0 + n) := by
  induction n with
  | zero => rfl
  | succ n ih =>
    rw [foldl_range_succ, foldl_range_succ, ih (by omega)]
    show (_, (p0 + n + 1) % 65536) = _
    rw [Nat.mod_eq_of_lt (by omega)]
    rfl

theorem rows_closed {α : Type} (row : Nat → α → α) (g : Nat → Nat → Nat → α → α)
    (nc addx1 addx2 p0 : Nat) (hs : addx1 + nc + addx2 = 16) (a0 : α) (nr : Nat)
    (hb : p0 + 16 * nr < 65536) :
    (List.range nr).foldl
      (fun (acc : α × Nat) j =>
        (((List.range nc).foldl (fun (a : α × Nat) k => (g j k a.2 a.1, (a.2 + 1) % 65536))
            (row j acc.1, (acc.2 + addx1) % 65536)).1,
         (((List.range nc).foldl (fun (a : α × Nat) k => (g j k a.2 a.1, (a.2 + 1) % 65536))
            (row j acc.1, (acc.2 + addx1) % 65536)).2 + addx2) % 65536))
      (a0, p0) =
      ((List.range nr).foldl
        (fun a j => (List.range nc).foldl (fun a k => g j k (p0 + 16 * j + addx1 + k) a)
          (row j a)) a0,
       p0 + 16 * nr) := by
  induction nr with
  | zero => rfl
  | succ n ih =>
    rw [foldl_range_succ, foldl_range_succ, ih (by omega)]
    simp only []
    rw [Nat.mod_eq_of_lt (by omega : p0 + 16 * n + addx1 < 65536),
      inner_closed (g n) nc (p0 + 16 * n + addx1) _ (by omega)]
    simp only []
    rw [Nat.mod_eq_of_lt (by omega)]
    congr 1
    omega

theorem foldl_fst {α β γ : Type} (f : α × β → γ → α × β) (F : α → γ → α)
    (hf : ∀ acc x, (f acc x).1 = F acc.1 x) (l : List γ) (init : α × β) :
    (l.foldl f init).1 = l.foldl F init.1 := by
  induction l generalizing init with
  | nil => rfl
  | cons x l ih => rw [List.foldl_cons, List.foldl_cons, ih, hf]

theorem flatMap_singleton_eq_map {α β : Type} (f : α → β) (l : List α) :
    (l.flatMap fun a => [f a]) = l.map f := by
  induction l with
  | nil => rfl
  | cons x l ih => rw [List.flatMap_cons, ih]; rfl

theorem span_eq (a b : Int) :
    span a b = (List.range (b + 1 - a).toNat).map (fun (k : Nat) => a + (k : Int)) := by
  unfold span
  show List.map (fun k => a + k) ((List.range (b + 1 - a).toNat).flatMap fun a => [(a : Int)]) = _
  rw [flatMap_singleton_eq_map, List.map_map]
  rfl

theorem cursor_loop_ranges {α : Type} (c : Clip) (row : Int → α → α)
    (body : Int → Int → Nat → α → α) (init : α) :
    cursor_loop c row body init =
      (List.range (c.y2 + 1 - c.y1).toNat).foldl
        (fun (acc : α × Nat) (j : Nat) =>
          (((List.range (c.x2 + 1 - c.x1).toNat).foldl
              (fun (a : α × Nat) (k : Nat) =>
                (body (c.x1 + (k : Int)) (c.y1 + (j : Int)) a.2 a.1, (a.2 + 1) % 65536))
              (row (c.y1 + (j : Int)) acc.1, (acc.2 + c.addx1) % 65536)).1,
           (((List.range (c.x2 + 1 - c.x1).toNat).foldl
              (fun (a : α × Nat) (k : Nat) =>
                (body (c.x1 + (k : Int)) (c.y1 + (j : Int)) a.2 a.1, (a.2 + 1) % 65536))
              (row (c.y1 + (j : Int)) acc.1, (acc.2 + c.addx1) % 65536)).2 + c.addx2) % 65536))
        (init, (c.addy * CURSORX) % 65536) := by
  unfold cursor_loop
  simp only [span_eq, List.foldl_map]

/-- On a regular area the loops of the source compute the closed form. -/
theorem cursor_loop_grid {α : Type} (c : Clip) (hreg : regular c) (row : Int → α → α)
    (body : Int → Int → Nat → α → α) (init : α) :
    (cursor_loop c row body init).1 = grid c row body init := by
  rw [cursor_loop_ranges]
  unfold grid
  rcases hreg with (h0 | h0) | ⟨hr, hs⟩
  · rw [h0]
    rfl
  · rw [foldl_fst _ (fun a (j : Nat) => row (c.y1 + (j : Int)) a)]
    · simp only [h0, List.range_zero, List.foldl_nil]
    · intro acc j
      simp only [h0, List.range_zero, List.foldl_nil]
  · have hy : c.addy * CURSORX = 16 * c.addy := by
      unfold CURSORX
      omega
    rw [hy, Nat.mod_eq_of_lt (by omega)]
    rw [rows_closed (fun (j : Nat) a => row (c.y1 + (j : Int)) a)
      (fun (j k : Nat) p a => body (c.x1 + (k : Int)) (c.y1 + (j : Int)) p a)
      _ c.addx1 c.addx2 (16 * c.addy) hs init _ (by omega)]
    simp only []
    apply List.foldl_ext
    intro a j _
    apply List.foldl_ext
    intro b k _
    congr 1
    omega

theorem foldl_proj {α β γ : Type} (π : α → β) (f : α → γ → α) (F : β → γ → β)
    (hf : ∀ a x, π (f a x) = F (π a) x) (l : List γ) (a : α) :
    π (l.foldl f a) = l.foldl F (π a) := by
  induction l generalizing a with
  | nil => rfl
  | cons x l ih => rw [List.foldl_cons, List.foldl_cons, ih, hf]

/-- One row of keyed stores: a key of the row holds its value, any other key is kept. -/
theorem row_fold_get {M κ ν : Type} [DecidableEq κ] (get : M → κ → ν) (put : κ → ν → M → M)
    (hgp : ∀ k v m q, get (put k v m) q = if q = k then v else get m q)
    (key : Nat → κ) (val : Nat → ν) (n : Nat)
    (hinj : ∀ k k', k < n → k' < n → key k = key k' → k = k') (m : M) :
    (∀ k, k < n → get ((List.range n).foldl (fun a k => put (key k) (val k) a) m) (key k) =
      val k) ∧
    (∀ q, (∀ k, k < n → key k ≠ q) →
      get ((List.range n).foldl (fun a k => put (key k) (val k) a) m) q = get m q) := by
  induction n with
  | zero =>
    exact ⟨fun k hk => absurd hk (Nat.not_lt_zero k), fun q _ => rfl⟩
  | succ n ih =>
    obtain ⟨ih1, ih2⟩ := ih (fun k k' hk hk' => hinj k k' (by omega) (by omega))
    constructor
    · intro k hk
      rw [foldl_range_succ, hgp]
      by_cases hkn : k = n
      · rw [hkn, if_pos rfl]
      · have hne : key k ≠ key n := fun he => hkn (hinj k n hk (by omega) he)
        rw [if_neg hne]
        exact ih1 k (by omega)
    · intro q hq
      rw [foldl_range_succ, hgp, if_neg (fun he => hq n (by omega) he.symm)]
      exact ih2 q (fun k hk => hq k (by omega))

/-- A grid of keyed stores: a key of the grid holds its value, any other key is kept. -/
theorem grid_fold_get {M κ ν : Type} [DecidableEq κ] (get : M → κ → ν) (put : κ → ν → M → M)
    (hgp : ∀ k v m q, get (put k v m) q = if q = k then v else get m q)
    (key : Nat → Nat → κ) (val : Nat → Nat → ν) (nc : Nat) (nr : Nat)
    (hinj : ∀ j k j' k', j < nr → k < nc → j' < nr → k' < nc → key j k = key j' k' →
      j = j' ∧ k = k') (m : M) :
    (∀ j k, j < nr → k < nc →
      get ((List.range nr).foldl
        (fun a j => (List.range nc).foldl (fun a k => put (key j k) (val j k) a) a) m)
        (key j k) = val j k) ∧
    (∀ q, (∀ j k, j < nr → k < nc → key j k ≠ q) →
      get ((List.range nr).foldl
        (fun a j => (List.range nc).foldl (fun a k => put (key j k) (val j k) a) a) m) q =
        get m q) := by
  induction nr with
  | zero =>
    exact ⟨fun j k hj _ => absurd hj (Nat.not_lt_zero j), fun q _ => rfl⟩
  | succ n ih =>
    obtain ⟨ih1, ih2⟩ := ih (fun j k j' k' hj hk hj' hk' =>
      hinj j k j' k' (by omega) hk (by omega) hk')
    have hrow := fun m => row_fold_get get put hgp (key n) (val n) nc
      (fun k k' hk hk' he => (hinj n k n k' (by omega) hk (by omega) hk' he).2) m
    constructor
    · intro j k hj hk
      rw [foldl_range_succ]
      by_cases hjn : j = n
      · rw [hjn]
        exact (hrow _).1 k hk
      · rw [(hrow _).2 (key j k) (fun k' hk' he =>
          hjn (hinj n k' j k (by omega) hk' hj hk he).1.symm)]
        exact ih1 j k (by omega) hk
    · intro q hq
      rw [foldl_range_succ, (hrow _).2 q (fun k hk => hq n k (by omega) hk)]
      exact ih2 q (fun j k hj hk => hq j k (by omega) hk)

/-! ## The clipped area of the cursor block -/

theorem ClipCursorArea_block (s : State) (x1 y1 : Int)
    (hx : -32768 ≤ x1 ∧ x1 ≤ 32767) (hy : -32768 ≤ y1 ∧ y1 ≤ 32767)
    (hcx : -32768 ≤ s.mouse.clipx ∧ s.mouse.clipx ≤ 32767)
    (hcy : -32768 ≤ s.mouse.clipy ∧ s.mouse.clipy ≤ 32767) :
    regular (ClipCursorArea s x1 (toBit16s (x1 + CURSORX - 1)) y1
      (toBit16s (y1 + CURSORY - 1))) ∧
    0 ≤ (ClipCursorArea s x1 (toBit16s (x1 + CURSORX - 1)) y1
      (toBit16s (y1 + CURSORY - 1))).x1 ∧
    0 ≤ (ClipCursorArea s x1 (toBit16s (x1 + CURSORX - 1)) y1
      (toBit16s (y1 + CURSORY - 1))).y1 ∧
    (ClipCursorArea s x1 (toBit16s (x1 + CURSORX - 1)) y1
      (toBit16s (y1 + CURSORY - 1))).x2 ≤ 32767 ∧
    (ClipCursorArea s x1 (toBit16s (x1 + CURSORX - 1)) y1
      (toBit16s (y1 + CURSORY - 1))).y2 ≤ 32767 := by
  unfold regular ClipCursorArea toBit16s toBit16u CURSORX CURSORY
  simp only [Nat.cast_ofNat]
  refine ⟨?_, ?_, ?_, ?_, ?_⟩
  · split_ifs <;> omega
  · split_ifs <;> omega
  · split_ifs <;> omega
  · split_ifs <;> omega
  · split_ifs <;> omega

/-! ## The three loops on a regular area -/

theorem pixel_at_put (q : Nat × Nat × Nat) (v : Nat) (px : Nat → Nat → Nat → Nat)
    (r : Nat × Nat × Nat) :
    pixel_at (put_pixel q v px) r = if r = q then v else pixel_at px r := rfl

theorem INT10_PutPixel_put (x y : Int) (page v : Nat) (px : Nat → Nat → Nat → Nat) :
    INT10_PutPixel x y page v px = put_pixel (toBit16u x, toBit16u y, page) v px := by
  funext a b c
  unfold INT10_PutPixel put_pixel
  simp only [Prod.mk.injEq]

theorem update_get (i v : Nat) (b : Nat → Nat) (q : Nat) :
    (fun (m : Nat → Nat) (i : Nat) => m i) (Function.update b i v) q =
      if q = i then v else (fun (m : Nat → Nat) (i : Nat) => m i) b q := by
  show Function.update b i v q = _
  by_cases h : q = i
  · rw [h, Function.update_same, if_pos rfl]
  · rw [Function.update_noteq h, if_neg h]

theorem pixel_key_inj (c : Clip) (hc : on_screen c) (page : Nat) (j k j' k' : Nat)
    (hj : j < (c.y2 + 1 - c.y1).toNat) (hk : k < (c.x2 + 1 - c.x1).toNat)
    (hj' : j' < (c.y2 + 1 - c.y1).toNat) (hk' : k' < (c.x2 + 1 - c.x1).toNat)
    (he : pixel_key c page j k = pixel_key c page j' k') : j = j' ∧ k = k' := by
  obtain ⟨_, h1, h2, h3, h4⟩ := hc
  unfold pixel_key toBit16u at he
  simp only [Prod.mk.injEq, and_true] at he
  obtain ⟨e1, e2⟩ := he
  constructor <;> omega

theorem data_index_inj (c : Clip) (hc : on_screen c) (j k j' k' : Nat)
    (_hj : j < (c.y2 + 1 - c.y1).toNat) (hk : k < (c.x2 + 1 - c.x1).toNat)
    (hj' : j' < (c.y2 + 1 - c.y1).toNat) (hk' : k' < (c.x2 + 1 - c.x1).toNat)
    (he : data_index c j k = data_index c j' k') : j = j' ∧ k = k' := by
  obtain ⟨hreg, _⟩ := hc
  unfold data_index at he
  rcases hreg with (h0 | h0) | ⟨hr, hs⟩
  · omega
  · omega
  · constructor <;> omega

theorem data_index_lt (c : Clip) (hc : on_screen c) (j k : Nat)
    (hj : j < (c.y2 + 1 - c.y1).toNat) (hk : k < (c.x2 + 1 - c.x1).toNat) :
    data_index c j k < 256 ∧ c.addy + j < 16 ∧ c.addx1 + k < 16 := by
  obtain ⟨hreg, _⟩ := hc
  unfold data_index
  rcases hreg with (h0 | h0) | ⟨hr, hs⟩
  · omega
  · omega
  · omega

/-- The loop of `RestoreCursorBackground`: every pixel of the area receives its saved
byte, every other pixel is kept. -/
theorem restore_pixels_pixels (s : State) (hc : on_screen (restore_area s)) :
    (∀ j k, j < ((restore_area s).y2 + 1 - (restore_area s).y1).toNat →
      k < ((restore_area s).x2 + 1 - (restore_area s).x1).toNat →
      pixel_at (restore_pixels s).pixels (pixel_key (restore_area s) s.mouse.page j k) =
        s.mouse.backData (data_index (restore_area s) j k)) ∧
    (∀ q, (∀ j k, j < ((restore_area s).y2 + 1 - (restore_area s).y1).toNat →
        k < ((restore_area s).x2 + 1 - (restore_area s).x1).toNat →
        pixel_key (restore_area s) s.mouse.page j k ≠ q) →
      pixel_at (restore_pixels s).pixels q = pixel_at s.pixels q) := by
  have e : (restore_pixels s).pixels =
      (List.range ((restore_area s).y2 + 1 - (restore_area s).y1).toNat).foldl
        (fun a j => (List.range ((restore_area s).x2 + 1 - (restore_area s).x1).toNat).foldl
          (fun a k => put_pixel (pixel_key (restore_area s) s.mouse.page j k)
            (s.mouse.backData (data_index (restore_area s) j k)) a) a) s.pixels := by
    show (cursor_loop (restore_area s) (fun _ p => p)
      (fun x y dataPos p => INT10_PutPixel x y s.mouse.page (s.mouse.backData dataPos) p)
      s.pixels).1 = _
    rw [cursor_loop_grid _ hc.1]
    unfold grid
    simp only [INT10_PutPixel_put]
    rfl
  rw [e]
  exact grid_fold_get pixel_at put_pixel pixel_at_put
    (pixel_key (restore_area s) s.mouse.page)
    (fun j k => s.mouse.backData (data_index (restore_area s) j k)) _ _
    (pixel_key_inj (restore_area s) hc s.mouse.page) s.pixels

/-- The loop that saves the background: every index of the area receives the byte of its
pixel, every other index is kept. -/
theorem save_background_backData (c : Clip) (s : State) (hc : on_screen c) :
    (∀ j k, j < (c.y2 + 1 - c.y1).toNat → k < (c.x2 + 1 - c.x1).toNat →
      (save_background c s).mouse.backData (data_index c j k) =
        pixel_at s.pixels (pixel_key c s.mouse.page j k) % 256) ∧
    (∀ i, (∀ j k, j < (c.y2 + 1 - c.y1).toNat → k < (c.x2 + 1 - c.x1).toNat →
        data_index c j k ≠ i) →
      (save_background c s).mouse.backData i = s.mouse.backData i) := by
  have e : (save_background c s).mouse.backData =
      (List.range (c.y2 + 1 - c.y1).toNat).foldl
        (fun a j => (List.range (c.x2 + 1 - c.x1).toNat).foldl
          (fun a k => Function.update a (data_index c j k)
            (pixel_at s.pixels (pixel_key c s.mouse.page j k) % 256)) a) s.mouse.backData := by
    show (cursor_loop c (fun _ b => b)
      (fun x y dataPos b => Function.update b dataPos (INT10_GetPixel x y s.mouse.page s.pixels))
      s.mouse.backData).1 = _
    rw [cursor_loop_grid _ hc.1]
    rfl
  rw [e]
  exact grid_fold_get (fun (m : Nat → Nat) (i : Nat) => m i)
    (fun i v b => Function.update b i v) (fun i v b q => update_get i v b q)
    (data_index c) (fun j k => pixel_at s.pixels (pixel_key c s.mouse.page j k) % 256) _ _
    (data_index_inj c hc) s.mouse.backData

/-! ## The drawing loop -/

theorem shiftLeft_mod_shiftLeft (m a k : Nat) :
    (((m <<< a) % 65536) <<< k) % 65536 = (m <<< (a + k)) % 65536 := by
  rw [Nat.shiftLeft_eq, Nat.shiftLeft_eq, Nat.shiftLeft_eq, Nat.mod_mul_mod, Nat.pow_add,
    Nat.mul_assoc]

theorem high_bit (m n : Nat) (hn : n ≤ 15) :
    ((m <<< n) % 65536 &&& HIGHESTBIT ≠ 0) ↔ m.testBit (15 - n) = true := by
  have hH : HIGHESTBIT = 2 ^ 15 := by decide
  have h16 : (65536 : Nat) = 2 ^ 16 := by decide
  rw [hH, Nat.and_two_pow, h16, Nat.testBit_mod_two_pow, Nat.testBit_shiftLeft]
  have hd : decide (15 < 16) = true := by decide
  have hge : decide (15 ≥ n) = true := by simpa using hn
  rw [hd, hge, Bool.true_and, Bool.true_and]
  cases m.testBit (15 - n) <;> simp

theorem defaultScreenMask_lt (i : Nat) : defaultScreenMask.getD i 0 < 65536 := by
  by_cases h : i < 16
  · interval_cases i <;> decide
  · rw [List.getD_eq_default _ _ (by
      have : defaultScreenMask.length = 16 := rfl
      omega)]
    decide

theorem defaultCursorMask_lt (i : Nat) : defaultCursorMask.getD i 0 < 65536 := by
  by_cases h : i < 16
  · interval_cases i <;> decide
  · rw [List.getD_eq_default _ _ (by
      have : defaultCursorMask.length = 16 := rfl
      omega)]
    decide

theorem screenMask_at_lt (s : State) (i : Nat) : screenMask_at s i < 65536 := by
  unfold screenMask_at
  split
  · decide
  · exact defaultScreenMask_lt i
  · exact Nat.mod_lt _ (by decide)

theorem cursorMask_at_lt (s : State) (i : Nat) : cursorMask_at s i < 65536 := by
  unfold cursorMask_at
  split
  · decide
  · exact defaultCursorMask_lt i
  · exact Nat.mod_lt _ (by decide)

/-- One row of the drawing loop: the pixels are stored with the masks shifted along. -/
theorem draw_row_fold (s : State) (x1 y : Int) (p0 : Nat) (P : Nat → Nat → Nat → Nat)
    (S C : Nat) (hS : S < 65536) (hC : C < 65536) (n : Nat) :
    (List.range n).foldl (fun a (k : Nat) => draw_pixel s (x1 + (k : Int)) y (p0 + k) a)
        { pixels := P, scMask := S, cuMask := C } =
      { pixels := (List.range n).foldl
          (fun p (k : Nat) => INT10_PutPixel (x1 + (k : Int)) y s.mouse.page
            (mask_pixel S C k (s.mouse.backData (p0 + k))) p) P
        scMask := (S <<< n) % 65536
        cuMask := (C <<< n) % 65536 } := by
  induction n with
  | zero =>
    show ({ pixels := P, scMask := S, cuMask := C } : DrawAcc) =
      { pixels := P, scMask := (S <<< 0) % 65536, cuMask := (C <<< 0) % 65536 }
    rw [Nat.shiftLeft_zero, Nat.shiftLeft_zero, Nat.mod_eq_of_lt hS, Nat.mod_eq_of_lt hC]
  | succ n ih =>
    rw [foldl_range_succ, foldl_range_succ, ih]
    unfold draw_pixel
    simp only []
    have e1 : (((S <<< n) % 65536) <<< 1) % 65536 = (S <<< (n + 1)) % 65536 :=
      shiftLeft_mod_shiftLeft S n 1
    have e2 : (((C <<< n) % 65536) <<< 1) % 65536 = (C <<< (n + 1)) % 65536 :=
      shiftLeft_mod_shiftLeft C n 1
    rw [e1, e2]
    rfl

theorem draw_row_masks (s : State) (c : Clip) (j : Nat) (a : DrawAcc) :
    draw_row s c c.y1 (c.y1 + (j : Int)) a =
      { pixels := a.pixels
        scMask := (screenMask_at s (c.addy + j) <<< c.addx1) % 65536
        cuMask := (cursorMask_at s (c.addy + j) <<< c.addx1) % 65536 } := by
  have hi : ((c.addy : Int) + (c.y1 + (j : Int)) - c.y1).toNat = c.addy + j := by omega
  unfold draw_row
  simp only [hi]
  by_cases h0 : c.addx1 > 0
  · rw [if_pos h0]
  · have hz : c.addx1 = 0 := by omega
    rw [if_neg h0, hz, Nat.shiftLeft_zero, Nat.shiftLeft_zero,
      Nat.mod_eq_of_lt (screenMask_at_lt s _), Nat.mod_eq_of_lt (cursorMask_at_lt s _)]

/-- The pixel that the drawing loop stores for row `j`, column `k` of the area. -/
theorem draw_shape_eq (c : Clip) (s : State) (hc : on_screen c) :
    (draw_shape c s).pixels =
      (List.range (c.y2 + 1 - c.y1).toNat).foldl
        (fun a j => (List.range (c.x2 + 1 - c.x1).toNat).foldl
          (fun a k => put_pixel (pixel_key c s.mouse.page j k)
            (mask_pixel ((screenMask_at s (c.addy + j) <<< c.addx1) % 65536)
              ((cursorMask_at s (c.addy + j) <<< c.addx1) % 65536) k
              (s.mouse.backData (data_index c j k))) a) a) s.pixels := by
  show (cursor_loop c (draw_row s c c.y1) (draw_pixel s)
    { pixels := s.pixels, scMask := 0, cuMask := 0 }).1.pixels = _
  rw [cursor_loop_grid _ hc.1]
  unfold grid
  rw [foldl_proj DrawAcc.pixels _
    (fun (p : Nat → Nat → Nat → Nat) (j : Nat) =>
      (List.range (c.x2 + 1 - c.x1).toNat).foldl
        (fun p (k : Nat) => put_pixel (pixel_key c s.mouse.page j k)
          (mask_pixel ((screenMask_at s (c.addy + j) <<< c.addx1) % 65536)
            ((cursorMask_at s (c.addy + j) <<< c.addx1) % 65536) k
            (s.mouse.backData (data_index c j k))) p) p)]
  intro a j
  rw [draw_row_masks]
  have e : ∀ k : Nat, 16 * (c.addy + j) + c.addx1 + k = (16 * (c.addy + j) + c.addx1) + k :=
    fun _ => rfl
  rw [draw_row_fold s c.x1 (c.y1 + (j : Int)) (16 * (c.addy + j) + c.addx1) a.pixels _ _
    (Nat.mod_lt _ (by decide)) (Nat.mod_lt _ (by decide))]
  simp only [INT10_PutPixel_put]
  rfl

theorem draw_shape_pixels (c : Clip) (s : State) (hc : on_screen c) :
    (∀ j k, j < (c.y2 + 1 - c.y1).toNat → k < (c.x2 + 1 - c.x1).toNat →
      pixel_at (draw_shape c s).pixels (pixel_key c s.mouse.page j k) =
        mask_pixel ((screenMask_at s (c.addy + j) <<< c.addx1) % 65536)
          ((cursorMask_at s (c.addy + j) <<< c.addx1) % 65536) k
          (s.mouse.backData (data_index c j k))) ∧
    (∀ q, (∀ j k, j < (c.y2 + 1 - c.y1).toNat → k < (c.x2 + 1 - c.x1).toNat →
        pixel_key c s.mouse.page j k ≠ q) →
      pixel_at (draw_shape c s).pixels q = pixel_at s.pixels q) := by
  rw [draw_shape_eq c s hc]
  exact grid_fold_get pixel_at put_pixel pixel_at_put (pixel_key c s.mouse.page)
    (fun j k => mask_pixel ((screenMask_at s (c.addy + j) <<< c.addx1) % 65536)
      ((cursorMask_at s (c.addy + j) <<< c.addx1) % 65536) k
      (s.mouse.backData (data_index c j k))) _ _
    (pixel_key_inj c hc s.mouse.page) s.pixels

/-- The stored pixel in terms of the bits of the two masks of the row. -/
theorem mask_pixel_bits (sc cu a k b : Nat) (hk : a + k ≤ 15) :
    mask_pixel ((sc <<< a) % 65536) ((cu <<< a) % 65536) k b =
      (if sc.testBit (15 - (a + k)) = true then b else 0) ^^^
        (if cu.testBit (15 - (a + k)) = true then 0x0F else 0) := by
  unfold mask_pixel
  simp only [shiftLeft_mod_shiftLeft, high_bit _ _ hk]
  by_cases h1 : sc.testBit (15 - (a + k)) = true <;>
    by_cases h2 : cu.testBit (15 - (a + k)) = true <;>
    simp [h1, h2]

/-! ## The VGA register code leaves the screen and the driver's variables alone -/

theorem erase_vga_IO_Write (p v : Nat) (s : State) :
    erase_vga (IO_Write p v s) = erase_vga s := rfl

theorem erase_vga_set_index3C4 (v : Nat) (s : State) :
    erase_vga { s with index3C4 := v } = erase_vga s := rfl

theorem erase_vga_set_gfxReg3C5 (v : Nat) (s : State) :
    erase_vga { s with gfxReg3C5 := v } = erase_vga s := rfl

theorem erase_vga_set_gfxReg3CE (v : Nat → Nat) (s : State) :
    erase_vga { s with gfxReg3CE := v } = erase_vga s := rfl

theorem erase_vga_read_gfx_regs (h : Host) (s : State) :
    erase_vga (read_gfx_regs h s) = erase_vga s := by
  unfold read_gfx_regs
  apply foldl_keeps
  intro t i
  simp only [erase_vga_set_gfxReg3CE, erase_vga_IO_Write]

theorem erase_vga_write_gfx_regs (s : State) :
    erase_vga (write_gfx_regs s) = erase_vga s := by
  unfold write_gfx_regs
  apply foldl_keeps
  intro t i
  simp only [erase_vga_IO_Write]

theorem erase_vga_SaveVgaRegisters (h : Host) (s : State) :
    erase_vga (SaveVgaRegisters h s) = erase_vga s := by
  unfold SaveVgaRegisters
  split_ifs
  · simp only [erase_vga_IO_Write, erase_vga_set_index3C4, erase_vga_set_gfxReg3C5,
      erase_vga_read_gfx_regs]
  · simp only [erase_vga_IO_Write]
  · rfl

theorem erase_vga_RestoreVgaRegisters (h : Host) (s : State) :
    erase_vga (RestoreVgaRegisters h s) = erase_vga s := by
  unfold RestoreVgaRegisters
  split_ifs
  · simp only [erase_vga_IO_Write, erase_vga_write_gfx_regs]
  · rfl

/-- Two states with the same image under `erase_vga` have the same driver variables, the
same screen, the same video mode and the same user masks. -/
theorem vga_frame (a b : State) (hab : erase_vga a = erase_vga b) :
    a.mouse = b.mouse ∧ a.pixels = b.pixels ∧ a.CurMode = b.CurMode ∧
    a.userdefScreenMask = b.userdefScreenMask ∧
    a.userdefCursorMask = b.userdefCursorMask :=
  ⟨congrArg (fun t => t.mouse) hab, congrArg (fun t => t.pixels) hab,
   congrArg (fun t => t.CurMode) hab, congrArg (fun t => t.userdefScreenMask) hab,
   congrArg (fun t => t.userdefCursorMask) hab⟩

theorem restore_area_congr (a b : State) (hm : a.mouse = b.mouse) :
    restore_area a = restore_area b := by
  unfold restore_area ClipCursorArea
  rw [hm]

theorem cursor_area_congr (a b : State) (hm : a.mouse = b.mouse)
    (hc : a.CurMode = b.CurMode) : cursor_area a = cursor_area b := by
  unfold cursor_area cursor_x1 cursor_y1 xratio POS_X POS_Y ClipCursorArea
  rw [hm, hc]

theorem screenMask_at_congr (a b : State) (hm : a.mouse = b.mouse)
    (hu : a.userdefScreenMask = b.userdefScreenMask) (i : Nat) :
    screenMask_at a i = screenMask_at b i := by
  unfold screenMask_at
  rw [hm, hu]

theorem cursorMask_at_congr (a b : State) (hm : a.mouse = b.mouse)
    (hu : a.userdefCursorMask = b.userdefCursorMask) (i : Nat) :
    cursorMask_at a i = cursorMask_at b i := by
  unfold cursorMask_at
  rw [hm, hu]

/-! ## The areas of the two routines -/

theorem cursor_area_on_screen (s : State)
    (hcx : -32768 ≤ s.mouse.clipx ∧ s.mouse.clipx ≤ 32767)
    (hcy : -32768 ≤ s.mouse.clipy ∧ s.mouse.clipy ≤ 32767) : on_screen (cursor_area s) :=
  ClipCursorArea_block s (cursor_x1 s) (cursor_y1 s) (toBit16s_range _) (toBit16s_range _)
    hcx hcy

theorem restore_area_on_screen (s : State)
    (hbx : -32768 ≤ s.mouse.backposx ∧ s.mouse.backposx ≤ 32767)
    (hby : -32768 ≤ s.mouse.backposy ∧ s.mouse.backposy ≤ 32767)
    (hcx : -32768 ≤ s.mouse.clipx ∧ s.mouse.clipx ≤ 32767)
    (hcy : -32768 ≤ s.mouse.clipy ∧ s.mouse.clipy ≤ 32767) : on_screen (restore_area s) :=
  ClipCursorArea_block s s.mouse.backposx s.mouse.backposy hbx hby hcx hcy

/-- The rows of a clipped block stay within the 16 rows of the cursor, also when the
clipped rows hold no column. -/
theorem ClipCursorArea_rows (s : State) (x1 x2 y1 : Int)
    (hy : -32768 ≤ y1 ∧ y1 ≤ 32767) (j : Nat)
    (hj : j < ((ClipCursorArea s x1 x2 y1 (toBit16s (y1 + CURSORY - 1))).y2 + 1 -
      (ClipCursorArea s x1 x2 y1 (toBit16s (y1 + CURSORY - 1))).y1).toNat) :
    (ClipCursorArea s x1 x2 y1 (toBit16s (y1 + CURSORY - 1))).addy + j < 16 := by
  unfold ClipCursorArea toBit16s toBit16u CURSORY at *
  simp only [Nat.cast_ofNat] at *
  split_ifs at hj ⊢ <;> omega

theorem mem_row_fold (f : Nat → Nat) (n : Nat) (init : List Nat) (p : Nat)
    (hp : p ∈ (List.range n).foldl (fun a (k : Nat) => a ++ [f k]) init) :
    p ∈ init ∨ ∃ k, k < n ∧ p = f k := by
  induction n with
  | zero => exact Or.inl hp
  | succ n ih =>
    rw [foldl_range_succ, List.mem_append, List.mem_singleton] at hp
    rcases hp with hp | hp
    · rcases ih hp with h1 | ⟨k, hk, he⟩
      · exact Or.inl h1
      · exact Or.inr ⟨k, by omega, he⟩
    · exact Or.inr ⟨n, by omega, hp⟩

theorem mem_grid_fold (f : Nat → Nat → Nat) (nc nr : Nat) (init : List Nat) (p : Nat)
    (hp : p ∈ (List.range nr).foldl
      (fun a (j : Nat) => (List.range nc).foldl (fun a (k : Nat) => a ++ [f j k]) a) init) :
    p ∈ init ∨ ∃ j k, j < nr ∧ k < nc ∧ p = f j k := by
  induction nr with
  | zero => exact Or.inl hp
  | succ n ih =>
    rw [foldl_range_succ] at hp
    rcases mem_row_fold (f n) nc _ p hp with hp | ⟨k, hk, he⟩
    · rcases ih hp with h1 | ⟨j, k, hj, hk, he⟩
      · exact Or.inl h1
      · exact Or.inr ⟨j, k, by omega, hk, he⟩
    · exact Or.inr ⟨n, k, by omega, hk, he⟩

/-- On a regular area on the screen every index of `backData` that a cursor loop uses is
below 256. -/
theorem data_positions_lt (c : Clip) (hc : on_screen c) (p : Nat)
    (hp : p ∈ data_positions c) : p < 256 := by
  unfold data_positions at hp
  rw [cursor_loop_grid c hc.1] at hp
  unfold grid at hp
  rcases mem_grid_fold (fun j k => 16 * (c.addy + j) + c.addx1 + k) _ _ [] p hp with
    h0 | ⟨j, k, hj, hk, he⟩
  · exact absurd h0 (List.not_mem_nil p)
  · rw [he]
    exact (data_index_lt c hc j k hj hk).1

/-- On a regular area on the screen a cursor loop never runs its body with an index of
`backData` of 256 or more: a body that is skipped for such an index gives the same
result. -/
theorem cursor_loop_guarded {α : Type} (c : Clip) (hc : on_screen c) (row : Int → α → α)
    (body : Int → Int → Nat → α → α) (init : α) :
    (cursor_loop c row (fun x y p a => if p < 256 then body x y p a else a) init).1 =
      (cursor_loop c row body init).1 := by
  rw [cursor_loop_grid c hc.1, cursor_loop_grid c hc.1]
  unfold grid
  apply List.foldl_ext
  intro a j hj
  apply List.foldl_ext
  intro b k hk
  exact if_pos (data_index_lt c hc j k (List.mem_range.mp hj) (List.mem_range.mp hk)).1

theorem mask_row_index (c : Clip)
    (hrow : ∀ j : Nat, j < (c.y2 + 1 - c.y1).toNat → c.addy + j < 16) (y : Int)
    (hy : y ∈ span c.y1 c.y2) :
    0 ≤ (c.addy : Int) + y - c.y1 ∧ (c.addy : Int) + y - c.y1 < 16 := by
  rw [span_eq, List.mem_map] at hy
  obtain ⟨k, hk, he⟩ := hy
  have h1 := hrow k (List.mem_range.mp hk)
  omega

/-- For every state whose saved background position and clip bounds are `Bit16s` values
(the cursor position and the hot spot are reduced to a `Bit16s` by the code), the indices
of `backData` that the loops over the area of `DrawCursor` (`cursor_area`) and of
`RestoreCursorBackground` (`restore_area`) use, as long as the counters stay within
`span`, are all below 256, a loop body guarded by `dataPos < 256` gives the same result,
and the row index `addy + y - y1` of the screen and cursor masks is between 0 and 15 on
every row of the drawing loop.  For clip bounds below 32767 these are the loops of the
source (`rounds_positions_in_bounds`); for a bound of 32767 the loops of the source do
not end. -/
theorem cursor_indices_in_bounds (s : State)
    (hbx : -32768 ≤ s.mouse.backposx ∧ s.mouse.backposx ≤ 32767)
    (hby : -32768 ≤ s.mouse.backposy ∧ s.mouse.backposy ≤ 32767)
    (hcx : -32768 ≤ s.mouse.clipx ∧ s.mouse.clipx ≤ 32767)
    (hcy : -32768 ≤ s.mouse.clipy ∧ s.mouse.clipy ≤ 32767) :
    (∀ p ∈ data_positions (cursor_area s), p < 256) ∧
    (∀ p ∈ data_positions (restore_area s), p < 256) ∧
    (∀ (α : Type) (row : Int → α → α) (body : Int → Int → Nat → α → α) (init : α),
      (cursor_loop (cursor_area s) row
          (fun x y p a => if p < 256 then body x y p a else a) init).1 =
        (cursor_loop (cursor_area s) row body init).1 ∧
      (cursor_loop (restore_area s) row
          (fun x y p a => if p < 256 then body x y p a else a) init).1 =
        (cursor_loop (restore_area s) row body init).1) ∧
    (∀ y ∈ span (cursor_area s).y1 (cursor_area s).y2,
      0 ≤ ((cursor_area s).addy : Int) + y - (cursor_area s).y1 ∧
      ((cursor_area s).addy : Int) + y - (cursor_area s).y1 < 16) := by
  have h1 := cursor_area_on_screen s hcx hcy
  have h2 := restore_area_on_screen s hbx hby hcx hcy
  refine ⟨fun p hp => data_positions_lt _ h1 p hp, fun p hp => data_positions_lt _ h2 p hp,
    fun α row body init => ⟨cursor_loop_guarded _ h1 row body init,
      cursor_loop_guarded _ h2 row body init⟩, ?_⟩
  intro y hy
  exact mask_row_index (cursor_area s)
    (fun j hj => ClipCursorArea_rows s (cursor_x1 s) _ (cursor_y1 s) (toBit16s_range _) j hj)
    y hy

theorem cursor_indices_in_bounds_witness :
    (∀ p ∈ data_positions (cursor_area gfx_corner), p < 256) ∧
    (∀ p ∈ data_positions (restore_area gfx_corner), p < 256) ∧
    (∀ y ∈ span (cursor_area gfx_corner).y1 (cursor_area gfx_corner).y2,
      0 ≤ ((cursor_area gfx_corner).addy : Int) + y - (cursor_area gfx_corner).y1 ∧
      ((cursor_area gfx_corner).addy : Int) + y - (cursor_area gfx_corner).y1 < 16) :=
  have w := cursor_indices_in_bounds gfx_corner (by decide!) (by decide!) (by decide!)
    (by decide!)
  ⟨w.1, w.2.1, w.2.2.2⟩

/-! ## The states of `DrawCursor` in a graphics mode -/

theorem RestoreCursorBackground_mouse (h : Host) (s : State) :
    ∃ b, (RestoreCursorBackground h s).mouse = { s.mouse with background := b } := by
  unfold RestoreCursorBackground
  by_cases h1 : s.mouse.hidden ≠ 0 ∨ s.mouse.inhibit_draw = true
  · rw [if_pos h1]
    exact ⟨s.mouse.background, rfl⟩
  · rw [if_neg h1]
    simp only []
    have e2 := (vga_frame _ _ (erase_vga_SaveVgaRegisters h s)).1
    by_cases h2 : (SaveVgaRegisters h s).mouse.background = true
    · rw [if_pos h2, (vga_frame _ _ (erase_vga_RestoreVgaRegisters h _)).1]
      refine ⟨false, ?_⟩
      show { (SaveVgaRegisters h s).mouse with background := false } = _
      rw [e2]
    · rw [if_neg h2, (vga_frame _ _ (erase_vga_RestoreVgaRegisters h _)).1, e2]
      exact ⟨s.mouse.background, rfl⟩

theorem RestoreCursorBackground_no_background (h : Host) (s : State)
    (hb : s.mouse.background = false) :
    erase_vga (RestoreCursorBackground h s) = erase_vga s := by
  unfold RestoreCursorBackground
  by_cases h1 : s.mouse.hidden ≠ 0 ∨ s.mouse.inhibit_draw = true
  · rw [if_pos h1]
  · rw [if_neg h1]
    simp only []
    have e2 := (vga_frame _ _ (erase_vga_SaveVgaRegisters h s)).1
    have h2 : ¬ (SaveVgaRegisters h s).mouse.background = true := by
      rw [e2, hb]
      decide
    rw [if_neg h2, erase_vga_RestoreVgaRegisters, erase_vga_SaveVgaRegisters]

theorem cleared_clip (h : Host) (s : State) :
    (-32768 ≤ (cleared h s).mouse.clipx ∧ (cleared h s).mouse.clipx ≤ 32767) ∧
    (-32768 ≤ (cleared h s).mouse.clipy ∧ (cleared h s).mouse.clipy ≤ 32767) := by
  unfold cleared
  rw [(vga_frame _ _ (erase_vga_SaveVgaRegisters h _)).1]
  obtain ⟨b, hb⟩ := RestoreCursorBackground_mouse h
    (set_clip { s with CurMode := h.INT10_SetCurMode s.CurMode s.mem })
  rw [hb]
  exact ⟨toBit16s_range _, toBit16s_range _⟩

theorem cleared_on_screen (h : Host) (s : State) : on_screen (cursor_area (cleared h s)) :=
  cursor_area_on_screen _ (cleared_clip h s).1 (cleared_clip h s).2

theorem cleared_pixels (h : Host) (s : State) (hb : s.mouse.background = false) :
    (cleared h s).pixels = s.pixels := by
  unfold cleared
  rw [(vga_frame _ _ (erase_vga_SaveVgaRegisters h _)).2.1,
    (vga_frame _ _ (RestoreCursorBackground_no_background h
      (set_clip { s with CurMode := h.INT10_SetCurMode s.CurMode s.mem }) hb)).2.1]
  rfl

theorem DrawCursor_graphics (h : Host) (s : State) (hv : s.mouse.hidden = 0)
    (hi : s.mouse.inhibit_draw = false)
    (hg : (h.INT10_SetCurMode s.CurMode s.mem).type_is_M_TEXT = false) :
    DrawCursor h s = RestoreVgaRegisters h (draw_shape (cursor_area (cleared h s))
      (save_background (cursor_area (cleared h s)) (cleared h s))) := by
  unfold DrawCursor
  have h1 : ¬ (s.mouse.hidden ≠ 0 ∨ s.mouse.inhibit_draw = true) := by
    rw [hv, hi]
    decide
  rw [if_neg h1]
  simp only []
  have h2 : ¬ (h.INT10_SetCurMode s.CurMode s.mem).type_is_M_TEXT = true := by
    rw [hg]
    decide
  rw [if_neg h2]
  rfl

theorem save_background_area (c : Clip) (s : State) :
    restore_area (draw_shape c (save_background c s)) = cursor_area s := by
  unfold restore_area cursor_area ClipCursorArea
  rfl

theorem save_background_screenMask (c : Clip) (s : State) (i : Nat) :
    screenMask_at (save_background c s) i = screenMask_at s i := by
  unfold screenMask_at
  rfl

theorem save_background_cursorMask (c : Clip) (s : State) (i : Nat) :
    cursorMask_at (save_background c s) i = cursorMask_at s i := by
  unfold cursorMask_at
  rfl

theorem screenMask_at_erase (a b : State) (hab : erase_drawing a = erase_drawing b)
    (i : Nat) : screenMask_at a i = screenMask_at b i := by
  have h1 : a.mouse.screenMask = b.mouse.screenMask :=
    congrArg (fun t => t.mouse.screenMask) hab
  have h2 : a.userdefScreenMask = b.userdefScreenMask :=
    congrArg (fun t => t.userdefScreenMask) hab
  unfold screenMask_at
  rw [h1, h2]

theorem cursorMask_at_erase (a b : State) (hab : erase_drawing a = erase_drawing b)
    (i : Nat) : cursorMask_at a i = cursorMask_at b i := by
  have h1 : a.mouse.cursorMask = b.mouse.cursorMask :=
    congrArg (fun t => t.mouse.cursorMask) hab
  have h2 : a.userdefCursorMask = b.userdefCursorMask :=
    congrArg (fun t => t.userdefCursorMask) hab
  unfold cursorMask_at
  rw [h1, h2]

theorem cleared_erase (h : Host) (s : State) :
    erase_drawing (cleared h s) = erase_drawing s := by
  unfold cleared
  rw [erase_drawing_SaveVgaRegisters, erase_drawing_RestoreCursorBackground,
    erase_drawing_set_clip, erase_drawing_set_CurMode]

/-- The drawing loop on the state `s3` in which the background is saved, for row `j` and
column `k` of the clipped area: the saved byte is the pixel of `s3`, and the pixel written
is the saved byte where the bit of the screen mask is set, XOR 0x0F where the bit of the
cursor mask is set.  Every pixel outside the area is kept. -/
theorem drawn_facts (s3 : State) (c : Clip) (hc : on_screen c) :
    (∀ j k, j < (c.y2 + 1 - c.y1).toNat → k < (c.x2 + 1 - c.x1).toNat →
      (save_background c s3).mouse.backData (data_index c j k) =
        pixel_at s3.pixels (pixel_key c s3.mouse.page j k) % 256 ∧
      pixel_at (draw_shape c (save_background c s3)).pixels (pixel_key c s3.mouse.page j k) =
        (if (screenMask_at s3 (c.addy + j)).testBit (15 - (c.addx1 + k)) = true
          then (save_background c s3).mouse.backData (data_index c j k) else 0) ^^^
        (if (cursorMask_at s3 (c.addy + j)).testBit (15 - (c.addx1 + k)) = true
          then 0x0F else 0)) ∧
    (∀ q, (∀ j k, j < (c.y2 + 1 - c.y1).toNat → k < (c.x2 + 1 - c.x1).toNat →
        pixel_key c s3.mouse.page j k ≠ q) →
      pixel_at (draw_shape c (save_background c s3)).pixels q = pixel_at s3.pixels q) := by
  have hs := save_background_backData c s3 hc
  have hd := draw_shape_pixels c (save_background c s3) hc
  constructor
  · intro j k hj hk
    refine ⟨hs.1 j k hj hk, ?_⟩
    have h1 := hd.1 j k hj hk
    rw [mask_pixel_bits _ _ _ _ _ (by
      have := (data_index_lt c hc j k hj hk).2.2
      omega), save_background_screenMask, save_background_cursorMask] at h1
    exact h1
  · intro q hq
    exact hd.2 q hq

/-! ## The pixels that `DrawCursor` writes and `RestoreCursorBackground` puts back -/

/-- Row `r` and column `cc` of the 16x16 block at `(x1, y1)` inside the clipped area are
row `r - addy` and column `cc - addx1` of the area. -/
theorem block_coords (s : State) (x1 y1 : Int)
    (hx : -32768 ≤ x1 ∧ x1 ≤ 32767) (hy : -32768 ≤ y1 ∧ y1 ≤ 32767) (r cc : Nat)
    (hr : r < 16) (hcc : cc < 16) (c : Clip)
    (hcdef : c = ClipCursorArea s x1 (toBit16s (x1 + CURSORX - 1)) y1
      (toBit16s (y1 + CURSORY - 1)))
    (hx1 : c.x1 ≤ x1 + cc) (hx2 : x1 + cc ≤ c.x2) (hy1 : c.y1 ≤ y1 + r)
    (hy2 : y1 + r ≤ c.y2) :
    c.addy + (r - c.addy) = r ∧ c.addx1 + (cc - c.addx1) = cc ∧
    c.x1 + ((cc - c.addx1 : Nat) : Int) = x1 + cc ∧
    c.y1 + ((r - c.addy : Nat) : Int) = y1 + r ∧
    r - c.addy < (c.y2 + 1 - c.y1).toNat ∧ cc - c.addx1 < (c.x2 + 1 - c.x1).toNat := by
  subst hcdef
  unfold ClipCursorArea toBit16s toBit16u CURSORX CURSORY at *
  simp only [Nat.cast_ofNat] at *
  split_ifs at * <;> omega

theorem DrawCursor_frame_states (h : Host) (s : State) (hv : s.mouse.hidden = 0)
    (hi : s.mouse.inhibit_draw = false)
    (hg : (h.INT10_SetCurMode s.CurMode s.mem).type_is_M_TEXT = false) :
    (DrawCursor h s).mouse = (save_background (cursor_area (cleared h s)) (cleared h s)).mouse ∧
    (DrawCursor h s).pixels = (draw_shape (cursor_area (cleared h s))
      (save_background (cursor_area (cleared h s)) (cleared h s))).pixels := by
  have hfr := vga_frame _ _ (erase_vga_RestoreVgaRegisters h
    (draw_shape (cursor_area (cleared h s))
      (save_background (cursor_area (cleared h s)) (cleared h s))))
  rw [DrawCursor_graphics h s hv hi hg]
  exact ⟨hfr.1, hfr.2.1⟩

/-- C24: in a graphics mode with the cursor shown, for row `r` and column `cc` of the
16x16 block whose top left corner is the cursor position less the hot spot, if the pixel
lies in the clipped area that `DrawCursor` draws, then the byte saved for it in `backData`
at index `16 * r + cc` is the pixel that was on the screen, and the pixel written is that
byte if bit `15 - cc` of `screenMask[r]` is set, else 0, XOR 0x0F if bit `15 - cc` of
`cursorMask[r]` is set.  The corner of the block may be left of or above the screen. -/
theorem DrawCursor_pixel_value (h : Host) (s : State) (hv : s.mouse.hidden = 0)
    (hi : s.mouse.inhibit_draw = false)
    (hg : (h.INT10_SetCurMode s.CurMode s.mem).type_is_M_TEXT = false)
    (r cc : Nat) (hr : r < 16) (hcc : cc < 16)
    (hx1 : (cursor_area (cleared h s)).x1 ≤ cursor_x1 (cleared h s) + cc)
    (hx2 : cursor_x1 (cleared h s) + cc ≤ (cursor_area (cleared h s)).x2)
    (hy1 : (cursor_area (cleared h s)).y1 ≤ cursor_y1 (cleared h s) + r)
    (hy2 : cursor_y1 (cleared h s) + r ≤ (cursor_area (cleared h s)).y2) :
    (DrawCursor h s).mouse.backposx = cursor_x1 (cleared h s) ∧
    (DrawCursor h s).mouse.backposy = cursor_y1 (cleared h s) ∧
    (DrawCursor h s).mouse.backData (16 * r + cc) =
      (cleared h s).pixels (toBit16u (cursor_x1 (cleared h s) + cc))
        (toBit16u (cursor_y1 (cleared h s) + r)) s.mouse.page % 256 ∧
    (DrawCursor h s).pixels (toBit16u (cursor_x1 (cleared h s) + cc))
        (toBit16u (cursor_y1 (cleared h s) + r)) s.mouse.page =
      (if (screenMask_at s r).testBit (15 - cc) = true
        then (DrawCursor h s).mouse.backData (16 * r + cc) else 0) ^^^
      (if (cursorMask_at s r).testBit (15 - cc) = true then 0x0F else 0) := by
  have hc := cleared_on_screen h s
  have he := cleared_erase h s
  have hpage : (cleared h s).mouse.page = s.mouse.page :=
    congrArg (fun t => t.mouse.page) he
  obtain ⟨hm, hpx⟩ := DrawCursor_frame_states h s hv hi hg
  obtain ⟨ea, eb, ex, ey, hj, hk⟩ := block_coords (cleared h s) (cursor_x1 (cleared h s))
    (cursor_y1 (cleared h s)) (toBit16s_range _) (toBit16s_range _) r cc hr hcc
    (cursor_area (cleared h s)) rfl hx1 hx2 hy1 hy2
  obtain ⟨hB, hP⟩ := (drawn_facts (cleared h s) _ hc).1 _ _ hj hk
  have e3 : 16 * r + (cursor_area (cleared h s)).addx1 +
      (cc - (cursor_area (cleared h s)).addx1) = 16 * r + cc := by omega
  unfold data_index pixel_key pixel_at at hB hP
  simp only [] at hB hP
  rw [ea, e3, ex, ey, hpage] at hB
  rw [ea, e3, eb, ex, ey, hpage, screenMask_at_erase _ _ he, cursorMask_at_erase _ _ he] at hP
  rw [hm, hpx]
  exact ⟨rfl, rfl, hB, hP⟩

theorem DrawCursor_pixel_value_witness :
    (DrawCursor vga_host gfx_corner).mouse.backData (16 * 2 + 3) =
      (cleared vga_host gfx_corner).pixels
        (toBit16u (cursor_x1 (cleared vga_host gfx_corner) + (3 : Nat)))
        (toBit16u (cursor_y1 (cleared vga_host gfx_corner) + (2 : Nat)))
        gfx_corner.mouse.page % 256 ∧
    (DrawCursor vga_host gfx_corner).pixels
        (toBit16u (cursor_x1 (cleared vga_host gfx_corner) + (3 : Nat)))
        (toBit16u (cursor_y1 (cleared vga_host gfx_corner) + (2 : Nat)))
        gfx_corner.mouse.page =
      (if (screenMask_at gfx_corner 2).testBit (15 - 3) = true
        then (DrawCursor vga_host gfx_corner).mouse.backData (16 * 2 + 3) else 0) ^^^
      (if (cursorMask_at gfx_corner 2).testBit (15 - 3) = true then 0x0F else 0) :=
  (DrawCursor_pixel_value vga_host gfx_corner (by decide!) (by decide!) (by decide!) 2 3
    (by decide) (by decide) (by decide!) (by decide!) (by decide!) (by decide!)).2.2

theorem RestoreCursorBackground_restores (h : Host) (t : State) (hv : t.mouse.hidden = 0)
    (hi : t.mouse.inhibit_draw = false) (hb : t.mouse.background = true) :
    (RestoreCursorBackground h t).pixels = (restore_pixels t).pixels := by
  unfold RestoreCursorBackground
  have h1 : ¬ (t.mouse.hidden ≠ 0 ∨ t.mouse.inhibit_draw = true) := by
    rw [hv, hi]
    decide
  rw [if_neg h1]
  simp only []
  obtain ⟨e1, e2, _⟩ := vga_frame _ _ (erase_vga_SaveVgaRegisters h t)
  have h2 : (SaveVgaRegisters h t).mouse.background = true := by
    rw [e1, hb]
  rw [if_pos h2, (vga_frame _ _ (erase_vga_RestoreVgaRegisters h _)).2.1]
  unfold restore_pixels ClipCursorArea
  simp only []
  rw [e1, e2]

theorem restore_pixels_congr (a b : State) (hm : a.mouse = b.mouse)
    (hp : a.pixels = b.pixels) : (restore_pixels a).pixels = (restore_pixels b).pixels := by
  unfold restore_pixels ClipCursorArea
  simp only []
  rw [hm, hp]

theorem pixel_ext (f g : Nat → Nat → Nat → Nat) (hfg : ∀ q, pixel_at f q = pixel_at g q) :
    f = g := by
  funext a b p
  exact hfg (a, b, p)

/-- Saving the background, drawing and writing the saved bytes back gives the screen
there was, if its pixels are bytes. -/
theorem restore_after_draw (s3 : State) (hc : on_screen (cursor_area s3))
    (hp : ∀ a b p, s3.pixels a b p < 256) :
    (restore_pixels (draw_shape (cursor_area s3)
      (save_background (cursor_area s3) s3))).pixels = s3.pixels := by
  have hra := save_background_area (cursor_area s3) s3
  have R := restore_pixels_pixels
    (draw_shape (cursor_area s3) (save_background (cursor_area s3) s3))
    (by rw [hra]; exact hc)
  rw [hra] at R
  have D := drawn_facts s3 (cursor_area s3) hc
  apply pixel_ext
  intro q
  by_cases hq : ∃ j k, j < ((cursor_area s3).y2 + 1 - (cursor_area s3).y1).toNat ∧
      k < ((cursor_area s3).x2 + 1 - (cursor_area s3).x1).toNat ∧
      pixel_key (cursor_area s3) s3.mouse.page j k = q
  · obtain ⟨j, k, hj, hk, he⟩ := hq
    rw [← he]
    refine ((R.1 j k hj hk).trans (D.1 j k hj hk).1).trans ?_
    exact Nat.mod_eq_of_lt (hp _ _ _)
  · have hq2 : ∀ j k, j < ((cursor_area s3).y2 + 1 - (cursor_area s3).y1).toNat →
        k < ((cursor_area s3).x2 + 1 - (cursor_area s3).x1).toNat →
        pixel_key (cursor_area s3) s3.mouse.page j k ≠ q :=
      fun j k hj hk he => hq ⟨j, k, hj, hk, he⟩
    exact (R.2 _ hq2).trans (D.2 _ hq2)

/-- C23: in a graphics mode with the cursor shown (`hidden = 0`, drawing not inhibited),
no saved background pending and a screen whose pixels are bytes, `DrawCursor` followed by
`RestoreCursorBackground` leaves every pixel of the screen as it was before `DrawCursor`,
for every cursor position and hot spot, also when the block is clipped or off the
screen. -/
theorem DrawCursor_then_restore (h : Host) (s : State) (hv : s.mouse.hidden = 0)
    (hi : s.mouse.inhibit_draw = false)
    (hg : (h.INT10_SetCurMode s.CurMode s.mem).type_is_M_TEXT = false)
    (hb : s.mouse.background = false) (hp : ∀ a b p, s.pixels a b p < 256) :
    (RestoreCursorBackground h (DrawCursor h s)).pixels = s.pixels := by
  obtain ⟨hm, hpx⟩ := DrawCursor_frame_states h s hv hi hg
  have hv2 : (DrawCursor h s).mouse.hidden = 0 :=
    (congrArg (fun t => t.mouse.hidden) (erase_drawing_DrawCursor h s)).trans hv
  have hi2 : (DrawCursor h s).mouse.inhibit_draw = false :=
    (congrArg (fun t => t.mouse.inhibit_draw) (erase_drawing_DrawCursor h s)).trans hi
  have hb2 : (DrawCursor h s).mouse.background = true := by
    rw [hm]
    rfl
  have hcp := cleared_pixels h s hb
  rw [RestoreCursorBackground_restores h _ hv2 hi2 hb2,
    restore_pixels_congr (DrawCursor h s) (draw_shape (cursor_area (cleared h s))
      (save_background (cursor_area (cleared h s)) (cleared h s))) hm hpx,
    restore_after_draw _ (cleared_on_screen h s) (by rw [hcp]; exact hp), hcp]

theorem DrawCursor_then_restore_witness :
    (RestoreCursorBackground vga_host (DrawCursor vga_host gfx_corner)).pixels =
      gfx_corner.pixels :=
  DrawCursor_then_restore vga_host gfx_corner (by decide!) (by decide!) (by decide!)
    (by decide!) (fun _ _ _ => Nat.mod_lt _ (by decide))

/-! ## The loop counters of the source -/

theorem span_cons (a b : Int) (h : a ≤ b) : span a b = a :: span (a + 1) b := by
  rw [span_eq, span_eq]
  have e : (b + 1 - a).toNat = (b + 1 - (a + 1)).toNat + 1 := by omega
  rw [e, List.range_succ_eq_map, List.map_cons, List.map_map]
  congr 1
  · simp
  · apply List.map_congr_left
    intro k _
    simp only [Function.comp]
    push_cast
    omega

theorem span_empty (a b : Int) (h : b < a) : span a b = [] := by
  rw [span_eq]
  have e : (b + 1 - a).toNat = 0 := by omega
  rw [e]
  rfl

/-- A loop whose bound is below 32767 ends, and its counter takes the values of `span`. -/
theorem for_rounds_span {σ : Type} (f : Int → σ → σ) (b : Int) (hb : b < 32767) :
    ∀ (n : Nat) (a : Int) (st : σ) (fuel : Nat), (b + 1 - a).toNat = n → -32768 ≤ a →
      n < fuel →
      for_rounds b (fun v s => (f v s, true)) fuel a st =
        ((span a b).foldl (fun s v => f v s) st, true) := by
  intro n
  induction n with
  | zero =>
    intro a st fuel hn _ hf
    obtain ⟨g, rfl⟩ : ∃ g, fuel = g + 1 := ⟨fuel - 1, by omega⟩
    have hab : ¬ a ≤ b := by omega
    rw [span_empty a b (by omega)]
    unfold for_rounds
    rw [if_neg hab]
    rfl
  | succ n ih =>
    intro a st fuel hn ha hf
    obtain ⟨g, rfl⟩ : ∃ g, fuel = g + 1 := ⟨fuel - 1, by omega⟩
    have hab : a ≤ b := by omega
    rw [span_cons a b hab, List.foldl_cons]
    unfold for_rounds
    rw [if_pos hab, if_pos rfl]
    have e : toBit16s (a + 1) = a + 1 := toBit16s_of_range _ ⟨by omega, by omega⟩
    rw [e]
    exact ih (a + 1) (f a st) g (by omega) (by omega) (by omega)

/-- With both bounds below 32767 the loops of the source end and give what `cursor_loop`
gives. -/
theorem cursor_rounds_eq {α : Type} (c : Clip) (hx1 : -32768 ≤ c.x1) (hy1 : -32768 ≤ c.y1)
    (hx2 : c.x2 < 32767) (hy2 : c.y2 < 32767) (row : Int → α → α)
    (body : Int → Int → Nat → α → α) (fuel : Nat) (hf : 65536 ≤ fuel) (init : α) :
    cursor_rounds c row body fuel init = (cursor_loop c row body init, true) := by
  unfold cursor_rounds cursor_loop
  have hin : ∀ (y : Int) (acc : α × Nat),
      for_rounds c.x2 (fun x (a : α × Nat) => ((body x y a.2 a.1, (a.2 + 1) % 65536), true))
        fuel c.x1 (row y acc.1, (acc.2 + c.addx1) % 65536) =
      ((span c.x1 c.x2).foldl (fun (a : α × Nat) x => (body x y a.2 a.1, (a.2 + 1) % 65536))
        (row y acc.1, (acc.2 + c.addx1) % 65536), true) :=
    fun y acc => for_rounds_span
      (fun x (a : α × Nat) => (body x y a.2 a.1, (a.2 + 1) % 65536)) c.x2 hx2 _ c.x1 _ fuel rfl
      hx1 (by omega)
  simp only [hin, if_true]
  exact for_rounds_span
    (fun y (acc : α × Nat) =>
      (((span c.x1 c.x2).foldl
          (fun (a : α × Nat) x => (body x y a.2 a.1, (a.2 + 1) % 65536))
          (row y acc.1, (acc.2 + c.addx1) % 65536)).1,
       (((span c.x1 c.x2).foldl
          (fun (a : α × Nat) x => (body x y a.2 a.1, (a.2 + 1) % 65536))
          (row y acc.1, (acc.2 + c.addx1) % 65536)).2 + c.addx2) % 65536))
    c.y2 hy2 _ c.y1 _ fuel rfl hy1 (by omega)

/-- A loop whose bound is 32767 does not end: the counter never exceeds the bound. -/
theorem for_rounds_max {σ : Type} (body : Int → σ → σ × Bool) :
    ∀ (fuel : Nat) (v : Int) (st : σ), v ≤ 32767 →
      (for_rounds 32767 body fuel v st).2 = false := by
  intro fuel
  induction fuel with
  | zero =>
    intro v st _
    rfl
  | succ g ih =>
    intro v st hv
    unfold for_rounds
    rw [if_pos hv]
    by_cases hb : (body v st).2 = true
    · rw [if_pos hb]
      exact ih _ _ (toBit16s_range _).2
    · rw [if_neg hb]

theorem for_rounds_stuck {σ : Type} (b : Int) (body : Int → σ → σ × Bool) (fuel : Nat)
    (v : Int) (st : σ) (hv : v ≤ b) (hb : (body v st).2 = false) :
    (for_rounds b body (fuel + 1) v st).2 = false := by
  unfold for_rounds
  rw [if_pos hv, if_neg (by rw [hb]; decide)]

/-- With the right bound at 32767 and a row to visit, the loops of the source do not
end. -/
theorem cursor_rounds_max {α : Type} (c : Clip) (hx1 : c.x1 ≤ 32767) (hx2 : c.x2 = 32767)
    (hy : c.y1 ≤ c.y2) (row : Int → α → α) (body : Int → Int → Nat → α → α) (fuel : Nat)
    (init : α) : (cursor_rounds c row body fuel init).2 = false := by
  unfold cursor_rounds
  cases fuel with
  | zero => rfl
  | succ g =>
    refine for_rounds_stuck _ _ _ _ _ hy ?_
    have h := for_rounds_max
      (fun x (a : α × Nat) => ((body x c.y1 a.2 a.1, (a.2 + 1) % 65536), true)) (g + 1) c.x1
      (row c.y1 init, ((c.addy * CURSORX) % 65536 + c.addx1) % 65536) hx1
    rw [← hx2] at h
    dsimp only
    rw [h]
    rfl

/-- The areas of the two routines with clip bounds below 32767: the loops of the source
end and give what `cursor_loop` gives. -/
theorem cursor_rounds_faithful {α : Type} (s : State) (hcx : s.mouse.clipx < 32767)
    (hcy : s.mouse.clipy < 32767) (row : Int → α → α) (body : Int → Int → Nat → α → α)
    (fuel : Nat) (hf : 65536 ≤ fuel) (init : α) :
    cursor_rounds (cursor_area s) row body fuel init =
      (cursor_loop (cursor_area s) row body init, true) ∧
    cursor_rounds (restore_area s) row body fuel init =
      (cursor_loop (restore_area s) row body init, true) := by
  constructor
  · refine cursor_rounds_eq (cursor_area s) ?_ ?_ ?_ ?_ row body fuel hf init
    · unfold cursor_area ClipCursorArea
      have := toBit16s_range (Int.tdiv (POS_X s) (xratio s) - s.mouse.hotx)
      simp only [cursor_x1]
      split_ifs <;> omega
    · unfold cursor_area ClipCursorArea
      have := toBit16s_range (POS_Y s - s.mouse.hoty)
      simp only [cursor_y1]
      split_ifs <;> omega
    · unfold cursor_area ClipCursorArea
      simp only []
      split_ifs <;> omega
    · unfold cursor_area ClipCursorArea
      simp only []
      split_ifs <;> omega
  · refine cursor_rounds_eq (restore_area s) ?_ ?_ ?_ ?_ row body fuel hf init
    all_goals
      unfold restore_area ClipCursorArea
      simp only []
      split_ifs <;> omega

/-- With clip bounds below 32767 the loops of the source over the areas of the two
routines end, and every index of `backData` they use is below 256. -/
theorem rounds_positions_in_bounds (s : State)
    (hbx : -32768 ≤ s.mouse.backposx ∧ s.mouse.backposx ≤ 32767)
    (hby : -32768 ≤ s.mouse.backposy ∧ s.mouse.backposy ≤ 32767)
    (hcx : -32768 ≤ s.mouse.clipx ∧ s.mouse.clipx < 32767)
    (hcy : -32768 ≤ s.mouse.clipy ∧ s.mouse.clipy < 32767) (fuel : Nat)
    (hf : 65536 ≤ fuel) :
    (∀ p ∈ rounds_positions (cursor_area s) fuel, p < 256) ∧
    (∀ p ∈ rounds_positions (restore_area s) fuel, p < 256) ∧
    (cursor_rounds (cursor_area s) (fun _ (a : List Nat) => a)
      (fun _ _ dataPos a => a ++ [dataPos]) fuel []).2 = true ∧
    (cursor_rounds (restore_area s) (fun _ (a : List Nat) => a)
      (fun _ _ dataPos a => a ++ [dataPos]) fuel []).2 = true := by
  obtain ⟨e1, e2⟩ := cursor_rounds_faithful s hcx.2 hcy.2 (fun _ (a : List Nat) => a)
    (fun _ _ dataPos a => a ++ [dataPos]) fuel hf []
  have h1 := cursor_area_on_screen s ⟨hcx.1, by omega⟩ ⟨hcy.1, by omega⟩
  have h2 := restore_area_on_screen s hbx hby ⟨hcx.1, by omega⟩ ⟨hcy.1, by omega⟩
  unfold rounds_positions
  rw [e1, e2]
  exact ⟨fun p hp => data_positions_lt _ h1 p hp, fun p hp => data_positions_lt _ h2 p hp,
    rfl, rfl⟩

/-- C40 on the code: with the saved background at column 32752 and the right clip bound
at 32767, values that INT 33h function 17h can load, the area that
`RestoreCursorBackground` writes back runs from column 32752 to 32767; its inner loop
`for (x=x1; x<=x2; x++)` does not end within any number of rounds, since the `Bit16s`
counter wraps from 32767 to -32768, and within 300 rounds `dataPos` has passed 255: the
index 256 of the 256-byte `backData` is read. -/
theorem restore_loop_overruns :
    (restore_area clip_max).x1 = 32752 ∧ (restore_area clip_max).x2 = 32767 ∧
    (restore_area clip_max).y1 = 0 ∧ (restore_area clip_max).y2 = 15 ∧
    (∀ fuel, (cursor_rounds (restore_area clip_max) (fun _ (a : List Nat) => a)
      (fun _ _ dataPos a => a ++ [dataPos]) fuel []).2 = false) ∧
    256 ∈ rounds_positions (restore_area clip_max) 300 := by
  have h1 : (restore_area clip_max).x1 = 32752 := by decide!
  have h2 : (restore_area clip_max).x2 = 32767 := by decide!
  have h3 : (restore_area clip_max).y1 = 0 := by decide!
  have h4 : (restore_area clip_max).y2 = 15 := by decide!
  refine ⟨h1, h2, h3, h4, fun fuel => ?_, by decide!⟩
  exact cursor_rounds_max _ (by rw [h1]; decide) h2 (by rw [h3, h4]; decide) _ _ fuel []

end Mouse

namespace Cross

/-! ## One round of the loop -/

theorem loop_succ (root fuel : Nat) (src out : List Char) :
    loop root (fuel + 1) src out =
      if peek src 0 ≠ '.' then
        if peek src 0 = NUL then some (finish root out)
        else if peek src 0 ≠ '/' ∧ peek src 0 ≠ BACKSLASH then
          loop root fuel src.tail (peek src 0 :: out)
        else if out.length ≠ root ∧
            ¬ (out.length > 0 ∧ out.head? = some CROSS_FILESPLIT) then
          loop root fuel src.tail (CROSS_FILESPLIT :: out)
        else loop root fuel src.tail out
      else if (out.length = 0 ∨ out.head? = some CROSS_FILESPLIT) ∧
          (peek src.tail 0 = '/' ∨ peek src.tail 0 = BACKSLASH ∨ peek src.tail 0 = NUL) then
        loop root fuel (src.tail.drop (0 + if peek src.tail 0 ≠ NUL then 1 else 0)) out
      else if out.length = 0 ∨ out.head? ≠ some CROSS_FILESPLIT ∨ peek src.tail 0 ≠ '.' ∨
          (peek src.tail 1 ≠ '/' ∧ peek src.tail 1 ≠ BACKSLASH ∧ peek src.tail 1 ≠ NUL) ∨
          (out.length ≥ 3 ∧ out.get? 1 = some '.' ∧ out.get? 2 = some '.' ∧
            (out.length = 3 ∨ out.get? 3 = some CROSS_FILESPLIT)) then
        loop root fuel src.tail ('.' :: out)
      else
        if out.length > root then
          (pop_loop root out.tail).bind fun out2 =>
            loop root fuel (src.tail.drop (1 + if peek src.tail 1 ≠ NUL then 1 else 0)) out2
        else loop root fuel (src.tail.drop (1 + if peek src.tail 1 ≠ NUL then 1 else 0)) out :=
  rfl

theorem peek_cons_zero (c : Char) (src : List Char) : peek (c :: src) 0 = c := rfl

theorem peek_nil (i : Nat) : peek [] i = NUL := rfl

theorem peek_cons_succ (c : Char) (src : List Char) (i : Nat) :
    peek (c :: src) (i + 1) = peek src i := rfl

theorem NUL_ne_dot : NUL ≠ '.' := by decide

theorem round_end (root fuel : Nat) (src out : List Char) (h : peek src 0 = NUL) :
    loop root (fuel + 1) src out = some (finish root out) := by
  rw [loop_succ, h, if_pos NUL_ne_dot, if_pos rfl]

theorem round_plain (root fuel : Nat) (c : Char) (src out : List Char) (hc : plain c)
    (hd : c ≠ '.') : loop root (fuel + 1) (c :: src) out = loop root fuel src (c :: out) := by
  rw [loop_succ, peek_cons_zero, if_pos hd, if_neg hc.2.2, if_pos ⟨hc.1, hc.2.1⟩]
  rfl

theorem sep_ne_dot (c : Char) (hs : c = '/' ∨ c = BACKSLASH) : c ≠ '.' := by
  rcases hs with h | h <;> rw [h] <;> decide

theorem sep_ne_NUL (c : Char) (hs : c = '/' ∨ c = BACKSLASH) : c ≠ NUL := by
  rcases hs with h | h <;> rw [h] <;> decide

theorem sep_not_plain (c : Char) (hs : c = '/' ∨ c = BACKSLASH) :
    ¬ (c ≠ '/' ∧ c ≠ BACKSLASH) := by
  rcases hs with h | h
  · exact fun hp => hp.1 h
  · exact fun hp => hp.2 h

theorem round_sep_write (root fuel : Nat) (c : Char) (src out : List Char)
    (hs : c = '/' ∨ c = BACKSLASH) (h1 : out.length ≠ root)
    (h2 : ¬ (out.length > 0 ∧ out.head? = some CROSS_FILESPLIT)) :
    loop root (fuel + 1) (c :: src) out = loop root fuel src (CROSS_FILESPLIT :: out) := by
  rw [loop_succ, peek_cons_zero, if_pos (sep_ne_dot c hs), if_neg (sep_ne_NUL c hs),
    if_neg (sep_not_plain c hs), if_pos ⟨h1, h2⟩]
  rfl

theorem round_sep_skip (root fuel : Nat) (c : Char) (src out : List Char)
    (hs : c = '/' ∨ c = BACKSLASH)
    (h1 : ¬ (out.length ≠ root ∧ ¬ (out.length > 0 ∧ out.head? = some CROSS_FILESPLIT))) :
    loop root (fuel + 1) (c :: src) out = loop root fuel src out := by
  rw [loop_succ, peek_cons_zero, if_pos (sep_ne_dot c hs), if_neg (sep_ne_NUL c hs),
    if_neg (sep_not_plain c hs), if_neg h1]
  rfl

theorem round_dot_skip (root fuel : Nat) (src out : List Char)
    (h1 : out.length = 0 ∨ out.head? = some CROSS_FILESPLIT) (h2 : ends (peek src 0)) :
    loop root (fuel + 1) ('.' :: src) out =
      loop root fuel (src.drop (0 + if peek src 0 ≠ NUL then 1 else 0)) out := by
  rw [loop_succ, peek_cons_zero, if_neg (fun hh => hh rfl)]
  exact if_pos ⟨h1, h2⟩

theorem round_dot_write (root fuel : Nat) (src out : List Char)
    (h1 : ¬ ((out.length = 0 ∨ out.head? = some CROSS_FILESPLIT) ∧ ends (peek src 0)))
    (h2 : out.length = 0 ∨ out.head? ≠ some CROSS_FILESPLIT ∨ peek src 0 ≠ '.' ∨
      ¬ ends (peek src 1) ∨ after_dotdot out) :
    loop root (fuel + 1) ('.' :: src) out = loop root fuel src ('.' :: out) := by
  rw [loop_succ, peek_cons_zero, if_neg (fun hh => hh rfl)]
  have h2' : out.length = 0 ∨ out.head? ≠ some CROSS_FILESPLIT ∨ peek src 0 ≠ '.' ∨
      (peek src 1 ≠ '/' ∧ peek src 1 ≠ BACKSLASH ∧ peek src 1 ≠ NUL) ∨
      (out.length ≥ 3 ∧ out.get? 1 = some '.' ∧ out.get? 2 = some '.' ∧
        (out.length = 3 ∨ out.get? 3 = some CROSS_FILESPLIT)) := by
    rcases h2 with h | h | h | h | h
    · exact Or.inl h
    · exact Or.inr (Or.inl h)
    · exact Or.inr (Or.inr (Or.inl h))
    · refine Or.inr (Or.inr (Or.inr (Or.inl ?_)))
      unfold ends at h
      exact ⟨fun e => h (Or.inl e), fun e => h (Or.inr (Or.inl e)),
        fun e => h (Or.inr (Or.inr e))⟩
    · exact Or.inr (Or.inr (Or.inr (Or.inr h)))
  exact (if_neg h1).trans (if_pos h2')

theorem round_dot_pop (root fuel : Nat) (src out : List Char)
    (h1 : out.length ≠ 0) (h2 : out.head? = some CROSS_FILESPLIT) (h3 : peek src 0 = '.')
    (h4 : ends (peek src 1)) (h5 : ¬ after_dotdot out) :
    loop root (fuel + 1) ('.' :: src) out =
      if out.length > root then
        (pop_loop root out.tail).bind fun out2 =>
          loop root fuel (src.drop (1 + if peek src 1 ≠ NUL then 1 else 0)) out2
      else loop root fuel (src.drop (1 + if peek src 1 ≠ NUL then 1 else 0)) out := by
  rw [loop_succ, peek_cons_zero, if_neg (fun hh => hh rfl)]
  have n1 : ¬ ((out.length = 0 ∨ out.head? = some CROSS_FILESPLIT) ∧
      (peek src 0 = '/' ∨ peek src 0 = BACKSLASH ∨ peek src 0 = NUL)) := by
    rw [h3]
    intro hh
    rcases hh.2 with e | e | e
    · exact absurd e (by decide)
    · exact absurd e (by decide)
    · exact absurd e (by decide)
  have n2 : ¬ (out.length = 0 ∨ out.head? ≠ some CROSS_FILESPLIT ∨ peek src 0 ≠ '.' ∨
      (peek src 1 ≠ '/' ∧ peek src 1 ≠ BACKSLASH ∧ peek src 1 ≠ NUL) ∨
      (out.length ≥ 3 ∧ out.get? 1 = some '.' ∧ out.get? 2 = some '.' ∧
        (out.length = 3 ∨ out.get? 3 = some CROSS_FILESPLIT))) := by
    intro h
    rcases h with h | h | h | h | h
    · exact h1 h
    · exact h h2
    · exact h h3
    · rcases h4 with e | e | e
      · exact h.1 e
      · exact h.2.1 e
      · exact h.2.2 e
    · exact h5 h
  exact (if_neg n1).trans (if_neg n2)

/-! ## Runs of the loop -/

theorem reach_step (root : Nat) (src out src' out' r : List Char)
    (hlen : src'.length < src.length)
    (hround : ∀ fuel, loop root (fuel + 1) src out = loop root fuel src' out')
    (h : Reach root src' out' r) : Reach root src out r := by
  intro fuel hf
  obtain ⟨f, rfl⟩ : ∃ f, fuel = f + 1 := ⟨fuel - 1, by omega⟩
  rw [hround f]
  exact h f (by omega)

theorem reach_end (root : Nat) (src out : List Char) (h : peek src 0 = NUL) :
    Reach root src out (finish root out) := by
  intro fuel hf
  obtain ⟨f, rfl⟩ : ∃ f, fuel = f + 1 := ⟨fuel - 1, by omega⟩
  exact round_end root f src out h

theorem plain_dot : plain '.' := by
  unfold plain
  decide

theorem plain_not_ends (x : Char) (hx : plain x) : ¬ ends x := by
  intro h
  rcases h with h | h | h
  · exact hx.1 h
  · exact hx.2.1 h
  · exact hx.2.2 h

theorem ends_of_not_plain (x : Char) (hx : ¬ plain x) : ends x := by
  unfold plain at hx
  unfold ends
  by_cases h1 : x = '/'
  · exact Or.inl h1
  · by_cases h2 : x = BACKSLASH
    · exact Or.inr (Or.inl h2)
    · by_cases h3 : x = NUL
      · exact Or.inr (Or.inr h3)
      · exact absurd ⟨h1, h2, h3⟩ hx

/-- A plain character that does not start a component is copied. -/
theorem reach_copy_one (root : Nat) (x : Char) (src out r : List Char) (hx : plain x)
    (hne : out.length ≠ 0) (hh : out.head? ≠ some CROSS_FILESPLIT)
    (h : Reach root src (x :: out) r) : Reach root (x :: src) out r := by
  refine reach_step root _ _ _ _ r (by simp) (fun fuel => ?_) h
  by_cases hd : x = '.'
  · rw [hd]
    exact round_dot_write root fuel src out
      (fun hc => hc.1.elim (fun e => hne e) (fun e => hh e)) (Or.inr (Or.inl hh))
  · exact round_plain root fuel x src out hx hd

/-- Plain characters that do not start a component are copied. -/
theorem reach_copy_tail (root : Nat) (w : List Char) (hw : ∀ x ∈ w, plain x) :
    ∀ (src out r : List Char), out.length ≠ 0 → out.head? ≠ some CROSS_FILESPLIT →
      Reach root src (w.reverse ++ out) r → Reach root (w ++ src) out r := by
  induction w with
  | nil =>
    intro src out r _ _ h
    exact h
  | cons x w ih =>
    intro src out r hne hh h
    have hx : plain x := hw x (List.mem_cons_self x w)
    refine reach_copy_one root x (w ++ src) out r hx hne hh ?_
    refine ih (fun y hy => hw y (List.mem_cons_of_mem x hy)) src (x :: out) r (by simp) ?_ ?_
    · intro e
      exact hx.1 (Option.some.inj e)
    · rw [List.reverse_cons, List.append_assoc] at h
      exact h

/-- A component that is neither `.` nor `..` is copied. -/
theorem reach_copy (root : Nat) (c : List Char) (hc : ∀ x ∈ c, plain x) (h1 : c ≠ ['.'])
    (h2 : c ≠ dotdot) (src out r : List Char)
    (h : Reach root src (c.reverse ++ out) r) : Reach root (c ++ src) out r := by
  by_cases hs : out.length ≠ 0 ∧ out.head? ≠ some CROSS_FILESPLIT
  · exact reach_copy_tail root c hc src out r hs.1 hs.2 h
  · match c, hc, h1, h2, h with
    | [], _, _, _, h => exact h
    | x :: w, hc, h1, h2, h =>
      have hx : plain x := hc x (List.mem_cons_self x w)
      have hw : ∀ y ∈ w, plain y := fun y hy => hc y (List.mem_cons_of_mem x hy)
      have hx2 : (x :: out).head? ≠ some CROSS_FILESPLIT := fun e => hx.1 (Option.some.inj e)
      rw [List.reverse_cons, List.append_assoc] at h
      have h' := reach_copy_tail root w hw src (x :: out) r (by simp) hx2 h
      refine reach_step root _ _ _ _ r (by simp) (fun fuel => ?_) h'
      by_cases hd : x = '.'
      · subst hd
        match w, hw, h1, h2 with
        | [], _, h1, _ => exact absurd rfl h1
        | y :: w', hw, _, h2 =>
          have hy : plain y := hw y (List.mem_cons_self y w')
          refine round_dot_write root fuel _ out
            (fun hc' => plain_not_ends y hy hc'.2) ?_
          by_cases hyd : y = '.'
          · subst hyd
            match w', hw, h2 with
            | [], _, h2 => exact absurd rfl h2
            | z :: w'', hw, _ =>
              have hz : plain z :=
                hw z (List.mem_cons_of_mem _ (List.mem_cons_self z w''))
              exact Or.inr (Or.inr (Or.inr (Or.inl (plain_not_ends z hz))))
          · exact Or.inr (Or.inr (Or.inl hyd))
      · exact round_plain root fuel x _ out hx hd

/-- A `..` component at the start of the text or after a `..` component is copied. -/
theorem reach_dotdot_write (root : Nat) (src out r : List Char)
    (hw : out.length = 0 ∨ out.head? ≠ some CROSS_FILESPLIT ∨ after_dotdot out)
    (h : Reach root src ('.' :: '.' :: out) r) : Reach root ('.' :: '.' :: src) out r := by
  have h' : Reach root ('.' :: src) ('.' :: out) r :=
    reach_copy_one root '.' src ('.' :: out) r plain_dot (by simp)
      (fun e => absurd (Option.some.inj e) (by decide)) h
  refine reach_step root _ _ _ _ r (by simp) (fun fuel => ?_) h'
  refine round_dot_write root fuel _ out (fun hc => ?_) ?_
  · exact plain_not_ends '.' plain_dot hc.2
  · rcases hw with e | e | e
    · exact Or.inl e
    · exact Or.inr (Or.inl e)
    · exact Or.inr (Or.inr (Or.inr (Or.inr e)))

/-- A `.` component is skipped together with the separator after it. -/
theorem reach_dot_skip (root : Nat) (src out r : List Char)
    (hs : out.length = 0 ∨ out.head? = some CROSS_FILESPLIT) (ht : ends (peek src 0))
    (h : Reach root (src.drop (if peek src 0 ≠ NUL then 1 else 0)) out r) :
    Reach root ('.' :: src) out r := by
  refine reach_step root _ _ _ _ r ?_ (fun fuel => ?_) h
  · rw [List.length_drop, List.length_cons]
    omega
  · rw [round_dot_skip root fuel src out hs ht, Nat.zero_add]

theorem drop_after_dot (src : List Char) :
    ('.' :: src).drop (1 + if peek ('.' :: src) 1 ≠ NUL then 1 else 0) =
      src.drop (if peek src 0 ≠ NUL then 1 else 0) := by
  rw [peek_cons_succ, Nat.add_comm, List.drop_succ_cons]

/-- A `..` component after a component that is not `..` takes that component away; the
separator after the `..` is skipped. -/
theorem reach_dotdot_pop (root : Nat) (src out out2 r : List Char)
    (h1 : out.length ≠ 0) (h2 : out.head? = some CROSS_FILESPLIT) (h5 : ¬ after_dotdot out)
    (ht : ends (peek src 0)) (hp : pop_loop root out.tail = some out2)
    (hr : root < out.length)
    (h : Reach root (src.drop (if peek src 0 ≠ NUL then 1 else 0)) out2 r) :
    Reach root ('.' :: '.' :: src) out r := by
  intro fuel hf
  obtain ⟨f, rfl⟩ : ∃ f, fuel = f + 1 := ⟨fuel - 1, by omega⟩
  rw [round_dot_pop root f ('.' :: src) out h1 h2 rfl ht h5, if_pos hr, hp, drop_after_dot]
  refine h f ?_
  rw [List.length_drop]
  simp only [List.length_cons] at hf
  omega

/-- A `..` component at the root of an absolute path is skipped. -/
theorem reach_dotdot_root (root : Nat) (src out r : List Char)
    (h1 : out.length ≠ 0) (h2 : out.head? = some CROSS_FILESPLIT) (h5 : ¬ after_dotdot out)
    (ht : ends (peek src 0)) (hr : ¬ root < out.length)
    (h : Reach root (src.drop (if peek src 0 ≠ NUL then 1 else 0)) out r) :
    Reach root ('.' :: '.' :: src) out r := by
  intro fuel hf
  obtain ⟨f, rfl⟩ : ∃ f, fuel = f + 1 := ⟨fuel - 1, by omega⟩
  rw [round_dot_pop root f ('.' :: src) out h1 h2 rfl ht h5, if_neg hr, drop_after_dot]
  refine h f ?_
  rw [List.length_drop]
  simp only [List.length_cons] at hf
  omega

theorem reach_sep_write (root : Nat) (c : Char) (src out r : List Char)
    (hs : c = '/' ∨ c = BACKSLASH) (h1 : out.length ≠ root)
    (h2 : ¬ (out.length > 0 ∧ out.head? = some CROSS_FILESPLIT))
    (h : Reach root src (CROSS_FILESPLIT :: out) r) : Reach root (c :: src) out r :=
  reach_step root _ _ _ _ r (by simp) (fun fuel => round_sep_write root fuel c src out hs h1 h2) h

theorem reach_sep_skip (root : Nat) (c : Char) (src out r : List Char)
    (hs : c = '/' ∨ c = BACKSLASH)
    (h1 : out.length = root ∨ out.head? = some CROSS_FILESPLIT)
    (h : Reach root src out r) : Reach root (c :: src) out r := by
  refine reach_step root _ _ _ _ r (by simp) (fun fuel => ?_) h
  refine round_sep_skip root fuel c src out hs (fun hc => ?_)
  rcases h1 with e | e
  · exact hc.1 e
  · refine hc.2 ⟨?_, e⟩
    cases out with
    | nil => exact absurd e (by simp)
    | cons x out => simp

/-! ## The text written so far, by components -/

theorem render_length (root : Nat) (cs : List (List Char)) :
    root ≤ (render root cs).length := by
  induction cs with
  | nil => simp [render]
  | cons c cs ih =>
    simp only [render, List.length_cons, List.length_append]
    omega

theorem render_cons_length (root : Nat) (c : List Char) (cs : List (List Char)) :
    root < (render root (c :: cs)).length := by
  have := render_length root cs
  simp only [render, List.length_cons, List.length_append]
  omega

/-- Between two components the text is empty or ends with a separator. -/
theorem render_start (root : Nat) (cs : List (List Char)) :
    (render root cs).length = 0 ∨ (render root cs).head? = some CROSS_FILESPLIT := by
  cases cs with
  | nil =>
    cases root with
    | zero => exact Or.inl rfl
    | succ n => exact Or.inr rfl
  | cons c cs => exact Or.inr rfl

theorem render_skip (root : Nat) (cs : List (List Char)) :
    (render root cs).length = root ∨ (render root cs).head? = some CROSS_FILESPLIT := by
  cases cs with
  | nil => exact Or.inl (by simp [render])
  | cons c cs => exact Or.inr rfl

theorem render_empty (root : Nat) (cs : List (List Char))
    (h : (render root cs).length = 0) : root = 0 ∧ cs = [] := by
  cases cs with
  | nil => exact ⟨by simpa [render] using h, rfl⟩
  | cons c cs => simp [render] at h

theorem plain_ne_sep (x : Char) (hx : plain x) : x ≠ CROSS_FILESPLIT := hx.1

/-- The loop that takes a component away stops at the separator before it. -/
theorem pop_loop_render (root : Nat) (c : List Char) (hne : c ≠ [])
    (hc : ∀ x ∈ c, plain x) (cs : List (List Char)) :
    pop_loop root (c ++ render root cs) = some (render root cs) := by
  induction c with
  | nil => exact absurd rfl hne
  | cons x w ih =>
    have hx : plain x := hc x (List.mem_cons_self x w)
    show pop_loop root (x :: (w ++ render root cs)) = _
    unfold pop_loop
    rw [if_neg (plain_ne_sep x hx)]
    cases w with
    | nil =>
      simp only [List.nil_append]
      cases cs with
      | nil => rw [if_pos (by simp [render])]
      | cons d ds =>
        have hl := render_cons_length root d ds
        rw [if_neg (by omega)]
        show pop_loop root (CROSS_FILESPLIT :: (d ++ render root ds)) = _
        unfold pop_loop
        rw [if_pos rfl]
        rfl
    | cons y w' =>
      have hl := render_length root cs
      rw [if_neg (by
        simp only [List.length_append, List.length_cons]
        omega)]
      exact ih (by simp) (fun z hz => hc z (List.mem_cons_of_mem x hz))

/-- The test for a `..` component before the write position, between two components. -/
theorem after_dotdot_render (root : Nat) (cs : List (List Char)) (hg : good root cs)
    (h : after_dotdot (render root cs)) : ∃ ds, cs = dotdot :: ds := by
  obtain ⟨h3, e1, e2, e3⟩ := h
  cases cs with
  | nil =>
    exfalso
    simp only [render] at e1
    have hm := List.get?_mem e1
    rw [List.mem_replicate] at hm
    exact absurd hm.2 (by decide)
  | cons c ds =>
    refine ⟨ds, ?_⟩
    obtain ⟨⟨hne, hp, _, _⟩, _⟩ := hg
    have hs := render_start root ds
    match c, hne, hp with
    | [], hne, _ => exact absurd rfl hne
    | [x], _, hp =>
      exfalso
      simp only [render, List.singleton_append] at e2
      rcases hs with hs | hs
      · rw [List.length_eq_zero] at hs
        rw [hs] at e2
        simp at e2
      · cases hr : render root ds with
        | nil => rw [hr] at e2; simp at e2
        | cons y _ =>
          rw [hr] at hs e2
          simp only [List.head?_cons, Option.some.injEq] at hs
          simp only [List.get?_cons_succ, List.get?_cons_zero, Option.some.injEq] at e2
          rw [hs] at e2
          exact absurd e2 (by decide)
    | [x, y], _, hp =>
      simp only [render, List.cons_append, List.nil_append, List.get?_cons_succ,
        List.get?_cons_zero, Option.some.injEq] at e1 e2
      rw [e1, e2]
      rfl
    | x :: y :: z :: w, _, hp =>
      exfalso
      have hz : plain z := hp z (by simp)
      simp only [render, List.cons_append, List.length_cons, List.length_append,
        List.get?_cons_succ, List.get?_cons_zero, Option.some.injEq] at e3
      rcases e3 with e3 | e3
      · omega
      · exact hz.1 e3

/-- Conversely, after a `..` component and a separator the test holds. -/
theorem render_after_dotdot (root : Nat) (ds : List (List Char))
    (hd : ∀ d ∈ ds, d = dotdot) (h0 : root = 0) :
    after_dotdot (render root (dotdot :: ds)) := by
  subst h0
  unfold after_dotdot
  cases ds with
  | nil => simp [render, dotdot, CROSS_FILESPLIT]
  | cons d ds => simp [render, dotdot, CROSS_FILESPLIT]

/-- The end of the text with a component under way gives the same result as with the
component complete: the separator after it is taken off. -/
theorem finish_under_way (root : Nat) (p : List Char) (hne : p ≠ [])
    (hp : ∀ x ∈ p, plain x) (cs : List (List Char)) :
    finish root (p ++ render root cs) = finish root (render root (p :: cs)) := by
  have hl := render_length root cs
  have e2 : finish root (render root (p :: cs)) = (p ++ render root cs).reverse := by
    unfold finish
    rw [if_pos ⟨render_cons_length root p cs, rfl⟩]
    rfl
  rw [e2]
  unfold finish
  cases p with
  | nil => exact absurd rfl hne
  | cons x w =>
    have hx : plain x := hp x (List.mem_cons_self x w)
    rw [if_neg]
    intro hc
    exact hx.1 (Option.some.inj hc.2)

theorem good_tail (root : Nat) (c : List Char) (cs : List (List Char))
    (h : good root (c :: cs)) : good root cs := h.2

/-- The text has a first component and a rest, both fit for the loop. -/
theorem split_component (src : List Char) :
    ∃ comp tail, src = comp ++ tail ∧ (∀ x ∈ comp, plain x) ∧ ends (peek tail 0) := by
  induction src with
  | nil => exact ⟨[], [], rfl, fun x hx => absurd hx (List.not_mem_nil x), Or.inr (Or.inr rfl)⟩
  | cons x src ih =>
    by_cases hx : plain x
    · obtain ⟨comp, tail, e, hc, ht⟩ := ih
      refine ⟨x :: comp, tail, by rw [e]; rfl, ?_, ht⟩
      intro y hy
      rcases List.mem_cons.mp hy with e1 | e1
      · rw [e1]
        exact hx
      · exact hc y e1
    · exact ⟨[], x :: src, rfl, fun y hy => absurd hy (List.not_mem_nil y),
        ends_of_not_plain x hx⟩

/-- What ends a component is the end of the text or a separator with a rest. -/
theorem ends_cases (tail : List Char) (ht : ends (peek tail 0)) :
    peek tail 0 = NUL ∨ ∃ c rest, tail = c :: rest ∧ (c = '/' ∨ c = BACKSLASH) := by
  cases tail with
  | nil => exact Or.inl rfl
  | cons c rest =>
    rcases ht with h | h | h
    · exact Or.inr ⟨c, rest, rfl, Or.inl h⟩
    · exact Or.inr ⟨c, rest, rfl, Or.inr h⟩
    · exact Or.inl h

/-! ## Every text is brought to a list of good components -/

theorem close_end (root : Nat) (p : List Char) (hne : p ≠ []) (hp : ∀ x ∈ p, plain x)
    (cs : List (List Char)) (tail : List Char) (hN : peek tail 0 = NUL) :
    Reach root tail (p ++ render root cs) (finish root (render root (p :: cs))) := by
  rw [← finish_under_way root p hne hp cs]
  exact reach_end root tail _ hN

theorem close_sep (root : Nat) (p : List Char) (hne : p ≠ []) (hp : ∀ x ∈ p, plain x)
    (cs : List (List Char)) (c : Char) (rest r : List Char) (hs : c = '/' ∨ c = BACKSLASH)
    (h : Reach root rest (render root (p :: cs)) r) :
    Reach root (c :: rest) (p ++ render root cs) r := by
  have hl := render_length root cs
  cases p with
  | nil => exact absurd rfl hne
  | cons x w =>
    have hx : plain x := hp x (List.mem_cons_self x w)
    refine reach_sep_write root c rest _ r hs ?_ ?_ h
    · simp only [List.cons_append, List.length_cons, List.length_append]
      omega
    · intro hc
      exact hx.1 (Option.some.inj hc.2)

theorem good_dotdot (root : Nat) (cs : List (List Char)) (hg : good root cs)
    (hw : (render root cs).length = 0 ∨ after_dotdot (render root cs)) :
    good root (dotdot :: cs) := by
  refine ⟨⟨by decide, ?_, by decide, fun _ => ?_⟩, hg⟩
  · intro x hx
    have : x = '.' := by
      unfold dotdot at hx
      simpa using hx
    rw [this]
    exact plain_dot
  · rcases hw with h | h
    · obtain ⟨h0, hc⟩ := render_empty root cs h
      rw [hc]
      exact ⟨h0, fun d hd => absurd hd (List.not_mem_nil d)⟩
    · obtain ⟨ds, rfl⟩ := after_dotdot_render root cs hg h
      obtain ⟨h0, hd⟩ := hg.1.2.2.2 rfl
      refine ⟨h0, fun d hd' => ?_⟩
      rcases List.mem_cons.mp hd' with e | e
      · exact e
      · exact hd d e

theorem good_copy (root : Nat) (comp : List Char) (cs : List (List Char))
    (hg : good root cs) (h0 : comp ≠ []) (hc : ∀ x ∈ comp, plain x) (h1 : comp ≠ ['.'])
    (h2 : comp ≠ dotdot) : good root (comp.reverse :: cs) := by
  refine ⟨⟨?_, ?_, ?_, ?_⟩, hg⟩
  · intro e
    exact h0 (List.reverse_eq_nil_iff.mp e)
  · intro x hx
    exact hc x (List.mem_reverse.mp hx)
  · intro e
    apply h1
    have := congrArg List.reverse e
    simpa using this
  · intro e
    exfalso
    apply h2
    have := congrArg List.reverse e
    simpa [dotdot] using this

theorem drop_length_le (tail : List Char) (k : Nat) : (tail.drop k).length ≤ tail.length := by
  rw [List.length_drop]
  omega

/-- From a position between two components, with good components written so far, the
loop returns, and what it returns is the text of good components. -/
theorem reach_good (root : Nat) :
    ∀ (n : Nat) (src : List Char) (cs : List (List Char)), src.length < n → good root cs →
      ∃ cs', good root cs' ∧
        Reach root src (render root cs) (finish root (render root cs')) := by
  intro n
  induction n with
  | zero =>
    intro src cs hn _
    exact absurd hn (Nat.not_lt_zero _)
  | succ n ih =>
    intro src cs hn hg
    obtain ⟨comp, tail, rfl, hcomp, ht⟩ := split_component src
    rw [List.length_append] at hn
    by_cases h0 : comp = []
    · subst h0
      rw [List.nil_append]
      rcases ends_cases tail ht with hN | ⟨c, rest, rfl, hs⟩
      · exact ⟨cs, hg, reach_end root tail _ hN⟩
      · obtain ⟨cs', hg', hr⟩ := ih rest cs (by
          simp only [List.length_cons, List.length_nil] at hn
          omega) hg
        exact ⟨cs', hg', reach_sep_skip root c rest _ _ hs (render_skip root cs) hr⟩
    · by_cases h1 : comp = ['.']
      · subst h1
        obtain ⟨cs', hg', hr⟩ := ih (tail.drop (if peek tail 0 ≠ NUL then 1 else 0)) cs (by
          have := drop_length_le tail (if peek tail 0 ≠ NUL then 1 else 0)
          simp only [List.length_cons, List.length_nil] at hn
          omega) hg
        exact ⟨cs', hg', reach_dot_skip root tail _ _ (render_start root cs) ht hr⟩
      · by_cases h2 : comp = dotdot
        · subst h2
          have hlen : tail.length < n := by
            simp only [dotdot, List.length_cons, List.length_nil] at hn
            omega
          by_cases hw : (render root cs).length = 0 ∨ after_dotdot (render root cs)
          · have hg2 := good_dotdot root cs hg hw
            have hw' : (render root cs).length = 0 ∨
                (render root cs).head? ≠ some CROSS_FILESPLIT ∨
                after_dotdot (render root cs) :=
              hw.elim Or.inl (fun e => Or.inr (Or.inr e))
            rcases ends_cases tail ht with hN | ⟨c, rest, rfl, hs⟩
            · exact ⟨dotdot :: cs, hg2, reach_dotdot_write root tail _ _ hw'
                (close_end root dotdot (by decide) hg2.1.2.1 cs tail hN)⟩
            · obtain ⟨cs', hg', hr⟩ := ih rest (dotdot :: cs) (by
                simp only [List.length_cons] at hlen
                omega) hg2
              exact ⟨cs', hg', reach_dotdot_write root _ _ _ hw'
                (close_sep root dotdot (by decide) hg2.1.2.1 cs c rest _ hs hr)⟩
          · have hne : (render root cs).length ≠ 0 := fun e => hw (Or.inl e)
            have hnad : ¬ after_dotdot (render root cs) := fun e => hw (Or.inr e)
            have hh : (render root cs).head? = some CROSS_FILESPLIT :=
              (render_start root cs).resolve_left hne
            have hdl := drop_length_le tail (if peek tail 0 ≠ NUL then 1 else 0)
            cases cs with
            | nil =>
              obtain ⟨cs', hg', hr⟩ := ih (tail.drop (if peek tail 0 ≠ NUL then 1 else 0)) []
                (by omega) hg
              refine ⟨cs', hg', reach_dotdot_root root tail _ _ hne hh hnad ht ?_ hr⟩
              simp [render]
            | cons d ds =>
              obtain ⟨cs', hg', hr⟩ := ih (tail.drop (if peek tail 0 ≠ NUL then 1 else 0)) ds
                (by omega) hg.2
              exact ⟨cs', hg', reach_dotdot_pop root tail _ _ _ hne hh hnad ht
                (pop_loop_render root d hg.1.1 hg.1.2.1 ds) (render_cons_length root d ds) hr⟩
        · have hg2 := good_copy root comp cs hg h0 hcomp h1 h2
          rcases ends_cases tail ht with hN | ⟨c, rest, rfl, hs⟩
          · exact ⟨comp.reverse :: cs, hg2, reach_copy root comp hcomp h1 h2 tail _ _
              (close_end root comp.reverse hg2.1.1 hg2.1.2.1 cs tail hN)⟩
          · obtain ⟨cs', hg', hr⟩ := ih rest (comp.reverse :: cs) (by
              simp only [List.length_cons] at hn
              omega) hg2
            exact ⟨cs', hg', reach_copy root comp hcomp h1 h2 _ _ _
              (close_sep root comp.reverse hg2.1.1 hg2.1.2.1 cs c rest _ hs hr)⟩

/-- `NormalizePath` returns, and the text it returns is the text of good components, for
every text that does not start with `'\0'`. -/
theorem NormalizePath_good (s : List Char) (h0 : s.head? ≠ some NUL) :
    ∃ root cs, (root = 0 ∨ root = 1) ∧ good root cs ∧
      NormalizePath s = some (finish root (render root cs)) := by
  cases s with
  | nil => exact ⟨0, [], Or.inl rfl, trivial, rfl⟩
  | cons c rest =>
    have hc : c ≠ NUL := fun e => h0 (by rw [e]; rfl)
    unfold NormalizePath
    rw [peek_cons_zero, if_neg hc]
    by_cases hs : c = '/' ∨ c = BACKSLASH
    · rw [if_pos hs]
      obtain ⟨cs', hg', hr⟩ := reach_good 1 (rest.length + 1) rest [] (by omega) trivial
      refine ⟨1, cs', Or.inr rfl, hg', ?_⟩
      rw [List.length_cons, round_sep_write 1 _ c rest [] hs (by decide) (by simp)]
      exact hr (rest.length + 1) (by omega)
    · rw [if_neg hs]
      obtain ⟨cs', hg', hr⟩ := reach_good 0 ((c :: rest).length + 1) (c :: rest) []
        (by omega) trivial
      exact ⟨0, cs', Or.inl rfl, hg', hr _ (by omega)⟩

/-! ## The text of good components is normalized -/

theorem intercalate_snoc (sep x : List Char) (xs : List (List Char)) (hne : xs ≠ []) :
    sep.intercalate (xs ++ [x]) = sep.intercalate xs ++ sep ++ x := by
  induction xs with
  | nil => exact absurd rfl hne
  | cons y ys ih =>
    cases ys with
    | nil => simp [List.intercalate]
    | cons z zs =>
      have h := ih (by simp)
      have e1 : sep.intercalate (y :: z :: zs ++ [x]) =
          y ++ sep ++ sep.intercalate (z :: zs ++ [x]) := by
        simp [List.intercalate]
      have e2 : sep.intercalate (y :: z :: zs) = y ++ sep ++ sep.intercalate (z :: zs) := by
        simp [List.intercalate]
      rw [e1, e2, h]
      simp only [List.append_assoc]

theorem forward_cons (c : List Char) (cs : List (List Char)) :
    forward (c :: cs) = forward cs ++ [c.reverse] := by
  unfold forward
  rw [List.reverse_cons, List.map_append]
  rfl

theorem forward_ne_nil (c : List Char) (cs : List (List Char)) : forward (c :: cs) ≠ [] := by
  rw [forward_cons]
  simp

/-- The text written for complete components, without the last separator, in the order
of the text. -/
theorem render_reverse (root : Nat) (cs : List (List Char)) (c : List Char) :
    (c ++ render root cs).reverse =
      List.replicate root CROSS_FILESPLIT ++
        [CROSS_FILESPLIT].intercalate (forward (c :: cs)) := by
  induction cs generalizing c with
  | nil =>
    rw [List.reverse_append]
    simp [render, forward, List.intercalate]
  | cons d ds ih =>
    rw [forward_cons, intercalate_snoc _ _ _ (forward_ne_nil d ds), ← List.append_assoc,
      ← List.append_assoc, ← ih d]
    simp [render]

theorem finish_nil (root : Nat) :
    finish root (render root []) = List.replicate root CROSS_FILESPLIT := by
  unfold finish
  rw [if_neg (by simp [render])]
  simp [render]

theorem finish_cons (root : Nat) (c : List Char) (cs : List (List Char)) :
    finish root (render root (c :: cs)) =
      List.replicate root CROSS_FILESPLIT ++
        [CROSS_FILESPLIT].intercalate (forward (c :: cs)) := by
  unfold finish
  rw [if_pos ⟨render_cons_length root c cs, rfl⟩]
  exact render_reverse root cs c

theorem mem_forward (cs : List (List Char)) (f : List Char) (hf : f ∈ forward cs) :
    f.reverse ∈ cs := by
  unfold forward at hf
  rw [List.mem_map] at hf
  obtain ⟨c, hc, rfl⟩ := hf
  rw [List.reverse_reverse]
  exact List.mem_reverse.mp hc

theorem good_mem (root : Nat) (cs : List (List Char)) (hg : good root cs) (c : List Char)
    (hc : c ∈ cs) : c ≠ [] ∧ (∀ x ∈ c, plain x) ∧ c ≠ ['.'] ∧ (c = dotdot → root = 0) := by
  induction cs with
  | nil => exact absurd hc (List.not_mem_nil c)
  | cons d ds ih =>
    rcases List.mem_cons.mp hc with e | e
    · rw [e]
      exact ⟨hg.1.1, hg.1.2.1, hg.1.2.2.1, fun h => (hg.1.2.2.2 h).1⟩
    · exact ih hg.2 e

theorem forward_mem (root : Nat) (cs : List (List Char)) (hg : good root cs) (f : List Char)
    (hf : f ∈ forward cs) :
    f ≠ [] ∧ (∀ x ∈ f, plain x) ∧ f ≠ ['.'] ∧ (f = dotdot → root = 0) := by
  obtain ⟨h1, h2, h3, h4⟩ := good_mem root cs hg f.reverse (mem_forward cs f hf)
  refine ⟨?_, ?_, ?_, ?_⟩
  · intro e
    exact h1 (by rw [e]; rfl)
  · intro x hx
    exact h2 x (List.mem_reverse.mpr hx)
  · intro e
    exact h3 (by rw [e]; rfl)
  · intro e
    exact h4 (by rw [e]; rfl)

theorem intercalate_head (f : List Char) (F : List (List Char)) (x : Char) (w : List Char)
    (hf : f = x :: w) :
    ∃ rest, [CROSS_FILESPLIT].intercalate (f :: F) = x :: rest := by
  subst hf
  cases F with
  | nil => exact ⟨w, by simp [List.intercalate]⟩
  | cons g G => exact ⟨w ++ [CROSS_FILESPLIT] ++ [CROSS_FILESPLIT].intercalate (g :: G), by
      simp [List.intercalate]⟩

/-- The components of the text of good components are these components. -/
theorem components_finish (root : Nat) (hroot : root = 0 ∨ root = 1)
    (cs : List (List Char)) (hg : good root cs) :
    components (finish root (render root cs)) = forward cs := by
  cases cs with
  | nil =>
    rw [finish_nil]
    rcases hroot with h | h <;> subst h <;> rfl
  | cons c ds =>
    rw [finish_cons]
    have hne := forward_ne_nil c ds
    have hsplit : List.splitOn CROSS_FILESPLIT
        ([CROSS_FILESPLIT].intercalate (forward (c :: ds))) = forward (c :: ds) :=
      List.splitOn_intercalate _ _ (fun f hf hm =>
        ((forward_mem root _ hg f hf).2.1 _ hm).1 rfl) hne
    cases hF : forward (c :: ds) with
    | nil => exact absurd hF hne
    | cons f F =>
      rw [hF] at hsplit
      have hfm := forward_mem root _ hg f (by rw [hF]; exact List.mem_cons_self f F)
      cases hf : f with
      | nil => exact absurd hf hfm.1
      | cons x w =>
        have hx : plain x := hfm.2.1 x (by rw [hf]; exact List.mem_cons_self x w)
        obtain ⟨rest, hrest⟩ := intercalate_head f F x w hf
        rw [← hf]
        unfold components
        rcases hroot with h | h
        · subst h
          rw [List.replicate_zero, List.nil_append, hrest]
          have hh : (x :: rest).head? ≠ some '/' := fun e => hx.1 (Option.some.inj e)
          rw [if_neg hh, if_neg (by simp), ← hrest]
          exact hsplit
        · subst h
          have e1 : List.replicate 1 CROSS_FILESPLIT ++
              [CROSS_FILESPLIT].intercalate (f :: F) = '/' :: x :: rest := by
            rw [hrest]
            rfl
          rw [e1]
          have hh : ('/' :: x :: rest).head? = some '/' := rfl
          rw [if_pos hh, List.tail_cons, if_neg (by simp), ← hrest]
          exact hsplit

theorem mem_render (root : Nat) (cs : List (List Char)) (hg : good root cs) (x : Char)
    (hx : x ∈ render root cs) : x = CROSS_FILESPLIT ∨ plain x := by
  induction cs with
  | nil =>
    simp only [render] at hx
    exact Or.inl (List.mem_replicate.mp hx).2
  | cons c ds ih =>
    simp only [render, List.mem_cons, List.mem_append] at hx
    rcases hx with e | e | e
    · exact Or.inl e
    · exact Or.inr (hg.1.2.1 x e)
    · exact ih hg.2 e

theorem mem_finish (root : Nat) (out : List Char) (x : Char) (hx : x ∈ finish root out) :
    x ∈ out := by
  unfold finish at hx
  split_ifs at hx
  · exact List.mem_of_mem_tail (List.mem_reverse.mp hx)
  · exact List.mem_reverse.mp hx

/-- The text of good components holds separators and plain characters only. -/
theorem finish_chars (root : Nat) (cs : List (List Char)) (hg : good root cs) (x : Char)
    (hx : x ∈ finish root (render root cs)) : x = CROSS_FILESPLIT ∨ plain x :=
  mem_render root cs hg x (mem_finish root _ x hx)

theorem finish_getLast (root : Nat) (hroot : root = 0 ∨ root = 1) (cs : List (List Char))
    (hg : good root cs) (h : (finish root (render root cs)).getLast? = some '/') :
    finish root (render root cs) = ['/'] := by
  cases cs with
  | nil =>
    rw [finish_nil] at h ⊢
    rcases hroot with e | e <;> subst e
    · simp at h
    · rfl
  | cons c ds =>
    exfalso
    have e : finish root (render root (c :: ds)) = (c ++ render root ds).reverse := by
      unfold finish
      rw [if_pos ⟨render_cons_length root c ds, rfl⟩]
      rfl
    rw [e, List.getLast?_reverse] at h
    cases c with
    | nil => exact hg.1.1 rfl
    | cons x w =>
      have hx : plain x := hg.1.2.1 x (List.mem_cons_self x w)
      exact hx.1 (Option.some.inj h)

theorem finish_head (root : Nat) (hroot : root = 0 ∨ root = 1) (cs : List (List Char))
    (hg : good root cs) (h : (finish root (render root cs)).head? = some '/') : root = 1 := by
  rcases hroot with e | e
  · exfalso
    subst e
    cases cs with
    | nil =>
      rw [finish_nil] at h
      simp at h
    | cons c ds =>
      rw [finish_cons, List.replicate_zero, List.nil_append] at h
      cases hF : forward (c :: ds) with
      | nil => exact forward_ne_nil c ds hF
      | cons f F =>
        have hfm := forward_mem 0 _ hg f (by rw [hF]; exact List.mem_cons_self f F)
        cases hf : f with
        | nil => exact hfm.1 hf
        | cons x w =>
          have hx : plain x := hfm.2.1 x (by rw [hf]; exact List.mem_cons_self x w)
          obtain ⟨rest, hrest⟩ := intercalate_head f F x w hf
          rw [hF, hrest] at h
          exact hx.1 (Option.some.inj h)
  · exact e

/-- Good components are `..` components at the bottom and none above them. -/
theorem good_split (root : Nat) (cs : List (List Char)) (hg : good root cs) :
    ∃ X D, cs = X ++ D ∧ (∀ d ∈ D, d = dotdot) ∧ dotdot ∉ X := by
  induction cs with
  | nil => exact ⟨[], [], rfl, fun d hd => absurd hd (List.not_mem_nil d), List.not_mem_nil _⟩
  | cons c ds ih =>
    obtain ⟨X, D, e, hD, hX⟩ := ih hg.2
    by_cases hc : c = dotdot
    · refine ⟨[], c :: ds, rfl, ?_, List.not_mem_nil _⟩
      intro d hd
      rcases List.mem_cons.mp hd with e1 | e1
      · rw [e1]
        exact hc
      · exact (hg.1.2.2.2 hc).2 d e1
    · refine ⟨c :: X, D, by rw [e]; rfl, hD, ?_⟩
      intro hm
      rcases List.mem_cons.mp hm with e1 | e1
      · exact hc e1.symm
      · exact hX e1

theorem reverse_dotdot (f : List Char) : f.reverse = dotdot ↔ f = dotdot := by
  constructor
  · intro e
    have := congrArg List.reverse e
    simpa [dotdot] using this
  · intro e
    rw [e]
    rfl

theorem forward_leading (root : Nat) (cs : List (List Char)) (hg : good root cs) :
    dotdot ∉ (forward cs).dropWhile (fun c => decide (c = dotdot)) := by
  obtain ⟨X, D, e, hD, hX⟩ := good_split root cs hg
  have e2 : forward cs = D.reverse.map List.reverse ++ X.reverse.map List.reverse := by
    unfold forward
    rw [e, List.reverse_append, List.map_append]
  rw [e2, List.dropWhile_append_of_pos]
  · intro hm
    have hm2 := (List.dropWhile_suffix _).subset hm
    rw [List.mem_map] at hm2
    obtain ⟨c, hc, hcd⟩ := hm2
    rw [reverse_dotdot] at hcd
    rw [hcd] at hc
    exact hX (List.mem_reverse.mp hc)
  · intro a ha
    rw [List.mem_map] at ha
    obtain ⟨c, hc, rfl⟩ := ha
    have := hD c (List.mem_reverse.mp hc)
    rw [this]
    rfl

/-- The text of good components is a normalized path. -/
theorem finish_normalized (root : Nat) (hroot : root = 0 ∨ root = 1)
    (cs : List (List Char)) (hg : good root cs) :
    normalized (finish root (render root cs)) := by
  unfold normalized
  rw [components_finish root hroot cs hg]
  refine ⟨?_, ?_, ?_, finish_getLast root hroot cs hg, ?_, forward_leading root cs hg⟩
  · intro hm
    rcases finish_chars root cs hg _ hm with e | e
    · exact absurd e (by decide)
    · exact e.2.1 rfl
  · intro hm
    exact (forward_mem root cs hg _ hm).1 rfl
  · intro hm
    exact (forward_mem root cs hg _ hm).2.2.1 rfl
  · intro hh hm
    have h1 := finish_head root hroot cs hg hh
    have h0 := (forward_mem root cs hg _ hm).2.2.2 rfl
    omega

/-! ## A normalized text is returned as it is -/

theorem good_suffix (root : Nat) (A B : List (List Char)) (hg : good root (A ++ B)) :
    good root B := by
  induction A with
  | nil => exact hg
  | cons a A ih => exact ih hg.2

/-- A good component at the start of the text is copied. -/
theorem reach_component (root : Nat) (p : List Char) (st : List (List Char))
    (hg : good root (p :: st)) (tail r : List Char)
    (h : Reach root tail (p ++ render root st) r) :
    Reach root (p.reverse ++ tail) (render root st) r := by
  by_cases hd : p = dotdot
  · subst hd
    obtain ⟨h0, hall⟩ := hg.1.2.2.2 rfl
    have hw : (render root st).length = 0 ∨
        (render root st).head? ≠ some CROSS_FILESPLIT ∨ after_dotdot (render root st) := by
      cases st with
      | nil =>
        left
        subst h0
        rfl
      | cons d ds =>
        right
        right
        have hdd : d = dotdot := hall d (List.mem_cons_self d ds)
        subst hdd
        exact render_after_dotdot root ds (fun x hx => hall x (List.mem_cons_of_mem _ hx)) h0
    exact reach_dotdot_write root tail _ r hw h
  · refine reach_copy root p.reverse (fun x hx => hg.1.2.1 x (List.mem_reverse.mp hx)) ?_ ?_
      tail (render root st) r (by rw [List.reverse_reverse]; exact h)
    · intro e
      apply hg.1.2.2.1
      have := congrArg List.reverse e
      simpa using this
    · intro e
      exact hd ((reverse_dotdot p).mp e)

theorem intercalate_cons_cons (f g : List Char) (G : List (List Char)) :
    [CROSS_FILESPLIT].intercalate (f :: g :: G) =
      f ++ CROSS_FILESPLIT :: [CROSS_FILESPLIT].intercalate (g :: G) := by
  simp [List.intercalate]

/-- The loop on a text of good components, in the order of the text, writes them all. -/
theorem reach_forward (root : Nat) :
    ∀ (F : List (List Char)) (st : List (List Char)), F ≠ [] →
      good root (F.reverse.map List.reverse ++ st) →
      Reach root ([CROSS_FILESPLIT].intercalate F) (render root st)
        (finish root (render root (F.reverse.map List.reverse ++ st))) := by
  intro F
  induction F with
  | nil =>
    intro st hne _
    exact absurd rfl hne
  | cons f G ih =>
    intro st _ hg
    cases G with
    | nil =>
      have e1 : [f].reverse.map List.reverse ++ st = f.reverse :: st := rfl
      rw [e1] at hg ⊢
      have e2 : [CROSS_FILESPLIT].intercalate [f] = f.reverse.reverse ++ [] := by
        simp [List.intercalate]
      rw [e2]
      exact reach_component root f.reverse st hg [] _
        (close_end root f.reverse hg.1.1 hg.1.2.1 st [] rfl)
    | cons g G' =>
      have e1 : (f :: g :: G').reverse.map List.reverse ++ st =
          (g :: G').reverse.map List.reverse ++ (f.reverse :: st) := by
        simp
      rw [e1] at hg ⊢
      have hg1 : good root (f.reverse :: st) := good_suffix root _ _ hg
      have h1 := ih (f.reverse :: st) (by simp) hg
      have e2 : [CROSS_FILESPLIT].intercalate (f :: g :: G') =
          f.reverse.reverse ++ CROSS_FILESPLIT :: [CROSS_FILESPLIT].intercalate (g :: G') := by
        rw [List.reverse_reverse]
        exact intercalate_cons_cons f g G'
      rw [e2]
      exact reach_component root f.reverse st hg1 _ _
        (close_sep root f.reverse hg1.1.1 hg1.1.2.1 st CROSS_FILESPLIT _ _ (Or.inl rfl) h1)

theorem forward_back (cs : List (List Char)) :
    (forward cs).reverse.map List.reverse = cs := by
  unfold forward
  rw [← List.map_reverse, List.reverse_reverse, List.map_map]
  simp

/-- The text of good components is returned as it is. -/
theorem NormalizePath_fixed (root : Nat) (hroot : root = 0 ∨ root = 1)
    (cs : List (List Char)) (hg : good root cs) :
    NormalizePath (finish root (render root cs)) = some (finish root (render root cs)) := by
  cases cs with
  | nil =>
    rw [finish_nil]
    rcases hroot with e | e <;> subst e
    · rfl
    · decide
  | cons c ds =>
    have hne := forward_ne_nil c ds
    have hb := forward_back (c :: ds)
    have key := reach_forward root (forward (c :: ds)) [] hne (by
      rw [List.append_nil, hb]
      exact hg)
    rw [List.append_nil, hb] at key
    rw [finish_cons] at key ⊢
    cases hF : forward (c :: ds) with
    | nil => exact absurd hF hne
    | cons f F =>
      have hfm := forward_mem root _ hg f (by rw [hF]; exact List.mem_cons_self f F)
      cases hf : f with
      | nil => exact absurd hf hfm.1
      | cons x w =>
        have hx : plain x := hfm.2.1 x (by rw [hf]; exact List.mem_cons_self x w)
        obtain ⟨rest, hrest⟩ := intercalate_head f F x w hf
        rw [hF, hrest] at key
        rw [← hf, hrest]
        rcases hroot with e | e
        · subst e
          rw [List.replicate_zero, List.nil_append] at key ⊢
          unfold NormalizePath
          rw [peek_cons_zero, if_neg hx.2.2, if_neg (fun hs => hs.elim hx.1 hx.2.1)]
          exact key _ (by omega)
        · subst e
          have e1 : List.replicate 1 CROSS_FILESPLIT ++ x :: rest = '/' :: x :: rest := rfl
          rw [e1] at key ⊢
          unfold NormalizePath
          rw [peek_cons_zero, if_neg (by decide), if_pos (Or.inl rfl), List.length_cons,
            round_sep_write 1 _ '/' (x :: rest) [] (Or.inl rfl) (by decide) (by simp)]
          exact key _ (by omega)

/-- C37: for every text that does not start with the character `'\0'` (non-Windows
build), `NormalizePath` returns, within a number of rounds of at most the length of the
text plus one and without a read before the buffer; the text it returns is a normalized
path (no backslash, no empty component, no `.` component, no trailing separator unless
it is the root, `..` components only as the leading run of a relative path), and
`NormalizePath` returns that text as it is. -/
theorem NormalizePath_normalizes (s : List Char) (h0 : s.head? ≠ some NUL) :
    ∃ r, NormalizePath s = some r ∧ normalized r ∧ NormalizePath r = some r := by
  obtain ⟨root, cs, hroot, hg, e⟩ := NormalizePath_good s h0
  exact ⟨_, e, finish_normalized root hroot cs hg, NormalizePath_fixed root hroot cs hg⟩

theorem NormalizePath_normalizes_witness :
    ∃ r, NormalizePath ['a', '/', '.', '/', 'b', '/', '.', '.', '/', '/', 'c', '/'] = some r ∧
      normalized r ∧ NormalizePath r = some r :=
  NormalizePath_normalizes ['a', '/', '.', '/', 'b', '/', '.', '.', '/', '/', 'c', '/']
    (by decide)

/-- C37 fails as stated: a text of two characters, `'\0'` and a separator, is returned as
it is, with its trailing separator. -/
theorem NormalizePath_leading_NUL :
    NormalizePath [NUL, '/'] = some [NUL, '/'] ∧ ¬ normalized [NUL, '/'] := by
  decide

end Cross
